import Mathlib

/-! # Command-line resolution pipeline of `src/main.cpp`

A shallow embedding of `main`, `GetFlagArgument`, `GetStringArgument`,
`GetNumericArgument` and `UsageArguments` of `src/main.cpp`, followed by the
theorems about them.

* Preprocessor conditionals become the boolean fields of `Build`.
* Constants of `global.h` (not part of the sources at hand) are the fields of
  `Globals`.
* Library and helper routines whose code is elsewhere (`strtod`,
  `QHostAddress::setAddress`, the file probes of `QFileInfo`/`QFile`,
  `NetworkUtil::FixAddress`, `CRpcServer::Start`, the actor constructors) are
  the fields of `Env`; every general theorem holds for all of them.
* `exit (n)` becomes a returned outcome; the messages written with `qInfo`,
  `qWarning`, `qCritical` and `std::cout` are collected, in order, in the
  `log` field of the state.
-/

namespace Koord

/-! ## Build variants and global constants -/

/-- The preprocessor symbols `main.cpp` branches on. -/
structure Build where
  HEADLESS : Bool
  SERVER_ONLY : Bool
  SERVER_BUNDLE : Bool
  Q_OS_MACX : Bool
  Q_OS_IOS : Bool
  ANDROID : Bool
deriving DecidableEq, Repr

/-- The condition of the `#if` that selects the initial value of `bIsClient`:
`( defined( SERVER_BUNDLE ) && defined( Q_OS_MACX ) ) || defined( SERVER_ONLY )`. -/
def Build.serverByDefault (b : Build) : Bool :=
  (b.SERVER_BUNDLE && b.Q_OS_MACX) || b.SERVER_ONLY

/-- The constants of `global.h` that `main.cpp` uses. -/
structure Globals where
  DEFAULT_PORT_NUMBER : Nat
  DEFAULT_QOS_NUMBER : Nat
  DEFAULT_USED_NUM_CHANNELS : Int
  MAX_NUM_CHANNELS : Int
  INVALID_PORT : Int
  JSON_RPC_MINIMUM_SECRET_LENGTH : Int
  SYSTEM_FRAME_SIZE_SAMPLES : Int
  APP_NAME : String
deriving DecidableEq, Repr

/-! ## Values of type `double` -/

/-- The values a C `double` can take.  A finite value is kept exactly, as the
decimal fraction `m / 10 ^ k` (every binary floating point number is one). -/
inductive Double where
  | finite (m : Int) (k : Nat)
  | posInf
  | negInf
  | nan
deriving DecidableEq, Repr

namespace Double

/-- The `double` an integer constant converts to. -/
def ofInt (n : Int) : Double := finite n 0

/-- The comparison `a < b` of two doubles; false as soon as one is a NaN. -/
def lt : Double → Double → Bool
  | finite m₁ k₁, finite m₂ k₂ => decide (m₁ * 10 ^ k₂ < m₂ * 10 ^ k₁)
  | finite _ _, posInf => true
  | negInf, finite _ _ => true
  | negInf, posInf => true
  | _, _ => false

/-- The comparison `a > b` of two doubles. -/
def gt (a b : Double) : Bool := lt b a

/-- The integer a finite double is truncated to (rounding toward zero).  The
conversion of an infinity or a NaN is not defined by the language; `0` stands
for it. -/
def truncate : Double → Int
  | finite m k => Int.tdiv m (10 ^ k)
  | _ => 0

/-- The conversion `static_cast<quint16> ( d )`. -/
def toUInt16 (d : Double) : Nat := (d.truncate % 65536).toNat

/-- The conversion `static_cast<int> ( d )` (32 bit, two's complement). -/
def toInt32 (d : Double) : Int := (d.truncate + 2147483648) % 4294967296 - 2147483648

end Double

/-! ## Messages -/

/-- The stream a message is written to. -/
inductive Level where
  | stdout
  | info
  | warning
  | critical
deriving DecidableEq, Repr

/-- An argument substituted for a `%n` place marker with `QString::arg`. -/
inductive MsgArg where
  | str (s : String)
  | int (n : Int)
  | dbl (d : Double)
deriving DecidableEq, Repr

/-- A message: the stream, the text as it stands in the source and the
arguments given to `.arg ( ... )`, in order. -/
structure Msg where
  level : Level
  text : String
  args : List MsgArg
deriving DecidableEq, Repr

/-- A file system operation performed by the pipeline. -/
inductive FsOp where
  | probe (path : String)
  | openReadWrite (path : String)
  | openReadOnly (path : String)
  | readLine (path : String)
deriving DecidableEq, Repr

/-! ## The argument matchers -/

/-- The token `argv[i]`. -/
def tokenAt (argv : List String) (i : Nat) : String := argv.getD i ""

/-- What a matcher that takes a value does: it returns `false` and leaves `i`
alone, or returns `true` with the new `i` and the value, or ends the process
with `exit ( 1 )` after the message. -/
inductive ArgResult (α : Type) where
  | noMatch
  | matched (i : Nat) (value : α)
  | fatal (msg : Msg)
deriving DecidableEq, Repr

/-- The function `GetFlagArgument`. -/
def GetFlagArgument (argv : List String) (i : Nat) (strShortOpt strLongOpt : String) : Bool :=
  if strShortOpt = tokenAt argv i ∨ strLongOpt = tokenAt argv i then true else false

/-- The function `GetStringArgument`: the result carries the incremented `i`
and `strArg`. -/
def GetStringArgument (argc : Nat) (argv : List String) (i : Nat)
    (strShortOpt strLongOpt : String) : ArgResult String :=
  if strShortOpt = tokenAt argv i ∨ strLongOpt = tokenAt argv i then
    if i + 1 ≥ argc then
      .fatal ⟨.critical, "%1: '%2' needs a string argument.",
        [.str (tokenAt argv 0), .str (tokenAt argv (i + 1 - 1))]⟩
    else
      .matched (i + 1) (tokenAt argv (i + 1))
  else
    .noMatch

/-- The function `GetNumericArgument`, given the library function `strtod`
(which returns the value and the rest of the token, at which `p` points): the
result carries the incremented `i` and `rValue`. -/
def GetNumericArgument (strtod : String → Double × String) (argc : Nat) (argv : List String)
    (i : Nat) (strShortOpt strLongOpt : String) (rRangeStart rRangeStop : Double) :
    ArgResult Double :=
  if strShortOpt = tokenAt argv i ∨ strLongOpt = tokenAt argv i then
    let errmsg := "%1: '%2' needs a numeric argument from '%3' to '%4'."
    if i + 1 ≥ argc then
      .fatal ⟨.critical, errmsg,
        [.str (tokenAt argv 0), .str (tokenAt argv (i + 1 - 1)), .dbl rRangeStart, .dbl rRangeStop]⟩
    else
      let rValue := (strtod (tokenAt argv (i + 1))).1
      let p := (strtod (tokenAt argv (i + 1))).2
      if p ≠ "" ∨ rValue.lt rRangeStart ∨ rValue.gt rRangeStop then
        .fatal ⟨.critical, errmsg,
          [.str (tokenAt argv 0), .str (tokenAt argv (i + 1 - 1)), .dbl rRangeStart, .dbl rRangeStop]⟩
      else
        .matched (i + 1) rValue
  else
    .noMatch

/-! ## Collaborators whose code is elsewhere -/

/-- The arguments `main` passes to the constructor of `CClient`. -/
structure ClientArgs where
  iPortNumber : Nat
  iQosNumber : Nat
  strConnOnStartupAddress : String
  strMIDISetup : String
  bNoAutoJackConnect : Bool
  strClientName : String
  bEnableIPv6 : Bool
  bMuteMeInPersonalMix : Bool
deriving DecidableEq, Repr

/-- The licence types of `util.h` that `main` uses. -/
inductive ELicenceType where
  | LT_NO_LICENCE
  | LT_CREATIVECOMMONS
deriving DecidableEq, Repr

/-- The arguments `main` passes to the constructor of `CServer`. -/
structure ServerArgs where
  iNumServerChannels : Int
  strLoggingFileName : String
  strServerBindIP : String
  iPortNumber : Nat
  iQosNumber : Nat
  strHTMLStatusFileName : String
  strDirectoryServer : String
  strServerListFileName : String
  strServerInfo : String
  strServerPublicIP : String
  strServerListFilter : String
  strWelcomeMessage : String
  strRecordingDirName : String
  bDisconnectAllClientsOnQuit : Bool
  bUseDoubleSystemFrameSize : Bool
  bUseMultithreading : Bool
  bDisableRecording : Bool
  bDelayPan : Bool
  bEnableIPv6 : Bool
  eLicenceType : ELicenceType
deriving DecidableEq, Repr

/-- The routines `main.cpp` calls and does not define, and the state of the
file system they read. -/
structure Env where
  /-- The C library function: the value, and the part of the token that is left
  over (the text at `p`). -/
  strtod : String → Double × String
  /-- The result of `QHostAddress::setAddress` on a string. -/
  setAddress : String → Bool
  /-- The function `NetworkUtil::FixAddress`. -/
  FixAddress : String → String
  /-- The function `NetworkUtil::FixJamAddress`. -/
  FixJamAddress : String → String
  /-- The function `GetVersionAndNameStr`. -/
  GetVersionAndNameStr : Bool → String
  /-- The result of `QFileInfo::exists`. -/
  fileExists : String → Bool
  /-- The result of `QFileInfo::isFile`. -/
  isFile : String → Bool
  /-- The result of `QFileInfo::isReadable`. -/
  isReadable : String → Bool
  /-- The result of `QFileInfo::isWritable`. -/
  isWritable : String → Bool
  /-- Whether `QFile::open ( QFile::ReadWrite )` succeeds on a path. -/
  openReadWrite : String → Bool
  /-- Whether `QFile::open ( QFile::ReadOnly )` succeeds on a path. -/
  openReadOnly : String → Bool
  /-- The text of the file at a path. -/
  fileText : String → String
  /-- Whether the check of the Android permission to record audio says `Denied`. -/
  checkPermissionDenied : Bool
  /-- Whether the request for that permission says `Denied`. -/
  requestPermissionDenied : Bool
  /-- Whether `CRpcServer::Start` succeeds for a port and a secret. -/
  rpcStart : Int → String → Bool
  /-- The error text of the `CGenErr` thrown while the client is set up and
  run, if one is thrown. -/
  clientError : ClientArgs → Option String
  /-- The error text of the `CGenErr` thrown while the server is set up and
  run, if one is thrown. -/
  serverError : ServerArgs → Option String

/-! ## The local variables of `main` -/

/-- The local variables of `main` the command line can change, with the
messages written so far and the file system operations done so far. -/
structure Locals where
  CommandLineOptions : List String
  ServerOnlyOptions : List String
  ClientOnlyOptions : List String
  bIsClient : Bool
  bUseGUI : Bool
  bStartMinimized : Bool
  bShowComplRegConnList : Bool
  bDisconnectAllClientsOnQuit : Bool
  bUseDoubleSystemFrameSize : Bool
  bUseMultithreading : Bool
  bShowAnalyzerConsole : Bool
  bMuteStream : Bool
  bMuteMeInPersonalMix : Bool
  bDisableRecording : Bool
  bDelayPan : Bool
  bNoAutoJackConnect : Bool
  bUseTranslation : Bool
  bCustomPortNumberGiven : Bool
  bEnableIPv6 : Bool
  iNumServerChannels : Int
  iPortNumber : Nat
  iJsonRpcPortNumber : Int
  iQosNumber : Nat
  eLicenceType : ELicenceType
  strMIDISetup : String
  strConnOnStartupAddress : String
  strIniFileName : String
  strHTMLStatusFileName : String
  strLoggingFileName : String
  strRecordingDirName : String
  strDirectoryServer : String
  strServerListFileName : String
  strServerInfo : String
  strServerPublicIP : String
  strServerBindIP : String
  strServerListFilter : String
  strWelcomeMessage : String
  strClientName : String
  strJsonRpcSecretFileName : String
  log : List Msg
  fsOps : List FsOp
deriving DecidableEq, Repr

/-- The values of the local variables before the option loop. -/
def initialLocals (b : Build) (g : Globals) : Locals where
  CommandLineOptions := []
  ServerOnlyOptions := []
  ClientOnlyOptions := []
  bIsClient := !b.serverByDefault
  bUseGUI := true
  bStartMinimized := false
  bShowComplRegConnList := false
  bDisconnectAllClientsOnQuit := false
  bUseDoubleSystemFrameSize := true
  bUseMultithreading := false
  bShowAnalyzerConsole := false
  bMuteStream := false
  bMuteMeInPersonalMix := false
  bDisableRecording := false
  bDelayPan := false
  bNoAutoJackConnect := false
  bUseTranslation := true
  bCustomPortNumberGiven := false
  bEnableIPv6 := false
  iNumServerChannels := g.DEFAULT_USED_NUM_CHANNELS
  iPortNumber := g.DEFAULT_PORT_NUMBER % 65536
  iJsonRpcPortNumber := g.INVALID_PORT
  iQosNumber := g.DEFAULT_QOS_NUMBER % 65536
  eLicenceType := .LT_NO_LICENCE
  strMIDISetup := ""
  strConnOnStartupAddress := ""
  strIniFileName := ""
  strHTMLStatusFileName := ""
  strLoggingFileName := ""
  strRecordingDirName := ""
  strDirectoryServer := ""
  strServerListFileName := ""
  strServerInfo := ""
  strServerPublicIP := ""
  strServerBindIP := ""
  strServerListFilter := ""
  strWelcomeMessage := ""
  strClientName := ""
  strJsonRpcSecretFileName := ""
  log := if b.serverByDefault then
      [⟨.info, "- Starting in server mode by default (due to compile time option)", []⟩]
    else []
  fsOps := []

namespace Locals

/-- Write a message with `qInfo`. -/
def qInfo (st : Locals) (text : String) (args : List MsgArg) : Locals :=
  { st with log := st.log ++ [⟨.info, text, args⟩] }

/-- Write a message with `qWarning`. -/
def qWarning (st : Locals) (text : String) (args : List MsgArg) : Locals :=
  { st with log := st.log ++ [⟨.warning, text, args⟩] }

/-- Write a message with `qCritical`. -/
def qCritical (st : Locals) (text : String) (args : List MsgArg) : Locals :=
  { st with log := st.log ++ [⟨.critical, text, args⟩] }

/-- Write a text to `std::cout`. -/
def cout (st : Locals) (text : String) (args : List MsgArg) : Locals :=
  { st with log := st.log ++ [⟨.stdout, text, args⟩] }

/-- Record a file system operation. -/
def fs (st : Locals) (op : FsOp) : Locals :=
  { st with fsOps := st.fsOps ++ [op] }

/-- The statement `CommandLineOptions << name`. -/
def pushOption (st : Locals) (name : String) : Locals :=
  { st with CommandLineOptions := st.CommandLineOptions ++ [name] }

/-- The statement `ServerOnlyOptions << name`. -/
def pushServerOnly (st : Locals) (name : String) : Locals :=
  { st with ServerOnlyOptions := st.ServerOnlyOptions ++ [name] }

/-- The statement `ClientOnlyOptions << name`. -/
def pushClientOnly (st : Locals) (name : String) : Locals :=
  { st with ClientOnlyOptions := st.ClientOnlyOptions ++ [name] }

end Locals

/-! ## The help text -/

/-- The text of `UsageArguments`, with the place marker `%1` for `argv[0]`
left in place. -/
def usageText : String :=
  "\n" ++
  "Usage: %1 [option] [option argument] ...\n" ++
  "\n" ++
  "  -h, -?, --help        display this help text and exit\n" ++
  "  -v, --version         display version information and exit\n" ++
  "\n" ++
  "Common options:\n" ++
  "  -i, --inifile         initialization file name\n" ++
  "                        (not supported for headless Server mode)\n" ++
  "  -n, --nogui           disable GUI (\"headless\")\n" ++
  "  -p, --port            set the local port number\n" ++
  "      --jsonrpcport     enable JSON-RPC server, set TCP port number\n" ++
  "                        (EXPERIMENTAL, APIs might still change;\n" ++
  "                        only accessible from localhost)\n" ++
  "      --jsonrpcsecretfile\n" ++
  "                        path to a single-line file which contains a freely\n" ++
  "                        chosen secret to authenticate JSON-RPC users.\n" ++
  "  -Q, --qos             set the QoS value. Default is 128. Disable with 0\n" ++
  "                        (see the Jamulus website to enable QoS on Windows)\n" ++
  "  -t, --notranslation   disable translation (use English language)\n" ++
  "  -6, --enableipv6      enable IPv6 addressing (IPv4 is always enabled)\n" ++
  "\n" ++
  "Server only:\n" ++
  "  -d, --discononquit    disconnect all Clients on quit\n" ++
  "  -e, --directoryserver address of the directory Server with which to register\n" ++
  "                        (or 'localhost' to host a server list on this Server)\n" ++
  "      --directoryfile   Remember registered Servers even if the Directory is restarted. Directory Servers only.\n" ++
  "  -f, --listfilter      Server list whitelist filter.  Format:\n" ++
  "                        [IP address 1];[IP address 2];[IP address 3]; ...\n" ++
  "  -F, --fastupdate      use 64 samples frame size mode\n" ++
  "  -l, --log             enable logging, set file name\n" ++
  "  -L, --licence         show an agreement window before users can connect\n" ++
  "  -m, --htmlstatus      enable HTML status file, set file name\n" ++
  "  -o, --serverinfo      registration info for this Server.  Format:\n" ++
  "                        [name];[city];[country as Qt5 QLocale ID]\n" ++
  "      --serverpublicip  public IP address for this Server.  Needed when\n" ++
  "                        registering with a server list hosted\n" ++
  "                        behind the same NAT\n" ++
  "  -P, --delaypan        start with delay panning enabled\n" ++
  "  -R, --recording       sets directory to contain recorded jams\n" ++
  "      --norecord        disables recording (when enabled by default by -R)\n" ++
  "  -s, --server          start Server\n" ++
  "      --serverbindip    IP address the Server will bind to (rather than all)\n" ++
  "  -T, --multithreading  use multithreading to make better use of\n" ++
  "                        multi-core CPUs and support more Clients\n" ++
  "  -u, --numchannels     maximum number of channels\n" ++
  "  -w, --welcomemessage  welcome message to display on connect\n" ++
  "                        (string or filename, HTML supported)\n" ++
  "  -z, --startminimized  start minimizied\n" ++
  "\n" ++
  "Client only:\n" ++
  "  -c, --connect         connect to given Server address on startup\n" ++
  "  -j, --nojackconnect   disable auto JACK connections\n" ++
  "  -M, --mutestream      starts the application in muted state\n" ++
  "      --mutemyown       mute me in my personal mix (headless only)\n" ++
  "      --clientname      Client name (window title and JACK client name)\n" ++
  "      --ctrlmidich      MIDI controller channel to listen\n" ++
  "\n" ++
  "Example: %1 -s --inifile myinifile.ini\n" ++
  "\n" ++
  "For more information and localized help see:\n" ++
  "https://jamulus.io/wiki/Command-Line-Options\n"

/-- The function `UsageArguments`: the help text and the argument substituted
for `%1`. -/
def UsageArguments (argv : List String) : String × List MsgArg :=
  (usageText, [.str (tokenAt argv 0)])

/-! ## The two regular expressions of the single-argument shortcut -/

/-- The longest run of at most `n` characters of `[0-9]` at the start of the
text, and what follows it. -/
def takeDigits : Nat → List Char → List Char × List Char
  | 0, cs => ([], cs)
  | _ + 1, [] => ([], [])
  | n + 1, c :: cs =>
    if c.isDigit then
      let (ds, rest) := takeDigits n cs
      (c :: ds, rest)
    else ([], c :: cs)

/-- A match of `[0-9]{1,3}\.` at the start of the text: the matched text and
what follows it. -/
def matchOctetDot (cs : List Char) : Option (List Char × List Char) :=
  match takeDigits 3 cs with
  | ([], _) => none
  | (ds, '.' :: rest) => some (ds ++ ['.'], rest)
  | _ => none

/-- A match of `([0-9]{1,3}\.){3}` at the start of the text. -/
def matchThreeOctets (cs : List Char) : Option (List Char × List Char) :=
  match matchOctetDot cs with
  | none => none
  | some (a, r₁) =>
    match matchOctetDot r₁ with
    | none => none
    | some (b, r₂) =>
      match matchOctetDot r₂ with
      | none => none
      | some (c, r₃) => some (a ++ b ++ c, r₃)

/-- The text after the literal `koord://` at the start of the token, if the
token starts with it. -/
def afterScheme (token : String) : Option (List Char) :=
  if "koord://".data.isPrefixOf token.data then some (token.data.drop 8) else none

/-- The expression `rx_gen1`, `^koord\:\/\/(([0-9]{1,3}\.){3}[0-9]{1,3})`: the
text captured by group 1 when the token matches. -/
def rx_gen1 (token : String) : Option String :=
  match afterScheme token with
  | none => none
  | some cs =>
    match matchThreeOctets cs with
    | none => none
    | some (abc, r) =>
      match takeDigits 3 r with
      | ([], _) => none
      | (d, _) => some (String.mk (abc ++ d))

/-- The expression `rx_gen2`,
`^koord\:\/\/(([0-9]{1,3}\.){3}[0-9]{1,3}:[0-9]{3,5})`: the text captured by
group 1 when the token matches. -/
def rx_gen2 (token : String) : Option String :=
  match afterScheme token with
  | none => none
  | some cs =>
    match matchThreeOctets cs with
    | none => none
    | some (abc, r) =>
      match takeDigits 3 r with
      | ([], _) => none
      | (d, ':' :: r') =>
        let (port, _) := takeDigits 5 r'
        if port.length ≥ 3 then some (String.mk (abc ++ d ++ [':'] ++ port)) else none
      | _ => none

/-! ## One iteration of the option loop -/

/-- How one iteration of the option loop ends: with `exit`, or by going on to
the increment of the loop (by `continue` or at the end of the body) with the
current `i`. -/
inductive Step where
  | exit (code : Nat) (st : Locals)
  | next (i : Nat) (st : Locals)
deriving DecidableEq, Repr

/-- An `if ( GetFlagArgument ( ... ) ) \x7b ...; continue; \x7d` block: `none` when the
condition is false. -/
def onFlag (argv : List String) (i : Nat) (strShortOpt strLongOpt : String)
    (block : Locals → Locals) (st : Locals) : Option Step :=
  if GetFlagArgument argv i strShortOpt strLongOpt then some (.next i (block st)) else none

/-- An `if ( GetStringArgument ( ... ) ) \x7b ...; continue; \x7d` block. -/
def onString (argc : Nat) (argv : List String) (i : Nat) (strShortOpt strLongOpt : String)
    (block : String → Locals → Locals) (st : Locals) : Option Step :=
  match GetStringArgument argc argv i strShortOpt strLongOpt with
  | .noMatch => none
  | .fatal msg => some (.exit 1 { st with log := st.log ++ [msg] })
  | .matched i' strArgument => some (.next i' (block strArgument st))

/-- An `if ( GetNumericArgument ( ... ) ) \x7b ...; continue; \x7d` block. -/
def onNumeric (env : Env) (argc : Nat) (argv : List String) (i : Nat)
    (strShortOpt strLongOpt : String) (rRangeStart rRangeStop : Double)
    (block : Double → Locals → Locals) (st : Locals) : Option Step :=
  match GetNumericArgument env.strtod argc argv i strShortOpt strLongOpt rRangeStart rRangeStop with
  | .noMatch => none
  | .fatal msg => some (.exit 1 { st with log := st.log ++ [msg] })
  | .matched i' rDbleArgument => some (.next i' (block rDbleArgument st))

/-- The help and version blocks at the head of the loop body. -/
def helpAndVersion (env : Env) (argv : List String) (i : Nat) (st : Locals) : Option Step :=
  if tokenAt argv i = "--help" ∨ tokenAt argv i = "-h" ∨ tokenAt argv i = "-?" then
    some (.exit 0 (st.cout (UsageArguments argv).1 (UsageArguments argv).2))
  else if tokenAt argv i = "--version" ∨ tokenAt argv i = "-v" then
    some (.exit 0 (st.cout (env.GetVersionAndNameStr false) []))
  else none

/-- The blocks of the common options, in the order of the source. -/
def commonOptions (env : Env) (argc : Nat) (argv : List String) (i : Nat) :
    List (Locals → Option Step) :=
  [ onString argc argv i "-i" "--inifile" fun strArgument st =>
      ({ st with strIniFileName := strArgument }
        |>.qInfo "- initialization file name: %1" [.str strArgument]
        |>.pushOption "--inifile"),
    onFlag argv i "-n" "--nogui" fun st =>
      ({ st with bUseGUI := false }
        |>.qInfo "- no GUI mode chosen" []
        |>.pushOption "--nogui"),
    onNumeric env argc argv i "-p" "--port" (.ofInt 0) (.ofInt 65535) fun rDbleArgument st =>
      ({ st with iPortNumber := rDbleArgument.toUInt16, bCustomPortNumberGiven := true }
        |>.qInfo "- selected port number: %1" [.int rDbleArgument.toUInt16]
        |>.pushOption "--port"),
    onNumeric env argc argv i "--jsonrpcport" "--jsonrpcport" (.ofInt 0) (.ofInt 65535)
      fun rDbleArgument st =>
      ({ st with iJsonRpcPortNumber := rDbleArgument.toUInt16 }
        |>.qInfo "- JSON-RPC port number: %1" [.int rDbleArgument.toUInt16]
        |>.pushOption "--jsonrpcport"),
    onString argc argv i "--jsonrpcsecretfile" "--jsonrpcsecretfile" fun strArgument st =>
      ({ st with strJsonRpcSecretFileName := strArgument }
        |>.qInfo "- JSON-RPC secret file: %1" [.str strArgument]
        |>.pushOption "--jsonrpcsecretfile"),
    onNumeric env argc argv i "-Q" "--qos" (.ofInt 0) (.ofInt 255) fun rDbleArgument st =>
      ({ st with iQosNumber := rDbleArgument.toUInt16 }
        |>.qInfo "- selected QoS value: %1" [.int rDbleArgument.toUInt16]
        |>.pushOption "--qos"),
    onFlag argv i "-t" "--notranslation" fun st =>
      ({ st with bUseTranslation := false }
        |>.qInfo "- translations disabled" []
        |>.pushOption "--notranslation"),
    onFlag argv i "-6" "--enableipv6" fun st =>
      ({ st with bEnableIPv6 := true }
        |>.qInfo "- IPv6 enabled" []
        |>.pushOption "--enableipv6") ]

/-- The blocks of the server only options, in the order of the source. -/
def serverOptions (g : Globals) (env : Env) (argc : Nat) (argv : List String) (i : Nat) :
    List (Locals → Option Step) :=
  [
    onFlag argv i "-d" "--discononquit" fun st =>
      ({ st with bDisconnectAllClientsOnQuit := true }
        |>.qInfo "- disconnect all clients on quit" []
        |>.pushOption "--discononquit"
        |>.pushServerOnly "--discononquit"),
    onString argc argv i "-e" "--directoryserver" fun strArgument st =>
      ({ st with strDirectoryServer := strArgument }
        |>.qInfo "- directory server: %1" [.str strArgument]
        |>.pushOption "--directoryserver"
        |>.pushServerOnly "--directoryserver"),
    onString argc argv i "--centralserver" "--centralserver" fun strArgument st =>
      ({ st with strDirectoryServer := strArgument }
        |>.qInfo "- directory server: %1" [.str strArgument]
        |>.pushOption "--directoryserver"
        |>.pushServerOnly "--directoryserver"),
    onString argc argv i "--directoryfile" "--directoryfile" fun strArgument st =>
      ({ st with strServerListFileName := strArgument }
        |>.qInfo "- directory server persistence file: %1" [.str strArgument]
        |>.pushOption "--directoryfile"
        |>.pushServerOnly "--directoryfile"),
    onString argc argv i "-f" "--listfilter" fun strArgument st =>
      ({ st with strServerListFilter := strArgument }
        |>.qInfo "- server list filter: %1" [.str strArgument]
        |>.pushOption "--listfilter"
        |>.pushServerOnly "--listfilter"),
    onFlag argv i "-F" "--fastupdate" fun st =>
      ({ st with bUseDoubleSystemFrameSize := false }
        |>.qInfo "- using %1 samples frame size mode" [.int g.SYSTEM_FRAME_SIZE_SAMPLES]
        |>.pushOption "--fastupdate"
        |>.pushServerOnly "--fastupdate"),
    onString argc argv i "-l" "--log" fun strArgument st =>
      ({ st with strLoggingFileName := strArgument }
        |>.qInfo "- logging file name: %1" [.str strArgument]
        |>.pushOption "--log"
        |>.pushServerOnly "--log"),
    onFlag argv i "-L" "--licence" fun st =>
      ({ st with eLicenceType := .LT_CREATIVECOMMONS }
        |>.qInfo "- licence required" []
        |>.pushOption "--licence"
        |>.pushServerOnly "--licence"),
    onString argc argv i "-m" "--htmlstatus" fun strArgument st =>
      ({ st with strHTMLStatusFileName := strArgument }
        |>.qInfo "- HTML status file name: %1" [.str strArgument]
        |>.pushOption "--htmlstatus"
        |>.pushServerOnly "--htmlstatus"),
    onString argc argv i "-o" "--serverinfo" fun strArgument st =>
      ({ st with strServerInfo := strArgument }
        |>.qInfo "- server info: %1" [.str strArgument]
        |>.pushOption "--serverinfo"
        |>.pushServerOnly "--serverinfo"),
    onString argc argv i "--serverpublicip" "--serverpublicip" fun strArgument st =>
      ({ st with strServerPublicIP := strArgument }
        |>.qInfo "- server public IP: %1" [.str strArgument]
        |>.pushOption "--serverpublicip"
        |>.pushServerOnly "--serverpublicip"),
    onFlag argv i "-P" "--delaypan" fun st =>
      ({ st with bDelayPan := true }
        |>.qInfo "- starting with delay panning" []
        |>.pushOption "--delaypan"
        |>.pushServerOnly "--delaypan"),
    onString argc argv i "-R" "--recording" fun strArgument st =>
      ({ st with strRecordingDirName := strArgument }
        |>.qInfo "- recording directory name: %1" [.str strArgument]
        |>.pushOption "--recording"
        |>.pushServerOnly "--recording"),
    onFlag argv i "--norecord" "--norecord" fun st =>
      ({ st with bDisableRecording := true }
        |>.qInfo "- recording will not take place until enabled" []
        |>.pushOption "--norecord"
        |>.pushServerOnly "--norecord"),
    onFlag argv i "-s" "--server" fun st =>
      ({ st with bIsClient := false }
        |>.qInfo "- server mode chosen" []
        |>.pushOption "--server"
        |>.pushServerOnly "--server"),
    onString argc argv i "--serverbindip" "--serverbindip" fun strArgument st =>
      ({ st with strServerBindIP := strArgument }
        |>.qInfo "- server bind IP: %1" [.str strArgument]
        |>.pushOption "--serverbindip"
        |>.pushServerOnly "--serverbindip"),
    onFlag argv i "-T" "--multithreading" fun st =>
      ({ st with bUseMultithreading := true }
        |>.qInfo "- using multithreading" []
        |>.pushOption "--multithreading"
        |>.pushServerOnly "--multithreading"),
    onNumeric env argc argv i "-u" "--numchannels" (.ofInt 1) (.ofInt g.MAX_NUM_CHANNELS)
      fun rDbleArgument st =>
      ({ st with iNumServerChannels := rDbleArgument.toInt32 }
        |>.qInfo "- maximum number of channels: %1" [.int rDbleArgument.toInt32]
        |>.pushOption "--numchannels"
        |>.pushServerOnly "--numchannels"),
    onString argc argv i "-w" "--welcomemessage" fun strArgument st =>
      ({ st with strWelcomeMessage := strArgument }
        |>.qInfo "- welcome message: %1" [.str strArgument]
        |>.pushOption "--welcomemessage"
        |>.pushServerOnly "--welcomemessage"),
    onFlag argv i "-z" "--startminimized" fun st =>
      ({ st with bStartMinimized := true }
        |>.qInfo "- start minimized enabled" []
        |>.pushOption "--startminimized"
        |>.pushServerOnly "--startminimized") ]

/-- The block `if ( argc == 2 ) \x7b ... \x7d`: the only argument is tried as a
`koord://` address, first with `rx_gen2`, then with `rx_gen1`; `none` when the
block falls through. -/
def singleArgumentUri (argc : Nat) (argv : List String) (i : Nat) (st : Locals) : Option Step :=
  if argc = 2 then
    match rx_gen2 (tokenAt argv 1) with
    | some captured =>
      some (.next i
        ({ st with strConnOnStartupAddress := captured }
          |>.qInfo "- autoconnect on startup to address: %1" [.str captured]
          |>.pushOption "--autoconnect"))
    | none =>
      match rx_gen1 (tokenAt argv 1) with
      | some captured =>
        some (.next i
          ({ st with strConnOnStartupAddress := captured }
            |>.qInfo "- autoconnect on startup to address: %1" [.str captured]
            |>.pushOption "--autoconnect"))
      | none => none
  else none

/-- The blocks of the client only options, in the order of the source. -/
def clientOptions (env : Env) (argc : Nat) (argv : List String) (i : Nat) :
    List (Locals → Option Step) :=
  [
    onString argc argv i "-c" "--connect" fun strArgument st =>
      ({ st with strConnOnStartupAddress := env.FixAddress strArgument }
        |>.qInfo "- connect on startup to address: %1" [.str (env.FixAddress strArgument)]
        |>.pushOption "--connect"
        |>.pushClientOnly "--connect"),
    onFlag argv i "-j" "--nojackconnect" fun st =>
      ({ st with bNoAutoJackConnect := true }
        |>.qInfo "- disable auto Jack connections" []
        |>.pushOption "--nojackconnect"
        |>.pushClientOnly "--nojackconnect"),
    onString argc argv i "-x" "--autoconnect" fun strArgument st =>
      ({ st with strConnOnStartupAddress := env.FixJamAddress strArgument }
        |>.qInfo "- autoconnect on startup to address: %1" [.str (env.FixJamAddress strArgument)]
        |>.pushOption "--autoconnect"),
    singleArgumentUri argc argv i,
    onFlag argv i "-M" "--mutestream" fun st =>
      ({ st with bMuteStream := true }
        |>.qInfo "- mute stream activated" []
        |>.pushOption "--mutestream"
        |>.pushClientOnly "--mutestream"),
    onFlag argv i "--mutemyown" "--mutemyown" fun st =>
      ({ st with bMuteMeInPersonalMix := true }
        |>.qInfo "- mute me in my personal mix" []
        |>.pushOption "--mutemyown"
        |>.pushClientOnly "--mutemyown"),
    onString argc argv i "--clientname" "--clientname" fun strArgument st =>
      ({ st with strClientName := strArgument }
        |>.qInfo "- client name: %1" [.str strArgument]
        |>.pushOption "--clientname"
        |>.pushClientOnly "--clientname"),
    onString argc argv i "--ctrlmidich" "--ctrlmidich" fun strArgument st =>
      ({ st with strMIDISetup := strArgument }
        |>.qInfo "- MIDI controller settings: %1" [.str strArgument]
        |>.pushOption "--ctrlmidich"
        |>.pushClientOnly "--ctrlmidich") ]

/-- The blocks of the two undocumented options. -/
def undocumentedOptions (argv : List String) (i : Nat) : List (Locals → Option Step) :=
  [
    onFlag argv i "--showallservers" "--showallservers" fun st =>
      ({ st with bShowComplRegConnList := true }
        |>.qInfo "- show all registered servers in server list" []
        |>.pushOption "--showallservers"
        |>.pushClientOnly "--showallservers"),
    onFlag argv i "--showanalyzerconsole" "--showanalyzerconsole" fun st =>
      ({ st with bShowAnalyzerConsole := true }
        |>.qInfo "- show analyzer console" []
        |>.pushOption "--showanalyzerconsole"
        |>.pushClientOnly "--showanalyzerconsole") ]

/-- The end of the loop body, reached when no block has matched: the message
about the unknown option and, except on macOS, `exit ( 1 )`. -/
def unknownOption (b : Build) (argv : List String) (i : Nat) (st : Locals) : Step :=
  let st' := st.qCritical "%1: Unknown option '%2' -- use '--help' for help"
    [.str (tokenAt argv 0), .str (tokenAt argv i)]
  if !b.Q_OS_MACX then .exit 1 st' else .next i st'

/-- All the blocks of the loop body, in the order of the source. -/
def optionBlocks (g : Globals) (env : Env) (argc : Nat) (argv : List String) (i : Nat) :
    List (Locals → Option Step) :=
  helpAndVersion env argv i :: (commonOptions env argc argv i ++ serverOptions g env argc argv i ++
    clientOptions env argc argv i ++ undocumentedOptions argv i)

/-- The result of the first block whose condition holds. -/
def firstMatch : List (Locals → Option Step) → Locals → Option Step
  | [], _ => none
  | block :: blocks, st =>
    match block st with
    | some r => some r
    | none => firstMatch blocks st

/-- The body of the option loop at index `i`. -/
def loopBody (b : Build) (g : Globals) (env : Env) (argc : Nat) (argv : List String) (i : Nat)
    (st : Locals) : Step :=
  match firstMatch (optionBlocks g env argc argv i) st with
  | some r => r
  | none => unknownOption b argv i st

/-- How the option loop ends. -/
inductive LoopResult where
  | exit (code : Nat) (st : Locals)
  | done (st : Locals)
  | unfinished (st : Locals)
deriving DecidableEq, Repr

/-- The loop `for ( int i = 1; i < argc; i++ )`, from index `i` on, for at most
`fuel` iterations (`unfinished` when they do not suffice). -/
def optionLoop (b : Build) (g : Globals) (env : Env) (argv : List String) :
    Nat → Nat → Locals → LoopResult
  | 0, i, st => if i < argv.length then .unfinished st else .done st
  | fuel + 1, i, st =>
    if i < argv.length then
      match loopBody b g env argv.length argv i st with
      | .exit code st' => .exit code st'
      | .next i' st' => optionLoop b g env argv fuel (i' + 1) st'
    else .done st

/-- The whole option loop of `main`. -/
def parseOptions (b : Build) (g : Globals) (env : Env) (argv : List String) : LoopResult :=
  optionLoop b g env argv argv.length 1 (initialLocals b g)

/-! ## Strings as `QString` sees them -/

/-- The value of `QString::length`: the number of UTF-16 code units. -/
def qLength (s : String) : Nat :=
  (s.data.map fun c => if c.val ≥ 65536 then 2 else 1).sum

/-- The character a character is folded to when `QString::compare` is asked to
ignore case, for the characters that fold to a letter of `localhost`; the other
characters do not matter in a comparison with that word and are left alone. -/
def foldCase (c : Char) : Char :=
  if c = Char.ofNat 383 then 's' else c.toLower

/-- The test `str.compare ( "localhost", Qt::CaseInsensitive ) == 0`. -/
def equalsLocalhostIgnoringCase (str : String) : Bool :=
  str.data.map foldCase == "localhost".data

/-- The pieces of a text between the occurrences of a separator; empty pieces
are kept, as `QString::split` does. -/
def splitOnChar (sep : Char) : List Char → List (List Char)
  | [] => [[]]
  | c :: cs =>
    if c = sep then [] :: splitOnChar sep cs
    else
      match splitOnChar sep cs with
      | [] => [[c]]
      | piece :: pieces => (c :: piece) :: pieces

/-- The value of `str.split ( ";" )`. -/
def splitSemicolon (str : String) : List String :=
  (splitOnChar ';' str.data).map String.mk

/-- The first line of a text as `QTextStream::readLine` returns it: the text
before the first line feed, or the whole text when there is none, without the
carriage return at its end, be it before the line feed or at the end of the
text. -/
def readLine (text : String) : String :=
  let line := text.data.takeWhile (· ≠ '\n')
  if line.getLast? = some '\r' then String.mk line.dropLast else String.mk line

/-! ## After the option loop: dependencies, mode and validation -/

/-- How a stage of `main` ends: with `exit`, or by going on. -/
inductive Stage where
  | exit (code : Nat) (st : Locals)
  | ok (st : Locals)
deriving DecidableEq, Repr

/-- The block under `#ifdef HEADLESS` after the loop. -/
def headlessDependency (b : Build) (st : Locals) : Locals :=
  if b.HEADLESS then
    if st.bUseGUI then
      { st with bUseGUI := false }.qWarning "No GUI support compiled. Running in headless mode." []
    else st
  else st

/-- The block under `#ifdef SERVER_ONLY` after the loop. -/
def serverOnlyDependency (b : Build) (st : Locals) : Stage :=
  if b.SERVER_ONLY then
    if st.bIsClient then
      .exit 1 (st.qCritical "Only --server mode is supported in this build." [])
    else .ok st
  else .ok st

/-- The check of the server list persistence file, done when the directory
server is this host. -/
def checkServerListFile (env : Env) (st : Locals) : Locals :=
  if st.strServerListFileName ≠ "" then
    let st₁ := st.fs (.probe st.strServerListFileName)
    if !env.fileExists st.strServerListFileName then
      let st₂ := st₁.fs (.openReadWrite st.strServerListFileName)
      if !env.openReadWrite st.strServerListFileName then
        { st₂.qWarning "Cannot create %1 for reading and writing.  Please check permissions."
            [.str st.strServerListFileName] with strServerListFileName := "" }
      else st₂
    else if !env.isFile st.strServerListFileName then
      { st₁.qWarning "Server list file %1 must be a plain file.  Please check the name."
          [.str st.strServerListFileName] with strServerListFileName := "" }
    else if !env.isReadable st.strServerListFileName ∨ !env.isWritable st.strServerListFileName then
      { st₁.qWarning
          "Server list file %1 must be readable and writeable.  Please check the permissions."
          [.str st.strServerListFileName] with strServerListFileName := "" }
    else st₁
  else st

/-- The body of the loop over the entries of the server list filter, for one
entry. -/
def checkFilterEntry (env : Env) (entry : String) (st : Locals) : Locals :=
  if qLength entry > 2 ∧ entry.data.head? = some '[' ∧ entry.data.getLast? = some ']' then
    st
  else if entry = "" then
    st.qWarning "There is empty entry in the server list filter that will be ignored" []
  else
    if !env.setAddress entry then
      st.qWarning "%1 is not a valid server list filter entry. Only plain IP addresses are supported"
        [.str entry]
    else st

/-- The check of the server list filter, done when the directory server is
this host. -/
def checkServerListFilter (env : Env) (st : Locals) : Locals :=
  if st.strServerListFilter ≠ "" then
    (splitSemicolon st.strServerListFilter).foldl (fun acc entry => checkFilterEntry env entry acc) st
  else st

/-- The `else` branch taken when the directory server is not this host. -/
def notDirectoryServer (st : Locals) : Locals :=
  let st₁ :=
    if st.strServerListFileName ≠ "" then
      { st.qWarning
          "Server list persistence file will only take effect when running as a directory server."
          [] with strServerListFileName := "" }
    else st
  if st₁.strServerListFilter ≠ "" then
    { st₁.qWarning "Server list filter will only take effect when running as a directory server." []
        with strServerListFileName := "" }
  else st₁

/-- The check of the public IP address of the server. -/
def checkServerPublicIP (env : Env) (st : Locals) : Locals :=
  if st.strDirectoryServer = "" then
    if st.strServerPublicIP ≠ "" then
      { st.qWarning
          "Server Public IP will only take effect when registering a server with a directory server."
          [] with strServerPublicIP := "" }
    else st
  else
    if st.strServerPublicIP ≠ "" then
      if !env.setAddress st.strServerPublicIP then
        { st.qWarning "Server Public IP is invalid. Only plain IP addresses are supported." []
            with strServerPublicIP := "" }
      else st
    else st

/-- The check of the initialization file name in the server without the GUI. -/
def checkIniFileName (st : Locals) : Locals :=
  if st.strIniFileName ≠ "" then
    { st.qWarning "No initialization file support in headless server mode." []
        with strIniFileName := "" }
  else st

/-- The branch of the server without the GUI: `else` of `if ( bUseGUI )`. -/
def headlessServerChecks (env : Env) (st : Locals) : Locals :=
  let st₁ := checkIniFileName st
  let st₂ :=
    if equalsLocalhostIgnoringCase st₁.strDirectoryServer ∨ st₁.strDirectoryServer = "127.0.0.1" then
      checkServerListFilter env (checkServerListFile env st₁)
    else notDirectoryServer st₁
  checkServerPublicIP env st₂

/-- The branch of the server with the GUI: `if ( bUseGUI )`. -/
def guiServerNotes (st : Locals) : Locals :=
  let st₁ :=
    if st.strServerListFileName ≠ "" then
      st.qInfo "Note:"
        [.str "Server list persistence file will only take effect when running as a directory server."]
    else st
  if st₁.strServerListFilter ≠ "" then
    st₁.qInfo "Note:"
      [.str "Server list filter will only take effect when running as a directory server."]
  else st₁

/-- The check of the IP address the server binds to. -/
def checkServerBindIP (env : Env) (st : Locals) : Locals :=
  if st.strServerBindIP ≠ "" then
    if !env.setAddress st.strServerBindIP then
      { st.qWarning "Server Bind IP is invalid. Only plain IP addresses are supported." []
          with strServerBindIP := "" }
    else st
  else st

/-- The branch `if ( bIsClient )` once no server only option was seen. -/
def clientChecks (st : Locals) : Locals :=
  let st₁ :=
    if st.bUseGUI ∧ st.bMuteMeInPersonalMix then
      { st with bMuteMeInPersonalMix := false }.qWarning
        "Mute my own signal in my personal mix is only supported in headless mode." []
    else st
  if !st₁.bCustomPortNumberGiven then
    { st₁ with iPortNumber := (st₁.iPortNumber + 10) % 65536 }.qInfo "- allocated port number: %1"
      [.int ((st₁.iPortNumber + 10) % 65536 : Nat)]
  else st₁

/-- The statement `if ( bIsClient ) \x7b ... \x7d else \x7b ... \x7d` after the loop: the
check of the options against the mode, then the checks of the values. -/
def modeAndValidation (env : Env) (argv : List String) (st : Locals) : Stage :=
  if st.bIsClient then
    if st.ServerOnlyOptions.length ≠ 0 then
      .exit 1 (st.qCritical "%1: Server only option(s) '%2' used.  Did you omit '--server'?"
        [.str (tokenAt argv 0), .str (", ".intercalate st.ServerOnlyOptions)])
    else .ok (clientChecks st)
  else
    if st.ClientOnlyOptions.length ≠ 0 then
      .exit 1 (st.qCritical "%1: Client only option(s) '%2' used.  See '--help' for help"
        [.str (tokenAt argv 0), .str (", ".intercalate st.ClientOnlyOptions)])
    else
      .ok (checkServerBindIP env (if st.bUseGUI then guiServerNotes st else headlessServerChecks env st))

/-! ## Application set-up, JSON-RPC and the two actors -/

/-- The statements under `#if defined( Q_OS_IOS )` of a build with a GUI. -/
def applicationSetup (b : Build) (st : Locals) : Locals :=
  if !b.HEADLESS ∧ b.Q_OS_IOS then { st with bUseGUI := true, bIsClient := true } else st

/-- The block under `#ifdef ANDROID`: `true` when `main` returns 0 there. -/
def androidReturns (b : Build) (env : Env) : Bool :=
  b.ANDROID && env.checkPermissionDenied && env.requestPermissionDenied

/-- The object `pRpcServer` points to. -/
structure RpcServer where
  iPort : Int
  strSecret : String
deriving DecidableEq, Repr

/-- How the JSON-RPC block ends: with `exit`, or with the value of
`pRpcServer` (`none` for `nullptr`). -/
inductive RpcStage where
  | exit (code : Nat) (st : Locals)
  | ok (st : Locals) (pRpcServer : Option RpcServer)
deriving DecidableEq, Repr

/-- The block `if ( iJsonRpcPortNumber != INVALID_PORT ) \x7b ... \x7d`. -/
def rpcBootstrap (g : Globals) (env : Env) (st : Locals) : RpcStage :=
  if st.iJsonRpcPortNumber ≠ g.INVALID_PORT then
    if st.strJsonRpcSecretFileName = "" then
      .exit 1 (st.qCritical "- JSON-RPC: --jsonrpcsecretfile is required. Exiting." [])
    else
      let st₁ := st.fs (.openReadOnly st.strJsonRpcSecretFileName)
      if !env.openReadOnly st.strJsonRpcSecretFileName then
        .exit 1 (st₁.qCritical "- JSON-RPC: Unable to open secret file %1. Exiting."
          [.str st.strJsonRpcSecretFileName])
      else
        let st₂ := st₁.fs (.readLine st.strJsonRpcSecretFileName)
        let strJsonRpcSecret := readLine (env.fileText st.strJsonRpcSecretFileName)
        if (qLength strJsonRpcSecret : Int) < g.JSON_RPC_MINIMUM_SECRET_LENGTH then
          .exit 1 (st₂.qCritical
            "JSON-RPC: Refusing to run with secret of length %1 (required: %2). Exiting."
            [.int (qLength strJsonRpcSecret), .int g.JSON_RPC_MINIMUM_SECRET_LENGTH])
        else
          let st₃ := st₂.qWarning
            ("- JSON-RPC: This interface is experimental and is subject to breaking changes even on patch versions " ++
              "(not subject to semantic versioning) during the initial phase.") []
          if !env.rpcStart st.iJsonRpcPortNumber strJsonRpcSecret then
            .exit 1 (st₃.qCritical "- JSON-RPC: Server failed to start. Exiting." [])
          else .ok st₃ (some ⟨st.iJsonRpcPortNumber, strJsonRpcSecret⟩)
  else .ok st none

/-- The actor constructed in the `try` block, with the arguments of its
constructor. -/
inductive Actor where
  | client (args : ClientArgs)
  | server (args : ServerArgs)
deriving DecidableEq, Repr

/-- The arguments of `CClient Client ( ... )`. -/
def clientArgs (st : Locals) : ClientArgs where
  iPortNumber := st.iPortNumber
  iQosNumber := st.iQosNumber
  strConnOnStartupAddress := st.strConnOnStartupAddress
  strMIDISetup := st.strMIDISetup
  bNoAutoJackConnect := st.bNoAutoJackConnect
  strClientName := st.strClientName
  bEnableIPv6 := st.bEnableIPv6
  bMuteMeInPersonalMix := st.bMuteMeInPersonalMix

/-- The arguments of `CServer Server ( ... )`. -/
def serverArgs (st : Locals) : ServerArgs where
  iNumServerChannels := st.iNumServerChannels
  strLoggingFileName := st.strLoggingFileName
  strServerBindIP := st.strServerBindIP
  iPortNumber := st.iPortNumber
  iQosNumber := st.iQosNumber
  strHTMLStatusFileName := st.strHTMLStatusFileName
  strDirectoryServer := st.strDirectoryServer
  strServerListFileName := st.strServerListFileName
  strServerInfo := st.strServerInfo
  strServerPublicIP := st.strServerPublicIP
  strServerListFilter := st.strServerListFilter
  strWelcomeMessage := st.strWelcomeMessage
  strRecordingDirName := st.strRecordingDirName
  bDisconnectAllClientsOnQuit := st.bDisconnectAllClientsOnQuit
  bUseDoubleSystemFrameSize := st.bUseDoubleSystemFrameSize
  bUseMultithreading := st.bUseMultithreading
  bDisableRecording := st.bDisableRecording
  bDelayPan := st.bDelayPan
  bEnableIPv6 := st.bEnableIPv6
  eLicenceType := st.eLicenceType

/-- How `main` ends: the exit status (`none` only when the option loop was cut
short for lack of fuel), the local variables with the messages written, the
JSON-RPC server started and the actor constructed, if any. -/
structure Outcome where
  exitCode : Option Nat
  st : Locals
  pRpcServer : Option RpcServer
  actor : Option Actor
deriving DecidableEq, Repr

/-- The `catch ( const CGenErr& generr )` block, followed by `return 0`. -/
def catchGenErr (b : Build) (g : Globals) (st : Locals) (pRpcServer : Option RpcServer)
    (actor : Actor) (errorText : String) : Outcome :=
  if !b.HEADLESS ∧ st.bUseGUI then
    ⟨some 0, { st with log := st.log ++ [⟨.critical, "QMessageBox::critical",
      [.str g.APP_NAME, .str errorText, .str "Quit"]⟩] }, pRpcServer, some actor⟩
  else
    ⟨some 1, st.qCritical "%1: %2" [.str g.APP_NAME, .str errorText], pRpcServer, some actor⟩

/-- The `try` block of `main` with its `catch` block and the final
`return 0`. -/
def runActor (b : Build) (g : Globals) (env : Env) (st : Locals)
    (pRpcServer : Option RpcServer) : Outcome :=
  if !b.SERVER_ONLY ∧ st.bIsClient then
    match env.clientError (clientArgs st) with
    | some errorText => catchGenErr b g st pRpcServer (.client (clientArgs st)) errorText
    | none =>
      let st₁ :=
        if !b.HEADLESS ∧ st.bUseGUI then st
        else st.qInfo (env.GetVersionAndNameStr false) []
      ⟨some 0, st₁, pRpcServer, some (.client (clientArgs st))⟩
  else
    match env.serverError (serverArgs st) with
    | some errorText => catchGenErr b g st pRpcServer (.server (serverArgs st)) errorText
    | none =>
      let st₁ :=
        if !b.HEADLESS ∧ st.bUseGUI then st
        else st.qInfo (env.GetVersionAndNameStr false) []
      ⟨some 0, st₁, pRpcServer, some (.server (serverArgs st))⟩

/-- The part of `main` after the checks of the values: the set-up of the
application, the JSON-RPC block and the `try` block. -/
def afterValidation (b : Build) (g : Globals) (env : Env) (st : Locals) : Outcome :=
  if androidReturns b env then ⟨some 0, applicationSetup b st, none, none⟩
  else
    match rpcBootstrap g env (applicationSetup b st) with
    | .exit code st₁ => ⟨some code, st₁, none, none⟩
    | .ok st₁ pRpcServer => runActor b g env st₁ pRpcServer

/-- The function `main`. -/
def main (b : Build) (g : Globals) (env : Env) (argv : List String) : Outcome :=
  match parseOptions b g env argv with
  | .unfinished st => ⟨none, st, none, none⟩
  | .exit code st => ⟨some code, st, none, none⟩
  | .done st =>
    match serverOnlyDependency b (headlessDependency b st) with
    | .exit code st₁ => ⟨some code, st₁, none, none⟩
    | .ok st₁ =>
      match modeAndValidation env argv st₁ with
      | .exit code st₂ => ⟨some code, st₂, none, none⟩
      | .ok st₂ => afterValidation b g env st₂

/-! ## A reference environment -/

/-- The white space `strtod` skips at the start of a token. -/
def isSpace (c : Char) : Bool :=
  c = ' ' || c = '\t' || c = '\n' || c = '\r' || c = Char.ofNat 11 || c = Char.ofNat 12

/-- The number a text of decimal digits denotes. -/
def digitsValue (ds : List Char) : Nat :=
  ds.foldl (fun acc c => 10 * acc + (c.toNat - 48)) 0

/-- The decimal exponent `e...` at the start of the text, if there is one with
at least one digit, and what follows it. -/
def decimalExponent (cs : List Char) : Int × List Char :=
  match cs with
  | c :: r =>
    if c = 'e' ∨ c = 'E' then
      match r with
      | '-' :: r' =>
        if (r'.takeWhile Char.isDigit) = [] then (0, cs)
        else (-(digitsValue (r'.takeWhile Char.isDigit) : Int), r'.dropWhile Char.isDigit)
      | '+' :: r' =>
        if (r'.takeWhile Char.isDigit) = [] then (0, cs)
        else ((digitsValue (r'.takeWhile Char.isDigit) : Int), r'.dropWhile Char.isDigit)
      | _ =>
        if (r.takeWhile Char.isDigit) = [] then (0, cs)
        else ((digitsValue (r.takeWhile Char.isDigit) : Int), r.dropWhile Char.isDigit)
    else (0, cs)
  | [] => (0, cs)

/-- The unsigned decimal number at the start of the text: digits, an optional
point and digits, an optional exponent.  `none` when there is no digit. -/
def decimalNumber (cs : List Char) : Option ((Nat × Nat) × List Char) :=
  let ip := cs.takeWhile Char.isDigit
  let r₁ := cs.dropWhile Char.isDigit
  let fp := match r₁ with
    | '.' :: r => r.takeWhile Char.isDigit
    | _ => []
  let r₂ := match r₁ with
    | '.' :: r => r.dropWhile Char.isDigit
    | _ => r₁
  if ip = [] ∧ fp = [] then none
  else
    let (e, r₃) := decimalExponent r₂
    let v := digitsValue (ip ++ fp)
    if 0 ≤ e then some ((v * 10 ^ e.toNat, fp.length), r₃)
    else some ((v, fp.length + (-e).toNat), r₃)

/-- The C library function `strtod` on the decimal forms of a number (white
space, a sign, digits with a point and an exponent).  When no conversion can
be done the value is zero and the whole token is left over. -/
def strtodDecimal (token : String) : Double × String :=
  let cs := token.data.dropWhile isSpace
  match cs with
  | '-' :: r =>
    match decimalNumber r with
    | some ((m, k), rest) => (.finite (-(m : Int)) k, String.mk rest)
    | none => (.finite 0 0, token)
  | '+' :: r =>
    match decimalNumber r with
    | some ((m, k), rest) => (.finite m k, String.mk rest)
    | none => (.finite 0 0, token)
  | _ =>
    match decimalNumber cs with
    | some ((m, k), rest) => (.finite m k, String.mk rest)
    | none => (.finite 0 0, token)

/-- A text of one to three decimal digits. -/
def isOctet (cs : List Char) : Bool :=
  cs ≠ [] && cs.length ≤ 3 && cs.all Char.isDigit && digitsValue cs ≤ 255

/-- Whether a text is an IPv4 address in dotted decimal form. -/
def isDottedQuad (str : String) : Bool :=
  match splitOnChar '.' str.data with
  | [a, b, c, d] => isOctet a && isOctet b && isOctet c && isOctet d
  | _ => false

/-- The values of `global.h` in the release the source belongs to. -/
def stdGlobals : Globals where
  DEFAULT_PORT_NUMBER := 22124
  DEFAULT_QOS_NUMBER := 128
  DEFAULT_USED_NUM_CHANNELS := 10
  MAX_NUM_CHANNELS := 150
  INVALID_PORT := -1
  JSON_RPC_MINIMUM_SECRET_LENGTH := 16
  SYSTEM_FRAME_SIZE_SAMPLES := 64
  APP_NAME := "Koord"

/-- The build with the GUI and both modes, on a desktop other than macOS. -/
def stdBuild : Build where
  HEADLESS := false
  SERVER_ONLY := false
  SERVER_BUNDLE := false
  Q_OS_MACX := false
  Q_OS_IOS := false
  ANDROID := false

/-- The build without the GUI. -/
def headlessBuild : Build := { stdBuild with HEADLESS := true }

/-- The build for macOS. -/
def macBuild : Build := { stdBuild with Q_OS_MACX := true }

/-- An environment to run examples in: decimal numbers, dotted IPv4 addresses,
no file at all, addresses left as they are, actors that start without error. -/
def stdEnv : Env where
  strtod := strtodDecimal
  setAddress := isDottedQuad
  FixAddress := id
  FixJamAddress := id
  GetVersionAndNameStr := fun _ => "Koord"
  fileExists := fun _ => false
  isFile := fun _ => false
  isReadable := fun _ => false
  isWritable := fun _ => false
  openReadWrite := fun _ => false
  openReadOnly := fun _ => false
  fileText := fun _ => ""
  checkPermissionDenied := false
  requestPermissionDenied := false
  rpcStart := fun _ _ => true
  clientError := fun _ => none
  serverError := fun _ => none

/-! ## The vocabulary of the properties -/

/-- The indices at which the option loop runs its body, from index `i` on:
the option positions of the argument vector. -/
def optionPositions (b : Build) (g : Globals) (env : Env) (argv : List String) :
    Nat → Nat → Locals → List Nat
  | 0, _, _ => []
  | fuel + 1, i, st =>
    if i < argv.length then
      i :: (match loopBody b g env argv.length argv i st with
        | .exit _ _ => []
        | .next i' st' => optionPositions b g env argv fuel (i' + 1) st')
    else []

/-- The option positions of an argument vector. -/
def parsePositions (b : Build) (g : Globals) (env : Env) (argv : List String) : List Nat :=
  optionPositions b g env argv argv.length 1 (initialLocals b g)

/-- The server only options of the help text and of the loop: short name, long
name and the name under which the option is recorded. -/
def serverOnlyTable : List (String × String × String) :=
  [ ("-d", "--discononquit", "--discononquit"),
    ("-e", "--directoryserver", "--directoryserver"),
    ("--centralserver", "--centralserver", "--directoryserver"),
    ("--directoryfile", "--directoryfile", "--directoryfile"),
    ("-f", "--listfilter", "--listfilter"),
    ("-F", "--fastupdate", "--fastupdate"),
    ("-l", "--log", "--log"),
    ("-L", "--licence", "--licence"),
    ("-m", "--htmlstatus", "--htmlstatus"),
    ("-o", "--serverinfo", "--serverinfo"),
    ("--serverpublicip", "--serverpublicip", "--serverpublicip"),
    ("-P", "--delaypan", "--delaypan"),
    ("-R", "--recording", "--recording"),
    ("--norecord", "--norecord", "--norecord"),
    ("--serverbindip", "--serverbindip", "--serverbindip"),
    ("-T", "--multithreading", "--multithreading"),
    ("-u", "--numchannels", "--numchannels"),
    ("-w", "--welcomemessage", "--welcomemessage"),
    ("-z", "--startminimized", "--startminimized") ]

/-- The name recorded for a token in a table of options, if the token is the
short or the long name of one of them. -/
def recordedIn (table : List (String × String × String)) (token : String) : Option String :=
  (table.find? fun e => e.1 = token ∨ e.2.1 = token).map fun e => e.2.2

/-- Whether a token is the flag that selects the server mode. -/
def isServerFlag (token : String) : Bool :=
  "-s" = token || "--server" = token

/-- The name a token at an option position adds to `ServerOnlyOptions`, if
any: the server only options of the table, and the server flag itself. -/
def recordedServerOnly (token : String) : Option String :=
  if isServerFlag token then some "--server" else recordedIn serverOnlyTable token

/-- The options that add their name to `ClientOnlyOptions`: short name, long
name and the name recorded. -/
def clientOnlyTable : List (String × String × String) :=
  [ ("-c", "--connect", "--connect"),
    ("-j", "--nojackconnect", "--nojackconnect"),
    ("-M", "--mutestream", "--mutestream"),
    ("--mutemyown", "--mutemyown", "--mutemyown"),
    ("--clientname", "--clientname", "--clientname"),
    ("--ctrlmidich", "--ctrlmidich", "--ctrlmidich"),
    ("--showallservers", "--showallservers", "--showallservers"),
    ("--showanalyzerconsole", "--showanalyzerconsole", "--showanalyzerconsole") ]

/-- The name a token at an option position adds to `ClientOnlyOptions`, if
any. -/
def recordedClientOnly (token : String) : Option String :=
  recordedIn clientOnlyTable token

/-- The names of the options that take a value: the options matched with
`GetStringArgument` or `GetNumericArgument`. -/
def valueOptionNames : List String :=
  [ "-i", "--inifile", "-p", "--port", "--jsonrpcport", "--jsonrpcsecretfile", "-Q", "--qos",
    "-e", "--directoryserver", "--centralserver", "--directoryfile", "-f", "--listfilter",
    "-l", "--log", "-m", "--htmlstatus", "-o", "--serverinfo", "--serverpublicip",
    "-R", "--recording", "--serverbindip", "-u", "--numchannels", "-w", "--welcomemessage",
    "-c", "--connect", "-x", "--autoconnect", "--clientname", "--ctrlmidich" ]

/-- Whether a token is the name of an option that takes a value. -/
def takesValue (token : String) : Bool :=
  valueOptionNames.any fun name => name = token

/-- What one iteration of the loop does to the index, to the two role lists, to
the mode and to the record of file system operations, given the token at the
option position: the property proved of every block of the loop body. -/
def StepEffect (tok : String) (i : Nat) (st : Locals) (r : Step) : Prop :=
  match r with
  | .exit _ _ => True
  | .next i' st' =>
    i' = (if takesValue tok then i + 1 else i) ∧
    st'.ServerOnlyOptions = st.ServerOnlyOptions ++ (recordedServerOnly tok).toList ∧
    st'.ClientOnlyOptions = st.ClientOnlyOptions ++ (recordedClientOnly tok).toList ∧
    st'.bIsClient = (st.bIsClient && !isServerFlag tok) ∧
    st'.fsOps = st.fsOps

/-- The build of the server alone (`SERVER_ONLY`). -/
def serverOnlyBuild : Build := { stdBuild with SERVER_ONLY := true }

/-- Whether the actor constructed is the server. -/
def Outcome.ranServer (o : Outcome) : Bool :=
  match o.actor with
  | some (.server _) => true
  | _ => false

/-- Whether the actor constructed is the client. -/
def Outcome.ranClient (o : Outcome) : Bool :=
  match o.actor with
  | some (.client _) => true
  | _ => false

/-- The four options that take a number. -/
inductive NumericOption where
  | port
  | jsonrpcport
  | qos
  | numchannels
deriving DecidableEq, Repr

namespace NumericOption

/-- The short name of the option. -/
def shortName : NumericOption → String
  | port => "-p"
  | jsonrpcport => "--jsonrpcport"
  | qos => "-Q"
  | numchannels => "-u"

/-- The long name of the option. -/
def longName : NumericOption → String
  | port => "--port"
  | jsonrpcport => "--jsonrpcport"
  | qos => "--qos"
  | numchannels => "--numchannels"

/-- The lower bound given to `GetNumericArgument` for the option. -/
def rangeStart : NumericOption → Int
  | port => 0
  | jsonrpcport => 0
  | qos => 0
  | numchannels => 1

/-- The upper bound given to `GetNumericArgument` for the option. -/
def rangeStop (g : Globals) : NumericOption → Int
  | port => 65535
  | jsonrpcport => 65535
  | qos => 255
  | numchannels => g.MAX_NUM_CHANNELS

/-- The variable the block of the option assigns the number to. -/
def stored : NumericOption → Locals → Int
  | port, st => st.iPortNumber
  | jsonrpcport, st => st.iJsonRpcPortNumber
  | qos, st => st.iQosNumber
  | numchannels, st => st.iNumServerChannels

end NumericOption

/-- The options with a short and a long name, as the blocks of the loop body
give them. -/
def shortLongPairs : List (String × String) :=
  [ ("-i", "--inifile"), ("-n", "--nogui"), ("-p", "--port"), ("-Q", "--qos"),
    ("-t", "--notranslation"), ("-6", "--enableipv6"), ("-d", "--discononquit"),
    ("-e", "--directoryserver"), ("-f", "--listfilter"), ("-F", "--fastupdate"),
    ("-l", "--log"), ("-L", "--licence"), ("-m", "--htmlstatus"), ("-o", "--serverinfo"),
    ("-P", "--delaypan"), ("-R", "--recording"), ("-s", "--server"),
    ("-T", "--multithreading"), ("-u", "--numchannels"), ("-w", "--welcomemessage"),
    ("-z", "--startminimized"), ("-c", "--connect"), ("-j", "--nojackconnect"),
    ("-x", "--autoconnect"), ("-M", "--mutestream") ]

/-- The local variables without the messages written. -/
def Locals.withoutLog (st : Locals) : Locals := { st with log := [] }

/-- Two iterations end alike: both go on, at the same index with the same
local variables and messages, or both end the process with the same exit
code and the same local variables (the last message may differ). -/
def stepsAgree : Step → Step → Prop
  | .next i st, .next i' st' => i = i' ∧ st = st'
  | .exit code st, .exit code' st' => code = code' ∧ st.withoutLog = st'.withoutLog
  | _, _ => False

/-- Two runs of `main` end alike: the same exit code, the same JSON-RPC server,
the same actor with the same arguments and the same local variables, the three
lists of options included; only the messages written may differ. -/
def Outcome.sameButLog (o o' : Outcome) : Prop :=
  o.exitCode = o'.exitCode ∧ o.pRpcServer = o'.pRpcServer ∧ o.actor = o'.actor ∧
    o.st.withoutLog = o'.st.withoutLog

/-- Whether a token is a name of the option that sets the port. -/
def isPortOption (token : String) : Bool :=
  "-p" = token || "--port" = token

/-- The value of a `--port` option at the option position `j`: what `strtod`
makes of the next token, converted to `quint16`. -/
def portValueAt (env : Env) (argv : List String) (j : Nat) : Nat :=
  (env.strtod (tokenAt argv (j + 1))).1.toUInt16

/-- What one iteration of the loop does to the port and to the flag that says
a port was given: the property proved of every block of the loop body. -/
def PortEffect (env : Env) (argv : List String) (i : Nat) (st : Locals) (r : Step) : Prop :=
  match r with
  | .exit _ _ => True
  | .next _ st' =>
    st'.bCustomPortNumberGiven =
      (st.bCustomPortNumberGiven || isPortOption (tokenAt argv i)) ∧
    st'.iPortNumber =
      (if isPortOption (tokenAt argv i) then portValueAt env argv i else st.iPortNumber) ∧
    (isPortOption (tokenAt argv i) = true →
      (env.strtod (tokenAt argv (i + 1))).1.lt (.ofInt 0) = false ∧
      (env.strtod (tokenAt argv (i + 1))).1.gt (.ofInt 65535) = false)

/-- The port after the options at the given positions, from the first to the
last: each `--port` option replaces the value. -/
def portAfter (env : Env) (argv : List String) (positions : List Nat) (initial : Nat) : Nat :=
  positions.foldl
    (fun acc j => if isPortOption (tokenAt argv j) then portValueAt env argv j else acc) initial

/-- Two states of the local variables with the same values, apart from the
order of the options in `CommandLineOptions` and `ServerOnlyOptions` and from
the messages written: the second is the first with other lists of the same
length in the place of the two and another list of messages. -/
def Locals.sameValues (st st' : Locals) : Prop :=
  ∃ (clo soo : List String) (msgs : List Msg),
    clo.length = st.CommandLineOptions.length ∧ soo.length = st.ServerOnlyOptions.length ∧
    st' = { st with CommandLineOptions := clo, ServerOnlyOptions := soo, log := msgs }

/-- What the block of `-s`/`--server` does to the local variables. -/
def serverFlagBlock (st : Locals) : Locals :=
  ({ st with bIsClient := false }
    |>.qInfo "- server mode chosen" []
    |>.pushOption "--server"
    |>.pushServerOnly "--server")

/-- The condition under which the persistence file name is kept, in the words
of the specification: a path that exists is a plain file that can be read and
written; a path that does not exist can be opened for reading and writing. -/
def specKeepsServerListFile (env : Env) (path : String) : Bool :=
  if env.fileExists path then env.isFile path && env.isReadable path && env.isWritable path
  else env.openReadWrite path

/-- Whether a token is one of the given names of an option. -/
def isNamed (names : List String) (token : String) : Bool :=
  names.any fun name => name = token

/-- Whether an option with one of the given names stands at one of the
positions. -/
def optionGiven (names : List String) (argv : List String) (positions : List Nat) : Bool :=
  positions.any fun j => isNamed names (tokenAt argv j)

/-- What the option at the position `j` makes of a string variable set by the
options with the given names: the token after the name when the option is one
of them, the old value otherwise. -/
def valueStep (names : List String) (argv : List String) (old : String) (j : Nat) : String :=
  if isNamed names (tokenAt argv j) then tokenAt argv (j + 1) else old

/-- The value of a string variable after the options at the given positions,
from the first to the last: the value of the last option with one of the given
names, the initial value when there is none. -/
def lastValue (names : List String) (argv : List String) (positions : List Nat)
    (initial : String) : String :=
  positions.foldl (valueStep names argv) initial

/-- What the option at the position `j` makes of `iJsonRpcPortNumber`. -/
def jsonRpcPortStep (env : Env) (argv : List String) (old : Int) (j : Nat) : Int :=
  if isNamed ["--jsonrpcport"] (tokenAt argv j) then
    ((env.strtod (tokenAt argv (j + 1))).1.toUInt16 : Nat)
  else old

/-- The value of `iJsonRpcPortNumber` after the options at the given
positions. -/
def lastJsonRpcPort (env : Env) (argv : List String) (positions : List Nat) (initial : Int) :
    Int :=
  positions.foldl (jsonRpcPortStep env argv) initial

/-- What one iteration of the loop does to the variables the checks after the
loop look at: the property proved of every block of the loop body. -/
def ValueEffect (env : Env) (argv : List String) (i : Nat) (st : Locals) (r : Step) : Prop :=
  match r with
  | .exit _ _ => True
  | .next _ st' =>
    st'.bUseGUI = (st.bUseGUI && !isNamed ["-n", "--nogui"] (tokenAt argv i)) ∧
    st'.bMuteMeInPersonalMix =
      (st.bMuteMeInPersonalMix || isNamed ["--mutemyown"] (tokenAt argv i)) ∧
    st'.iJsonRpcPortNumber = jsonRpcPortStep env argv st.iJsonRpcPortNumber i ∧
    st'.strJsonRpcSecretFileName =
      valueStep ["--jsonrpcsecretfile"] argv st.strJsonRpcSecretFileName i ∧
    st'.strIniFileName = valueStep ["-i", "--inifile"] argv st.strIniFileName i ∧
    st'.strDirectoryServer =
      valueStep ["-e", "--directoryserver", "--centralserver"] argv st.strDirectoryServer i ∧
    st'.strServerListFileName =
      valueStep ["--directoryfile"] argv st.strServerListFileName i ∧
    st'.strServerListFilter = valueStep ["-f", "--listfilter"] argv st.strServerListFilter i ∧
    st'.strServerPublicIP = valueStep ["--serverpublicip"] argv st.strServerPublicIP i ∧
    st'.strServerBindIP = valueStep ["--serverbindip"] argv st.strServerBindIP i

/-- An environment with two files: `servers.dat`, a plain file that can be
read and written, and `secret.txt`, whose first line has sixteen characters. -/
def fileEnv : Env :=
  { stdEnv with
    fileExists := fun path => path = "servers.dat" || path = "secret.txt"
    isFile := fun path => path = "servers.dat" || path = "secret.txt"
    isReadable := fun path => path = "servers.dat" || path = "secret.txt"
    isWritable := fun path => path = "servers.dat" || path = "secret.txt"
    openReadWrite := fun _ => true
    openReadOnly := fun path => path = "servers.dat" || path = "secret.txt"
    fileText := fun path => if path = "secret.txt" then "0123456789abcdef\r\nsecond line\n" else "" }

/-- The build for Android. -/
def androidBuild : Build := { stdBuild with ANDROID := true }

/-- An environment in which the permission to record audio is denied, at the
check and at the request. -/
def deniedEnv : Env :=
  { stdEnv with checkPermissionDenied := true, requestPermissionDenied := true }

/-- The tokens the blocks of the loop body compare `argv[i]` with: the names of
help and version, then the short and long names of the options, in the order
of the source. -/
def knownTokens : List String :=
  [ "--help", "-h", "-?", "--version", "-v",
    "-i", "--inifile", "-n", "--nogui", "-p", "--port", "--jsonrpcport", "--jsonrpcsecretfile",
    "-Q", "--qos", "-t", "--notranslation", "-6", "--enableipv6",
    "-d", "--discononquit", "-e", "--directoryserver", "--centralserver", "--directoryfile",
    "-f", "--listfilter", "-F", "--fastupdate", "-l", "--log", "-L", "--licence",
    "-m", "--htmlstatus", "-o", "--serverinfo", "--serverpublicip", "-P", "--delaypan",
    "-R", "--recording", "--norecord", "-s", "--server", "--serverbindip",
    "-T", "--multithreading", "-u", "--numchannels", "-w", "--welcomemessage",
    "-z", "--startminimized",
    "-c", "--connect", "-j", "--nojackconnect", "-x", "--autoconnect", "-M", "--mutestream",
    "--mutemyown", "--clientname", "--ctrlmidich",
    "--showallservers", "--showanalyzerconsole" ]

/-- Whether the token at the index `i` is one no block of the loop body takes:
it is none of the known tokens, and it is not the single argument that matches
one of the two patterns of a `koord://` address. -/
def isUnknownToken (argc : Nat) (argv : List String) (i : Nat) : Bool :=
  !isNamed knownTokens (tokenAt argv i) &&
    !(decide (argc = 2) &&
      ((rx_gen2 (tokenAt argv 1)).isSome || (rx_gen1 (tokenAt argv 1)).isSome))

/-- An environment in which the set-up of either actor throws a `CGenErr`. -/
def failingEnv : Env :=
  { stdEnv with
    clientError := fun _ => some "no sound card"
    serverError := fun _ => some "no socket" }

/-- Whether a token is one of the three that ask for the help text. -/
def isHelpToken (token : String) : Bool :=
  token = "--help" || token = "-h" || token = "-?"

/-- Whether a token is one of the two that ask for the version. -/
def isVersionToken (token : String) : Bool :=
  token = "--version" || token = "-v"

/-- The text written to `std::cout` for a help or version token, with the
arguments substituted into it. -/
def helpOrVersionText (env : Env) (argv : List String) (token : String) :
    String × List MsgArg :=
  if isHelpToken token then UsageArguments argv else (env.GetVersionAndNameStr false, [])

/-- The common options: short name, long name and the name recorded. -/
def commonTable : List (String × String × String) :=
  [ ("-i", "--inifile", "--inifile"),
    ("-n", "--nogui", "--nogui"),
    ("-p", "--port", "--port"),
    ("--jsonrpcport", "--jsonrpcport", "--jsonrpcport"),
    ("--jsonrpcsecretfile", "--jsonrpcsecretfile", "--jsonrpcsecretfile"),
    ("-Q", "--qos", "--qos"),
    ("-t", "--notranslation", "--notranslation"),
    ("-6", "--enableipv6", "--enableipv6") ]

/-- All the options of the loop: short name, long name and the name appended
to `CommandLineOptions`. -/
def optionTable : List (String × String × String) :=
  commonTable ++ serverOnlyTable ++ [("-s", "--server", "--server")] ++ clientOnlyTable ++
    [("-x", "--autoconnect", "--autoconnect")]

/-- The name the token at the index `i` adds to `CommandLineOptions`, if any:
the name recorded for an option of the table, and `--autoconnect` for the
single argument that matches one of the two patterns. -/
def recordedOption (argc : Nat) (argv : List String) (i : Nat) : Option String :=
  match recordedIn optionTable (tokenAt argv i) with
  | some name => some name
  | none =>
    if argc = 2 ∧ ((rx_gen2 (tokenAt argv 1)).isSome ∨ (rx_gen1 (tokenAt argv 1)).isSome) then
      some "--autoconnect"
    else none

/-- What one iteration of the loop does to the three lists of options seen:
an iteration that ends the process leaves them alone, an iteration of a block
appends the name recorded for the token to `CommandLineOptions`. -/
def SeenEffect (argc : Nat) (argv : List String) (i : Nat) (st : Locals) (r : Step) : Prop :=
  match r with
  | .exit _ st' =>
    st'.CommandLineOptions = st.CommandLineOptions ∧
    st'.ServerOnlyOptions = st.ServerOnlyOptions ∧
    st'.ClientOnlyOptions = st.ClientOnlyOptions
  | .next _ st' =>
    ∃ name, recordedOption argc argv i = some name ∧
      st'.CommandLineOptions = st.CommandLineOptions ++ [name]

/-- The names that can stand in `ServerOnlyOptions`. -/
def serverOnlyNames : List String :=
  "--server" :: serverOnlyTable.map fun e => e.2.2

/-- The names that can stand in `ClientOnlyOptions`. -/
def clientOnlyNames : List String :=
  clientOnlyTable.map fun e => e.2.2

/-- The names recorded for the common options. -/
def commonNames : List String :=
  commonTable.map fun e => e.2.2

/-- The invariant of the three lists of options seen: the two role lists are
subsequences of `CommandLineOptions`, and each holds only names of its own
role. -/
def roleListsInvariant (st : Locals) : Prop :=
  st.ServerOnlyOptions.Sublist st.CommandLineOptions ∧
  st.ClientOnlyOptions.Sublist st.CommandLineOptions ∧
  (∀ name ∈ st.ServerOnlyOptions, name ∈ serverOnlyNames) ∧
  (∀ name ∈ st.ClientOnlyOptions, name ∈ clientOnlyNames)

/-- Whether a text is made of decimal digits, at least `lo` and at most `hi`
of them. -/
def isDigits (lo hi : Nat) (cs : List Char) : Bool :=
  decide (lo ≤ cs.length) && decide (cs.length ≤ hi) && cs.all Char.isDigit

/-- The text `a.b.c.d`. -/
def dottedHost (a b c d : List Char) : List Char :=
  a ++ '.' :: (b ++ '.' :: (c ++ '.' :: d))

/-- The token `koord://` followed by a text. -/
def koordUri (rest : List Char) : String :=
  String.mk ("koord://".data ++ rest)

/-- The local variables after the block of the single argument taken as a
`koord://` address, run before anything else. -/
def afterUriShortcut (b : Build) (g : Globals) (captured : String) : Locals :=
  ({ initialLocals b g with strConnOnStartupAddress := captured }
    |>.qInfo "- autoconnect on startup to address: %1" [.str captured]
    |>.pushOption "--autoconnect")

/-- The build of the server bundle for macOS. -/
def serverBundleBuild : Build := { stdBuild with SERVER_BUNDLE := true, Q_OS_MACX := true }

/-- The local variables when the option loop has read `--server --port 5000`. -/
def afterServerPort (b : Build) (g : Globals) : Locals :=
  { initialLocals b g with
    bIsClient := false
    iPortNumber := 5000
    bCustomPortNumberGiven := true
    CommandLineOptions := ["--server", "--port"]
    ServerOnlyOptions := ["--server"]
    log := (initialLocals b g).log ++
      [⟨.info, "- server mode chosen", []⟩, ⟨.info, "- selected port number: %1", [.int 5000]⟩] }

/-- The local variables when the option loop has read `--connect 10.0.0.5`. -/
def afterConnect (b : Build) (g : Globals) : Locals :=
  { initialLocals b g with
    strConnOnStartupAddress := "10.0.0.5"
    CommandLineOptions := ["--connect"]
    ClientOnlyOptions := ["--connect"]
    log := (initialLocals b g).log ++
      [⟨.info, "- connect on startup to address: %1", [.str "10.0.0.5"]⟩] }

/-- The build for iOS (with the GUI). -/
def iosBuild : Build := { stdBuild with Q_OS_IOS := true }

/-- Whether an actor is the client. -/
def Actor.isClient : Actor → Bool
  | .client _ => true
  | .server _ => false

/-- Whether `QString::compare` with `Qt::CaseInsensitive` takes a character
for a lower case letter of `localhost`: the letter itself, its capital and, for
`s`, the long s (U+017F), which the case folding of Unicode maps to `s`. -/
def sameLetter (c letter : Char) : Bool :=
  c = letter || c = letter.toUpper || (letter = 's' && c = Char.ofNat 383)

/-- The text the block of the single argument captures from a token: group 1
of `rx_gen2` if that pattern matches, else group 1 of `rx_gen1`. -/
def uriCapture (token : String) : Option String :=
  match rx_gen2 token with
  | some captured => some captured
  | none => rx_gen1 token

/-- What the option at the position `j` makes of `strConnOnStartupAddress`:
`--connect` and `--autoconnect` set it from the token after the name, the
single argument (`argc` is 2, so `j` is 1) from the text captured. -/
def connectStep (env : Env) (argc : Nat) (argv : List String) (old : String) (j : Nat) :
    String :=
  if isNamed ["-c", "--connect"] (tokenAt argv j) then env.FixAddress (tokenAt argv (j + 1))
  else if isNamed ["-x", "--autoconnect"] (tokenAt argv j) then
    env.FixJamAddress (tokenAt argv (j + 1))
  else if argc = 2 then (uriCapture (tokenAt argv j)).getD old
  else old

/-- What the option at the position `j` makes of a flag that the options with
the given names set. -/
def flagStep (names : List String) (argv : List String) (old : Bool) (j : Nat) : Bool :=
  old || isNamed names (tokenAt argv j)

/-- What the option at the position `j` makes of a flag that the options with
the given names clear. -/
def clearStep (names : List String) (argv : List String) (old : Bool) (j : Nat) : Bool :=
  old && !isNamed names (tokenAt argv j)

/-- What the option at the position `j` makes of `iQosNumber`. -/
def qosStep (env : Env) (argv : List String) (old : Nat) (j : Nat) : Nat :=
  if isNamed ["-Q", "--qos"] (tokenAt argv j) then (env.strtod (tokenAt argv (j + 1))).1.toUInt16
  else old

/-- What the option at the position `j` makes of `iNumServerChannels`. -/
def numChannelsStep (env : Env) (argv : List String) (old : Int) (j : Nat) : Int :=
  if isNamed ["-u", "--numchannels"] (tokenAt argv j) then
    (env.strtod (tokenAt argv (j + 1))).1.toInt32
  else old

/-- What the option at the position `j` makes of `eLicenceType`. -/
def licenceStep (argv : List String) (old : ELicenceType) (j : Nat) : ELicenceType :=
  if isNamed ["-L", "--licence"] (tokenAt argv j) then .LT_CREATIVECOMMONS else old

/-- What one iteration of the loop does to the variables that `ValueEffect` and
`PortEffect` leave out: the property proved of every block of the loop body. -/
def ConfigEffect (env : Env) (argc : Nat) (argv : List String) (i : Nat) (st : Locals)
    (r : Step) : Prop :=
  match r with
  | .exit _ _ => True
  | .next _ st' =>
    st'.strLoggingFileName = valueStep ["-l", "--log"] argv st.strLoggingFileName i ∧
    st'.strHTMLStatusFileName =
      valueStep ["-m", "--htmlstatus"] argv st.strHTMLStatusFileName i ∧
    st'.strServerInfo = valueStep ["-o", "--serverinfo"] argv st.strServerInfo i ∧
    st'.strRecordingDirName = valueStep ["-R", "--recording"] argv st.strRecordingDirName i ∧
    st'.strWelcomeMessage = valueStep ["-w", "--welcomemessage"] argv st.strWelcomeMessage i ∧
    st'.strClientName = valueStep ["--clientname"] argv st.strClientName i ∧
    st'.strMIDISetup = valueStep ["--ctrlmidich"] argv st.strMIDISetup i ∧
    st'.strConnOnStartupAddress = connectStep env argc argv st.strConnOnStartupAddress i ∧
    st'.iQosNumber = qosStep env argv st.iQosNumber i ∧
    st'.iNumServerChannels = numChannelsStep env argv st.iNumServerChannels i ∧
    st'.eLicenceType = licenceStep argv st.eLicenceType i ∧
    st'.bDisconnectAllClientsOnQuit =
      flagStep ["-d", "--discononquit"] argv st.bDisconnectAllClientsOnQuit i ∧
    st'.bDelayPan = flagStep ["-P", "--delaypan"] argv st.bDelayPan i ∧
    st'.bDisableRecording = flagStep ["--norecord"] argv st.bDisableRecording i ∧
    st'.bUseMultithreading = flagStep ["-T", "--multithreading"] argv st.bUseMultithreading i ∧
    st'.bStartMinimized = flagStep ["-z", "--startminimized"] argv st.bStartMinimized i ∧
    st'.bNoAutoJackConnect = flagStep ["-j", "--nojackconnect"] argv st.bNoAutoJackConnect i ∧
    st'.bMuteStream = flagStep ["-M", "--mutestream"] argv st.bMuteStream i ∧
    st'.bShowComplRegConnList =
      flagStep ["--showallservers"] argv st.bShowComplRegConnList i ∧
    st'.bShowAnalyzerConsole =
      flagStep ["--showanalyzerconsole"] argv st.bShowAnalyzerConsole i ∧
    st'.bEnableIPv6 = flagStep ["-6", "--enableipv6"] argv st.bEnableIPv6 i ∧
    st'.bUseDoubleSystemFrameSize =
      clearStep ["-F", "--fastupdate"] argv st.bUseDoubleSystemFrameSize i ∧
    st'.bUseTranslation = clearStep ["-t", "--notranslation"] argv st.bUseTranslation i

/-- The values of the local variables that only the server uses: the ten
strings (directory server, persistence file, list filter, log file, HTML status
file, server info, public IP, bind IP, recording directory, welcome message),
the number of channels, the licence type and the six flags (disconnect on quit,
multithreading, delay panning, recording disabled, start minimized, double
frame size). -/
def serverOnlyValues (st : Locals) : List String × Int × ELicenceType × List Bool :=
  ([st.strDirectoryServer, st.strServerListFileName, st.strServerListFilter,
    st.strLoggingFileName, st.strHTMLStatusFileName, st.strServerInfo, st.strServerPublicIP,
    st.strServerBindIP, st.strRecordingDirName, st.strWelcomeMessage],
   st.iNumServerChannels, st.eLicenceType,
   [st.bDisconnectAllClientsOnQuit, st.bUseMultithreading, st.bDelayPan, st.bDisableRecording,
    st.bStartMinimized, st.bUseDoubleSystemFrameSize])

/-- The names, short and long, of the options that add to `ServerOnlyOptions`. -/
def serverOnlyTokens : List String :=
  "-s" :: "--server" :: serverOnlyTable.flatMap fun e => [e.1, e.2.1]

/-- The options with a string value that is stored as it stands: their names
and the variable they set. -/
def stringOptions : List (List String × (Locals → String)) :=
  [ (["-i", "--inifile"], fun st => st.strIniFileName),
    (["--jsonrpcsecretfile"], fun st => st.strJsonRpcSecretFileName),
    (["-e", "--directoryserver", "--centralserver"], fun st => st.strDirectoryServer),
    (["--directoryfile"], fun st => st.strServerListFileName),
    (["-f", "--listfilter"], fun st => st.strServerListFilter),
    (["-l", "--log"], fun st => st.strLoggingFileName),
    (["-m", "--htmlstatus"], fun st => st.strHTMLStatusFileName),
    (["-o", "--serverinfo"], fun st => st.strServerInfo),
    (["--serverpublicip"], fun st => st.strServerPublicIP),
    (["-R", "--recording"], fun st => st.strRecordingDirName),
    (["--serverbindip"], fun st => st.strServerBindIP),
    (["-w", "--welcomemessage"], fun st => st.strWelcomeMessage),
    (["--clientname"], fun st => st.strClientName),
    (["--ctrlmidich"], fun st => st.strMIDISetup) ]

/-- The warning the check of the server list filter writes for an entry, if
any. -/
def filterWarning (env : Env) (entry : String) : Option Msg :=
  if qLength entry > 2 ∧ entry.data.head? = some '[' ∧ entry.data.getLast? = some ']' then none
  else if entry = "" then
    some ⟨.warning, "There is empty entry in the server list filter that will be ignored", []⟩
  else if !env.setAddress entry then
    some ⟨.warning,
      "%1 is not a valid server list filter entry. Only plain IP addresses are supported",
      [.str entry]⟩
  else none

/-- Whether a message is one of the two warnings about an entry of the server
list filter. -/
def isFilterWarning (m : Msg) : Bool :=
  m.level = .warning &&
    (m.text = "There is empty entry in the server list filter that will be ignored" ||
      m.text =
        "%1 is not a valid server list filter entry. Only plain IP addresses are supported")

/-- The test for the special case `[version]` of an entry of the filter. -/
def isBracketedEntry (entry : String) : Bool :=
  decide (qLength entry > 2) && decide (entry.data.head? = some '[') &&
    decide (entry.data.getLast? = some ']')

/-! # Theorems -/

/-! ## The blocks of the loop body, one by one -/

theorem firstMatch_some_mem {blocks : List (Locals → Option Step)} {st : Locals} {r : Step}
    (h : firstMatch blocks st = some r) : ∃ blk ∈ blocks, blk st = some r := by
  induction blocks with
  | nil => simp [firstMatch] at h
  | cons blk blocks ih =>
    unfold firstMatch at h
    cases hb : blk st with
    | some r' =>
      rw [hb] at h
      exact ⟨blk, List.mem_cons_self _ _, by rw [hb]; exact h⟩
    | none =>
      rw [hb] at h
      obtain ⟨blk', hmem, hr⟩ := ih h
      exact ⟨blk', List.mem_cons_of_mem _ hmem, hr⟩

theorem firstMatch_none_all {blocks : List (Locals → Option Step)} {st : Locals}
    (h : firstMatch blocks st = none) : ∀ blk ∈ blocks, blk st = none := by
  induction blocks with
  | nil => simp
  | cons blk blocks ih =>
    unfold firstMatch at h
    cases hb : blk st with
    | some r' => rw [hb] at h; simp at h
    | none =>
      rw [hb] at h
      intro blk' hmem
      rcases List.mem_cons.1 hmem with rfl | hmem
      · exact hb
      · exact ih h blk' hmem

theorem onFlag_eq_some {argv : List String} {i : Nat} {s l : String} {blk : Locals → Locals}
    {st : Locals} {r : Step} :
    onFlag argv i s l blk st = some r ↔
      (s = tokenAt argv i ∨ l = tokenAt argv i) ∧ r = .next i (blk st) := by
  unfold onFlag GetFlagArgument
  by_cases hc : s = tokenAt argv i ∨ l = tokenAt argv i
  · simp only [hc, if_true, Option.some.injEq, true_and]
    exact eq_comm
  · simp [hc]

theorem onFlag_eq_none {argv : List String} {i : Nat} {s l : String} {blk : Locals → Locals}
    {st : Locals} :
    onFlag argv i s l blk st = none ↔ ¬ (s = tokenAt argv i ∨ l = tokenAt argv i) := by
  unfold onFlag GetFlagArgument
  by_cases hc : s = tokenAt argv i ∨ l = tokenAt argv i
  · simp [hc]
  · simp [hc]

theorem onString_some {argc : Nat} {argv : List String} {i : Nat} {s l : String}
    {blk : String → Locals → Locals} {st : Locals} {r : Step}
    (h : onString argc argv i s l blk st = some r) :
    (s = tokenAt argv i ∨ l = tokenAt argv i) ∧
      ((argc ≤ i + 1 ∧ ∃ msg, r = .exit 1 { st with log := st.log ++ [msg] }) ∨
        (i + 1 < argc ∧ r = .next (i + 1) (blk (tokenAt argv (i + 1)) st))) := by
  unfold onString GetStringArgument at h
  by_cases hc : s = tokenAt argv i ∨ l = tokenAt argv i
  · refine ⟨hc, ?_⟩
    by_cases ha : i + 1 ≥ argc
    · simp only [hc, ha, if_true, Option.some.injEq] at h
      exact Or.inl ⟨ha, _, h.symm⟩
    · simp only [hc, ha, if_true, if_false, Option.some.injEq] at h
      exact Or.inr ⟨by omega, h.symm⟩
  · simp [hc] at h

theorem onString_eq_none {argc : Nat} {argv : List String} {i : Nat} {s l : String}
    {blk : String → Locals → Locals} {st : Locals} :
    onString argc argv i s l blk st = none ↔ ¬ (s = tokenAt argv i ∨ l = tokenAt argv i) := by
  unfold onString GetStringArgument
  by_cases hc : s = tokenAt argv i ∨ l = tokenAt argv i
  · by_cases ha : i + 1 ≥ argc <;> simp [hc, ha]
  · simp [hc]

theorem onNumeric_some {env : Env} {argc : Nat} {argv : List String} {i : Nat} {s l : String}
    {lo hi : Double} {blk : Double → Locals → Locals} {st : Locals} {r : Step}
    (h : onNumeric env argc argv i s l lo hi blk st = some r) :
    (s = tokenAt argv i ∨ l = tokenAt argv i) ∧
      ((∃ msg, r = .exit 1 { st with log := st.log ++ [msg] }) ∨
        (i + 1 < argc ∧
          ((env.strtod (tokenAt argv (i + 1))).2 = "" ∧
            (env.strtod (tokenAt argv (i + 1))).1.lt lo = false ∧
            (env.strtod (tokenAt argv (i + 1))).1.gt hi = false) ∧
          r = .next (i + 1) (blk (env.strtod (tokenAt argv (i + 1))).1 st))) := by
  unfold onNumeric GetNumericArgument at h
  by_cases hc : s = tokenAt argv i ∨ l = tokenAt argv i
  · refine ⟨hc, ?_⟩
    by_cases ha : i + 1 ≥ argc
    · simp only [hc, ha, if_true, Option.some.injEq] at h
      exact Or.inl ⟨_, h.symm⟩
    · by_cases hv : (env.strtod (tokenAt argv (i + 1))).2 ≠ "" ∨
          (env.strtod (tokenAt argv (i + 1))).1.lt lo = true ∨
          (env.strtod (tokenAt argv (i + 1))).1.gt hi = true
      · simp only [hc, ha, hv, if_true, if_false, Option.some.injEq] at h
        exact Or.inl ⟨_, h.symm⟩
      · simp only [hc, ha, hv, if_true, if_false, Option.some.injEq] at h
        refine Or.inr ⟨by omega, ?_, h.symm⟩
        simp only [ne_eq, not_or, not_not, Bool.not_eq_true] at hv
        exact hv
  · simp [hc] at h

theorem onNumeric_eq_none {env : Env} {argc : Nat} {argv : List String} {i : Nat} {s l : String}
    {lo hi : Double} {blk : Double → Locals → Locals} {st : Locals} :
    onNumeric env argc argv i s l lo hi blk st = none ↔
      ¬ (s = tokenAt argv i ∨ l = tokenAt argv i) := by
  unfold onNumeric GetNumericArgument
  by_cases hc : s = tokenAt argv i ∨ l = tokenAt argv i
  · by_cases ha : i + 1 ≥ argc
    · simp [hc, ha]
    · by_cases hv : (env.strtod (tokenAt argv (i + 1))).2 ≠ "" ∨
          (env.strtod (tokenAt argv (i + 1))).1.lt lo = true ∨
          (env.strtod (tokenAt argv (i + 1))).1.gt hi = true
      · simp [hc, ha, hv]
      · simp only [hc, ha, hv, if_true, if_false]
        simp
  · simp [hc]

theorem scheme_not_in_tables {tok : String} {cs : List Char} (h : afterScheme tok = some cs) :
    recordedServerOnly tok = none ∧ recordedClientOnly tok = none ∧ isServerFlag tok = false ∧
      takesValue tok = false := by
  have key : ∀ n : String, afterScheme n = none → n ≠ tok := by
    intro n hn hnt
    rw [hnt, h] at hn
    exact Option.noConfusion hn
  have hs : isServerFlag tok = false := by
    have h1 := key "-s" (by decide)
    have h2 := key "--server" (by decide)
    simp [isServerFlag, h1, h2]
  have ht : takesValue tok = false := by
    have hall : ∀ n ∈ valueOptionNames, afterScheme n = none := by decide
    simp only [takesValue, List.any_eq_false, decide_eq_true_eq]
    intro n hn
    exact key n (hall n hn)
  refine ⟨?_, ?_, hs, ht⟩
  · have hall : ∀ e ∈ serverOnlyTable, afterScheme e.1 = none ∧ afterScheme e.2.1 = none := by
      decide
    simp only [recordedServerOnly, hs, recordedIn, Bool.false_eq_true, if_false,
      Option.map_eq_none', List.find?_eq_none]
    intro e he
    have := hall e he
    simp [key e.1 this.1, key e.2.1 this.2]
  · have hall : ∀ e ∈ clientOnlyTable, afterScheme e.1 = none ∧ afterScheme e.2.1 = none := by
      decide
    simp only [recordedClientOnly, recordedIn, Option.map_eq_none', List.find?_eq_none]
    intro e he
    have := hall e he
    simp [key e.1 this.1, key e.2.1 this.2]

theorem helpAndVersion_exit {env : Env} {argv : List String} {i : Nat} {st : Locals} {r : Step}
    (h : helpAndVersion env argv i st = some r) : ∃ st', r = .exit 0 st' := by
  unfold helpAndVersion at h
  split_ifs at h
  · exact ⟨_, (Option.some.inj h).symm⟩
  · exact ⟨_, (Option.some.inj h).symm⟩

theorem singleArgumentUri_some {argc : Nat} {argv : List String} {i : Nat} {st : Locals}
    {r : Step} (h : singleArgumentUri argc argv i st = some r) :
    argc = 2 ∧ ∃ captured cs, afterScheme (tokenAt argv 1) = some cs ∧
      (rx_gen2 (tokenAt argv 1) = some captured ∨
        (rx_gen2 (tokenAt argv 1) = none ∧ rx_gen1 (tokenAt argv 1) = some captured)) ∧
      r = .next i
        ({ st with strConnOnStartupAddress := captured }
          |>.qInfo "- autoconnect on startup to address: %1" [.str captured]
          |>.pushOption "--autoconnect") := by
  unfold singleArgumentUri at h
  split_ifs at h with hargc
  refine ⟨hargc, ?_⟩
  cases h2 : rx_gen2 (tokenAt argv 1) with
  | some captured =>
    rw [h2] at h
    have hs : ∃ cs, afterScheme (tokenAt argv 1) = some cs := by
      unfold rx_gen2 at h2
      cases ha : afterScheme (tokenAt argv 1) with
      | none => rw [ha] at h2; simp at h2
      | some cs => exact ⟨cs, rfl⟩
    obtain ⟨cs, hcs⟩ := hs
    exact ⟨captured, cs, hcs, Or.inl rfl, (Option.some.inj h).symm⟩
  | none =>
    rw [h2] at h
    cases h1 : rx_gen1 (tokenAt argv 1) with
    | none => rw [h1] at h; simp at h
    | some captured =>
      rw [h1] at h
      have hs : ∃ cs, afterScheme (tokenAt argv 1) = some cs := by
        unfold rx_gen1 at h1
        cases ha : afterScheme (tokenAt argv 1) with
        | none => rw [ha] at h1; simp at h1
        | some cs => exact ⟨cs, rfl⟩
      obtain ⟨cs, hcs⟩ := hs
      exact ⟨captured, cs, hcs, Or.inr ⟨rfl, rfl⟩, (Option.some.inj h).symm⟩

set_option maxHeartbeats 1000000 in
theorem optionBlocks_effect (g : Globals) (env : Env) (argc : Nat) (argv : List String) (i : Nat)
    (hi : argc = 2 → i = 1) :
    ∀ blk ∈ optionBlocks g env argc argv i, ∀ st r, blk st = some r →
      StepEffect (tokenAt argv i) i st r := by
  simp only [optionBlocks, commonOptions, serverOptions, clientOptions, undocumentedOptions,
    List.forall_mem_cons, List.forall_mem_append, List.not_mem_nil, false_implies, implies_true,
    and_true]
  repeat' apply And.intro
  all_goals
    intro st r h
    first
    | (obtain ⟨hc, rfl⟩ := onFlag_eq_some.1 h
       rcases hc with hc | hc <;> rw [← hc] <;>
         simp [StepEffect, isServerFlag, recordedServerOnly, recordedClientOnly, recordedIn,
           serverOnlyTable, clientOnlyTable, takesValue, valueOptionNames, Locals.qInfo,
           Locals.pushOption, Locals.pushServerOnly, Locals.pushClientOnly])
    | (obtain ⟨hc, (⟨_, _, rfl⟩ | ⟨_, rfl⟩)⟩ := onString_some h
       · trivial
       · rcases hc with hc | hc <;> rw [← hc] <;>
           simp [StepEffect, isServerFlag, recordedServerOnly, recordedClientOnly, recordedIn,
             serverOnlyTable, clientOnlyTable, takesValue, valueOptionNames, Locals.qInfo,
             Locals.pushOption, Locals.pushServerOnly, Locals.pushClientOnly])
    | (obtain ⟨hc, (⟨_, rfl⟩ | ⟨_, _, rfl⟩)⟩ := onNumeric_some h
       · trivial
       · rcases hc with hc | hc <;> rw [← hc] <;>
           simp [StepEffect, isServerFlag, recordedServerOnly, recordedClientOnly, recordedIn,
             serverOnlyTable, clientOnlyTable, takesValue, valueOptionNames, Locals.qInfo,
             Locals.pushOption, Locals.pushServerOnly, Locals.pushClientOnly])
    | (obtain ⟨_, rfl⟩ := helpAndVersion_exit h
       trivial)
    | (obtain ⟨hargc, captured, cs, hcs, _, rfl⟩ := singleArgumentUri_some h
       rw [← hi hargc] at hcs
       obtain ⟨h1, h2, h3, h4⟩ := scheme_not_in_tables hcs
       simp [StepEffect, h1, h2, h3, h4, Locals.qInfo, Locals.pushOption])

/-- What one iteration of the loop does to the role lists and to the mode. -/
theorem loopBody_effect (b : Build) (g : Globals) (env : Env) (argc : Nat) (argv : List String)
    (i : Nat) (st : Locals) (hi : argc = 2 → i = 1) :
    StepEffect (tokenAt argv i) i st (loopBody b g env argc argv i st) := by
  unfold loopBody
  cases hf : firstMatch (optionBlocks g env argc argv i) st with
  | some r =>
    obtain ⟨blk, hmem, hblk⟩ := firstMatch_some_mem hf
    exact optionBlocks_effect g env argc argv i hi blk hmem st r hblk
  | none =>
    have hall := firstMatch_none_all hf
    simp only [optionBlocks, commonOptions, serverOptions, clientOptions, undocumentedOptions,
      List.forall_mem_cons, List.forall_mem_append, List.not_mem_nil, false_implies, implies_true,
      and_true, onFlag_eq_none, onString_eq_none, onNumeric_eq_none, not_or] at hall
    simp only [unknownOption]
    split
    · trivial
    · simp [StepEffect, isServerFlag, recordedServerOnly, recordedClientOnly, recordedIn,
        serverOnlyTable, clientOnlyTable, takesValue, valueOptionNames, Locals.qCritical, hall]

/-! ## The option loop as a whole -/

/-- With as many iterations allowed as there are tokens left, the loop is
never cut short. -/
theorem optionLoop_finished (b : Build) (g : Globals) (env : Env) (argv : List String) :
    ∀ (fuel i : Nat) (st : Locals), 1 ≤ i → argv.length ≤ fuel + i →
      ∀ st', optionLoop b g env argv fuel i st ≠ .unfinished st' := by
  intro fuel
  induction fuel with
  | zero =>
    intro i st _ hlen st' h
    have : ¬ i < argv.length := by omega
    simp [optionLoop, this] at h
  | succ fuel ih =>
    intro i st hi hlen st' h
    unfold optionLoop at h
    split_ifs at h with hlt
    have heff := loopBody_effect b g env argv.length argv i st (by omega)
    cases hb : loopBody b g env argv.length argv i st with
    | exit code st₁ => rw [hb] at h; simp at h
    | next i' st₁ =>
      rw [hb] at h heff
      obtain ⟨hi', -⟩ := heff
      have : i ≤ i' := by rw [hi']; split_ifs <;> omega
      exact ih (i' + 1) st₁ (by omega) (by omega) st' h

/-- The role lists and the mode at the end of the loop, in terms of the tokens
at the option positions. -/
theorem optionLoop_effect (b : Build) (g : Globals) (env : Env) (argv : List String) :
    ∀ (fuel i : Nat) (st st' : Locals), 1 ≤ i →
      optionLoop b g env argv fuel i st = .done st' →
      st'.ServerOnlyOptions = st.ServerOnlyOptions ++
          (optionPositions b g env argv fuel i st).filterMap
            (fun j => recordedServerOnly (tokenAt argv j)) ∧
      st'.ClientOnlyOptions = st.ClientOnlyOptions ++
          (optionPositions b g env argv fuel i st).filterMap
            (fun j => recordedClientOnly (tokenAt argv j)) ∧
      st'.bIsClient = (st.bIsClient &&
          (optionPositions b g env argv fuel i st).all (fun j => !isServerFlag (tokenAt argv j))) ∧
      st'.fsOps = st.fsOps := by
  intro fuel
  induction fuel with
  | zero =>
    intro i st st' _ h
    unfold optionLoop at h
    split_ifs at h
    cases h
    simp [optionPositions]
  | succ fuel ih =>
    intro i st st' hi h
    unfold optionLoop at h
    unfold optionPositions
    split_ifs at h with hlt
    · have heff := loopBody_effect b g env argv.length argv i st (by omega)
      cases hb : loopBody b g env argv.length argv i st with
      | exit code st₁ => rw [hb] at h; simp at h
      | next i' st₁ =>
        rw [hb] at h heff
        obtain ⟨hi', hs, hc, hm, hf⟩ := heff
        obtain ⟨ihs, ihc, ihm, ihf⟩ := ih (i' + 1) st₁ st' (by omega) h
        simp only [hlt, if_true, List.filterMap_cons, List.all_cons]
        refine ⟨?_, ?_, ?_, ihf.trans hf⟩
        · rw [ihs, hs]
          cases recordedServerOnly (tokenAt argv i) <;> simp
        · rw [ihc, hc]
          cases recordedClientOnly (tokenAt argv i) <;> simp
        · rw [ihm, hm, Bool.and_assoc]
    · cases h
      simp [hlt]

/-! ## Mode conflicts -/

/-- C1, as stated, does not hold when a help or version option stands at an
option position.  In the standard build the vector `-d --help` has no usage
error, no server flag, and the server only option `-d` at an option position;
the option loop ends the process at `--help` with exit code 0, before the
check of the mode: no critical message is written and no actor is
constructed. -/
theorem C1_help_ends_before_mode_check :
    parsePositions stdBuild stdGlobals stdEnv ["koord", "-d", "--help"] = [1, 2] ∧
    isServerFlag "-d" = false ∧ isServerFlag "--help" = false ∧
    recordedIn serverOnlyTable "-d" = some "--discononquit" ∧
    parseOptions stdBuild stdGlobals stdEnv ["koord", "-d", "--help"] =
      .exit 0 (main stdBuild stdGlobals stdEnv ["koord", "-d", "--help"]).st ∧
    (main stdBuild stdGlobals stdEnv ["koord", "-d", "--help"]).exitCode = some 0 ∧
    (main stdBuild stdGlobals stdEnv ["koord", "-d", "--help"]).exitCode ≠ some 1 ∧
    (main stdBuild stdGlobals stdEnv ["koord", "-d", "--help"]).st.ServerOnlyOptions =
      ["--discononquit"] ∧
    (main stdBuild stdGlobals stdEnv ["koord", "-d", "--help"]).st.bIsClient = true ∧
    (∀ m ∈ (main stdBuild stdGlobals stdEnv ["koord", "-d", "--help"]).st.log,
      m.level ≠ .critical) ∧
    (main stdBuild stdGlobals stdEnv ["koord", "-d", "--help"]).actor = none := by
  exact ⟨by decide, by decide, by decide, by decide, rfl, by decide, by decide, by decide,
    by decide, by decide, by decide⟩

/-- C1, amended.  In a build whose default mode is Client, let the option loop
run to its end (no usage error and no help or version option ends the process
inside the loop) on an argument vector in which no token at an option position
is the server flag `-s`/`--server` and some token at an option position is a
server only option of the table.  Then `main` ends with exit code 1; the last
message is the mode-conflict message, whose text refers to the omitted
`--server` and whose argument lists the names of the server only options at
the option positions; apart from that message (and the notice of a build
without GUI) the local variables are those the loop left, so no check of a
value has run; no file was touched, no JSON-RPC server started and no actor
constructed. -/
theorem C1_server_only_option_without_server_flag (b : Build) (g : Globals) (env : Env)
    (argv : List String) (st : Locals)
    (hdefault : b.serverByDefault = false)
    (hparse : parseOptions b g env argv = .done st)
    (hnoflag : ∀ j ∈ parsePositions b g env argv, isServerFlag (tokenAt argv j) = false)
    (hopt : ∃ j ∈ parsePositions b g env argv,
      (recordedIn serverOnlyTable (tokenAt argv j)).isSome = true) :
    main b g env argv =
      { exitCode := some 1
        st := (headlessDependency b st).qCritical
          "%1: Server only option(s) '%2' used.  Did you omit '--server'?"
          [.str (tokenAt argv 0),
           .str (", ".intercalate ((parsePositions b g env argv).filterMap
              fun j => recordedIn serverOnlyTable (tokenAt argv j)))]
        pRpcServer := none
        actor := none } ∧
    (headlessDependency b st).fsOps = [] := by
  obtain ⟨hs, -, hm, hfs0⟩ := optionLoop_effect b g env argv argv.length 1 (initialLocals b g) st
    (le_refl 1) hparse
  have hpos : optionPositions b g env argv argv.length 1 (initialLocals b g) =
      parsePositions b g env argv := rfl
  rw [hpos] at hs hm
  have hfilter : (parsePositions b g env argv).filterMap
        (fun j => recordedServerOnly (tokenAt argv j)) =
      (parsePositions b g env argv).filterMap
        (fun j => recordedIn serverOnlyTable (tokenAt argv j)) := by
    apply List.filterMap_congr
    intro j hj
    simp [recordedServerOnly, hnoflag j hj]
  have hclient : st.bIsClient = true := by
    rw [hm]
    simp only [initialLocals, hdefault, Bool.not_false, Bool.true_and, List.all_eq_true]
    intro j hj
    simp [hnoflag j hj]
  have hsoo : st.ServerOnlyOptions = (parsePositions b g env argv).filterMap
        (fun j => recordedIn serverOnlyTable (tokenAt argv j)) := by
    rw [hs, hfilter]; simp [initialLocals]
  have hne : st.ServerOnlyOptions.length ≠ 0 := by
    obtain ⟨j, hj, hsome⟩ := hopt
    obtain ⟨name, hname⟩ := Option.isSome_iff_exists.1 hsome
    have : name ∈ st.ServerOnlyOptions := by
      rw [hsoo]; exact List.mem_filterMap.2 ⟨j, hj, hname⟩
    intro h0
    rw [List.length_eq_zero] at h0
    rw [h0] at this
    exact List.not_mem_nil _ this
  have hso : b.SERVER_ONLY = false := by
    simp only [Build.serverByDefault, Bool.or_eq_false_iff] at hdefault
    exact hdefault.2
  have hh1 : (headlessDependency b st).bIsClient = true := by
    unfold headlessDependency; split_ifs <;> simp [Locals.qWarning, hclient]
  have hh2 : (headlessDependency b st).ServerOnlyOptions = st.ServerOnlyOptions := by
    unfold headlessDependency; split_ifs <;> simp [Locals.qWarning]
  have hfs : (headlessDependency b st).fsOps = st.fsOps := by
    unfold headlessDependency; split_ifs <;> simp [Locals.qWarning]
  refine ⟨?_, ?_⟩
  · simp only [main, hparse, serverOnlyDependency, hso, Bool.false_eq_true, if_false,
      modeAndValidation, hh1, if_true, hh2, hne, ne_eq, not_false_eq_true]
    rw [hsoo]
  · rw [hfs, hfs0]; rfl

/-- C1, amended, an instance: `-d` alone in the standard build. -/
theorem C1_server_only_option_without_server_flag_witness :
    (main stdBuild stdGlobals stdEnv ["koord", "-d"]).exitCode = some 1 ∧
    (main stdBuild stdGlobals stdEnv ["koord", "-d"]).actor = none ∧
    ((main stdBuild stdGlobals stdEnv ["koord", "-d"]).st.log.getLast?).map (·.args) =
      some [.str "koord", .str "--discononquit"] := by
  have h := C1_server_only_option_without_server_flag stdBuild stdGlobals stdEnv ["koord", "-d"]
    _ (by decide) (by rfl) (by decide) (by decide)
  rw [h.1]
  decide

/-- C2, the code at the failing inputs.  In the standard build the vector
`--server --autoconnect koord://1.2.3.4` passes the check of the mode (the
block of `--autoconnect` adds nothing to `ClientOnlyOptions`): `main` returns
0 and the server is constructed.  In the build of the server alone the single
argument `koord://1.2.3.4` does the same through the shortcut. -/
theorem C2_autoconnect_passes_in_server_mode :
    (main stdBuild stdGlobals stdEnv
        ["koord", "--server", "--autoconnect", "koord://1.2.3.4"]).exitCode = some 0 ∧
    (main stdBuild stdGlobals stdEnv
        ["koord", "--server", "--autoconnect", "koord://1.2.3.4"]).ranServer = true ∧
    (main stdBuild stdGlobals stdEnv
        ["koord", "--server", "--autoconnect", "koord://1.2.3.4"]).st.ClientOnlyOptions = [] ∧
    (main serverOnlyBuild stdGlobals stdEnv ["koord", "koord://1.2.3.4"]).exitCode = some 0 ∧
    (main serverOnlyBuild stdGlobals stdEnv ["koord", "koord://1.2.3.4"]).ranServer = true := by
  decide

/-! ## The numeric matcher -/

/-- C4, the code at the failing input.  For the empty token `strtod` converts
nothing: it returns zero and leaves `p` at the start of the token, where the
terminating zero stands, so the test `*p` fails to see it.  `GetNumericArgument`
therefore accepts `--port ""` as the value 0 and advances the index, and `main`
runs the client on port 0 instead of ending with exit code 1. -/
theorem C4_empty_token_accepted :
    strtodDecimal "" = (.finite 0 0, "") ∧
    GetNumericArgument strtodDecimal 3 ["koord", "--port", ""] 1 "-p" "--port"
        (.ofInt 0) (.ofInt 65535) = .matched 2 (.finite 0 0) ∧
    (main stdBuild stdGlobals stdEnv ["koord", "--port", ""]).exitCode = some 0 ∧
    (main stdBuild stdGlobals stdEnv ["koord", "--port", ""]).ranClient = true ∧
    (main stdBuild stdGlobals stdEnv ["koord", "--port", ""]).st.iPortNumber = 0 := by
  decide

theorem Double.ofInt_lt_ofInt (m n : Int) :
    (Double.ofInt m).lt (Double.ofInt n) = decide (m < n) := by
  simp [Double.ofInt, Double.lt]

theorem Double.toUInt16_ofInt {n : Int} (h₀ : 0 ≤ n) (h₁ : n ≤ 65535) :
    ((Double.ofInt n).toUInt16 : Int) = n := by
  simp only [Double.toUInt16, Double.ofInt, Double.truncate, pow_zero, Int.tdiv_one]
  rw [Int.toNat_of_nonneg (Int.emod_nonneg _ (by norm_num))]
  exact Int.emod_eq_of_lt h₀ (by omega)

theorem Double.toInt32_ofInt {n : Int} (h₀ : -2147483648 ≤ n) (h₁ : n < 2147483648) :
    (Double.ofInt n).toInt32 = n := by
  simp only [Double.toInt32, Double.ofInt, Double.truncate, pow_zero, Int.tdiv_one]
  rw [Int.emod_eq_of_lt (by omega) (by omega)]
  omega

/-- C5, the claim refuted at a bound: `--port 0` and `--port 65535` are not
rejected; `main` goes on to run the client on that port. -/
theorem C5_bounds_are_accepted :
    (main stdBuild stdGlobals stdEnv ["koord", "--port", "0"]).exitCode = some 0 ∧
    (main stdBuild stdGlobals stdEnv ["koord", "--port", "0"]).st.iPortNumber = 0 ∧
    (main stdBuild stdGlobals stdEnv ["koord", "--port", "65535"]).exitCode = some 0 ∧
    (main stdBuild stdGlobals stdEnv ["koord", "--port", "65535"]).st.iPortNumber = 65535 := by
  decide

set_option maxHeartbeats 1000000 in
/-- C5, amended.  Let the token at an option position be the short or the long
name of one of the four numeric options, and let `strtod` convert the token
that follows, in full, to the integer `n`.  If `n` lies in the range of the
option, bounds included, the block of the option runs: the loop goes on after
the value and the variable of the option holds `n`.  If `n` lies outside the
range, the iteration ends with exit code 1. -/
theorem C5_numeric_option_inclusive_range (b : Build) (g : Globals) (env : Env)
    (argv : List String) (i : Nat) (st : Locals) (o : NumericOption) (n : Int)
    (hmax : g.MAX_NUM_CHANNELS < 2147483648)
    (hnext : i + 1 < argv.length)
    (hname : tokenAt argv i = o.shortName ∨ tokenAt argv i = o.longName)
    (hconv : env.strtod (tokenAt argv (i + 1)) = (Double.ofInt n, "")) :
    (o.rangeStart ≤ n ∧ n ≤ o.rangeStop g →
      ∃ st', loopBody b g env argv.length argv i st = .next (i + 1) st' ∧ o.stored st' = n) ∧
    (¬ (o.rangeStart ≤ n ∧ n ≤ o.rangeStop g) →
      ∃ st', loopBody b g env argv.length argv i st = .exit 1 st') := by
  have hlen : ¬ (i + 1 ≥ argv.length) := by omega
  cases o <;> rcases hname with hname | hname <;>
    simp only [NumericOption.shortName, NumericOption.longName] at hname <;>
    simp only [NumericOption.rangeStart, NumericOption.rangeStop, NumericOption.stored] <;>
    refine ⟨fun hr => ?_, fun hr => ?_⟩
  all_goals
    first
    | (obtain ⟨h₀, h₁⟩ := hr
       simp [loopBody, optionBlocks, commonOptions, serverOptions, firstMatch, helpAndVersion,
         onString, onFlag, onNumeric, GetFlagArgument, GetStringArgument, GetNumericArgument,
         hname, hconv, hlen, Double.ofInt_lt_ofInt, Double.gt, Locals.qInfo, Locals.pushOption,
         Locals.pushServerOnly, not_lt.2 h₀, not_lt.2 h₁]
       first
       | exact Double.toUInt16_ofInt h₀ (by omega)
       | exact Double.toInt32_ofInt (by omega) (by omega))
    | (rw [not_and_or, not_le, not_le] at hr
       simp [loopBody, optionBlocks, commonOptions, serverOptions, firstMatch, helpAndVersion,
         onString, onFlag, onNumeric, GetFlagArgument, GetStringArgument, GetNumericArgument,
         hname, hconv, hlen, Double.ofInt_lt_ofInt, Double.gt, hr])

/-- C5 amended, an instance: `--qos 255`, the upper bound, is stored, and
`--qos 256` ends the process with exit code 1. -/
theorem C5_numeric_option_inclusive_range_witness :
    (∃ st', loopBody stdBuild stdGlobals stdEnv 3 ["koord", "--qos", "255"] 1
        (initialLocals stdBuild stdGlobals) = .next 2 st' ∧ (st'.iQosNumber : Int) = 255) ∧
    (∃ st', loopBody stdBuild stdGlobals stdEnv 3 ["koord", "--qos", "256"] 1
        (initialLocals stdBuild stdGlobals) = .exit 1 st') :=
  ⟨(C5_numeric_option_inclusive_range stdBuild stdGlobals stdEnv ["koord", "--qos", "255"] 1
      (initialLocals stdBuild stdGlobals) .qos 255 (by decide) (by decide) (by decide)
      (by decide)).1 (by decide),
   (C5_numeric_option_inclusive_range stdBuild stdGlobals stdEnv ["koord", "--qos", "256"] 1
      (initialLocals stdBuild stdGlobals) .qos 256 (by decide) (by decide) (by decide)
      (by decide)).2 (by decide)⟩

/-! ## The stages after the checks -/

theorem applicationSetup_serverArgs (b : Build) (st : Locals) :
    serverArgs (applicationSetup b st) = serverArgs st ∧
    clientArgs (applicationSetup b st) = clientArgs st ∧
    (applicationSetup b st).log = st.log ∧ (applicationSetup b st).fsOps = st.fsOps := by
  unfold applicationSetup
  split_ifs <;> simp [serverArgs, clientArgs]

theorem rpcBootstrap_frame (g : Globals) (env : Env) (st : Locals) :
    match rpcBootstrap g env st with
    | .exit _ st' => serverArgs st' = serverArgs st ∧ clientArgs st' = clientArgs st ∧
        (∃ l, st'.log = st.log ++ l) ∧ st'.bIsClient = st.bIsClient ∧ st'.bUseGUI = st.bUseGUI
    | .ok st' _ => serverArgs st' = serverArgs st ∧ clientArgs st' = clientArgs st ∧
        (∃ l, st'.log = st.log ++ l) ∧ st'.bIsClient = st.bIsClient ∧ st'.bUseGUI = st.bUseGUI := by
  unfold rpcBootstrap
  dsimp only
  split_ifs <;>
    simp [serverArgs, clientArgs, Locals.qCritical, Locals.qWarning, Locals.fs]

theorem runActor_frame (b : Build) (g : Globals) (env : Env) (st : Locals)
    (p : Option RpcServer) :
    serverArgs (runActor b g env st p).st = serverArgs st ∧
    clientArgs (runActor b g env st p).st = clientArgs st ∧
    (∃ l, (runActor b g env st p).st.log = st.log ++ l) ∧
    (∀ args, (runActor b g env st p).actor = some (.server args) → args = serverArgs st) ∧
    (∀ args, (runActor b g env st p).actor = some (.client args) → args = clientArgs st) := by
  unfold runActor catchGenErr
  split_ifs <;> split <;>
    simp [serverArgs, clientArgs, Locals.qCritical, Locals.qInfo, eq_comm]

/-- The stages after the checks of the values hand the values on unchanged:
the actor constructed gets the arguments the checks left, and the messages
written before stay in place. -/
theorem afterValidation_frame (b : Build) (g : Globals) (env : Env) (st : Locals) :
    serverArgs (afterValidation b g env st).st = serverArgs st ∧
    clientArgs (afterValidation b g env st).st = clientArgs st ∧
    (∃ l, (afterValidation b g env st).st.log = st.log ++ l) ∧
    (∀ args, (afterValidation b g env st).actor = some (.server args) → args = serverArgs st) ∧
    (∀ args, (afterValidation b g env st).actor = some (.client args) → args = clientArgs st) := by
  obtain ⟨ha₁, ha₂, ha₃, -⟩ := applicationSetup_serverArgs b st
  unfold afterValidation
  split_ifs
  · simp [ha₁, ha₂, ha₃]
  · have hr := rpcBootstrap_frame g env (applicationSetup b st)
    split
    · rename_i code st₁ heq
      rw [heq] at hr
      obtain ⟨h₁, h₂, ⟨l, h₃⟩, -⟩ := hr
      simp [h₁, h₂, h₃, ha₁, ha₂, ha₃]
    · rename_i st₁ p heq
      rw [heq] at hr
      obtain ⟨h₁, h₂, ⟨l, h₃⟩, -⟩ := hr
      obtain ⟨k₁, k₂, ⟨l', k₃⟩, k₄, k₅⟩ := runActor_frame b g env st₁ p
      refine ⟨by rw [k₁, h₁, ha₁], by rw [k₂, h₂, ha₂], ⟨l ++ l', by rw [k₃, h₃, ha₃, List.append_assoc]⟩, ?_, ?_⟩
      · intro args h; rw [k₄ args h, h₁, ha₁]
      · intro args h; rw [k₅ args h, h₂, ha₂]

/-! ## The checks of the values in the server without GUI -/

theorem headlessDependency_frame (b : Build) (st : Locals) :
    (headlessDependency b st).bIsClient = st.bIsClient ∧
    (headlessDependency b st).bUseGUI = (st.bUseGUI && !b.HEADLESS) ∧
    (headlessDependency b st).ServerOnlyOptions = st.ServerOnlyOptions ∧
    (headlessDependency b st).ClientOnlyOptions = st.ClientOnlyOptions ∧
    (headlessDependency b st).fsOps = st.fsOps ∧
    serverArgs (headlessDependency b st) = serverArgs st ∧
    clientArgs (headlessDependency b st) = clientArgs st ∧
    (headlessDependency b st).strIniFileName = st.strIniFileName ∧
    (headlessDependency b st).bCustomPortNumberGiven = st.bCustomPortNumberGiven := by
  unfold headlessDependency
  split_ifs with h₁ h₂ <;> simp_all [Locals.qWarning, serverArgs, clientArgs]

theorem checkFilterEntry_log (env : Env) (entry : String) (st : Locals) :
    ∃ l, checkFilterEntry env entry st = { st with log := st.log ++ l } := by
  unfold checkFilterEntry
  split_ifs
  · exact ⟨[], by simp⟩
  · exact ⟨_, rfl⟩
  · exact ⟨_, rfl⟩
  · exact ⟨[], by simp⟩

theorem foldl_checkFilterEntry_log (env : Env) (entries : List String) :
    ∀ st : Locals, ∃ l, entries.foldl (fun acc entry => checkFilterEntry env entry acc) st =
      { st with log := st.log ++ l } := by
  induction entries with
  | nil => intro st; exact ⟨[], by simp⟩
  | cons e es ih =>
    intro st
    obtain ⟨l₁, h₁⟩ := checkFilterEntry_log env e st
    obtain ⟨l₂, h₂⟩ := ih (checkFilterEntry env e st)
    refine ⟨l₁ ++ l₂, ?_⟩
    rw [List.foldl_cons, h₂, h₁]
    simp

/-- The check of the server list filter writes messages and changes nothing
else. -/
theorem checkServerListFilter_log (env : Env) (st : Locals) :
    ∃ l, checkServerListFilter env st = { st with log := st.log ++ l } := by
  unfold checkServerListFilter
  split_ifs
  · exact foldl_checkFilterEntry_log env _ st
  · exact ⟨[], by simp⟩

theorem checkServerListFile_frame (env : Env) (st : Locals) :
    (checkServerListFile env st).strServerListFilter = st.strServerListFilter ∧
    (checkServerListFile env st).strDirectoryServer = st.strDirectoryServer ∧
    (checkServerListFile env st).strServerPublicIP = st.strServerPublicIP ∧
    (checkServerListFile env st).strServerBindIP = st.strServerBindIP := by
  unfold checkServerListFile
  dsimp only
  split_ifs <;> simp [Locals.qWarning, Locals.fs]

theorem checkServerPublicIP_frame (env : Env) (st : Locals) :
    (checkServerPublicIP env st).strServerListFilter = st.strServerListFilter ∧
    (checkServerPublicIP env st).strServerListFileName = st.strServerListFileName ∧
    (checkServerPublicIP env st).strServerBindIP = st.strServerBindIP ∧
    (checkServerPublicIP env st).fsOps = st.fsOps ∧
    ∃ l, (checkServerPublicIP env st).log = st.log ++ l := by
  unfold checkServerPublicIP
  split_ifs <;> simp [Locals.qWarning]

theorem checkServerBindIP_frame (env : Env) (st : Locals) :
    (checkServerBindIP env st).strServerListFilter = st.strServerListFilter ∧
    (checkServerBindIP env st).strServerListFileName = st.strServerListFileName ∧
    (checkServerBindIP env st).strServerPublicIP = st.strServerPublicIP ∧
    (checkServerBindIP env st).fsOps = st.fsOps ∧
    ∃ l, (checkServerBindIP env st).log = st.log ++ l := by
  unfold checkServerBindIP
  split_ifs <;> simp [Locals.qWarning]

/-- The branch taken when the directory server is not this host: the file name
is cleared in both steps, the filter in none; a given file name brings the
warning about the file, a given filter the warning about the filter. -/
theorem notDirectoryServer_spec (st : Locals) :
    (notDirectoryServer st).strServerListFilter = st.strServerListFilter ∧
    (notDirectoryServer st).fsOps = st.fsOps ∧
    (st.strServerListFileName ≠ "" → (notDirectoryServer st).strServerListFileName = "" ∧
      (⟨.warning,
        "Server list persistence file will only take effect when running as a directory server.",
        []⟩ : Msg) ∈ (notDirectoryServer st).log) ∧
    (st.strServerListFilter ≠ "" →
      (⟨.warning, "Server list filter will only take effect when running as a directory server.",
        []⟩ : Msg) ∈ (notDirectoryServer st).log) := by
  unfold notDirectoryServer
  dsimp only
  split_ifs <;> simp_all [Locals.qWarning]

/-- C8, the code at the failing input.  In the server without GUI, with no
directory server address and with `--listfilter 1.2.3.4`, the warning about the
filter is written and the run goes on, yet the filter is not cleared: the
branch assigns the empty string to `strServerListFileName`, and the server is
constructed with the filter `1.2.3.4`. -/
theorem C8_filter_not_cleared :
    (main headlessBuild stdGlobals stdEnv
        ["koord", "--server", "--listfilter", "1.2.3.4"]).exitCode = some 0 ∧
    (main headlessBuild stdGlobals stdEnv
        ["koord", "--server", "--listfilter", "1.2.3.4"]).ranServer = true ∧
    (⟨.warning, "Server list filter will only take effect when running as a directory server.",
        []⟩ : Msg) ∈
      (main headlessBuild stdGlobals stdEnv
        ["koord", "--server", "--listfilter", "1.2.3.4"]).st.log ∧
    (∀ args, (main headlessBuild stdGlobals stdEnv
        ["koord", "--server", "--listfilter", "1.2.3.4"]).actor = some (.server args) →
      args.strServerListFilter = "1.2.3.4") ∧
    (main headlessBuild stdGlobals stdEnv
        ["koord", "--server", "--directoryserver", "example.org", "--listfilter",
          "1.2.3.4"]).st.strServerListFilter = "1.2.3.4" := by
  refine ⟨by decide, by decide, by decide, ?_, by decide⟩
  intro args h
  have : (main headlessBuild stdGlobals stdEnv
      ["koord", "--server", "--listfilter", "1.2.3.4"]).actor =
      some (.server (serverArgs (main headlessBuild stdGlobals stdEnv
        ["koord", "--server", "--listfilter", "1.2.3.4"]).st)) := by decide
  rw [this] at h
  cases h
  decide

/-- The server without GUI whose directory server is not this host: the checks
of the values go through, the persistence file name is cleared whenever it was
given and the filter is left as it was. -/
theorem modeAndValidation_off_directory (env : Env) (argv : List String) (st : Locals)
    (hserver : st.bIsClient = false) (hgui : st.bUseGUI = false)
    (hcoo : st.ClientOnlyOptions = [])
    (hnot : equalsLocalhostIgnoringCase st.strDirectoryServer = false)
    (hnot' : st.strDirectoryServer ≠ "127.0.0.1") :
    ∃ st₂, modeAndValidation env argv st = .ok st₂ ∧
      st₂.strServerListFilter = st.strServerListFilter ∧
      st₂.fsOps = st.fsOps ∧
      (st.strServerListFileName ≠ "" → st₂.strServerListFileName = "" ∧
        (⟨.warning,
          "Server list persistence file will only take effect when running as a directory server.",
          []⟩ : Msg) ∈ st₂.log) := by
  refine ⟨checkServerBindIP env (headlessServerChecks env st),
    by simp [modeAndValidation, hserver, hcoo, hgui], ?_⟩
  set st₁ : Locals := checkIniFileName st with hst₁
  have e₁ : st₁.strDirectoryServer = st.strDirectoryServer ∧
      st₁.strServerListFileName = st.strServerListFileName ∧
      st₁.strServerListFilter = st.strServerListFilter ∧ st₁.fsOps = st.fsOps := by
    rw [hst₁]; unfold checkIniFileName; split_ifs <;> simp [Locals.qWarning]
  have hbranch : headlessServerChecks env st =
      checkServerPublicIP env (notDirectoryServer st₁) := by
    unfold headlessServerChecks
    simp only [← hst₁, e₁.1, hnot, hnot', Bool.false_eq_true, or_self, if_false]
  obtain ⟨n₁, n₂, n₃, -⟩ := notDirectoryServer_spec st₁
  obtain ⟨p₁, p₂, -, p₄, l, p₅⟩ := checkServerPublicIP_frame env (notDirectoryServer st₁)
  obtain ⟨b₁, b₂, -, b₄, l', b₅⟩ := checkServerBindIP_frame env (headlessServerChecks env st)
  rw [b₁, b₂, b₄, b₅, hbranch, p₁, p₂, p₄, p₅, n₁, n₂, e₁.2.2.1, e₁.2.2.2]
  refine ⟨rfl, rfl, ?_⟩
  intro hfile
  rw [← e₁.2.1] at hfile
  obtain ⟨hclear, hwarn⟩ := n₃ hfile
  exact ⟨hclear, by simp [hwarn]⟩

/-- C9. Let the option loop run to its end and leave the mode Server, no GUI
in use (by `--nogui` or by the build), no client only option recorded, a
directory server address that is not this host (the empty address included)
and a persistence file name that is not empty.  Then the checks of the values
go through and `main` goes on with the stages after them; the file name is
cleared, the warning about it is among the messages, the checks have done no
operation on the file system, and a server that is constructed gets the empty
file name. -/
theorem C9_persistence_file_cleared_off_directory (b : Build) (g : Globals) (env : Env)
    (argv : List String) (st : Locals)
    (hparse : parseOptions b g env argv = .done st)
    (hserver : st.bIsClient = false)
    (hheadless : b.HEADLESS = true ∨ st.bUseGUI = false)
    (hcoo : st.ClientOnlyOptions = [])
    (hnot : equalsLocalhostIgnoringCase st.strDirectoryServer = false)
    (hnot' : st.strDirectoryServer ≠ "127.0.0.1")
    (hfile : st.strServerListFileName ≠ "") :
    ∃ st₂, modeAndValidation env argv (headlessDependency b st) = .ok st₂ ∧
      main b g env argv = afterValidation b g env st₂ ∧
      st₂.strServerListFileName = "" ∧
      (⟨.warning,
        "Server list persistence file will only take effect when running as a directory server.",
        []⟩ : Msg) ∈ st₂.log ∧
      st₂.fsOps = [] ∧
      (main b g env argv).st.strServerListFileName = "" ∧
      (∀ args, (main b g env argv).actor = some (.server args) →
        args.strServerListFileName = "") := by
  obtain ⟨d₁, d₂, -, d₄, d₅, d₆, -⟩ := headlessDependency_frame b st
  have hgui : (headlessDependency b st).bUseGUI = false := by
    rw [d₂]; rcases hheadless with h | h <;> simp [h]
  have hargs := congrArg ServerArgs.strDirectoryServer d₆
  have hargs' := congrArg ServerArgs.strServerListFileName d₆
  simp only [serverArgs] at hargs hargs'
  obtain ⟨st₂, hok, -, hfs, hclear⟩ := modeAndValidation_off_directory env argv
    (headlessDependency b st) (by rw [d₁, hserver]) hgui (by rw [d₄, hcoo])
    (by rw [hargs]; exact hnot) (by rw [hargs]; exact hnot')
  obtain ⟨hempty, hwarn⟩ := hclear (by rw [hargs']; exact hfile)
  obtain ⟨-, -, -, hfs₀⟩ := optionLoop_effect b g env argv argv.length 1 (initialLocals b g) st
    (le_refl 1) hparse
  have hmain : main b g env argv = afterValidation b g env st₂ := by
    simp only [main, hparse, serverOnlyDependency, d₁, hserver, Bool.false_eq_true, if_false,
      ite_self, hok]
  obtain ⟨f₁, -, -, f₄, -⟩ := afterValidation_frame b g env st₂
  refine ⟨st₂, hok, hmain, hempty, hwarn, ?_, ?_, ?_⟩
  · rw [hfs, d₅, hfs₀]; rfl
  · rw [hmain]
    have := congrArg ServerArgs.strServerListFileName f₁
    simp only [serverArgs] at this
    rw [this, hempty]
  · intro args h
    rw [hmain] at h
    rw [f₄ args h]
    exact hempty

/-- C9, an instance: `-s --directoryfile servers.dat` in the build without
GUI, no directory server address given. -/
theorem C9_persistence_file_cleared_off_directory_witness :
    (main headlessBuild stdGlobals stdEnv
        ["koord", "-s", "--directoryfile", "servers.dat"]).st.strServerListFileName = "" ∧
    (∀ args, (main headlessBuild stdGlobals stdEnv
        ["koord", "-s", "--directoryfile", "servers.dat"]).actor = some (.server args) →
      args.strServerListFileName = "") := by
  obtain ⟨_, -, -, -, -, -, h₁, h₂⟩ := C9_persistence_file_cleared_off_directory headlessBuild
    stdGlobals stdEnv ["koord", "-s", "--directoryfile", "servers.dat"] _ (by rfl) (by decide)
    (by decide) (by decide) (by decide) (by decide) (by decide)
  exact ⟨h₁, h₂⟩

/-- The server without GUI whose directory server is this host: the checks of
the values go through and leave the filter as it was. -/
theorem modeAndValidation_on_directory (env : Env) (argv : List String) (st : Locals)
    (hserver : st.bIsClient = false) (hgui : st.bUseGUI = false)
    (hcoo : st.ClientOnlyOptions = [])
    (hloop : equalsLocalhostIgnoringCase st.strDirectoryServer = true ∨
      st.strDirectoryServer = "127.0.0.1") :
    ∃ st₂, modeAndValidation env argv st = .ok st₂ ∧
      st₂.strServerListFilter = st.strServerListFilter := by
  refine ⟨checkServerBindIP env (headlessServerChecks env st),
    by simp [modeAndValidation, hserver, hcoo, hgui], ?_⟩
  set st₁ : Locals := checkIniFileName st with hst₁
  have e₁ : st₁.strDirectoryServer = st.strDirectoryServer ∧
      st₁.strServerListFilter = st.strServerListFilter := by
    rw [hst₁]; unfold checkIniFileName; split_ifs <;> simp [Locals.qWarning]
  have hbranch : headlessServerChecks env st =
      checkServerPublicIP env (checkServerListFilter env (checkServerListFile env st₁)) := by
    unfold headlessServerChecks
    simp only [← hst₁, e₁.1, hloop, if_true]
  obtain ⟨b₁, -⟩ := checkServerBindIP_frame env (headlessServerChecks env st)
  obtain ⟨p₁, -⟩ := checkServerPublicIP_frame env
    (checkServerListFilter env (checkServerListFile env st₁))
  obtain ⟨l, hl⟩ := checkServerListFilter_log env (checkServerListFile env st₁)
  obtain ⟨f₁, -⟩ := checkServerListFile_frame env st₁
  rw [b₁, hbranch, p₁, hl]
  simp only []
  rw [f₁, e₁.2]

/-- C10. Let the option loop run to its end and leave the mode Server, no GUI
in use, no client only option recorded, and a directory server address that is
this host (`localhost` in any case of the letters, or `127.0.0.1`).  Then for
every list filter, whatever its entries, the checks of the values go through
(the check of the filter ends the run for no entry) and `main` goes on with
the stages after them; the filter is the string that was supplied, and a server
that is constructed gets that string. -/
theorem C10_filter_kept_on_directory (b : Build) (g : Globals) (env : Env)
    (argv : List String) (st : Locals)
    (hparse : parseOptions b g env argv = .done st)
    (hserver : st.bIsClient = false)
    (hheadless : b.HEADLESS = true ∨ st.bUseGUI = false)
    (hcoo : st.ClientOnlyOptions = [])
    (hloop : equalsLocalhostIgnoringCase st.strDirectoryServer = true ∨
      st.strDirectoryServer = "127.0.0.1") :
    ∃ st₂, modeAndValidation env argv (headlessDependency b st) = .ok st₂ ∧
      main b g env argv = afterValidation b g env st₂ ∧
      st₂.strServerListFilter = st.strServerListFilter ∧
      (main b g env argv).st.strServerListFilter = st.strServerListFilter ∧
      (∀ args, (main b g env argv).actor = some (.server args) →
        args.strServerListFilter = st.strServerListFilter) := by
  obtain ⟨d₁, d₂, -, d₄, -, d₆, -⟩ := headlessDependency_frame b st
  have hgui : (headlessDependency b st).bUseGUI = false := by
    rw [d₂]; rcases hheadless with h | h <;> simp [h]
  have hargs := congrArg ServerArgs.strDirectoryServer d₆
  have hargs' := congrArg ServerArgs.strServerListFilter d₆
  simp only [serverArgs] at hargs hargs'
  obtain ⟨st₂, hok, hkeep⟩ := modeAndValidation_on_directory env argv
    (headlessDependency b st) (by rw [d₁, hserver]) hgui (by rw [d₄, hcoo])
    (by rw [hargs]; exact hloop)
  rw [hargs'] at hkeep
  have hmain : main b g env argv = afterValidation b g env st₂ := by
    simp only [main, hparse, serverOnlyDependency, d₁, hserver, Bool.false_eq_true, if_false,
      ite_self, hok]
  obtain ⟨f₁, -, -, f₄, -⟩ := afterValidation_frame b g env st₂
  refine ⟨st₂, hok, hmain, hkeep, ?_, ?_⟩
  · rw [hmain]
    have := congrArg ServerArgs.strServerListFilter f₁
    simp only [serverArgs] at this
    rw [this, hkeep]
  · intro args h
    rw [hmain] at h
    rw [f₄ args h]
    exact hkeep

/-- C10, an instance: the filter `1.2.3.4;nonsense;;[3.9.0]` on `localhost`
reaches the server as it was supplied. -/
theorem C10_filter_kept_on_directory_witness :
    (main headlessBuild stdGlobals stdEnv
        ["koord", "-s", "-e", "localhost", "-f", "1.2.3.4;nonsense;;[3.9.0]"]).exitCode =
      some 0 ∧
    (∀ args, (main headlessBuild stdGlobals stdEnv
        ["koord", "-s", "-e", "localhost", "-f", "1.2.3.4;nonsense;;[3.9.0]"]).actor =
          some (.server args) →
      args.strServerListFilter = "1.2.3.4;nonsense;;[3.9.0]") := by
  obtain ⟨_, -, -, -, -, h⟩ := C10_filter_kept_on_directory headlessBuild stdGlobals stdEnv
    ["koord", "-s", "-e", "localhost", "-f", "1.2.3.4;nonsense;;[3.9.0]"] _ (by rfl)
    (by decide) (by decide) (by decide) (by decide)
  exact ⟨by decide, h⟩

/-! ## The tokens an iteration reads -/

theorem onFlag_congr {argv argv' : List String} {i : Nat} (s l : String)
    (blk : Locals → Locals) (hi : tokenAt argv' i = tokenAt argv i) :
    onFlag argv' i s l blk = onFlag argv i s l blk := by
  funext st
  simp only [onFlag, GetFlagArgument, hi]

theorem onString_congr {argc : Nat} {argv argv' : List String} {i : Nat} {s l : String}
    (blk : String → Locals → Locals)
    (hs : takesValue s = true) (hl : takesValue l = true)
    (h0 : tokenAt argv' 0 = tokenAt argv 0) (hi : tokenAt argv' i = tokenAt argv i)
    (hn : takesValue (tokenAt argv i) = true → tokenAt argv' (i + 1) = tokenAt argv (i + 1)) :
    onString argc argv' i s l blk = onString argc argv i s l blk := by
  funext st
  by_cases hc : s = tokenAt argv i ∨ l = tokenAt argv i
  · have ht : takesValue (tokenAt argv i) = true := by
      rcases hc with h | h <;> rw [← h] <;> assumption
    simp only [onString, GetStringArgument, hi, h0, hn ht, Nat.add_sub_cancel]
  · simp [onString, GetStringArgument, hi, hc]

theorem onNumeric_congr {env : Env} {argc : Nat} {argv argv' : List String} {i : Nat}
    {s l : String} (lo hi' : Double) (blk : Double → Locals → Locals)
    (hs : takesValue s = true) (hl : takesValue l = true)
    (h0 : tokenAt argv' 0 = tokenAt argv 0) (hi : tokenAt argv' i = tokenAt argv i)
    (hn : takesValue (tokenAt argv i) = true → tokenAt argv' (i + 1) = tokenAt argv (i + 1)) :
    onNumeric env argc argv' i s l lo hi' blk = onNumeric env argc argv i s l lo hi' blk := by
  funext st
  by_cases hc : s = tokenAt argv i ∨ l = tokenAt argv i
  · have ht : takesValue (tokenAt argv i) = true := by
      rcases hc with h | h <;> rw [← h] <;> assumption
    simp only [onNumeric, GetNumericArgument, hi, h0, hn ht, Nat.add_sub_cancel]
  · simp [onNumeric, GetNumericArgument, hi, hc]

theorem helpAndVersion_congr {env : Env} {argv argv' : List String} {i : Nat}
    (h0 : tokenAt argv' 0 = tokenAt argv 0) (hi : tokenAt argv' i = tokenAt argv i) :
    helpAndVersion env argv' i = helpAndVersion env argv i := by
  funext st
  simp only [helpAndVersion, UsageArguments, hi, h0]

theorem singleArgumentUri_congr {argc : Nat} {argv argv' : List String} {i : Nat}
    (h1 : argc = 2 → tokenAt argv' 1 = tokenAt argv 1) :
    singleArgumentUri argc argv' i = singleArgumentUri argc argv i := by
  funext st
  by_cases h2 : argc = 2
  · simp only [singleArgumentUri, h1 h2]
  · simp only [singleArgumentUri, h2, if_false]

/-- An iteration of the loop reads the tokens `argv[0]` and `argv[i]`, the
token `argv[i + 1]` when `argv[i]` names an option that takes a value, and
`argv[1]` when `argc` is 2; it gives the same result on two vectors that agree
there. -/
theorem loopBody_congr (b : Build) (g : Globals) (env : Env) {argc : Nat}
    {argv argv' : List String} {i : Nat} (st : Locals)
    (h0 : tokenAt argv' 0 = tokenAt argv 0) (hi : tokenAt argv' i = tokenAt argv i)
    (hn : takesValue (tokenAt argv i) = true → tokenAt argv' (i + 1) = tokenAt argv (i + 1))
    (h1 : argc = 2 → tokenAt argv' 1 = tokenAt argv 1) :
    loopBody b g env argc argv' i st = loopBody b g env argc argv i st := by
  have e₁ : optionBlocks g env argc argv' i = optionBlocks g env argc argv i := by
    simp only [optionBlocks, commonOptions, serverOptions, clientOptions, undocumentedOptions,
      helpAndVersion_congr h0 hi, singleArgumentUri_congr h1, onFlag_congr _ _ _ hi]
    have ks : ∀ (s l : String) (blk : String → Locals → Locals), takesValue s = true →
        takesValue l = true → onString argc argv' i s l blk = onString argc argv i s l blk :=
      fun s l blk hs hl => onString_congr blk hs hl h0 hi hn
    have kn : ∀ (s l : String) (lo hi' : Double) (blk : Double → Locals → Locals),
        takesValue s = true → takesValue l = true →
        onNumeric env argc argv' i s l lo hi' blk = onNumeric env argc argv i s l lo hi' blk :=
      fun s l lo hi' blk hs hl => onNumeric_congr lo hi' blk hs hl h0 hi hn
    have tv : ∀ n ∈ valueOptionNames, takesValue n = true := by decide
    simp only [valueOptionNames, List.forall_mem_cons, List.not_mem_nil, false_implies,
      implies_true, and_true] at tv
    simp only [ks, kn, tv]
  simp only [loopBody, e₁, unknownOption, h0, hi]

theorem loopBody_index_le (b : Build) (g : Globals) (env : Env) (argc : Nat)
    (argv : List String) (i : Nat) (st : Locals) (hi : argc = 2 → i = 1) {i' : Nat}
    {st' : Locals} (h : loopBody b g env argc argv i st = .next i' st') :
    i' = (if takesValue (tokenAt argv i) then i + 1 else i) := by
  have heff := loopBody_effect b g env argc argv i st hi
  rw [h] at heff
  exact heff.1

/-- The option positions from index `i` on are at least `i`. -/
theorem optionPositions_ge (b : Build) (g : Globals) (env : Env) (argv : List String) :
    ∀ (fuel i : Nat) (st : Locals), 1 ≤ i →
      ∀ j ∈ optionPositions b g env argv fuel i st, i ≤ j := by
  intro fuel
  induction fuel with
  | zero => intro i st _ j hj; simp [optionPositions] at hj
  | succ fuel ih =>
    intro i st hi j hj
    unfold optionPositions at hj
    split_ifs at hj with hlt
    · rcases List.mem_cons.1 hj with rfl | hj
      · exact le_refl _
      · cases hb : loopBody b g env argv.length argv i st with
        | exit code st₁ => rw [hb] at hj; simp at hj
        | next i' st₁ =>
          rw [hb] at hj
          have hidx := loopBody_index_le b g env argv.length argv i st (by omega) hb
          have := ih (i' + 1) st₁ (by omega) j hj
          have : i ≤ i' := by rw [hidx]; split_ifs <;> omega
          omega
    · simp at hj

/-- Two vectors of the same length that agree before an option position `p` of
the first are read alike up to `p`: both loops arrive at `p` with the same
local variables. -/
theorem optionLoop_before (b : Build) (g : Globals) (env : Env) {argv argv' : List String}
    {p : Nat} (hlen : argv'.length = argv.length)
    (hagree : ∀ k < p, tokenAt argv' k = tokenAt argv k) :
    ∀ (fuel i : Nat) (st : Locals), 1 ≤ i → p ∈ optionPositions b g env argv fuel i st →
      ∃ fuel' st', fuel + i ≤ fuel' + 1 + p ∧ p < argv.length ∧
        optionLoop b g env argv fuel i st = optionLoop b g env argv (fuel' + 1) p st' ∧
        optionLoop b g env argv' fuel i st = optionLoop b g env argv' (fuel' + 1) p st' := by
  intro fuel
  induction fuel with
  | zero => intro i st _ hp; simp [optionPositions] at hp
  | succ fuel ih =>
    intro i st hi hp
    unfold optionPositions at hp
    split_ifs at hp with hlt
    · rcases List.mem_cons.1 hp with rfl | hp
      · exact ⟨fuel, st, by omega, hlt, rfl, rfl⟩
      · cases hb : loopBody b g env argv.length argv i st with
        | exit code st₁ => rw [hb] at hp; simp at hp
        | next i' st₁ =>
          rw [hb] at hp
          have hidx := loopBody_index_le b g env argv.length argv i st (by omega) hb
          have hge := optionPositions_ge b g env argv fuel (i' + 1) st₁ (by omega) p hp
          have hii : i ≤ i' := by rw [hidx]; split_ifs <;> omega
          have hb' : loopBody b g env argv.length argv' i st = .next i' st₁ := by
            rw [← hb]
            apply loopBody_congr
            · exact hagree 0 (by omega)
            · exact hagree i (by omega)
            · intro ht
              rw [ht] at hidx
              simp only [if_true] at hidx
              exact hagree (i + 1) (by omega)
            · intro _
              exact hagree 1 (by omega)
          obtain ⟨fuel', st', hf, hpl, h₁, h₂⟩ := ih (i' + 1) st₁ (by omega) hp
          refine ⟨fuel', st', by omega, hpl, ?_, ?_⟩
          · rw [← h₁]
            conv_lhs => unfold optionLoop
            simp only [hlt, if_true, hb]
          · rw [← h₂]
            conv_lhs => unfold optionLoop
            simp only [hlen, hlt, if_true, hb']
    · simp at hp

/-- Two vectors of the same length that agree from index `q` on (and on the
program name) are read alike from `q` on. -/
theorem optionLoop_suffix (b : Build) (g : Globals) (env : Env) {argv argv' : List String}
    {q : Nat} (hq : 2 ≤ q) (hlen : argv'.length = argv.length)
    (h0 : tokenAt argv' 0 = tokenAt argv 0)
    (hagree : ∀ k, q ≤ k → tokenAt argv' k = tokenAt argv k) :
    ∀ (fuel i : Nat) (st : Locals), q ≤ i →
      optionLoop b g env argv' fuel i st = optionLoop b g env argv fuel i st := by
  intro fuel
  induction fuel with
  | zero => intro i st _; simp [optionLoop, hlen]
  | succ fuel ih =>
    intro i st hi
    unfold optionLoop
    rw [hlen]
    split_ifs with hlt
    · have hb : loopBody b g env argv.length argv' i st =
          loopBody b g env argv.length argv i st := by
        apply loopBody_congr
        · exact h0
        · exact hagree i hi
        · intro _; exact hagree (i + 1) (by omega)
        · intro h2; omega
      rw [hb]
      cases hb' : loopBody b g env argv.length argv i st with
      | exit code st₁ => rfl
      | next i' st₁ =>
        have hidx := loopBody_index_le b g env argv.length argv i st (by omega) hb'
        have hii : i ≤ i' := by rw [hidx]; split_ifs <;> omega
        exact ih (i' + 1) st₁ (by omega)
    · rfl

/-! ## Short and long names -/

theorem singleArgumentUri_none {argc : Nat} {argv : List String} {i : Nat} (st : Locals)
    (h : argc = 2 → rx_gen2 (tokenAt argv 1) = none ∧ rx_gen1 (tokenAt argv 1) = none) :
    singleArgumentUri argc argv i st = none := by
  unfold singleArgumentUri
  split_ifs with h2
  · rw [(h h2).1, (h h2).2]
  · rfl

set_option maxHeartbeats 4000000 in
theorem loopBody_short_long (b : Build) (g : Globals) (env : Env) {argv argv' : List String}
    {p : Nat} (st : Locals)
    (hpair : (tokenAt argv p, tokenAt argv' p) ∈ shortLongPairs ∨
      (tokenAt argv' p, tokenAt argv p) ∈ shortLongPairs)
    (hp : 1 ≤ p) (hlt : p < argv.length)
    (h0 : tokenAt argv' 0 = tokenAt argv 0)
    (hn : tokenAt argv' (p + 1) = tokenAt argv (p + 1)) :
    stepsAgree (loopBody b g env argv.length argv p st)
      (loopBody b g env argv.length argv' p st) := by
  have hrx : ∀ pr ∈ shortLongPairs, (rx_gen2 pr.1 = none ∧ rx_gen1 pr.1 = none) ∧
      (rx_gen2 pr.2 = none ∧ rx_gen1 pr.2 = none) := by decide
  have hboth : (rx_gen2 (tokenAt argv p) = none ∧ rx_gen1 (tokenAt argv p) = none) ∧
      (rx_gen2 (tokenAt argv' p) = none ∧ rx_gen1 (tokenAt argv' p) = none) := by
    rcases hpair with h | h
    · exact hrx _ h
    · exact (hrx _ h).symm
  have hu : ∀ st, singleArgumentUri argv.length argv p st = none := by
    intro st
    apply singleArgumentUri_none
    intro h2
    have : p = 1 := by omega
    subst this
    exact hboth.1
  have hu' : ∀ st, singleArgumentUri argv.length argv' p st = none := by
    intro st
    apply singleArgumentUri_none
    intro h2
    have : p = 1 := by omega
    subst this
    exact hboth.2
  simp only [shortLongPairs, List.mem_cons, Prod.mk.injEq, List.not_mem_nil, or_false] at hpair
  casesm* _ ∨ _, _ ∧ _
  all_goals
    by_cases ha : argv.length ≤ p + 1
  all_goals
    simp [loopBody, optionBlocks, commonOptions, serverOptions, clientOptions,
      undocumentedOptions, firstMatch, helpAndVersion, hu, hu',
      onString, onFlag, onNumeric, GetFlagArgument, GetStringArgument, GetNumericArgument,
      h0, hn, stepsAgree, Locals.withoutLog, *]
    try (split_ifs <;> simp [stepsAgree, Locals.withoutLog])

theorem tokenAt_set (argv : List String) (p k : Nat) (x : String) :
    tokenAt (argv.set p x) k = if p = k ∧ p < argv.length then x else tokenAt argv k := by
  unfold tokenAt
  by_cases hk : p = k
  · subst hk
    by_cases hl : p < argv.length
    · simp [List.getD_eq_getElem?_getD, hl]
    · have hl' : argv.length ≤ p := by omega
      simp [List.getD_eq_getElem?_getD, hl, List.getElem?_eq_none, hl']
  · simp [List.getD_eq_getElem?_getD, hk, List.getElem?_set_ne hk]

theorem modeAndValidation_congr (env : Env) {argv argv' : List String} (st : Locals)
    (h0 : tokenAt argv' 0 = tokenAt argv 0) :
    modeAndValidation env argv' st = modeAndValidation env argv st := by
  simp only [modeAndValidation, h0]

/-- The function `main` reads the argument vector in the option loop and, for
the program name, in the check of the mode. -/
theorem main_congr (b : Build) (g : Globals) (env : Env) {argv argv' : List String}
    (hparse : parseOptions b g env argv' = parseOptions b g env argv)
    (h0 : tokenAt argv' 0 = tokenAt argv 0) :
    main b g env argv' = main b g env argv := by
  unfold main
  rw [hparse]
  cases parseOptions b g env argv with
  | unfinished st => rfl
  | exit code st => rfl
  | done st =>
    simp only
    cases serverOnlyDependency b (headlessDependency b st) with
    | exit code st₁ => rfl
    | ok st₁ =>
      simp only
      rw [modeAndValidation_congr env st₁ h0]

theorem parsePositions_bounds (b : Build) (g : Globals) (env : Env) (argv : List String)
    {p : Nat} (hpos : p ∈ parsePositions b g env argv) : 1 ≤ p ∧ p < argv.length := by
  refine ⟨optionPositions_ge b g env argv argv.length 1 _ (le_refl 1) p hpos, ?_⟩
  obtain ⟨_, _, _, hlt, _, _⟩ := @optionLoop_before b g env argv argv p rfl
    (fun _ _ => rfl) argv.length 1 (initialLocals b g) (le_refl 1) hpos
  exact hlt

/-- C6. Let `p` be an option position of an argument vector, and let the token
there be one name of an option with a short and a long name; put the other name
of that option in its place.  Then `main` ends alike on the two vectors: the
same exit code, the same JSON-RPC server, the same actor with the same
arguments, and the same local variables, the three lists of options seen
included.  (Of the messages, the one that quotes the name as it was typed
differs.) -/
theorem C6_short_long_same_outcome (b : Build) (g : Globals) (env : Env)
    (argv : List String) (p : Nat) (other : String)
    (hpos : p ∈ parsePositions b g env argv)
    (hpair : (tokenAt argv p, other) ∈ shortLongPairs ∨
      (other, tokenAt argv p) ∈ shortLongPairs) :
    (main b g env argv).sameButLog (main b g env (argv.set p other)) := by
  obtain ⟨hp, hlt⟩ := parsePositions_bounds b g env argv hpos
  have hlen : (argv.set p other).length = argv.length := List.length_set _ _ _
  have hne : ∀ k, k ≠ p → tokenAt (argv.set p other) k = tokenAt argv k := by
    intro k hk
    rw [tokenAt_set]
    simp [Ne.symm hk]
  have hat : tokenAt (argv.set p other) p = other := by
    rw [tokenAt_set]; simp [hlt]
  obtain ⟨fuel', st', hf, -, h₁, h₂⟩ := optionLoop_before b g env hlen
    (fun k hk => hne k (by omega)) argv.length 1 (initialLocals b g) (le_refl 1) hpos
  have hagree := @loopBody_short_long b g env argv (argv.set p other) p st'
    (by rw [hat]; exact hpair) hp hlt (hne 0 (by omega)) (hne (p + 1) (by omega))
  have hp₁ : parseOptions b g env argv = optionLoop b g env argv (fuel' + 1) p st' := h₁
  have hp₂ : parseOptions b g env (argv.set p other) =
      optionLoop b g env (argv.set p other) (fuel' + 1) p st' := by
    unfold parseOptions
    rw [hlen]
    exact h₂
  unfold optionLoop at hp₁ hp₂
  rw [hlen] at hp₂
  simp only [hlt, if_true] at hp₁ hp₂
  cases hb : loopBody b g env argv.length argv p st' with
  | exit code st₁ =>
    cases hb' : loopBody b g env argv.length (argv.set p other) p st' with
    | exit code' st₁' =>
      rw [hb, hb'] at hagree
      rw [hb] at hp₁
      rw [hb'] at hp₂
      obtain ⟨hc, hs⟩ := hagree
      simp only [main, hp₁, hp₂, Outcome.sameButLog, hc, hs, and_self]
    | next i' st₁' => rw [hb, hb'] at hagree; exact hagree.elim
  | next i' st₁ =>
    cases hb' : loopBody b g env argv.length (argv.set p other) p st' with
    | exit code' st₁' => rw [hb, hb'] at hagree; exact hagree.elim
    | next i'' st₁' =>
      rw [hb, hb'] at hagree
      obtain ⟨rfl, rfl⟩ := hagree
      rw [hb] at hp₁
      rw [hb'] at hp₂
      have hidx := loopBody_index_le b g env argv.length argv p st' (by omega) hb
      have hii : p ≤ i' := by rw [hidx]; split_ifs <;> omega
      have hsuf := optionLoop_suffix b g env (q := p + 1) (by omega) hlen (hne 0 (by omega))
        (fun k hk => hne k (by omega)) fuel' (i' + 1) st₁ (by omega)
      have hparse : parseOptions b g env (argv.set p other) = parseOptions b g env argv := by
        rw [hp₁, hp₂]
        simp only [hsuf]
      rw [main_congr b g env hparse (hne 0 (by omega))]
      exact ⟨rfl, rfl, rfl, rfl⟩

/-! ## The port -/

set_option maxHeartbeats 1000000 in
theorem optionBlocks_port (g : Globals) (env : Env) (argc : Nat) (argv : List String) (i : Nat)
    (hi : argc = 2 → i = 1) :
    ∀ blk ∈ optionBlocks g env argc argv i, ∀ st r, blk st = some r →
      PortEffect env argv i st r := by
  simp only [optionBlocks, commonOptions, serverOptions, clientOptions, undocumentedOptions,
    List.forall_mem_cons, List.forall_mem_append, List.not_mem_nil, false_implies, implies_true,
    and_true]
  repeat' apply And.intro
  all_goals
    intro st r h
    first
    | (obtain ⟨hc, rfl⟩ := onFlag_eq_some.1 h
       rcases hc with hc | hc <;> rw [PortEffect, ← hc] <;>
         simp [isPortOption, Locals.qInfo, Locals.pushOption,
           Locals.pushServerOnly, Locals.pushClientOnly])
    | (obtain ⟨hc, (⟨_, _, rfl⟩ | ⟨_, rfl⟩)⟩ := onString_some h
       · trivial
       · rcases hc with hc | hc <;> rw [PortEffect, ← hc] <;>
           simp [isPortOption, Locals.qInfo, Locals.pushOption,
             Locals.pushServerOnly, Locals.pushClientOnly])
    | (obtain ⟨hc, (⟨_, rfl⟩ | ⟨_, ⟨_, hlo, hhi⟩, rfl⟩)⟩ := onNumeric_some h
       · trivial
       · rcases hc with hc | hc <;> rw [PortEffect, ← hc] <;>
           simp [isPortOption, portValueAt, hlo, hhi, Locals.qInfo, Locals.pushOption,
             Locals.pushServerOnly, Locals.pushClientOnly])
    | (obtain ⟨_, rfl⟩ := helpAndVersion_exit h
       trivial)
    | (obtain ⟨hargc, captured, cs, hcs, _, rfl⟩ := singleArgumentUri_some h
       rw [← hi hargc] at hcs
       have hp : isPortOption (tokenAt argv i) = false := by
         have key : ∀ n : String, afterScheme n = none → n ≠ tokenAt argv i := by
           intro n hn hnt
           rw [hnt, hcs] at hn
           exact Option.noConfusion hn
         simp [isPortOption, key "-p" (by decide), key "--port" (by decide)]
       simp [PortEffect, hp, Locals.qInfo, Locals.pushOption])

/-- What one iteration of the loop does to the port. -/
theorem loopBody_port (b : Build) (g : Globals) (env : Env) (argc : Nat) (argv : List String)
    (i : Nat) (st : Locals) (hi : argc = 2 → i = 1) :
    PortEffect env argv i st (loopBody b g env argc argv i st) := by
  unfold loopBody
  cases hf : firstMatch (optionBlocks g env argc argv i) st with
  | some r =>
    obtain ⟨blk, hmem, hblk⟩ := firstMatch_some_mem hf
    exact optionBlocks_port g env argc argv i hi blk hmem st r hblk
  | none =>
    have hall := firstMatch_none_all hf
    simp only [optionBlocks, commonOptions, serverOptions, clientOptions, undocumentedOptions,
      List.forall_mem_cons, List.forall_mem_append, List.not_mem_nil, false_implies, implies_true,
      and_true, onFlag_eq_none, onString_eq_none, onNumeric_eq_none, not_or] at hall
    simp only [unknownOption]
    split
    · trivial
    · simp [PortEffect, isPortOption, Locals.qCritical, hall]

theorem checkServerBindIP_port (env : Env) (st : Locals) :
    (checkServerBindIP env st).iPortNumber = st.iPortNumber := by
  unfold checkServerBindIP
  split_ifs <;> simp [Locals.qWarning]

theorem guiServerNotes_port (st : Locals) :
    (guiServerNotes st).iPortNumber = st.iPortNumber := by
  unfold guiServerNotes
  dsimp only
  split_ifs <;> simp [Locals.qInfo]

theorem headlessServerChecks_port (env : Env) (st : Locals) :
    (headlessServerChecks env st).iPortNumber = st.iPortNumber := by
  have h₁ : ∀ s : Locals, (checkServerPublicIP env s).iPortNumber = s.iPortNumber := by
    intro s; unfold checkServerPublicIP; split_ifs <;> simp [Locals.qWarning]
  have h₂ : ∀ s : Locals, (notDirectoryServer s).iPortNumber = s.iPortNumber := by
    intro s; unfold notDirectoryServer; dsimp only; split_ifs <;> simp [Locals.qWarning]
  have h₃ : ∀ s : Locals, (checkServerListFile env s).iPortNumber = s.iPortNumber := by
    intro s; unfold checkServerListFile; dsimp only
    split_ifs <;> simp [Locals.qWarning, Locals.fs]
  have h₄ : ∀ s : Locals, (checkServerListFilter env s).iPortNumber = s.iPortNumber := by
    intro s
    obtain ⟨l, hl⟩ := checkServerListFilter_log env s
    rw [hl]
  have h₅ : (checkIniFileName st).iPortNumber = st.iPortNumber := by
    unfold checkIniFileName; split_ifs <;> simp [Locals.qWarning]
  unfold headlessServerChecks
  dsimp only
  rw [h₁]
  split_ifs <;> simp [h₂, h₃, h₄, h₅]

/-- The port at the end of the loop, in terms of the tokens at the option
positions. -/
theorem optionLoop_port (b : Build) (g : Globals) (env : Env) (argv : List String) :
    ∀ (fuel i : Nat) (st st' : Locals), 1 ≤ i →
      optionLoop b g env argv fuel i st = .done st' →
      st'.bCustomPortNumberGiven = (st.bCustomPortNumberGiven ||
          (optionPositions b g env argv fuel i st).any (fun j => isPortOption (tokenAt argv j))) ∧
      st'.iPortNumber =
          portAfter env argv (optionPositions b g env argv fuel i st) st.iPortNumber ∧
      (∀ j ∈ optionPositions b g env argv fuel i st, isPortOption (tokenAt argv j) = true →
        (env.strtod (tokenAt argv (j + 1))).1.lt (.ofInt 0) = false ∧
        (env.strtod (tokenAt argv (j + 1))).1.gt (.ofInt 65535) = false) := by
  intro fuel
  induction fuel with
  | zero =>
    intro i st st' _ h
    unfold optionLoop at h
    split_ifs at h
    cases h
    simp [optionPositions, portAfter]
  | succ fuel ih =>
    intro i st st' hi h
    unfold optionLoop at h
    unfold optionPositions
    split_ifs at h with hlt
    · have heff := loopBody_port b g env argv.length argv i st (by omega)
      have hidx := loopBody_effect b g env argv.length argv i st (by omega)
      cases hb : loopBody b g env argv.length argv i st with
      | exit code st₁ => rw [hb] at h; simp at h
      | next i' st₁ =>
        rw [hb] at h heff hidx
        obtain ⟨hc, hp, hr⟩ := heff
        have hii : i ≤ i' := by rw [hidx.1]; split_ifs <;> omega
        obtain ⟨ihc, ihp, ihr⟩ := ih (i' + 1) st₁ st' (by omega) h
        simp only [hlt, if_true, List.any_cons, portAfter, List.foldl_cons, List.mem_cons]
        refine ⟨?_, ?_, ?_⟩
        · rw [ihc, hc, Bool.or_assoc]
        · rw [ihp, hp]; rfl
        · rintro j (rfl | hj) hj'
          · exact hr hj'
          · exact ihr j hj hj'
    · cases h
      simp [hlt, portAfter]

theorem portAfter_append_last (env : Env) (argv : List String) (pre post : List Nat) (j : Nat)
    (initial : Nat) (hj : isPortOption (tokenAt argv j) = true)
    (hpost : ∀ k ∈ post, isPortOption (tokenAt argv k) = false) :
    portAfter env argv (pre ++ j :: post) initial = portValueAt env argv j := by
  have hfold : ∀ (l : List Nat) (a : Nat), (∀ k ∈ l, isPortOption (tokenAt argv k) = false) →
      portAfter env argv l a = a := by
    intro l
    induction l with
    | nil => intro a _; rfl
    | cons k l ih =>
      intro a hl
      simp only [portAfter, List.foldl_cons, hl k (List.mem_cons_self _ _), Bool.false_eq_true,
        if_false]
      exact ih a (fun k' hk' => hl k' (List.mem_cons_of_mem _ hk'))
  unfold portAfter
  rw [List.foldl_append, List.foldl_cons]
  simp only [hj, if_true]
  exact hfold post _ hpost

theorem portAfter_none (env : Env) (argv : List String) (l : List Nat) (initial : Nat)
    (hl : ∀ k ∈ l, isPortOption (tokenAt argv k) = false) :
    portAfter env argv l initial = initial := by
  induction l generalizing initial with
  | nil => rfl
  | cons k l ih =>
    simp only [portAfter, List.foldl_cons, hl k (List.mem_cons_self _ _), Bool.false_eq_true,
      if_false]
    exact ih initial (fun k' hk' => hl k' (List.mem_cons_of_mem _ hk'))

theorem Double.toUInt16_of_range {n : Int}
    (hlo : (Double.ofInt n).lt (.ofInt 0) = false)
    (hhi : (Double.ofInt n).gt (.ofInt 65535) = false) :
    ((Double.ofInt n).toUInt16 : Int) = n := by
  simp only [Double.gt, Double.ofInt_lt_ofInt, decide_eq_false_iff_not, not_lt] at hlo hhi
  exact Double.toUInt16_ofInt hlo hhi

/-- The checks of the values leave the port alone but for the shift of the
default in the client. -/
theorem modeAndValidation_port (env : Env) (argv : List String) (st st₂ : Locals)
    (hok : modeAndValidation env argv st = .ok st₂) :
    st₂.iPortNumber =
      (if st.bIsClient ∧ st.bCustomPortNumberGiven = false then (st.iPortNumber + 10) % 65536
        else st.iPortNumber) := by
  unfold modeAndValidation at hok
  split_ifs at hok with hc hs hcoo hgui
  · cases hok
    unfold clientChecks
    dsimp only
    split_ifs <;> simp_all [Locals.qWarning, Locals.qInfo]
  · cases hok
    rw [checkServerBindIP_port, guiServerNotes_port]
    simp [hc]
  · cases hok
    rw [checkServerBindIP_port, headlessServerChecks_port]
    simp [hc]

/-- After the option loop the block under `SERVER_ONLY` never ends the
process: in such a build the mode is Server from the start. -/
theorem serverOnlyDependency_ok (b : Build) (g : Globals) (env : Env) (argv : List String)
    (st : Locals) (hparse : parseOptions b g env argv = .done st) :
    serverOnlyDependency b (headlessDependency b st) = .ok (headlessDependency b st) := by
  obtain ⟨-, -, hm, -⟩ := optionLoop_effect b g env argv argv.length 1 (initialLocals b g) st
    (le_refl 1) hparse
  obtain ⟨d₁, -⟩ := headlessDependency_frame b st
  unfold serverOnlyDependency
  split_ifs with hso hc
  · exfalso
    rw [d₁, hm] at hc
    simp [initialLocals, Build.serverByDefault, hso] at hc
  · rfl
  · rfl

/-- C7. Let the option loop run to its end and the check of the mode pass.
The port the checks leave is the port `main` hands to the actor it constructs.
With no `-p`/`--port` at an option position it is `DEFAULT_PORT_NUMBER + 10`
when the mode is Client and `DEFAULT_PORT_NUMBER` when the mode is Server.
With such an option it is, in both modes, the value of the last one: what
`strtod` made of its token, which is `v` itself when the token is the integer
`v` (the default port included); nothing is added to it. -/
theorem C7_resolved_port (b : Build) (g : Globals) (env : Env) (argv : List String)
    (st st₂ : Locals)
    (hdefault : g.DEFAULT_PORT_NUMBER + 10 < 65536)
    (hparse : parseOptions b g env argv = .done st)
    (hok : modeAndValidation env argv (headlessDependency b st) = .ok st₂) :
    main b g env argv = afterValidation b g env st₂ ∧
    (∀ args, (main b g env argv).actor = some (.client args) →
      args.iPortNumber = st₂.iPortNumber) ∧
    (∀ args, (main b g env argv).actor = some (.server args) →
      args.iPortNumber = st₂.iPortNumber) ∧
    ((∀ j ∈ parsePositions b g env argv, isPortOption (tokenAt argv j) = false) →
      st₂.iPortNumber =
        if st.bIsClient then g.DEFAULT_PORT_NUMBER + 10 else g.DEFAULT_PORT_NUMBER) ∧
    (∀ pre j post, parsePositions b g env argv = pre ++ j :: post →
      isPortOption (tokenAt argv j) = true →
      (∀ k ∈ post, isPortOption (tokenAt argv k) = false) →
      st₂.iPortNumber = portValueAt env argv j ∧
      ∀ v : Int, (env.strtod (tokenAt argv (j + 1))).1 = Double.ofInt v →
        (st₂.iPortNumber : Int) = v) := by
  have hmain : main b g env argv = afterValidation b g env st₂ := by
    simp only [main, hparse, serverOnlyDependency_ok b g env argv st hparse, hok]
  obtain ⟨-, -, -, f₄, f₅⟩ := afterValidation_frame b g env st₂
  obtain ⟨hc, hp, hr⟩ := optionLoop_port b g env argv argv.length 1 (initialLocals b g) st
    (le_refl 1) hparse
  have hpos : optionPositions b g env argv argv.length 1 (initialLocals b g) =
      parsePositions b g env argv := rfl
  rw [hpos] at hc hp hr
  obtain ⟨d₁, -, -, -, -, -, d₇, -, d₉⟩ := headlessDependency_frame b st
  have dport := congrArg ClientArgs.iPortNumber d₇
  simp only [clientArgs] at dport
  have hval := modeAndValidation_port env argv (headlessDependency b st) st₂ hok
  rw [d₁, d₉, dport] at hval
  refine ⟨hmain, ?_, ?_, ?_, ?_⟩
  · intro args h
    rw [hmain] at h
    rw [f₅ args h]
    rfl
  · intro args h
    rw [hmain] at h
    rw [f₄ args h]
    rfl
  · intro hnone
    have hany : (parsePositions b g env argv).any (fun j => isPortOption (tokenAt argv j)) =
        false := by
      rw [List.any_eq_false]
      intro j hj
      simp [hnone j hj]
    rw [hval, hc, hp, hany, portAfter_none env argv _ _ hnone]
    have hinit : (initialLocals b g).iPortNumber = g.DEFAULT_PORT_NUMBER := by
      simp only [initialLocals]
      exact Nat.mod_eq_of_lt (by omega)
    have hinit' : (initialLocals b g).bCustomPortNumberGiven = false := rfl
    rw [hinit, hinit']
    cases st.bIsClient
    · simp
    · simp only [Bool.or_self, and_self, if_true]
      exact Nat.mod_eq_of_lt hdefault
  · intro pre j post hsplit hj hpost
    have hany : (parsePositions b g env argv).any (fun j => isPortOption (tokenAt argv j)) =
        true := by
      rw [List.any_eq_true]
      exact ⟨j, by rw [hsplit]; simp, hj⟩
    have hport : st₂.iPortNumber = portValueAt env argv j := by
      rw [hval, hc, hp, hany, hsplit, portAfter_append_last env argv pre post j _ hj hpost]
      simp
    refine ⟨hport, ?_⟩
    intro v hv
    obtain ⟨hlo, hhi⟩ := hr j (by rw [hsplit]; simp) hj
    rw [hport, portValueAt, hv]
    rw [hv] at hlo hhi
    exact Double.toUInt16_of_range hlo hhi

/-- C7, an instance: `-p 22124` in the client keeps the port 22124. -/
theorem C7_resolved_port_witness :
    (∀ args, (main stdBuild stdGlobals stdEnv ["koord", "-p", "22124"]).actor =
        some (.client args) → args.iPortNumber = 22124) ∧
    (main stdBuild stdGlobals stdEnv ["koord", "-p", "22124"]).ranClient = true := by
  obtain ⟨-, h₁, -, -, h₂⟩ := C7_resolved_port stdBuild stdGlobals stdEnv
    ["koord", "-p", "22124"] _ _ (by decide) (by rfl) (by rfl)
  refine ⟨?_, by decide⟩
  intro args h
  rw [h₁ args h]
  have := (h₂ [] 1 [] (by decide) (by decide) (by decide)).2 22124 (by decide)
  exact_mod_cast this

/-! ## The order of a server only option and the server flag -/

theorem Locals.sameValues_refl (st : Locals) : st.sameValues st :=
  ⟨st.CommandLineOptions, st.ServerOnlyOptions, st.log, rfl, rfl, rfl⟩

theorem loopBody_serverFlag (b : Build) (g : Globals) (env : Env) {argc : Nat}
    {argv : List String} {i : Nat} (st : Locals)
    (hflag : isServerFlag (tokenAt argv i) = true) :
    loopBody b g env argc argv i st = .next i (serverFlagBlock st) := by
  simp only [isServerFlag, Bool.or_eq_true, decide_eq_true_eq] at hflag
  rcases hflag with h | h <;>
    simp [loopBody, optionBlocks, commonOptions, serverOptions, firstMatch, helpAndVersion,
      onString, onFlag, onNumeric, GetFlagArgument, GetStringArgument, GetNumericArgument,
      serverFlagBlock, ← h]

theorem tokenAt_append_left (l₁ l₂ : List String) {k : Nat} (h : k < l₁.length) :
    tokenAt (l₁ ++ l₂) k = tokenAt l₁ k := by
  simp [tokenAt, List.getD_eq_getElem?_getD, List.getElem?_append_left h]

/-- One iteration of the loop at an index inside the vector. -/
theorem optionLoop_step (b : Build) (g : Globals) (env : Env) (argv : List String)
    (fuel i : Nat) (st : Locals) (hlt : i < argv.length) :
    optionLoop b g env argv (fuel + 1) i st =
      match loopBody b g env argv.length argv i st with
      | .exit code st' => .exit code st'
      | .next i' st' => optionLoop b g env argv fuel (i' + 1) st' := by
  rw [optionLoop, if_pos hlt]

/-- C6, an instance: `-p 5000` against `--port 5000` in the standard build;
both run the client on port 5000. -/
theorem C6_short_long_same_outcome_witness :
    (main stdBuild stdGlobals stdEnv ["koord", "-p", "5000"]).sameButLog
      (main stdBuild stdGlobals stdEnv ["koord", "--port", "5000"]) ∧
    (main stdBuild stdGlobals stdEnv ["koord", "-p", "5000"]).ranClient = true ∧
    (main stdBuild stdGlobals stdEnv ["koord", "--port", "5000"]).st.iPortNumber = 5000 :=
  ⟨C6_short_long_same_outcome stdBuild stdGlobals stdEnv ["koord", "-p", "5000"] 1 "--port"
      (by decide) (by decide),
    by decide, by decide⟩

/-! ## What each stage after the loop may change -/

theorem headlessDependency_eq (b : Build) (st : Locals) :
    ∃ gui log, headlessDependency b st = { st with bUseGUI := gui, log := log } := by
  refine ⟨(headlessDependency b st).bUseGUI, (headlessDependency b st).log, ?_⟩
  cases st
  unfold headlessDependency
  split_ifs <;> rfl

theorem checkIniFileName_eq (st : Locals) :
    ∃ ini log, checkIniFileName st = { st with strIniFileName := ini, log := log } := by
  refine ⟨(checkIniFileName st).strIniFileName, (checkIniFileName st).log, ?_⟩
  cases st
  unfold checkIniFileName
  split_ifs <;> rfl

theorem checkServerListFile_eq (env : Env) (st : Locals) :
    ∃ file log ops, checkServerListFile env st =
      { st with strServerListFileName := file, log := log, fsOps := ops } := by
  refine ⟨(checkServerListFile env st).strServerListFileName, (checkServerListFile env st).log,
    (checkServerListFile env st).fsOps, ?_⟩
  cases st
  unfold checkServerListFile
  dsimp only
  split_ifs <;> rfl

theorem checkServerListFilter_eq (env : Env) (st : Locals) :
    ∃ log, checkServerListFilter env st = { st with log := log } := by
  obtain ⟨l, h⟩ := checkServerListFilter_log env st
  exact ⟨_, h⟩

theorem notDirectoryServer_eq (st : Locals) :
    ∃ file log, notDirectoryServer st = { st with strServerListFileName := file, log := log } := by
  refine ⟨(notDirectoryServer st).strServerListFileName, (notDirectoryServer st).log, ?_⟩
  cases st
  unfold notDirectoryServer
  dsimp only
  split_ifs <;> rfl

theorem checkServerPublicIP_eq (env : Env) (st : Locals) :
    ∃ ip log, checkServerPublicIP env st = { st with strServerPublicIP := ip, log := log } := by
  refine ⟨(checkServerPublicIP env st).strServerPublicIP, (checkServerPublicIP env st).log, ?_⟩
  cases st
  unfold checkServerPublicIP
  split_ifs <;> rfl

theorem checkServerBindIP_eq (env : Env) (st : Locals) :
    ∃ ip log, checkServerBindIP env st = { st with strServerBindIP := ip, log := log } := by
  refine ⟨(checkServerBindIP env st).strServerBindIP, (checkServerBindIP env st).log, ?_⟩
  cases st
  unfold checkServerBindIP
  split_ifs <;> rfl

theorem guiServerNotes_eq (st : Locals) :
    ∃ log, guiServerNotes st = { st with log := log } := by
  refine ⟨(guiServerNotes st).log, ?_⟩
  cases st
  unfold guiServerNotes
  dsimp only
  split_ifs <;> rfl

theorem clientChecks_eq (st : Locals) :
    ∃ mute port log, clientChecks st =
      { st with bMuteMeInPersonalMix := mute, iPortNumber := port, log := log } := by
  refine ⟨(clientChecks st).bMuteMeInPersonalMix, (clientChecks st).iPortNumber,
    (clientChecks st).log, ?_⟩
  cases st
  unfold clientChecks
  dsimp only
  split_ifs <;> rfl

theorem headlessServerChecks_eq (env : Env) (st : Locals) :
    ∃ ini file ip log ops, headlessServerChecks env st =
      { st with strIniFileName := ini, strServerListFileName := file, strServerPublicIP := ip,
                log := log, fsOps := ops } := by
  unfold headlessServerChecks
  dsimp only
  obtain ⟨ini, l₁, h₁⟩ := checkIniFileName_eq st
  rw [h₁]
  split_ifs
  · obtain ⟨file, l₂, ops, h₂⟩ := checkServerListFile_eq env
      { st with strIniFileName := ini, log := l₁ }
    rw [h₂]
    obtain ⟨l₃, h₃⟩ := checkServerListFilter_eq env
      { st with strIniFileName := ini, strServerListFileName := file, log := l₂, fsOps := ops }
    rw [h₃]
    obtain ⟨ip, l₄, h₄⟩ := checkServerPublicIP_eq env
      { st with strIniFileName := ini, strServerListFileName := file, log := l₃, fsOps := ops }
    rw [h₄]
    exact ⟨_, _, _, _, _, rfl⟩
  · obtain ⟨file, l₂, h₂⟩ := notDirectoryServer_eq { st with strIniFileName := ini, log := l₁ }
    rw [h₂]
    obtain ⟨ip, l₄, h₄⟩ := checkServerPublicIP_eq env
      { st with strIniFileName := ini, strServerListFileName := file, log := l₂ }
    rw [h₄]
    exact ⟨_, _, _, _, st.fsOps, rfl⟩

/-- The checks of the values change at most the mute flag, the port, the
initialization file name, the persistence file name, the two IP addresses of the
server, the messages and the record of the file operations. -/
theorem modeAndValidation_eq (env : Env) (argv : List String) (st st₂ : Locals)
    (hok : modeAndValidation env argv st = .ok st₂) :
    ∃ mute port ini file ip bind log ops, st₂ =
      { st with bMuteMeInPersonalMix := mute, iPortNumber := port, strIniFileName := ini,
                strServerListFileName := file, strServerPublicIP := ip, strServerBindIP := bind,
                log := log, fsOps := ops } := by
  unfold modeAndValidation at hok
  split_ifs at hok with hc hs hcoo hgui
  · cases hok
    obtain ⟨mute, port, l, h⟩ := clientChecks_eq st
    rw [h]
    exact ⟨mute, port, st.strIniFileName, st.strServerListFileName, st.strServerPublicIP,
      st.strServerBindIP, l, st.fsOps, rfl⟩
  · cases hok
    obtain ⟨l, h⟩ := guiServerNotes_eq st
    rw [h]
    obtain ⟨bind, l', h'⟩ := checkServerBindIP_eq env { st with log := l }
    rw [h']
    exact ⟨st.bMuteMeInPersonalMix, st.iPortNumber, st.strIniFileName, st.strServerListFileName,
      st.strServerPublicIP, bind, l', st.fsOps, rfl⟩
  · cases hok
    obtain ⟨ini, file, ip, l, ops, h⟩ := headlessServerChecks_eq env st
    rw [h]
    obtain ⟨bind, l', h'⟩ := checkServerBindIP_eq env
      { st with strIniFileName := ini, strServerListFileName := file, strServerPublicIP := ip,
                log := l, fsOps := ops }
    rw [h']
    exact ⟨st.bMuteMeInPersonalMix, st.iPortNumber, ini, file, ip, bind, l', ops, rfl⟩

theorem applicationSetup_eq (b : Build) (st : Locals) :
    ∃ gui client, applicationSetup b st = { st with bUseGUI := gui, bIsClient := client } := by
  refine ⟨(applicationSetup b st).bUseGUI, (applicationSetup b st).bIsClient, ?_⟩
  cases st
  unfold applicationSetup
  split_ifs <;> rfl

theorem rpcBootstrap_eq (g : Globals) (env : Env) (st : Locals) :
    ∃ log ops, (match rpcBootstrap g env st with
      | .exit _ st' => st'
      | .ok st' _ => st') = { st with log := log, fsOps := ops } := by
  refine ⟨(match rpcBootstrap g env st with | .exit _ st' => st' | .ok st' _ => st').log,
    (match rpcBootstrap g env st with | .exit _ st' => st' | .ok st' _ => st').fsOps, ?_⟩
  cases st
  unfold rpcBootstrap
  dsimp only
  split_ifs <;> rfl

theorem runActor_eq (b : Build) (g : Globals) (env : Env) (st : Locals)
    (p : Option RpcServer) :
    ∃ log, (runActor b g env st p).st = { st with log := log } := by
  refine ⟨(runActor b g env st p).st.log, ?_⟩
  cases st
  unfold runActor catchGenErr
  split_ifs <;> split <;> rfl

/-- The stages after the checks of the values change, of the local variables,
at most the two flags set under `Q_OS_IOS`, the messages and the record of the
file operations. -/
theorem afterValidation_eq (b : Build) (g : Globals) (env : Env) (st : Locals) :
    ∃ gui client log ops, (afterValidation b g env st).st =
      { st with bUseGUI := gui, bIsClient := client, log := log, fsOps := ops } := by
  obtain ⟨gui, client, ha⟩ := applicationSetup_eq b st
  unfold afterValidation
  split_ifs
  · rw [ha]
    exact ⟨gui, client, st.log, st.fsOps, rfl⟩
  · obtain ⟨l, ops, hr⟩ := rpcBootstrap_eq g env (applicationSetup b st)
    cases hrpc : rpcBootstrap g env (applicationSetup b st) with
    | exit code st₁ =>
      rw [hrpc] at hr
      simp only at hr ⊢
      rw [hr, ha]
      exact ⟨gui, client, l, ops, rfl⟩
    | ok st₁ p =>
      rw [hrpc] at hr
      simp only at hr ⊢
      obtain ⟨l', hact⟩ := runActor_eq b g env st₁ p
      rw [hact, hr, ha]
      exact ⟨gui, client, l', ops, rfl⟩

/-- When the option loop has run to its end and the checks of the values have
gone through, `main` is the stages after them. -/
theorem main_of_validation (b : Build) (g : Globals) (env : Env) (argv : List String)
    (st st₂ : Locals) (hparse : parseOptions b g env argv = .done st)
    (hok : modeAndValidation env argv (headlessDependency b st) = .ok st₂) :
    main b g env argv = afterValidation b g env st₂ := by
  simp only [main, hparse, serverOnlyDependency_ok b g env argv st hparse, hok]

/-! ## The persistence file when the directory server is this host -/

/-- The check of the persistence file: the name is kept exactly under the
condition of the specification; each way of failing brings its warning. -/
theorem checkServerListFile_spec (env : Env) (st : Locals)
    (hfile : st.strServerListFileName ≠ "") :
    (checkServerListFile env st).strServerListFileName =
      (if specKeepsServerListFile env st.strServerListFileName then st.strServerListFileName
        else "") ∧
    (env.fileExists st.strServerListFileName = false →
      env.openReadWrite st.strServerListFileName = false →
      (⟨.warning, "Cannot create %1 for reading and writing.  Please check permissions.",
        [.str st.strServerListFileName]⟩ : Msg) ∈ (checkServerListFile env st).log) ∧
    (env.fileExists st.strServerListFileName = true →
      env.isFile st.strServerListFileName = false →
      (⟨.warning, "Server list file %1 must be a plain file.  Please check the name.",
        [.str st.strServerListFileName]⟩ : Msg) ∈ (checkServerListFile env st).log) ∧
    (env.fileExists st.strServerListFileName = true →
      env.isFile st.strServerListFileName = true →
      (env.isReadable st.strServerListFileName = false ∨
        env.isWritable st.strServerListFileName = false) →
      (⟨.warning,
        "Server list file %1 must be readable and writeable.  Please check the permissions.",
        [.str st.strServerListFileName]⟩ : Msg) ∈ (checkServerListFile env st).log) ∧
    (checkServerListFile env st).fsOps = st.fsOps ++
      (if env.fileExists st.strServerListFileName then [.probe st.strServerListFileName]
        else [.probe st.strServerListFileName, .openReadWrite st.strServerListFileName]) := by
  unfold checkServerListFile specKeepsServerListFile
  dsimp only
  split_ifs <;> simp_all [Locals.qWarning, Locals.fs]

/-- In the server without GUI whose directory server is this host the checks
run in this order. -/
theorem headlessServerChecks_on_directory (env : Env) (st : Locals)
    (hloop : equalsLocalhostIgnoringCase st.strDirectoryServer = true ∨
      st.strDirectoryServer = "127.0.0.1") :
    headlessServerChecks env st =
      checkServerPublicIP env (checkServerListFilter env
        (checkServerListFile env (checkIniFileName st))) := by
  obtain ⟨ini, l, h⟩ := checkIniFileName_eq st
  have e : (checkIniFileName st).strDirectoryServer = st.strDirectoryServer := by rw [h]
  unfold headlessServerChecks
  simp only [e, hloop, if_true]

/-- In the server without GUI whose directory server is this host the checks
go through; the persistence file name is kept exactly under the condition of
the specification, and each way of failing brings its warning. -/
theorem modeAndValidation_server_list_file (env : Env) (argv : List String) (st : Locals)
    (hserver : st.bIsClient = false) (hgui : st.bUseGUI = false)
    (hcoo : st.ClientOnlyOptions = [])
    (hloop : equalsLocalhostIgnoringCase st.strDirectoryServer = true ∨
      st.strDirectoryServer = "127.0.0.1")
    (hfile : st.strServerListFileName ≠ "") :
    ∃ st₂, modeAndValidation env argv st = .ok st₂ ∧
      st₂.strServerListFileName =
        (if specKeepsServerListFile env st.strServerListFileName then st.strServerListFileName
          else "") ∧
      (env.fileExists st.strServerListFileName = false →
        env.openReadWrite st.strServerListFileName = false →
        (⟨.warning, "Cannot create %1 for reading and writing.  Please check permissions.",
          [.str st.strServerListFileName]⟩ : Msg) ∈ st₂.log) ∧
      (env.fileExists st.strServerListFileName = true →
        env.isFile st.strServerListFileName = false →
        (⟨.warning, "Server list file %1 must be a plain file.  Please check the name.",
          [.str st.strServerListFileName]⟩ : Msg) ∈ st₂.log) ∧
      (env.fileExists st.strServerListFileName = true →
        env.isFile st.strServerListFileName = true →
        (env.isReadable st.strServerListFileName = false ∨
          env.isWritable st.strServerListFileName = false) →
        (⟨.warning,
          "Server list file %1 must be readable and writeable.  Please check the permissions.",
          [.str st.strServerListFileName]⟩ : Msg) ∈ st₂.log) := by
  refine ⟨checkServerBindIP env (headlessServerChecks env st),
    by simp [modeAndValidation, hserver, hcoo, hgui], ?_⟩
  rw [headlessServerChecks_on_directory env st hloop]
  obtain ⟨ini, l₁, h₁⟩ := checkIniFileName_eq st
  have e₁ : (checkIniFileName st).strServerListFileName = st.strServerListFileName := by rw [h₁]
  obtain ⟨s₁, s₂, s₃, s₄, -⟩ := checkServerListFile_spec env (checkIniFileName st)
    (by rw [e₁]; exact hfile)
  rw [e₁] at s₁ s₂ s₃ s₄
  obtain ⟨l₂, h₂⟩ := checkServerListFilter_log env (checkServerListFile env (checkIniFileName st))
  obtain ⟨-, p₂, -, -, l₃, p₅⟩ := checkServerPublicIP_frame env
    (checkServerListFilter env (checkServerListFile env (checkIniFileName st)))
  obtain ⟨-, b₂, -, -, l₄, b₅⟩ := checkServerBindIP_frame env
    (checkServerPublicIP env (checkServerListFilter env
      (checkServerListFile env (checkIniFileName st))))
  have hname : (checkServerListFilter env
      (checkServerListFile env (checkIniFileName st))).strServerListFileName =
      (checkServerListFile env (checkIniFileName st)).strServerListFileName := by rw [h₂]
  have hlog : (checkServerListFilter env (checkServerListFile env (checkIniFileName st))).log =
      (checkServerListFile env (checkIniFileName st)).log ++ l₂ := by rw [h₂]
  rw [b₂, p₂, hname, s₁, b₅, p₅, hlog]
  refine ⟨rfl, ?_, ?_, ?_⟩
  · intro h h'
    simp [s₂ h h']
  · intro h h'
    simp [s₃ h h']
  · intro h h' h''
    simp [s₄ h h' h'']

/-! ## The values the loop leaves, in terms of the tokens -/

set_option maxHeartbeats 4000000 in
theorem optionBlocks_values (g : Globals) (env : Env) (argc : Nat) (argv : List String) (i : Nat)
    (hi : argc = 2 → i = 1) :
    ∀ blk ∈ optionBlocks g env argc argv i, ∀ st r, blk st = some r →
      ValueEffect env argv i st r := by
  simp only [optionBlocks, commonOptions, serverOptions, clientOptions, undocumentedOptions,
    List.forall_mem_cons, List.forall_mem_append, List.not_mem_nil, false_implies, implies_true,
    and_true]
  repeat' apply And.intro
  all_goals
    intro st r h
    first
    | (obtain ⟨hc, rfl⟩ := onFlag_eq_some.1 h
       rcases hc with hc | hc <;>
         simp [ValueEffect, ← hc, isNamed, valueStep, jsonRpcPortStep, Locals.qInfo, Locals.pushOption,
           Locals.pushServerOnly, Locals.pushClientOnly])
    | (obtain ⟨hc, (⟨_, _, rfl⟩ | ⟨_, rfl⟩)⟩ := onString_some h
       · trivial
       · rcases hc with hc | hc <;>
           simp [ValueEffect, ← hc, isNamed, valueStep, jsonRpcPortStep, Locals.qInfo, Locals.pushOption,
             Locals.pushServerOnly, Locals.pushClientOnly])
    | (obtain ⟨hc, (⟨_, rfl⟩ | ⟨_, _, rfl⟩)⟩ := onNumeric_some h
       · trivial
       · rcases hc with hc | hc <;>
           simp [ValueEffect, ← hc, isNamed, valueStep, jsonRpcPortStep, Locals.qInfo, Locals.pushOption,
             Locals.pushServerOnly, Locals.pushClientOnly])
    | (obtain ⟨_, rfl⟩ := helpAndVersion_exit h
       trivial)
    | (obtain ⟨hargc, captured, cs, hcs, _, rfl⟩ := singleArgumentUri_some h
       rw [← hi hargc] at hcs
       have key : ∀ n : String, afterScheme n = none → ¬ n = tokenAt argv i := by
         intro n hn hnt
         rw [hnt, hcs] at hn
         exact Option.noConfusion hn
       simp [ValueEffect, isNamed, valueStep, jsonRpcPortStep, Locals.qInfo, Locals.pushOption,
         key "-n" (by decide), key "--nogui" (by decide), key "--mutemyown" (by decide),
         key "--jsonrpcport" (by decide), key "--jsonrpcsecretfile" (by decide),
         key "-i" (by decide), key "--inifile" (by decide), key "-e" (by decide),
         key "--directoryserver" (by decide), key "--centralserver" (by decide),
         key "--directoryfile" (by decide), key "-f" (by decide), key "--listfilter" (by decide),
         key "--serverpublicip" (by decide), key "--serverbindip" (by decide)])

/-- What one iteration of the loop does to the values. -/
theorem loopBody_values (b : Build) (g : Globals) (env : Env) (argc : Nat) (argv : List String)
    (i : Nat) (st : Locals) (hi : argc = 2 → i = 1) :
    ValueEffect env argv i st (loopBody b g env argc argv i st) := by
  unfold loopBody
  cases hf : firstMatch (optionBlocks g env argc argv i) st with
  | some r =>
    obtain ⟨blk, hmem, hblk⟩ := firstMatch_some_mem hf
    exact optionBlocks_values g env argc argv i hi blk hmem st r hblk
  | none =>
    have hall := firstMatch_none_all hf
    simp only [optionBlocks, commonOptions, serverOptions, clientOptions, undocumentedOptions,
      List.forall_mem_cons, List.forall_mem_append, List.not_mem_nil, false_implies, implies_true,
      and_true, onFlag_eq_none, onString_eq_none, onNumeric_eq_none, not_or] at hall
    simp only [unknownOption]
    split
    · trivial
    · simp [ValueEffect, isNamed, valueStep, jsonRpcPortStep, Locals.qCritical, hall]

/-- The values at the end of the loop, in terms of the tokens at the option
positions: a flag is set by an option with its name at some position, a string
is the token after the last option with one of its names. -/
theorem optionLoop_values (b : Build) (g : Globals) (env : Env) (argv : List String) :
    ∀ (fuel i : Nat) (st st' : Locals), 1 ≤ i →
      optionLoop b g env argv fuel i st = .done st' →
      st'.bUseGUI = (st.bUseGUI &&
        !optionGiven ["-n", "--nogui"] argv (optionPositions b g env argv fuel i st)) ∧
      st'.bMuteMeInPersonalMix = (st.bMuteMeInPersonalMix ||
        optionGiven ["--mutemyown"] argv (optionPositions b g env argv fuel i st)) ∧
      st'.iJsonRpcPortNumber =
        lastJsonRpcPort env argv (optionPositions b g env argv fuel i st) st.iJsonRpcPortNumber ∧
      st'.strJsonRpcSecretFileName = lastValue ["--jsonrpcsecretfile"] argv
        (optionPositions b g env argv fuel i st) st.strJsonRpcSecretFileName ∧
      st'.strIniFileName = lastValue ["-i", "--inifile"] argv
        (optionPositions b g env argv fuel i st) st.strIniFileName ∧
      st'.strDirectoryServer = lastValue ["-e", "--directoryserver", "--centralserver"] argv
        (optionPositions b g env argv fuel i st) st.strDirectoryServer ∧
      st'.strServerListFileName = lastValue ["--directoryfile"] argv
        (optionPositions b g env argv fuel i st) st.strServerListFileName ∧
      st'.strServerListFilter = lastValue ["-f", "--listfilter"] argv
        (optionPositions b g env argv fuel i st) st.strServerListFilter ∧
      st'.strServerPublicIP = lastValue ["--serverpublicip"] argv
        (optionPositions b g env argv fuel i st) st.strServerPublicIP ∧
      st'.strServerBindIP = lastValue ["--serverbindip"] argv
        (optionPositions b g env argv fuel i st) st.strServerBindIP := by
  intro fuel
  induction fuel with
  | zero =>
    intro i st st' _ h
    unfold optionLoop at h
    split_ifs at h
    cases h
    simp [optionPositions, optionGiven, lastValue, lastJsonRpcPort]
  | succ fuel ih =>
    intro i st st' hi h
    unfold optionLoop at h
    unfold optionPositions
    split_ifs at h with hlt
    · have heff := loopBody_values b g env argv.length argv i st (by omega)
      have hidx := loopBody_effect b g env argv.length argv i st (by omega)
      cases hb : loopBody b g env argv.length argv i st with
      | exit code st₁ => rw [hb] at h; simp at h
      | next i' st₁ =>
        rw [hb] at h heff hidx
        obtain ⟨e₁, e₂, e₃, e₄, e₅, e₆, e₇, e₈, e₉, e₁₀⟩ := heff
        have hii : i ≤ i' := by rw [hidx.1]; split_ifs <;> omega
        obtain ⟨h₁, h₂, h₃, h₄, h₅, h₆, h₇, h₈, h₉, h₁₀⟩ := ih (i' + 1) st₁ st' (by omega) h
        simp only [hlt, if_true, optionGiven, List.any_cons, lastValue, lastJsonRpcPort,
          List.foldl_cons]
        refine ⟨?_, ?_, ?_, ?_, ?_, ?_, ?_, ?_, ?_, ?_⟩
        · rw [h₁, e₁, optionGiven, Bool.not_or, Bool.and_assoc]
        · rw [h₂, e₂, optionGiven, Bool.or_assoc]
        · rw [h₃, e₃]; rfl
        · rw [h₄, e₄]; rfl
        · rw [h₅, e₅]; rfl
        · rw [h₆, e₆]; rfl
        · rw [h₇, e₇]; rfl
        · rw [h₈, e₈]; rfl
        · rw [h₉, e₉]; rfl
        · rw [h₁₀, e₁₀]; rfl
    · cases h
      simp [hlt, optionGiven, lastValue, lastJsonRpcPort]

/-- The values of the last options stay inside what the tokens offer: without
an option of the given names the initial value stays. -/
theorem lastValue_of_not_given (names : List String) (argv : List String)
    (positions : List Nat) (initial : String)
    (h : optionGiven names argv positions = false) :
    lastValue names argv positions initial = initial := by
  induction positions generalizing initial with
  | nil => rfl
  | cons j rest ih =>
    simp only [optionGiven, List.any_cons, Bool.or_eq_false_iff] at h
    simp only [lastValue, List.foldl_cons, valueStep, h.1, Bool.false_eq_true, if_false]
    exact ih initial h.2

/-- The JSON-RPC port after the options: the initial value without a
`--jsonrpcport` option, a value of 16 bits with one. -/
theorem lastJsonRpcPort_spec (env : Env) (argv : List String) (positions : List Nat)
    (initial : Int) :
    (optionGiven ["--jsonrpcport"] argv positions = false →
      lastJsonRpcPort env argv positions initial = initial) ∧
    (optionGiven ["--jsonrpcport"] argv positions = true →
      0 ≤ lastJsonRpcPort env argv positions initial ∧
      lastJsonRpcPort env argv positions initial < 65536) := by
  induction positions generalizing initial with
  | nil => simp [optionGiven, lastJsonRpcPort]
  | cons j rest ih =>
    simp only [optionGiven, List.any_cons, lastJsonRpcPort, List.foldl_cons]
    constructor
    · intro h
      rw [Bool.or_eq_false_iff] at h
      rw [jsonRpcPortStep, h.1]
      exact (ih initial).1 h.2
    · intro h
      by_cases hrest : optionGiven ["--jsonrpcport"] argv rest = true
      · exact (ih _).2 hrest
      · rw [Bool.not_eq_true] at hrest
        have hj : isNamed ["--jsonrpcport"] (tokenAt argv j) = true := by
          rw [optionGiven] at hrest
          rw [hrest, Bool.or_false] at h
          exact h
        have := (ih (jsonRpcPortStep env argv initial j)).1 hrest
        rw [lastJsonRpcPort] at this
        rw [this, jsonRpcPortStep, hj]
        simp only [if_true, Double.toUInt16]
        omega

/-- C11. Let the option loop run to its end and leave the mode Server, no GUI
in use (by `--nogui` or by the build), no client only option recorded, a
directory server address that is this host and a persistence file name that is
not empty (it is the value of the last `--directoryfile` option).  Then the
checks of the values go through and `main` goes on with the stages after them.
The file name is kept exactly when the path exists as a plain file that can be
read and written, or does not exist and can be opened for reading and writing;
otherwise it is cleared, and the warning of the case is among the messages.  A
server that is constructed gets the name the check left. -/
theorem C11_persistence_file_on_directory (b : Build) (g : Globals) (env : Env)
    (argv : List String) (st : Locals)
    (hparse : parseOptions b g env argv = .done st)
    (hserver : st.bIsClient = false)
    (hheadless : b.HEADLESS = true ∨ st.bUseGUI = false)
    (hcoo : st.ClientOnlyOptions = [])
    (hloop : equalsLocalhostIgnoringCase st.strDirectoryServer = true ∨
      st.strDirectoryServer = "127.0.0.1")
    (hfile : st.strServerListFileName ≠ "") :
    st.strServerListFileName =
      lastValue ["--directoryfile"] argv (parsePositions b g env argv) "" ∧
    ∃ st₂, modeAndValidation env argv (headlessDependency b st) = .ok st₂ ∧
      main b g env argv = afterValidation b g env st₂ ∧
      st₂.strServerListFileName =
        (if specKeepsServerListFile env st.strServerListFileName then st.strServerListFileName
          else "") ∧
      (env.fileExists st.strServerListFileName = false →
        env.openReadWrite st.strServerListFileName = false →
        (⟨.warning, "Cannot create %1 for reading and writing.  Please check permissions.",
          [.str st.strServerListFileName]⟩ : Msg) ∈ st₂.log) ∧
      (env.fileExists st.strServerListFileName = true →
        env.isFile st.strServerListFileName = false →
        (⟨.warning, "Server list file %1 must be a plain file.  Please check the name.",
          [.str st.strServerListFileName]⟩ : Msg) ∈ st₂.log) ∧
      (env.fileExists st.strServerListFileName = true →
        env.isFile st.strServerListFileName = true →
        (env.isReadable st.strServerListFileName = false ∨
          env.isWritable st.strServerListFileName = false) →
        (⟨.warning,
          "Server list file %1 must be readable and writeable.  Please check the permissions.",
          [.str st.strServerListFileName]⟩ : Msg) ∈ st₂.log) ∧
      (main b g env argv).st.strServerListFileName = st₂.strServerListFileName ∧
      (∀ args, (main b g env argv).actor = some (.server args) →
        args.strServerListFileName = st₂.strServerListFileName) := by
  obtain ⟨-, -, -, -, -, -, v₇, -⟩ := optionLoop_values b g env argv argv.length 1
    (initialLocals b g) st (le_refl 1) hparse
  refine ⟨v₇, ?_⟩
  obtain ⟨gui, l₀, h₀⟩ := headlessDependency_eq b st
  obtain ⟨-, d₂, -⟩ := headlessDependency_frame b st
  have hgui : (headlessDependency b st).bUseGUI = false := by
    rw [d₂]; rcases hheadless with h | h <;> simp [h]
  have e₁ : (headlessDependency b st).strServerListFileName = st.strServerListFileName := by
    rw [h₀]
  have e₂ : (headlessDependency b st).strDirectoryServer = st.strDirectoryServer := by rw [h₀]
  obtain ⟨st₂, hok, hname, w₁, w₂, w₃⟩ := modeAndValidation_server_list_file env argv
    (headlessDependency b st) (by rw [h₀]; exact hserver) hgui (by rw [h₀]; exact hcoo)
    (by rw [e₂]; exact hloop) (by rw [e₁]; exact hfile)
  rw [e₁] at hname w₁ w₂ w₃
  have hmain := main_of_validation b g env argv st st₂ hparse hok
  obtain ⟨f₁, -, -, f₄, -⟩ := afterValidation_frame b g env st₂
  refine ⟨st₂, hok, hmain, hname, w₁, w₂, w₃, ?_, ?_⟩
  · rw [hmain]
    have := congrArg ServerArgs.strServerListFileName f₁
    simpa only [serverArgs] using this
  · intro args h
    rw [hmain] at h
    rw [f₄ args h]
    rfl

/-- C11, an instance: in the build without GUI, on `localhost`, the file
`servers.dat` that exists as a plain readable and writable file is kept, and
the file `missing.dat` that cannot be created is dropped. -/
theorem C11_persistence_file_on_directory_witness :
    (main headlessBuild stdGlobals fileEnv
      ["koord", "-s", "-e", "localhost", "--directoryfile", "servers.dat"]).st.strServerListFileName
        = "servers.dat" ∧
    (main headlessBuild stdGlobals stdEnv
      ["koord", "-s", "-e", "localhost", "--directoryfile", "missing.dat"]).st.strServerListFileName
        = "" ∧
    (main headlessBuild stdGlobals stdEnv
      ["koord", "-s", "-e", "localhost", "--directoryfile", "missing.dat"]).exitCode = some 0 := by
  obtain ⟨-, st₂, -, -, h₁, -, -, -, h₂, -⟩ := C11_persistence_file_on_directory headlessBuild
    stdGlobals fileEnv ["koord", "-s", "-e", "localhost", "--directoryfile", "servers.dat"] _
    (by rfl) (by decide) (by decide) (by decide) (by decide) (by decide)
  refine ⟨?_, by decide, by decide⟩
  rw [h₂, h₁]
  decide

/-! ## The two IP addresses of the server -/

/-- The check of the public IP address, for an address that was given. -/
theorem checkServerPublicIP_spec (env : Env) (st : Locals) (hip : st.strServerPublicIP ≠ "") :
    (checkServerPublicIP env st).strServerPublicIP =
      (if st.strDirectoryServer = "" then ""
        else if env.setAddress st.strServerPublicIP then st.strServerPublicIP else "") ∧
    (st.strDirectoryServer = "" →
      (⟨.warning,
        "Server Public IP will only take effect when registering a server with a directory server.",
        []⟩ : Msg) ∈ (checkServerPublicIP env st).log) ∧
    (st.strDirectoryServer ≠ "" → env.setAddress st.strServerPublicIP = false →
      (⟨.warning, "Server Public IP is invalid. Only plain IP addresses are supported.", []⟩ : Msg) ∈
        (checkServerPublicIP env st).log) := by
  unfold checkServerPublicIP
  split_ifs <;> simp_all [Locals.qWarning]

/-- The checks before the check of the public IP address leave the directory
server address and the public IP address alone. -/
theorem headlessServerChecks_publicIP (env : Env) (st : Locals) :
    ∃ st', headlessServerChecks env st = checkServerPublicIP env st' ∧
      st'.strDirectoryServer = st.strDirectoryServer ∧
      st'.strServerPublicIP = st.strServerPublicIP := by
  unfold headlessServerChecks
  dsimp only
  refine ⟨_, rfl, ?_⟩
  obtain ⟨ini, l₁, h₁⟩ := checkIniFileName_eq st
  rw [h₁]
  split_ifs
  · obtain ⟨file, l₂, ops, h₂⟩ := checkServerListFile_eq env
      { st with strIniFileName := ini, log := l₁ }
    rw [h₂]
    obtain ⟨l₃, h₃⟩ := checkServerListFilter_eq env
      { st with strIniFileName := ini, strServerListFileName := file, log := l₂, fsOps := ops }
    rw [h₃]
    exact ⟨rfl, rfl⟩
  · obtain ⟨file, l₂, h₂⟩ := notDirectoryServer_eq { st with strIniFileName := ini, log := l₁ }
    rw [h₂]
    exact ⟨rfl, rfl⟩

/-- C12. Let the option loop run to its end and leave the mode Server, no GUI
in use (by `--nogui` or by the build), no client only option recorded and a
public IP address that is not empty (it is the value of the last
`--serverpublicip` option).  Then the checks of the values go through and `main`
goes on with the stages after them.  With an empty directory server address
the public IP address is cleared, with the warning that it takes effect only
with a directory server; with a directory server address it is kept exactly
when `QHostAddress::setAddress` accepts it and cleared otherwise, with the
warning that it is invalid.  A server that is constructed gets the address the
check left. -/
theorem C12_public_ip_override (b : Build) (g : Globals) (env : Env)
    (argv : List String) (st : Locals)
    (hparse : parseOptions b g env argv = .done st)
    (hserver : st.bIsClient = false)
    (hheadless : b.HEADLESS = true ∨ st.bUseGUI = false)
    (hcoo : st.ClientOnlyOptions = [])
    (hip : st.strServerPublicIP ≠ "") :
    st.strServerPublicIP =
      lastValue ["--serverpublicip"] argv (parsePositions b g env argv) "" ∧
    st.strDirectoryServer = lastValue ["-e", "--directoryserver", "--centralserver"] argv
      (parsePositions b g env argv) "" ∧
    ∃ st₂, modeAndValidation env argv (headlessDependency b st) = .ok st₂ ∧
      main b g env argv = afterValidation b g env st₂ ∧
      st₂.strServerPublicIP =
        (if st.strDirectoryServer = "" then ""
          else if env.setAddress st.strServerPublicIP then st.strServerPublicIP else "") ∧
      (st.strDirectoryServer = "" →
        (⟨.warning,
          "Server Public IP will only take effect when registering a server with a directory server.",
          []⟩ : Msg) ∈ st₂.log) ∧
      (st.strDirectoryServer ≠ "" → env.setAddress st.strServerPublicIP = false →
        (⟨.warning, "Server Public IP is invalid. Only plain IP addresses are supported.",
          []⟩ : Msg) ∈ st₂.log) ∧
      (main b g env argv).st.strServerPublicIP = st₂.strServerPublicIP ∧
      (∀ args, (main b g env argv).actor = some (.server args) →
        args.strServerPublicIP = st₂.strServerPublicIP) := by
  obtain ⟨-, -, -, -, -, v₆, -, -, v₉, -⟩ := optionLoop_values b g env argv argv.length 1
    (initialLocals b g) st (le_refl 1) hparse
  refine ⟨v₉, v₆, ?_⟩
  obtain ⟨gui, l₀, h₀⟩ := headlessDependency_eq b st
  obtain ⟨-, d₂, -⟩ := headlessDependency_frame b st
  have hgui : (headlessDependency b st).bUseGUI = false := by
    rw [d₂]; rcases hheadless with h | h <;> simp [h]
  have hs : (headlessDependency b st).bIsClient = false := by rw [h₀]; exact hserver
  have hc : (headlessDependency b st).ClientOnlyOptions = [] := by rw [h₀]; exact hcoo
  obtain ⟨st', hbranch, e₁, e₂⟩ := headlessServerChecks_publicIP env (headlessDependency b st)
  have e₁' : st'.strDirectoryServer = st.strDirectoryServer := by rw [e₁, h₀]
  have e₂' : st'.strServerPublicIP = st.strServerPublicIP := by rw [e₂, h₀]
  obtain ⟨s₁, s₂, s₃⟩ := checkServerPublicIP_spec env st' (by rw [e₂']; exact hip)
  simp only [e₁', e₂'] at s₁ s₂ s₃
  obtain ⟨-, -, b₃, -, l, b₅⟩ := checkServerBindIP_frame env (checkServerPublicIP env st')
  have hok : modeAndValidation env argv (headlessDependency b st) =
      .ok (checkServerBindIP env (checkServerPublicIP env st')) := by
    simp [modeAndValidation, hs, hc, hgui, hbranch]
  have hmain := main_of_validation b g env argv st _ hparse hok
  obtain ⟨f₁, -, -, f₄, -⟩ := afterValidation_frame b g env
    (checkServerBindIP env (checkServerPublicIP env st'))
  refine ⟨_, hok, hmain, by rw [b₃, s₁], ?_, ?_, ?_, ?_⟩
  · intro h
    rw [b₅]
    exact List.mem_append_left _ (s₂ h)
  · intro h h'
    rw [b₅]
    exact List.mem_append_left _ (s₃ h h')
  · rw [hmain]
    have := congrArg ServerArgs.strServerPublicIP f₁
    simpa only [serverArgs] using this
  · intro args h
    rw [hmain] at h
    rw [f₄ args h]
    rfl

/-- C12, an instance: in the build without GUI the address `1.2.3.4` is kept
with a directory server and cleared without one, and `nonsense` is cleared. -/
theorem C12_public_ip_override_witness :
    (main headlessBuild stdGlobals stdEnv ["koord", "-s", "-e", "example.org",
      "--serverpublicip", "1.2.3.4"]).st.strServerPublicIP = "1.2.3.4" ∧
    (main headlessBuild stdGlobals stdEnv ["koord", "-s",
      "--serverpublicip", "1.2.3.4"]).st.strServerPublicIP = "" ∧
    (main headlessBuild stdGlobals stdEnv ["koord", "-s", "-e", "example.org",
      "--serverpublicip", "nonsense"]).st.strServerPublicIP = "" := by
  obtain ⟨-, -, st₂, -, -, h₁, -, -, h₂, -⟩ := C12_public_ip_override headlessBuild stdGlobals
    stdEnv ["koord", "-s", "-e", "example.org", "--serverpublicip", "1.2.3.4"] _
    (by rfl) (by decide) (by decide) (by decide) (by decide)
  refine ⟨?_, by decide, by decide⟩
  rw [h₂, h₁]
  decide

/-- The check of the IP address to bind to, for an address that was given. -/
theorem checkServerBindIP_spec (env : Env) (st : Locals) (hbind : st.strServerBindIP ≠ "") :
    (checkServerBindIP env st).strServerBindIP =
      (if env.setAddress st.strServerBindIP then st.strServerBindIP else "") ∧
    (env.setAddress st.strServerBindIP = false →
      (⟨.warning, "Server Bind IP is invalid. Only plain IP addresses are supported.", []⟩ : Msg) ∈
        (checkServerBindIP env st).log) := by
  unfold checkServerBindIP
  split_ifs <;> simp_all [Locals.qWarning]

/-- C13. Let the option loop run to its end and leave the mode Server, with
or without the GUI, no client only option recorded and an IP address to bind to
that is not empty (it is the value of the last `--serverbindip` option).  Then
the checks of the values go through, whatever the other values are and whatever
the other checks find, and `main` goes on with the stages after them.  The
address is kept unchanged when `QHostAddress::setAddress` accepts it; otherwise
it is cleared and the warning is among the messages.  A server that is
constructed gets the address the check left. -/
theorem C13_bind_ip (b : Build) (g : Globals) (env : Env)
    (argv : List String) (st : Locals)
    (hparse : parseOptions b g env argv = .done st)
    (hserver : st.bIsClient = false)
    (hcoo : st.ClientOnlyOptions = [])
    (hbind : st.strServerBindIP ≠ "") :
    st.strServerBindIP = lastValue ["--serverbindip"] argv (parsePositions b g env argv) "" ∧
    ∃ st₂, modeAndValidation env argv (headlessDependency b st) = .ok st₂ ∧
      main b g env argv = afterValidation b g env st₂ ∧
      st₂.strServerBindIP =
        (if env.setAddress st.strServerBindIP then st.strServerBindIP else "") ∧
      (env.setAddress st.strServerBindIP = false →
        (⟨.warning, "Server Bind IP is invalid. Only plain IP addresses are supported.",
          []⟩ : Msg) ∈ st₂.log) ∧
      (main b g env argv).st.strServerBindIP = st₂.strServerBindIP ∧
      (∀ args, (main b g env argv).actor = some (.server args) →
        args.strServerBindIP = st₂.strServerBindIP) := by
  obtain ⟨-, -, -, -, -, -, -, -, -, v₁₀⟩ := optionLoop_values b g env argv argv.length 1
    (initialLocals b g) st (le_refl 1) hparse
  refine ⟨v₁₀, ?_⟩
  obtain ⟨gui, l₀, h₀⟩ := headlessDependency_eq b st
  have hs : (headlessDependency b st).bIsClient = false := by rw [h₀]; exact hserver
  have hc : (headlessDependency b st).ClientOnlyOptions = [] := by rw [h₀]; exact hcoo
  have e₀ : (headlessDependency b st).strServerBindIP = st.strServerBindIP := by rw [h₀]
  have hok : modeAndValidation env argv (headlessDependency b st) =
      .ok (checkServerBindIP env (if (headlessDependency b st).bUseGUI then
        guiServerNotes (headlessDependency b st)
        else headlessServerChecks env (headlessDependency b st))) := by
    simp [modeAndValidation, hs, hc]
  have e₁ : (if (headlessDependency b st).bUseGUI then guiServerNotes (headlessDependency b st)
      else headlessServerChecks env (headlessDependency b st)).strServerBindIP =
      st.strServerBindIP := by
    rw [← e₀]
    split_ifs
    · obtain ⟨l, h⟩ := guiServerNotes_eq (headlessDependency b st)
      rw [h]
    · obtain ⟨ini, file, ip, l, ops, h⟩ := headlessServerChecks_eq env (headlessDependency b st)
      rw [h]
  obtain ⟨s₁, s₂⟩ := checkServerBindIP_spec env _ (by rw [e₁]; exact hbind)
  rw [e₁] at s₁ s₂
  have hmain := main_of_validation b g env argv st _ hparse hok
  obtain ⟨f₁, -, -, f₄, -⟩ := afterValidation_frame b g env
    (checkServerBindIP env (if (headlessDependency b st).bUseGUI then
        guiServerNotes (headlessDependency b st)
        else headlessServerChecks env (headlessDependency b st)))
  refine ⟨_, hok, hmain, s₁, s₂, ?_, ?_⟩
  · rw [hmain]
    have := congrArg ServerArgs.strServerBindIP f₁
    simpa only [serverArgs] using this
  · intro args h
    rw [hmain] at h
    rw [f₄ args h]
    rfl

/-- C13, an instance: with the GUI the address `10.0.0.1` is kept, and without
the GUI the address `nonsense` is cleared while the run goes on. -/
theorem C13_bind_ip_witness :
    (main stdBuild stdGlobals stdEnv
      ["koord", "-s", "--serverbindip", "10.0.0.1"]).st.strServerBindIP = "10.0.0.1" ∧
    (main headlessBuild stdGlobals stdEnv
      ["koord", "-s", "--serverbindip", "nonsense"]).st.strServerBindIP = "" ∧
    (main headlessBuild stdGlobals stdEnv
      ["koord", "-s", "--serverbindip", "nonsense"]).ranServer = true := by
  obtain ⟨-, st₂, -, -, h₁, -, h₂, -⟩ := C13_bind_ip stdBuild stdGlobals
    stdEnv ["koord", "-s", "--serverbindip", "10.0.0.1"] _
    (by rfl) (by decide) (by decide) (by decide)
  refine ⟨?_, by decide, by decide⟩
  rw [h₂, h₁]
  decide

/-! ## The initialization file -/

theorem checkServerListFile_log (env : Env) (st : Locals) :
    ∃ l, (checkServerListFile env st).log = st.log ++ l := by
  unfold checkServerListFile
  dsimp only
  split_ifs <;> simp [Locals.qWarning, Locals.fs]

theorem notDirectoryServer_log (st : Locals) :
    ∃ l, (notDirectoryServer st).log = st.log ++ l := by
  unfold notDirectoryServer
  dsimp only
  split_ifs <;> simp [Locals.qWarning]

/-- The checks of the server without GUI that follow the check of the
initialization file name keep that name and the messages written. -/
theorem headlessServerChecks_after_ini (env : Env) (st : Locals) :
    (headlessServerChecks env st).strIniFileName = (checkIniFileName st).strIniFileName ∧
    ∃ l, (headlessServerChecks env st).log = (checkIniFileName st).log ++ l := by
  unfold headlessServerChecks
  dsimp only
  split_ifs
  · obtain ⟨file, l₂, ops, h₂⟩ := checkServerListFile_eq env (checkIniFileName st)
    obtain ⟨l₂', h₂'⟩ := checkServerListFile_log env (checkIniFileName st)
    obtain ⟨l₃, h₃⟩ := checkServerListFilter_log env (checkServerListFile env (checkIniFileName st))
    obtain ⟨ip, l₄, h₄⟩ := checkServerPublicIP_eq env
      (checkServerListFilter env (checkServerListFile env (checkIniFileName st)))
    obtain ⟨-, -, -, -, l₄', h₄'⟩ := checkServerPublicIP_frame env
      (checkServerListFilter env (checkServerListFile env (checkIniFileName st)))
    refine ⟨?_, l₂' ++ l₃ ++ l₄', ?_⟩
    · rw [h₄, h₃, h₂]
    · rw [h₄', h₃]
      simp only [h₂', List.append_assoc]
  · obtain ⟨file, l₂, h₂⟩ := notDirectoryServer_eq (checkIniFileName st)
    obtain ⟨l₂', h₂'⟩ := notDirectoryServer_log (checkIniFileName st)
    obtain ⟨ip, l₄, h₄⟩ := checkServerPublicIP_eq env (notDirectoryServer (checkIniFileName st))
    obtain ⟨-, -, -, -, l₄', h₄'⟩ := checkServerPublicIP_frame env
      (notDirectoryServer (checkIniFileName st))
    refine ⟨?_, l₂' ++ l₄', ?_⟩
    · rw [h₄, h₂]
    · rw [h₄', h₂']
      simp only [List.append_assoc]

/-- The check of the initialization file name clears the name, with the
warning when there was one. -/
theorem checkIniFileName_spec (st : Locals) :
    (checkIniFileName st).strIniFileName = "" ∧
    (st.strIniFileName ≠ "" →
      (⟨.warning, "No initialization file support in headless server mode.", []⟩ : Msg) ∈
        (checkIniFileName st).log) := by
  unfold checkIniFileName
  split_ifs <;> simp_all [Locals.qWarning]

/-- The checks of the values and the initialization file name: cleared in the
server without GUI, with the warning when there was a name, and left alone in
the client and in the server with the GUI. -/
theorem modeAndValidation_ini (env : Env) (argv : List String) (st st₂ : Locals)
    (hok : modeAndValidation env argv st = .ok st₂) :
    st₂.strIniFileName =
      (if st.bIsClient = false ∧ st.bUseGUI = false then "" else st.strIniFileName) ∧
    (st.bIsClient = false → st.bUseGUI = false → st.strIniFileName ≠ "" →
      (⟨.warning, "No initialization file support in headless server mode.", []⟩ : Msg) ∈
        st₂.log) := by
  unfold modeAndValidation at hok
  split_ifs at hok with hc hs hcoo hgui
  · cases hok
    obtain ⟨mute, port, l, h⟩ := clientChecks_eq st
    rw [h]
    simp [hc]
  · cases hok
    obtain ⟨l, h⟩ := guiServerNotes_eq st
    obtain ⟨bind, l', h'⟩ := checkServerBindIP_eq env (guiServerNotes st)
    rw [h', h]
    simp [hgui]
  · cases hok
    obtain ⟨bind, l', h'⟩ := checkServerBindIP_eq env (headlessServerChecks env st)
    obtain ⟨-, -, -, -, l'', h''⟩ := checkServerBindIP_frame env (headlessServerChecks env st)
    obtain ⟨a₁, l, a₂⟩ := headlessServerChecks_after_ini env st
    obtain ⟨c₁, c₂⟩ := checkIniFileName_spec st
    constructor
    · rw [h']
      simp only []
      rw [a₁, c₁]
      simp [hc, hgui]
    · intro _ _ hini
      rw [h'', a₂]
      exact List.mem_append_left _ (List.mem_append_left _ (c₂ hini))

/-- C14. Let the option loop run to its end and the checks of the values go
through.  The initialization file name the loop leaves is the value of the last
`-i`/`--inifile` option, and the GUI is in use when the build has one and no
`-n`/`--nogui` option was given.  After the checks the name is empty when the
mode is Server and the GUI is not in use, and it is the supplied name
otherwise: in the client, and in the server with the GUI.  So a name that was
supplied is cleared if and only if the mode is Server and the GUI is not in
use, and then the warning is among the messages.  The stages after the checks
leave the name as the checks left it. -/
theorem C14_inifile_cleared_in_headless_server (b : Build) (g : Globals) (env : Env)
    (argv : List String) (st st₂ : Locals)
    (hparse : parseOptions b g env argv = .done st)
    (hok : modeAndValidation env argv (headlessDependency b st) = .ok st₂) :
    st.strIniFileName = lastValue ["-i", "--inifile"] argv (parsePositions b g env argv) "" ∧
    st.bUseGUI = !optionGiven ["-n", "--nogui"] argv (parsePositions b g env argv) ∧
    main b g env argv = afterValidation b g env st₂ ∧
    st₂.strIniFileName =
      (if st.bIsClient = false ∧ (st.bUseGUI && !b.HEADLESS) = false then ""
        else st.strIniFileName) ∧
    (st.strIniFileName ≠ "" →
      (st₂.strIniFileName = "" ↔
        (st.bIsClient = false ∧ (st.bUseGUI && !b.HEADLESS) = false))) ∧
    (st.bIsClient = false → (st.bUseGUI && !b.HEADLESS) = false → st.strIniFileName ≠ "" →
      (⟨.warning, "No initialization file support in headless server mode.", []⟩ : Msg) ∈
        st₂.log) ∧
    (main b g env argv).st.strIniFileName = st₂.strIniFileName := by
  obtain ⟨v₁, -, -, -, v₅, -⟩ := optionLoop_values b g env argv argv.length 1
    (initialLocals b g) st (le_refl 1) hparse
  obtain ⟨gui, l₀, h₀⟩ := headlessDependency_eq b st
  obtain ⟨d₁, d₂, -⟩ := headlessDependency_frame b st
  have e₀ : (headlessDependency b st).strIniFileName = st.strIniFileName := by rw [h₀]
  obtain ⟨m₁, m₂⟩ := modeAndValidation_ini env argv (headlessDependency b st) st₂ hok
  rw [d₁, d₂, e₀] at m₁ m₂
  have hmain := main_of_validation b g env argv st st₂ hparse hok
  obtain ⟨gui', client', l', ops', ha⟩ := afterValidation_eq b g env st₂
  refine ⟨v₅, ?_, hmain, m₁, ?_, m₂, ?_⟩
  · rw [v₁]
    rfl
  · intro hini
    rw [m₁]
    split_ifs with h
    · exact ⟨fun _ => h, fun _ => rfl⟩
    · exact ⟨fun h' => (hini h').elim, fun h' => (h h').elim⟩
  · rw [hmain, ha]

/-- C14, an instance: `-i koord.ini` is cleared in the server of the build
without GUI and kept in the client and in the server with the GUI. -/
theorem C14_inifile_cleared_in_headless_server_witness :
    (main headlessBuild stdGlobals stdEnv ["koord", "-s", "-i", "koord.ini"]).st.strIniFileName
      = "" ∧
    (main stdBuild stdGlobals stdEnv ["koord", "-i", "koord.ini"]).st.strIniFileName
      = "koord.ini" ∧
    (main stdBuild stdGlobals stdEnv ["koord", "-s", "-i", "koord.ini"]).st.strIniFileName
      = "koord.ini" := by
  obtain ⟨-, -, -, h₁, -, -, h₂⟩ := C14_inifile_cleared_in_headless_server headlessBuild
    stdGlobals stdEnv ["koord", "-s", "-i", "koord.ini"] _ _ (by rfl) (by rfl)
  refine ⟨?_, by decide, by decide⟩
  rw [h₂, h₁]
  decide

/-! ## Mute me in my own mix -/

/-- The checks of the client: the mute flag survives only without the GUI, and
with the GUI a flag that was set brings the warning. -/
theorem clientChecks_mute (st : Locals) :
    (clientChecks st).bMuteMeInPersonalMix = (st.bMuteMeInPersonalMix && !st.bUseGUI) ∧
    (st.bUseGUI = true → st.bMuteMeInPersonalMix = true →
      (⟨.warning, "Mute my own signal in my personal mix is only supported in headless mode.",
        []⟩ : Msg) ∈ (clientChecks st).log) := by
  unfold clientChecks
  dsimp only
  cases hg : st.bUseGUI <;> cases hm : st.bMuteMeInPersonalMix <;>
    split_ifs <;> simp_all [Locals.qWarning, Locals.qInfo]

/-- C15. Let the option loop run to its end and leave the mode Client, and let
the check of the mode pass.  The mute flag the loop leaves says whether a
`--mutemyown` option was given, and the GUI is in use when the build has one
and no `-n`/`--nogui` option was given.  After the checks the flag is true if
and only if `--mutemyown` was given and the GUI is not in use (`--nogui` given,
or a build without GUI); when it was given with the GUI in use it is false and
the warning is among the messages.  `main` goes on with the stages after the
checks, and a client that is constructed gets the flag the checks left. -/
theorem C15_mute_my_own_only_headless (b : Build) (g : Globals) (env : Env)
    (argv : List String) (st st₂ : Locals)
    (hparse : parseOptions b g env argv = .done st)
    (hclient : st.bIsClient = true)
    (hok : modeAndValidation env argv (headlessDependency b st) = .ok st₂) :
    st.bMuteMeInPersonalMix = optionGiven ["--mutemyown"] argv (parsePositions b g env argv) ∧
    st.bUseGUI = !optionGiven ["-n", "--nogui"] argv (parsePositions b g env argv) ∧
    main b g env argv = afterValidation b g env st₂ ∧
    (st₂.bMuteMeInPersonalMix = true ↔
      (optionGiven ["--mutemyown"] argv (parsePositions b g env argv) = true ∧
        (optionGiven ["-n", "--nogui"] argv (parsePositions b g env argv) = true ∨
          b.HEADLESS = true))) ∧
    (optionGiven ["--mutemyown"] argv (parsePositions b g env argv) = true →
      optionGiven ["-n", "--nogui"] argv (parsePositions b g env argv) = false →
      b.HEADLESS = false →
      st₂.bMuteMeInPersonalMix = false ∧
      (⟨.warning, "Mute my own signal in my personal mix is only supported in headless mode.",
        []⟩ : Msg) ∈ st₂.log) ∧
    (main b g env argv).st.bMuteMeInPersonalMix = st₂.bMuteMeInPersonalMix ∧
    (∀ args, (main b g env argv).actor = some (.client args) →
      args.bMuteMeInPersonalMix = st₂.bMuteMeInPersonalMix) := by
  obtain ⟨v₁, v₂, -⟩ := optionLoop_values b g env argv argv.length 1
    (initialLocals b g) st (le_refl 1) hparse
  have w₁ : st.bUseGUI = !optionGiven ["-n", "--nogui"] argv (parsePositions b g env argv) := by
    rw [v₁]; rfl
  have w₂ : st.bMuteMeInPersonalMix =
      optionGiven ["--mutemyown"] argv (parsePositions b g env argv) := by
    rw [v₂]; rfl
  obtain ⟨gui, l₀, h₀⟩ := headlessDependency_eq b st
  obtain ⟨d₁, d₂, -⟩ := headlessDependency_frame b st
  have e₀ : (headlessDependency b st).bMuteMeInPersonalMix = st.bMuteMeInPersonalMix := by
    rw [h₀]
  have hst₂ : st₂ = clientChecks (headlessDependency b st) := by
    unfold modeAndValidation at hok
    rw [d₁, hclient] at hok
    simp only [if_true] at hok
    split_ifs at hok
    exact (Stage.ok.inj hok).symm
  obtain ⟨c₁, c₂⟩ := clientChecks_mute (headlessDependency b st)
  rw [← hst₂, e₀, d₂, w₁, w₂] at c₁
  rw [← hst₂, e₀, d₂, w₁, w₂] at c₂
  have hmain := main_of_validation b g env argv st st₂ hparse hok
  obtain ⟨gui', client', l', ops', ha⟩ := afterValidation_eq b g env st₂
  obtain ⟨-, f₂, -, -, f₅⟩ := afterValidation_frame b g env st₂
  refine ⟨w₂, w₁, hmain, ?_, ?_, ?_, ?_⟩
  · rw [c₁]
    cases optionGiven ["--mutemyown"] argv (parsePositions b g env argv) <;>
      cases optionGiven ["-n", "--nogui"] argv (parsePositions b g env argv) <;>
      cases b.HEADLESS <;> simp
  · intro hm hn hh
    rw [hm, hn, hh] at c₁ c₂
    exact ⟨by simpa using c₁, c₂ (by simp) rfl⟩
  · rw [hmain, ha]
  · intro args h
    rw [hmain] at h
    rw [f₅ args h]
    rfl

/-- C15, an instance: `--mutemyown` survives with `--nogui` and is cleared
with the GUI in use. -/
theorem C15_mute_my_own_only_headless_witness :
    (∀ args, (main stdBuild stdGlobals stdEnv ["koord", "--nogui", "--mutemyown"]).actor =
      some (.client args) → args.bMuteMeInPersonalMix = true) ∧
    (main stdBuild stdGlobals stdEnv ["koord", "--nogui", "--mutemyown"]).ranClient = true ∧
    (main stdBuild stdGlobals stdEnv ["koord", "--mutemyown"]).st.bMuteMeInPersonalMix = false := by
  obtain ⟨-, -, -, h₁, -, -, h₂⟩ := C15_mute_my_own_only_headless stdBuild
    stdGlobals stdEnv ["koord", "--nogui", "--mutemyown"] _ _ (by rfl) (by decide) (by rfl)
  refine ⟨?_, by decide, by decide⟩
  intro args h
  rw [h₂ args h]
  exact h₁.2 ⟨by decide, Or.inl (by decide)⟩

/-! ## JSON-RPC -/

/-- Whether the port of JSON-RPC was asked for, in terms of the tokens; the
sentinel `INVALID_PORT` is taken to lie outside the values of 16 bits. -/
theorem jsonRpcPort_given (b : Build) (g : Globals) (env : Env) (argv : List String)
    (st : Locals) (hinv : g.INVALID_PORT < 0 ∨ 65535 < g.INVALID_PORT)
    (hparse : parseOptions b g env argv = .done st) :
    st.iJsonRpcPortNumber =
      lastJsonRpcPort env argv (parsePositions b g env argv) g.INVALID_PORT ∧
    (st.iJsonRpcPortNumber ≠ g.INVALID_PORT ↔
      optionGiven ["--jsonrpcport"] argv (parsePositions b g env argv) = true) ∧
    (optionGiven ["--jsonrpcport"] argv (parsePositions b g env argv) = true →
      0 ≤ st.iJsonRpcPortNumber ∧ st.iJsonRpcPortNumber < 65536) := by
  obtain ⟨-, -, v₃, -⟩ := optionLoop_values b g env argv argv.length 1
    (initialLocals b g) st (le_refl 1) hparse
  have w₃ : st.iJsonRpcPortNumber =
      lastJsonRpcPort env argv (parsePositions b g env argv) g.INVALID_PORT := by
    rw [v₃]; rfl
  obtain ⟨s₁, s₂⟩ := lastJsonRpcPort_spec env argv (parsePositions b g env argv) g.INVALID_PORT
  refine ⟨w₃, ?_, ?_⟩
  · rw [w₃]
    constructor
    · intro hne
      by_contra hg
      rw [Bool.not_eq_true] at hg
      exact hne (s₁ hg)
    · intro hg heq
      have := s₂ hg
      rw [heq] at this
      omega
  · intro hg
    rw [w₃]
    exact s₂ hg

/-- The values the JSON-RPC block reads are those the loop left, and the set-up
of the application does no file operation and writes no message. -/
theorem rpc_inputs (b : Build) (env : Env) (argv : List String) (st st₂ : Locals)
    (hok : modeAndValidation env argv (headlessDependency b st) = .ok st₂) :
    (applicationSetup b st₂).iJsonRpcPortNumber = st.iJsonRpcPortNumber ∧
    (applicationSetup b st₂).strJsonRpcSecretFileName = st.strJsonRpcSecretFileName ∧
    (applicationSetup b st₂).fsOps = st₂.fsOps ∧
    (applicationSetup b st₂).log = st₂.log := by
  obtain ⟨gui, l₀, h₀⟩ := headlessDependency_eq b st
  obtain ⟨mute, port, ini, file, ip, bind, l, ops, h⟩ := modeAndValidation_eq env argv _ _ hok
  obtain ⟨gui', client', ha⟩ := applicationSetup_eq b st₂
  refine ⟨?_, ?_, by rw [ha], by rw [ha]⟩
  · rw [ha]; simp only []; rw [h]; simp only []; rw [h₀]
  · rw [ha]; simp only []; rw [h]; simp only []; rw [h₀]

/-- The file operations of the checks of the values: none, except in the
server without GUI whose directory server is this host and that has a
persistence file name; there, a probe of the path and, when the path does not
exist, an open for reading and writing. -/
theorem modeAndValidation_fsOps (env : Env) (argv : List String) (st st₂ : Locals)
    (hok : modeAndValidation env argv st = .ok st₂) :
    st₂.fsOps = st.fsOps ++
      (if st.bIsClient = false ∧ st.bUseGUI = false ∧
          (equalsLocalhostIgnoringCase st.strDirectoryServer = true ∨
            st.strDirectoryServer = "127.0.0.1") ∧ st.strServerListFileName ≠ "" then
        (if env.fileExists st.strServerListFileName then [.probe st.strServerListFileName]
          else [.probe st.strServerListFileName, .openReadWrite st.strServerListFileName])
      else []) := by
  unfold modeAndValidation at hok
  split_ifs at hok with hc hs hcoo hgui
  · cases hok
    obtain ⟨mute, port, l, h⟩ := clientChecks_eq st
    rw [h]
    simp [hc]
  · cases hok
    obtain ⟨l, h⟩ := guiServerNotes_eq st
    obtain ⟨bind, l', h'⟩ := checkServerBindIP_eq env (guiServerNotes st)
    rw [h', h]
    simp [hgui]
  · cases hok
    obtain ⟨bind, l', h'⟩ := checkServerBindIP_eq env (headlessServerChecks env st)
    rw [h']
    simp only []
    obtain ⟨ini, l₁, h₁⟩ := checkIniFileName_eq st
    have e₁ : (checkIniFileName st).strDirectoryServer = st.strDirectoryServer := by rw [h₁]
    have e₂ : (checkIniFileName st).strServerListFileName = st.strServerListFileName := by
      rw [h₁]
    have e₃ : (checkIniFileName st).fsOps = st.fsOps := by rw [h₁]
    have hcl : st.bIsClient = false := by simpa using hc
    have hg : st.bUseGUI = false := by simpa using hgui
    by_cases hloop : equalsLocalhostIgnoringCase st.strDirectoryServer = true ∨
        st.strDirectoryServer = "127.0.0.1"
    · rw [headlessServerChecks_on_directory env st hloop]
      obtain ⟨-, -, -, p₄, -⟩ := checkServerPublicIP_frame env
        (checkServerListFilter env (checkServerListFile env (checkIniFileName st)))
      obtain ⟨l₂, h₂⟩ := checkServerListFilter_log env
        (checkServerListFile env (checkIniFileName st))
      rw [p₄, h₂]
      simp only []
      by_cases hfile : st.strServerListFileName = ""
      · have : checkServerListFile env (checkIniFileName st) = checkIniFileName st := by
          unfold checkServerListFile
          simp [e₂, hfile]
        rw [this, e₃]
        simp [hfile]
      · obtain ⟨-, -, -, -, s₅⟩ := checkServerListFile_spec env (checkIniFileName st)
          (by rw [e₂]; exact hfile)
        rw [s₅, e₂, e₃]
        simp [hcl, hg, hloop, hfile]
    · have hbranch : headlessServerChecks env st =
          checkServerPublicIP env (notDirectoryServer (checkIniFileName st)) := by
        unfold headlessServerChecks
        simp only [e₁, hloop, if_false]
      rw [hbranch]
      obtain ⟨-, -, -, p₄, -⟩ := checkServerPublicIP_frame env
        (notDirectoryServer (checkIniFileName st))
      obtain ⟨file, l₂, h₂⟩ := notDirectoryServer_eq (checkIniFileName st)
      rw [p₄, h₂]
      simp only []
      rw [e₃]
      simp [hloop]

/-- C16, as stated, does not hold.  In the build without GUI the vector
`-s -e localhost --directoryfile new.dat --jsonrpcport 5000` has a JSON-RPC
port and no secret file, and `main` ends with exit code 1; but before that the
check of the persistence file has probed `new.dat` and, the path not existing,
opened it for reading and writing.  And in the build for Android, when the
permission to record audio is denied, `main` returns 0 before it comes to the
JSON-RPC block. -/
theorem C16_file_opened_before_exit :
    (main headlessBuild stdGlobals fileEnv ["koord", "-s", "-e", "localhost",
      "--directoryfile", "new.dat", "--jsonrpcport", "5000"]).exitCode = some 1 ∧
    (main headlessBuild stdGlobals fileEnv ["koord", "-s", "-e", "localhost",
      "--directoryfile", "new.dat", "--jsonrpcport", "5000"]).st.fsOps =
        [.probe "new.dat", .openReadWrite "new.dat"] ∧
    (main headlessBuild stdGlobals fileEnv ["koord", "-s", "-e", "localhost",
      "--directoryfile", "new.dat", "--jsonrpcport", "5000"]).st.strServerListFileName =
        "new.dat" ∧
    (main androidBuild stdGlobals deniedEnv ["koord", "--jsonrpcport", "5000"]).exitCode =
      some 0 := by
  decide

/-- C16, amended.  Let the option loop run to its end and the checks of the
values go through, let a `--jsonrpcport` option be given and the secret file
name be empty (no `--jsonrpcsecretfile` option, or the last one with an empty
value), and let `main` come to the JSON-RPC block (the permission of Android is
not denied).  Then `main` ends with exit code 1 and the message that
`--jsonrpcsecretfile` is required; no JSON-RPC server is started and no actor
constructed; the JSON-RPC block does no file operation, so the only file
operations of the run are those of the check of the persistence file, done in
the server without GUI whose directory server is this host: a probe of the path
and, when the path does not exist, an open for reading and writing. -/
theorem C16_port_without_secret_file (b : Build) (g : Globals) (env : Env)
    (argv : List String) (st st₂ : Locals)
    (hinv : g.INVALID_PORT < 0 ∨ 65535 < g.INVALID_PORT)
    (hparse : parseOptions b g env argv = .done st)
    (hok : modeAndValidation env argv (headlessDependency b st) = .ok st₂)
    (handroid : androidReturns b env = false)
    (hport : optionGiven ["--jsonrpcport"] argv (parsePositions b g env argv) = true)
    (hsecret : lastValue ["--jsonrpcsecretfile"] argv (parsePositions b g env argv) "" = "") :
    main b g env argv =
      { exitCode := some 1
        st := (applicationSetup b st₂).qCritical
          "- JSON-RPC: --jsonrpcsecretfile is required. Exiting." []
        pRpcServer := none
        actor := none } ∧
    (main b g env argv).st.fsOps =
      (if st.bIsClient = false ∧ (st.bUseGUI && !b.HEADLESS) = false ∧
          (equalsLocalhostIgnoringCase st.strDirectoryServer = true ∨
            st.strDirectoryServer = "127.0.0.1") ∧ st.strServerListFileName ≠ "" then
        (if env.fileExists st.strServerListFileName then [.probe st.strServerListFileName]
          else [.probe st.strServerListFileName, .openReadWrite st.strServerListFileName])
      else []) := by
  obtain ⟨-, -, -, v₄, -⟩ := optionLoop_values b g env argv argv.length 1
    (initialLocals b g) st (le_refl 1) hparse
  have w₄ : st.strJsonRpcSecretFileName = "" := by rw [v₄]; exact hsecret
  obtain ⟨-, j₂, -⟩ := jsonRpcPort_given b g env argv st hinv hparse
  obtain ⟨r₁, r₂, r₃, -⟩ := rpc_inputs b env argv st st₂ hok
  have hmain := main_of_validation b g env argv st st₂ hparse hok
  have hout : main b g env argv =
      { exitCode := some 1
        st := (applicationSetup b st₂).qCritical
          "- JSON-RPC: --jsonrpcsecretfile is required. Exiting." []
        pRpcServer := none
        actor := none } := by
    rw [hmain]
    unfold afterValidation rpcBootstrap
    rw [r₁, r₂, w₄]
    simp [handroid, j₂.2 hport]
  refine ⟨hout, ?_⟩
  rw [hout]
  simp only [Locals.qCritical]
  rw [r₃, modeAndValidation_fsOps env argv _ _ hok]
  obtain ⟨-, -, -, hfs₀⟩ := optionLoop_effect b g env argv argv.length 1 (initialLocals b g) st
    (le_refl 1) hparse
  obtain ⟨gui, l₀, h₀⟩ := headlessDependency_eq b st
  obtain ⟨d₁, d₂, -⟩ := headlessDependency_frame b st
  have e₁ : (headlessDependency b st).strDirectoryServer = st.strDirectoryServer := by rw [h₀]
  have e₂ : (headlessDependency b st).strServerListFileName = st.strServerListFileName := by
    rw [h₀]
  have e₃ : (headlessDependency b st).fsOps = [] := by rw [h₀]; exact hfs₀
  rw [d₁, d₂, e₁, e₂, e₃, List.nil_append]

/-- C16, amended, an instance: `--jsonrpcport 5000` alone in the standard
build ends with exit code 1, no file touched and no actor constructed. -/
theorem C16_port_without_secret_file_witness :
    (main stdBuild stdGlobals stdEnv ["koord", "--jsonrpcport", "5000"]).exitCode = some 1 ∧
    (main stdBuild stdGlobals stdEnv ["koord", "--jsonrpcport", "5000"]).st.fsOps = [] ∧
    (main stdBuild stdGlobals stdEnv ["koord", "--jsonrpcport", "5000"]).actor = none := by
  obtain ⟨h₁, h₂⟩ := C16_port_without_secret_file stdBuild stdGlobals stdEnv
    ["koord", "--jsonrpcport", "5000"] _ _ (by decide) (by rfl) (by rfl) (by decide)
    (by decide) (by decide)
  refine ⟨?_, ?_, ?_⟩
  · rw [h₁]
  · rw [h₂]; decide
  · rw [h₁]

/-- What `readLine` returns is the first line of the text: the text is the
line followed by nothing, by a line feed, by a carriage return and a line feed,
or by a carriage return that ends the text; and no line feed is in the line. -/
theorem readLine_spec (text : String) :
    ∃ rest, text.data = (readLine text).data ++ rest ∧
      '\n' ∉ (readLine text).data ∧
      (rest = [] ∨ (∃ r, rest = '\n' :: r) ∨ (∃ r, rest = '\r' :: '\n' :: r) ∨
        rest = ['\r']) := by
  have hsplit := List.takeWhile_append_dropWhile (fun c => decide (c ≠ '\n')) text.data
  have hnot : '\n' ∉ text.data.takeWhile (fun c => decide (c ≠ '\n')) := by
    intro hmem
    have := List.mem_takeWhile_imp hmem
    simp at this
  have hdrop : text.data.dropWhile (fun c => decide (c ≠ '\n')) = [] ∨
      ∃ r, text.data.dropWhile (fun c => decide (c ≠ '\n')) = '\n' :: r := by
    cases hd : text.data.dropWhile (fun c => decide (c ≠ '\n')) with
    | nil => exact Or.inl rfl
    | cons c r =>
      right
      have := List.head_dropWhile_not (fun c => decide (c ≠ '\n')) text.data
        (by rw [hd]; exact List.cons_ne_nil _ _)
      simp only [hd, List.head_cons, decide_eq_false_iff_not, ne_eq, not_not] at this
      exact ⟨r, by rw [this]⟩
  unfold readLine
  dsimp only
  generalize text.data.takeWhile (fun c => decide (c ≠ '\n')) = line at hsplit hnot ⊢
  generalize text.data.dropWhile (fun c => decide (c ≠ '\n')) = tail at hsplit hdrop
  split_ifs with hlast
  · have hl := List.dropLast_append_getLast? '\r' hlast
    have hmem : '\n' ∉ line.dropLast := fun h => hnot (List.dropLast_subset _ h)
    rcases hdrop with hd | ⟨r, hd⟩
    · refine ⟨['\r'], ?_, hmem, Or.inr (Or.inr (Or.inr rfl))⟩
      rw [← hsplit, hd, List.append_nil]
      exact hl.symm
    · refine ⟨'\r' :: '\n' :: r, ?_, hmem, Or.inr (Or.inr (Or.inl ⟨r, rfl⟩))⟩
      have : line.dropLast ++ '\r' :: '\n' :: r = line ++ tail := by
        rw [hd]
        nth_rewrite 2 [← hl]
        simp
      exact hsplit.symm.trans this.symm
  · rcases hdrop with hd | ⟨r, hd⟩
    · exact ⟨[], by rw [← hsplit, hd], hnot, Or.inl rfl⟩
    · exact ⟨'\n' :: r, by rw [← hsplit, hd], hnot, Or.inr (Or.inl ⟨r, rfl⟩)⟩

/-- The `try` block hands the JSON-RPC server on and always constructs an
actor. -/
theorem runActor_pRpcServer (b : Build) (g : Globals) (env : Env) (st : Locals)
    (p : Option RpcServer) :
    (runActor b g env st p).pRpcServer = p ∧ (runActor b g env st p).actor ≠ none := by
  unfold runActor catchGenErr
  split_ifs <;> split <;> simp

/-- C17. Let the option loop run to its end and the checks of the values go
through, let a `--jsonrpcport` option be given, let `main` come to the JSON-RPC
block, and let the secret file (the value of the last `--jsonrpcsecretfile`
option, not empty) open for reading.  The secret is the first line of the
file: the text of the file is the secret followed by nothing, by a line feed,
by a carriage return and a line feed, or by a carriage return that ends the
text, and the secret holds no line feed.
When the secret is shorter than `JSON_RPC_MINIMUM_SECRET_LENGTH`, as that of
an empty file is when the minimum is positive, `main` ends with exit code 1 and
the message of the refusal, with no JSON-RPC server and no actor.  When it is
not shorter, the server is started with the port and the secret: if the start
succeeds `main` goes on with this server and constructs an actor, and if it
fails `main` ends with exit code 1 and the message of the failed start. -/
theorem C17_secret_is_first_line (b : Build) (g : Globals) (env : Env)
    (argv : List String) (st st₂ : Locals)
    (hinv : g.INVALID_PORT < 0 ∨ 65535 < g.INVALID_PORT)
    (hparse : parseOptions b g env argv = .done st)
    (hok : modeAndValidation env argv (headlessDependency b st) = .ok st₂)
    (handroid : androidReturns b env = false)
    (hport : optionGiven ["--jsonrpcport"] argv (parsePositions b g env argv) = true)
    (hname : st.strJsonRpcSecretFileName ≠ "")
    (hopen : env.openReadOnly st.strJsonRpcSecretFileName = true) :
    st.strJsonRpcSecretFileName =
      lastValue ["--jsonrpcsecretfile"] argv (parsePositions b g env argv) "" ∧
    (∃ rest, (env.fileText st.strJsonRpcSecretFileName).data =
        (readLine (env.fileText st.strJsonRpcSecretFileName)).data ++ rest ∧
      '\n' ∉ (readLine (env.fileText st.strJsonRpcSecretFileName)).data ∧
      (rest = [] ∨ (∃ r, rest = '\n' :: r) ∨ (∃ r, rest = '\r' :: '\n' :: r) ∨
        rest = ['\r'])) ∧
    ((qLength (readLine (env.fileText st.strJsonRpcSecretFileName)) : Int) <
        g.JSON_RPC_MINIMUM_SECRET_LENGTH →
      (main b g env argv).exitCode = some 1 ∧
      (main b g env argv).pRpcServer = none ∧
      (main b g env argv).actor = none ∧
      (main b g env argv).st.log.getLast? = some
        ⟨.critical, "JSON-RPC: Refusing to run with secret of length %1 (required: %2). Exiting.",
          [.int (qLength (readLine (env.fileText st.strJsonRpcSecretFileName))),
           .int g.JSON_RPC_MINIMUM_SECRET_LENGTH]⟩) ∧
    (0 < g.JSON_RPC_MINIMUM_SECRET_LENGTH → env.fileText st.strJsonRpcSecretFileName = "" →
      (main b g env argv).exitCode = some 1 ∧
      (main b g env argv).pRpcServer = none ∧
      (main b g env argv).actor = none) ∧
    (g.JSON_RPC_MINIMUM_SECRET_LENGTH ≤
        (qLength (readLine (env.fileText st.strJsonRpcSecretFileName)) : Int) →
      env.rpcStart st.iJsonRpcPortNumber
        (readLine (env.fileText st.strJsonRpcSecretFileName)) = true →
      (main b g env argv).pRpcServer = some
        ⟨st.iJsonRpcPortNumber, readLine (env.fileText st.strJsonRpcSecretFileName)⟩ ∧
      (main b g env argv).actor ≠ none) ∧
    (g.JSON_RPC_MINIMUM_SECRET_LENGTH ≤
        (qLength (readLine (env.fileText st.strJsonRpcSecretFileName)) : Int) →
      env.rpcStart st.iJsonRpcPortNumber
        (readLine (env.fileText st.strJsonRpcSecretFileName)) = false →
      (main b g env argv).exitCode = some 1 ∧
      (main b g env argv).pRpcServer = none ∧
      (main b g env argv).actor = none ∧
      (main b g env argv).st.log.getLast? = some
        ⟨.critical, "- JSON-RPC: Server failed to start. Exiting.", []⟩) := by
  obtain ⟨-, -, -, v₄, -⟩ := optionLoop_values b g env argv argv.length 1
    (initialLocals b g) st (le_refl 1) hparse
  obtain ⟨-, j₂, -⟩ := jsonRpcPort_given b g env argv st hinv hparse
  have hne := j₂.2 hport
  obtain ⟨r₁, r₂, -, -⟩ := rpc_inputs b env argv st st₂ hok
  have hmain := main_of_validation b g env argv st st₂ hparse hok
  have hshort : (qLength (readLine (env.fileText st.strJsonRpcSecretFileName)) : Int) <
        g.JSON_RPC_MINIMUM_SECRET_LENGTH →
      (main b g env argv).exitCode = some 1 ∧
      (main b g env argv).pRpcServer = none ∧
      (main b g env argv).actor = none ∧
      (main b g env argv).st.log.getLast? = some
        ⟨.critical, "JSON-RPC: Refusing to run with secret of length %1 (required: %2). Exiting.",
          [.int (qLength (readLine (env.fileText st.strJsonRpcSecretFileName))),
           .int g.JSON_RPC_MINIMUM_SECRET_LENGTH]⟩ := by
    intro hlt
    rw [hmain]
    unfold afterValidation rpcBootstrap
    rw [r₁, r₂]
    simp [handroid, hne, hname, hopen, hlt, Locals.qCritical]
  refine ⟨v₄, readLine_spec _, hshort, ?_, ?_, ?_⟩
  · intro hpos htext
    have hzero : (qLength (readLine (env.fileText st.strJsonRpcSecretFileName)) : Int) <
        g.JSON_RPC_MINIMUM_SECRET_LENGTH := by
      rw [htext]
      have : qLength (readLine "") = 0 := by decide
      rw [this]
      exact hpos
    obtain ⟨h₁, h₂, h₃, -⟩ := hshort hzero
    exact ⟨h₁, h₂, h₃⟩
  · intro hge hstart
    have hnlt : ¬ (qLength (readLine (env.fileText st.strJsonRpcSecretFileName)) : Int) <
        g.JSON_RPC_MINIMUM_SECRET_LENGTH := not_lt.2 hge
    rw [hmain]
    unfold afterValidation rpcBootstrap
    rw [r₁, r₂]
    simp only [handroid, Bool.false_eq_true, if_false, ne_eq, hne, not_false_eq_true, if_true,
      hname, hopen, Bool.not_true, hnlt, hstart]
    exact runActor_pRpcServer b g env _ _
  · intro hge hstart
    have hnlt : ¬ (qLength (readLine (env.fileText st.strJsonRpcSecretFileName)) : Int) <
        g.JSON_RPC_MINIMUM_SECRET_LENGTH := not_lt.2 hge
    rw [hmain]
    unfold afterValidation rpcBootstrap
    rw [r₁, r₂]
    simp [handroid, hne, hname, hopen, hnlt, hstart, Locals.qCritical]

/-- C17, an instance: the file `secret.txt` holds a first line of sixteen
characters and a second line; the JSON-RPC server is started with the first
line as its secret. -/
theorem C17_secret_is_first_line_witness :
    (main stdBuild stdGlobals fileEnv
      ["koord", "--jsonrpcport", "5000", "--jsonrpcsecretfile", "secret.txt"]).pRpcServer =
        some ⟨5000, "0123456789abcdef"⟩ ∧
    (main stdBuild stdGlobals fileEnv
      ["koord", "--jsonrpcport", "5000", "--jsonrpcsecretfile", "servers.dat"]).exitCode =
        some 1 := by
  obtain ⟨-, -, -, -, h, -⟩ := C17_secret_is_first_line stdBuild stdGlobals fileEnv
    ["koord", "--jsonrpcport", "5000", "--jsonrpcsecretfile", "secret.txt"] _ _
    (by decide) (by rfl) (by rfl) (by decide) (by decide) (by decide) (by decide)
  refine ⟨?_, by decide⟩
  rw [(h (by decide) (by decide)).1]
  decide

/-- The part of `main` after the checks of the values ends with a JSON-RPC
server exactly when it comes to the JSON-RPC block, the port differs from
`INVALID_PORT`, the secret file has a name and opens for reading, its first
line is not shorter than the minimum, and the start of the server succeeds. -/
theorem afterValidation_pRpcServer (b : Build) (g : Globals) (env : Env) (st : Locals) :
    (afterValidation b g env st).pRpcServer ≠ none ↔
      (androidReturns b env = false ∧
        (applicationSetup b st).iJsonRpcPortNumber ≠ g.INVALID_PORT ∧
        (applicationSetup b st).strJsonRpcSecretFileName ≠ "" ∧
        env.openReadOnly (applicationSetup b st).strJsonRpcSecretFileName = true ∧
        g.JSON_RPC_MINIMUM_SECRET_LENGTH ≤
          (qLength (readLine (env.fileText (applicationSetup b st).strJsonRpcSecretFileName)) :
            Int) ∧
        env.rpcStart (applicationSetup b st).iJsonRpcPortNumber
          (readLine (env.fileText (applicationSetup b st).strJsonRpcSecretFileName)) = true) := by
  unfold afterValidation rpcBootstrap
  dsimp only
  split_ifs <;> simp_all [(runActor_pRpcServer b g env _ _).1]

/-- C18, as stated, does not hold: a `--jsonrpcport` option does not make a
JSON-RPC server.  In the standard build the vector `--jsonrpcport 5000` has the
option at an option position and no secret file; `main` ends in the JSON-RPC
block with exit code 1 and the message that `--jsonrpcsecretfile` is required,
with no JSON-RPC server and no actor. -/
theorem C18_port_without_listener :
    parsePositions stdBuild stdGlobals stdEnv ["koord", "--jsonrpcport", "5000"] = [1] ∧
    optionGiven ["--jsonrpcport"] ["koord", "--jsonrpcport", "5000"]
      (parsePositions stdBuild stdGlobals stdEnv ["koord", "--jsonrpcport", "5000"]) = true ∧
    (main stdBuild stdGlobals stdEnv ["koord", "--jsonrpcport", "5000"]).st.iJsonRpcPortNumber =
      5000 ∧
    (main stdBuild stdGlobals stdEnv ["koord", "--jsonrpcport", "5000"]).pRpcServer = none ∧
    (main stdBuild stdGlobals stdEnv ["koord", "--jsonrpcport", "5000"]).exitCode = some 1 ∧
    (main stdBuild stdGlobals stdEnv ["koord", "--jsonrpcport", "5000"]).actor = none ∧
    (main stdBuild stdGlobals stdEnv ["koord", "--jsonrpcport", "5000"]).st.log.getLast? =
      some ⟨.critical, "- JSON-RPC: --jsonrpcsecretfile is required. Exiting.", []⟩ := by
  decide

/-- C18, amended.  Let the option loop run to its end and the checks of the
values go through, and take `INVALID_PORT` outside the values of 16 bits.  The
port of JSON-RPC the loop leaves is the value of the last `--jsonrpcport`
option, a value from 0 to 65535, and it differs from `INVALID_PORT` if and
only if such an option was given.  The JSON-RPC block is passed over, with no message, no
file operation and no server, if and only if no such option was given.  A
JSON-RPC server in the outcome of `main` means that the option was given.
Without the option, whatever `--jsonrpcsecretfile` says, `main` that comes to
the block goes on to the `try` block with no JSON-RPC server, and the run does
no file operation but those of the checks of the values.  With the option a
JSON-RPC server is not yet there: the outcome of `main` has one exactly when
the option was given, `main` comes to the block (the permission of Android is
not denied), the secret file has a name and opens for reading, its first line
is not shorter than `JSON_RPC_MINIMUM_SECRET_LENGTH`, and the start of the
server with the port and that line succeeds; the server then holds that port
and that line.  The name of the secret file is the value of the last
`--jsonrpcsecretfile` option, and empty without one. -/
theorem C18_rpc_only_with_port (b : Build) (g : Globals) (env : Env)
    (argv : List String) (st st₂ : Locals)
    (hinv : g.INVALID_PORT < 0 ∨ 65535 < g.INVALID_PORT)
    (hparse : parseOptions b g env argv = .done st)
    (hok : modeAndValidation env argv (headlessDependency b st) = .ok st₂) :
    st.iJsonRpcPortNumber =
      lastJsonRpcPort env argv (parsePositions b g env argv) g.INVALID_PORT ∧
    (optionGiven ["--jsonrpcport"] argv (parsePositions b g env argv) = true →
      0 ≤ st.iJsonRpcPortNumber ∧ st.iJsonRpcPortNumber < 65536) ∧
    (st.iJsonRpcPortNumber ≠ g.INVALID_PORT ↔
      optionGiven ["--jsonrpcport"] argv (parsePositions b g env argv) = true) ∧
    (rpcBootstrap g env (applicationSetup b st₂) = .ok (applicationSetup b st₂) none ↔
      optionGiven ["--jsonrpcport"] argv (parsePositions b g env argv) = false) ∧
    ((main b g env argv).pRpcServer ≠ none →
      optionGiven ["--jsonrpcport"] argv (parsePositions b g env argv) = true) ∧
    (optionGiven ["--jsonrpcport"] argv (parsePositions b g env argv) = false →
      androidReturns b env = false →
      main b g env argv = runActor b g env (applicationSetup b st₂) none ∧
      (main b g env argv).pRpcServer = none ∧
      (main b g env argv).st.fsOps = st₂.fsOps) ∧
    ((main b g env argv).pRpcServer ≠ none ↔
      (optionGiven ["--jsonrpcport"] argv (parsePositions b g env argv) = true ∧
        androidReturns b env = false ∧
        st.strJsonRpcSecretFileName ≠ "" ∧
        env.openReadOnly st.strJsonRpcSecretFileName = true ∧
        g.JSON_RPC_MINIMUM_SECRET_LENGTH ≤
          (qLength (readLine (env.fileText st.strJsonRpcSecretFileName)) : Int) ∧
        env.rpcStart st.iJsonRpcPortNumber
          (readLine (env.fileText st.strJsonRpcSecretFileName)) = true)) ∧
    ((main b g env argv).pRpcServer ≠ none →
      (main b g env argv).pRpcServer = some
        ⟨st.iJsonRpcPortNumber, readLine (env.fileText st.strJsonRpcSecretFileName)⟩) ∧
    st.strJsonRpcSecretFileName =
      lastValue ["--jsonrpcsecretfile"] argv (parsePositions b g env argv) "" := by
  obtain ⟨-, -, -, v₄, -⟩ := optionLoop_values b g env argv argv.length 1
    (initialLocals b g) st (le_refl 1) hparse
  obtain ⟨j₁, j₂, j₃⟩ := jsonRpcPort_given b g env argv st hinv hparse
  obtain ⟨r₁, r₂, r₃, -⟩ := rpc_inputs b env argv st st₂ hok
  have hmain := main_of_validation b g env argv st st₂ hparse hok
  have hskip : optionGiven ["--jsonrpcport"] argv (parsePositions b g env argv) = false →
      rpcBootstrap g env (applicationSetup b st₂) = .ok (applicationSetup b st₂) none := by
    intro hg
    have heq : st.iJsonRpcPortNumber = g.INVALID_PORT := by
      by_contra hne
      have := j₂.1 hne
      rw [hg] at this
      exact Bool.false_ne_true this
    unfold rpcBootstrap
    rw [r₁]
    simp [heq]
  have hrun : optionGiven ["--jsonrpcport"] argv (parsePositions b g env argv) = true →
      rpcBootstrap g env (applicationSetup b st₂) ≠ .ok (applicationSetup b st₂) none := by
    intro hg
    have hne := j₂.2 hg
    unfold rpcBootstrap
    rw [r₁]
    dsimp only
    simp only [ne_eq, hne, not_false_eq_true, if_true]
    split_ifs <;> simp
  have hiff := afterValidation_pRpcServer b g env st₂
  rw [r₁, r₂, ← hmain, j₂] at hiff
  refine ⟨j₁, j₃, j₂, ⟨?_, hskip⟩, ?_, ?_,
    ⟨fun h => ⟨(hiff.1 h).2.1, (hiff.1 h).1, (hiff.1 h).2.2⟩,
      fun h => hiff.2 ⟨h.2.1, h.1, h.2.2⟩⟩, ?_, v₄⟩
  · intro h
    by_contra hg
    rw [Bool.not_eq_false] at hg
    exact hrun hg h
  · intro hp
    by_contra hg
    rw [Bool.not_eq_true] at hg
    apply hp
    rw [hmain]
    unfold afterValidation
    split_ifs
    · rfl
    · rw [hskip hg]
      exact (runActor_pRpcServer b g env _ _).1
  · intro hg handroid
    have hm : main b g env argv = runActor b g env (applicationSetup b st₂) none := by
      rw [hmain]
      unfold afterValidation
      simp [handroid, hskip hg]
    obtain ⟨l, hl⟩ := runActor_eq b g env (applicationSetup b st₂) none
    refine ⟨hm, ?_, ?_⟩
    · rw [hm]
      exact (runActor_pRpcServer b g env _ _).1
    · rw [hm, hl]
      exact r₃
  · intro hp
    obtain ⟨ha, hg, hn, ho, hl, hs⟩ := hiff.1 hp
    rw [hmain]
    unfold afterValidation rpcBootstrap
    rw [r₁, r₂]
    simp [ha, j₂.2 hg, hn, ho, not_lt.2 hl, hs, (runActor_pRpcServer b g env _ _).1]

/-- C18, amended, an instance: `--jsonrpcsecretfile secret.txt` without
`--jsonrpcport` runs the client with no JSON-RPC server and no file operation,
and `--jsonrpcport 0` sets the block going. -/
theorem C18_rpc_only_with_port_witness :
    (main stdBuild stdGlobals fileEnv
      ["koord", "--jsonrpcsecretfile", "secret.txt"]).pRpcServer = none ∧
    (main stdBuild stdGlobals fileEnv
      ["koord", "--jsonrpcsecretfile", "secret.txt"]).st.fsOps = [] ∧
    (main stdBuild stdGlobals fileEnv
      ["koord", "--jsonrpcsecretfile", "secret.txt"]).exitCode = some 0 ∧
    (main stdBuild stdGlobals fileEnv
      ["koord", "--jsonrpcport", "0", "--jsonrpcsecretfile", "secret.txt"]).pRpcServer =
        some ⟨0, "0123456789abcdef"⟩ := by
  obtain ⟨-, -, -, -, -, h, -, -, -⟩ := C18_rpc_only_with_port stdBuild stdGlobals fileEnv
    ["koord", "--jsonrpcsecretfile", "secret.txt"] _ _ (by decide) (by rfl) (by rfl)
  obtain ⟨-, h₂, h₃⟩ := h (by decide) (by decide)
  refine ⟨h₂, ?_, by decide, by decide⟩
  rw [h₃]
  decide

/-! ## Unknown options -/

theorem helpAndVersion_eq_none {env : Env} {argv : List String} {i : Nat} {st : Locals} :
    helpAndVersion env argv i st = none ↔
      (¬ "--help" = tokenAt argv i ∧ ¬ "-h" = tokenAt argv i ∧ ¬ "-?" = tokenAt argv i ∧
        ¬ "--version" = tokenAt argv i ∧ ¬ "-v" = tokenAt argv i) := by
  unfold helpAndVersion
  constructor
  · intro h
    split_ifs at h with h₁ h₂
    simp only [not_or] at h₁ h₂
    exact ⟨fun e => h₁.1 e.symm, fun e => h₁.2.1 e.symm, fun e => h₁.2.2 e.symm,
      fun e => h₂.1 e.symm, fun e => h₂.2 e.symm⟩
  · rintro ⟨a₁, a₂, a₃, a₄, a₅⟩
    have h₁ : ¬ (tokenAt argv i = "--help" ∨ tokenAt argv i = "-h" ∨ tokenAt argv i = "-?") := by
      rintro (e | e | e)
      · exact a₁ e.symm
      · exact a₂ e.symm
      · exact a₃ e.symm
    have h₂ : ¬ (tokenAt argv i = "--version" ∨ tokenAt argv i = "-v") := by
      rintro (e | e)
      · exact a₄ e.symm
      · exact a₅ e.symm
    rw [if_neg h₁, if_neg h₂]

theorem singleArgumentUri_eq_none {argc : Nat} {argv : List String} {i : Nat} {st : Locals} :
    singleArgumentUri argc argv i st = none ↔
      (argc = 2 → rx_gen2 (tokenAt argv 1) = none ∧ rx_gen1 (tokenAt argv 1) = none) := by
  unfold singleArgumentUri
  split_ifs with h
  · cases h₂ : rx_gen2 (tokenAt argv 1) <;> cases h₁ : rx_gen1 (tokenAt argv 1) <;> simp [h]
  · simp [h]

/-- A token is unknown when it is none of the known tokens and, if it is the
single argument, matches none of the two patterns. -/
theorem isUnknownToken_iff (argc : Nat) (argv : List String) (i : Nat) :
    isUnknownToken argc argv i = true ↔
      (∀ n ∈ knownTokens, ¬ n = tokenAt argv i) ∧
      (argc = 2 → rx_gen2 (tokenAt argv 1) = none ∧ rx_gen1 (tokenAt argv 1) = none) := by
  unfold isUnknownToken isNamed
  cases h₂ : rx_gen2 (tokenAt argv 1) <;> cases h₁ : rx_gen1 (tokenAt argv 1) <;>
    by_cases h : argc = 2 <;> simp [h]

/-- No block of the loop body takes the token at the index `i` if and only if
the token is unknown. -/
theorem firstMatch_none_iff (g : Globals) (env : Env) (argc : Nat) (argv : List String)
    (i : Nat) (st : Locals) :
    firstMatch (optionBlocks g env argc argv i) st = none ↔
      isUnknownToken argc argv i = true := by
  rw [isUnknownToken_iff]
  constructor
  · intro hf
    have hall := firstMatch_none_all hf
    simp only [optionBlocks, commonOptions, serverOptions, clientOptions, undocumentedOptions,
      List.forall_mem_cons, List.forall_mem_append, List.not_mem_nil, false_implies, implies_true,
      and_true, onFlag_eq_none, onString_eq_none, onNumeric_eq_none, helpAndVersion_eq_none,
      singleArgumentUri_eq_none, not_or] at hall
    refine ⟨?_, ?_⟩
    · simp only [knownTokens, List.forall_mem_cons, List.not_mem_nil, false_implies,
        implies_true, and_true]
      simp only [hall, not_false_eq_true, and_self]
    · tauto
  · rintro ⟨hnames, huri⟩
    simp only [knownTokens, List.forall_mem_cons, List.not_mem_nil, false_implies,
      implies_true, and_true] at hnames
    have hu : singleArgumentUri argc argv i st = none := singleArgumentUri_eq_none.2 huri
    have hh : helpAndVersion env argv i st = none := by
      rw [helpAndVersion_eq_none]
      simp only [hnames, not_false_eq_true, and_self]
    simp [optionBlocks, commonOptions, serverOptions, clientOptions, undocumentedOptions,
      firstMatch, onString, onFlag, onNumeric, GetFlagArgument,
      GetStringArgument, GetNumericArgument, hu, hh, hnames]

/-- At an unknown token the loop body comes to its end. -/
theorem loopBody_unknown (b : Build) (g : Globals) (env : Env) (argc : Nat)
    (argv : List String) (i : Nat) (st : Locals) (hunk : isUnknownToken argc argv i = true) :
    loopBody b g env argc argv i st = unknownOption b argv i st := by
  unfold loopBody
  rw [(firstMatch_none_iff g env argc argv i st).2 hunk]

/-- An unknown token at an option position, in a build other than that for
macOS: the loop ends the process there, on every vector of the same length
that agrees up to that position. -/
theorem parseOptions_unknown (b : Build) (g : Globals) (env : Env) {argv argv' : List String}
    {p : Nat} (hmac : b.Q_OS_MACX = false) (hlen : argv'.length = argv.length)
    (hagree : ∀ k, k ≤ p → tokenAt argv' k = tokenAt argv k)
    (hpos : p ∈ parsePositions b g env argv)
    (hunk : isUnknownToken argv.length argv p = true) :
    ∃ st' : Locals, parseOptions b g env argv = .exit 1
        (st'.qCritical "%1: Unknown option '%2' -- use '--help' for help"
          [.str (tokenAt argv 0), .str (tokenAt argv p)]) ∧
      parseOptions b g env argv' = .exit 1
        (st'.qCritical "%1: Unknown option '%2' -- use '--help' for help"
          [.str (tokenAt argv 0), .str (tokenAt argv p)]) := by
  obtain ⟨hp1, hlt⟩ := parsePositions_bounds b g env argv hpos
  obtain ⟨fuel', st', -, -, h₁, h₂⟩ := optionLoop_before b g env hlen
    (fun k hk => hagree k (le_of_lt hk)) argv.length 1 (initialLocals b g) (le_refl 1) hpos
  have hunk' : isUnknownToken argv'.length argv' p = true := by
    unfold isUnknownToken at hunk ⊢
    rw [hlen, hagree p (le_refl p), hagree 1 hp1]
    exact hunk
  refine ⟨st', ?_, ?_⟩
  · unfold parseOptions
    rw [h₁, optionLoop_step b g env argv _ _ _ hlt, loopBody_unknown b g env _ argv p st' hunk]
    simp [unknownOption, hmac]
  · unfold parseOptions
    rw [hlen, h₂, optionLoop_step b g env argv' _ _ _ (by omega),
      loopBody_unknown b g env _ argv' p st' hunk']
    simp [unknownOption, hmac, hagree p (le_refl p), hagree 0 (Nat.zero_le p)]

/-- C19. In a build other than that for macOS, let `p` be an option position
of an argument vector (the tokens before it have been read as options and
their values, without an end of the process) and let the token there be
unknown: none of the tokens of help and version, no name of an option, and not
the single argument taken as a `koord://` address.  Then `main` ends with exit
code 1; the last message is the one about the unknown option, which shows the
token; no JSON-RPC server is started and no actor constructed; and the tokens
after `p` are not looked at: every vector of the same length with the same
tokens up to `p` gives the same outcome. -/
theorem C19_unknown_option_is_fatal (b : Build) (g : Globals) (env : Env)
    (argv : List String) (p : Nat)
    (hmac : b.Q_OS_MACX = false)
    (hpos : p ∈ parsePositions b g env argv)
    (hunk : isUnknownToken argv.length argv p = true) :
    (main b g env argv).exitCode = some 1 ∧
    (main b g env argv).st.log.getLast? = some
      ⟨.critical, "%1: Unknown option '%2' -- use '--help' for help",
        [.str (tokenAt argv 0), .str (tokenAt argv p)]⟩ ∧
    (main b g env argv).pRpcServer = none ∧
    (main b g env argv).actor = none ∧
    (∀ argv' : List String, argv'.length = argv.length →
      (∀ k, k ≤ p → tokenAt argv' k = tokenAt argv k) →
      main b g env argv' = main b g env argv) := by
  obtain ⟨st', h, -⟩ := @parseOptions_unknown b g env argv argv p hmac rfl
    (fun _ _ => rfl) hpos hunk
  refine ⟨?_, ?_, ?_, ?_, ?_⟩
  · simp only [main, h]
  · simp [main, h, Locals.qCritical]
  · simp only [main, h]
  · simp only [main, h]
  · intro argv' hlen hagree
    obtain ⟨st'', h₁, h₂⟩ := parseOptions_unknown b g env hmac hlen hagree hpos hunk
    simp only [main, h₁, h₂]

/-- C19, an instance: `--frobnicate` after `-n` in the standard build. -/
theorem C19_unknown_option_is_fatal_witness :
    (main stdBuild stdGlobals stdEnv ["koord", "-n", "--frobnicate", "-s"]).exitCode = some 1 ∧
    (main stdBuild stdGlobals stdEnv ["koord", "-n", "--frobnicate", "-s"]).st.log.getLast? =
      some ⟨.critical, "%1: Unknown option '%2' -- use '--help' for help",
        [.str "koord", .str "--frobnicate"]⟩ ∧
    main stdBuild stdGlobals stdEnv ["koord", "-n", "--frobnicate", "--help"] =
      main stdBuild stdGlobals stdEnv ["koord", "-n", "--frobnicate", "-s"] := by
  obtain ⟨h₁, h₂, -, -, h₃⟩ := C19_unknown_option_is_fatal stdBuild stdGlobals stdEnv
    ["koord", "-n", "--frobnicate", "-s"] 2 (by decide) (by decide) (by decide)
  exact ⟨h₁, h₂, h₃ ["koord", "-n", "--frobnicate", "--help"] (by decide)
    (by intro k hk; interval_cases k <;> rfl)⟩

/-- C20. In the build for macOS, let the token at an index `i` inside the
vector be unknown, whatever the local variables are when the loop comes to it.
The iteration does not end the process: it goes on at the same index with the
local variables unchanged but for the message about the unknown option, so
every value and the three lists of options seen are as before; the loop
continues at `i + 1`, which is the next option position. -/
theorem C20_unknown_option_ignored_on_mac (b : Build) (g : Globals) (env : Env)
    (argv : List String) (i fuel : Nat) (st : Locals)
    (hmac : b.Q_OS_MACX = true)
    (hlt : i < argv.length)
    (hunk : isUnknownToken argv.length argv i = true) :
    loopBody b g env argv.length argv i st = .next i
      { st with log := st.log ++ [⟨.critical, "%1: Unknown option '%2' -- use '--help' for help",
          [.str (tokenAt argv 0), .str (tokenAt argv i)]⟩] } ∧
    optionLoop b g env argv (fuel + 1) i st = optionLoop b g env argv fuel (i + 1)
      { st with log := st.log ++ [⟨.critical, "%1: Unknown option '%2' -- use '--help' for help",
          [.str (tokenAt argv 0), .str (tokenAt argv i)]⟩] } ∧
    optionPositions b g env argv (fuel + 1) i st = i :: optionPositions b g env argv fuel (i + 1)
      { st with log := st.log ++ [⟨.critical, "%1: Unknown option '%2' -- use '--help' for help",
          [.str (tokenAt argv 0), .str (tokenAt argv i)]⟩] } := by
  have hbody : loopBody b g env argv.length argv i st = .next i
      { st with log := st.log ++ [⟨.critical, "%1: Unknown option '%2' -- use '--help' for help",
          [.str (tokenAt argv 0), .str (tokenAt argv i)]⟩] } := by
    rw [loopBody_unknown b g env _ argv i st hunk]
    simp [unknownOption, hmac, Locals.qCritical]
  refine ⟨hbody, ?_, ?_⟩
  · rw [optionLoop_step b g env argv fuel i st hlt, hbody]
  · rw [optionPositions, if_pos hlt, hbody]

/-- C20, an instance: in the build for macOS the token `-psn_0_12345` is
passed over and the `--nogui` after it is read; the client runs. -/
theorem C20_unknown_option_ignored_on_mac_witness :
    parsePositions macBuild stdGlobals stdEnv ["koord", "-psn_0_12345", "--nogui"] = [1, 2] ∧
    (main macBuild stdGlobals stdEnv ["koord", "-psn_0_12345", "--nogui"]).exitCode = some 0 ∧
    (main macBuild stdGlobals stdEnv ["koord", "-psn_0_12345", "--nogui"]).st.CommandLineOptions
      = ["--nogui"] ∧
    (main macBuild stdGlobals stdEnv ["koord", "-psn_0_12345", "--nogui"]).ranClient = true := by
  obtain ⟨-, -, h⟩ := C20_unknown_option_ignored_on_mac macBuild stdGlobals stdEnv
    ["koord", "-psn_0_12345", "--nogui"] 1 2 (initialLocals macBuild stdGlobals) (by decide)
    (by decide) (by decide)
  refine ⟨?_, by decide, by decide, by decide⟩
  unfold parsePositions
  rw [show (["koord", "-psn_0_12345", "--nogui"] : List String).length = 2 + 1 from rfl, h]
  decide

/-! ## A `CGenErr` thrown by the actor -/

/-- C30, the code at the failing input.  In the standard build, with the GUI in
use, a `CGenErr` thrown while the client (or the server) is set up is caught
and shown in a message box, and then `main` returns 0: the branch of the GUI
has no `exit ( 1 )`, which the branch without the GUI has.  With `--nogui` the
same error ends the process with exit code 1. -/
theorem C30_gui_error_returns_zero :
    (main stdBuild stdGlobals failingEnv ["koord"]).exitCode = some 0 ∧
    (main stdBuild stdGlobals failingEnv ["koord"]).ranClient = true ∧
    (main stdBuild stdGlobals failingEnv ["koord"]).st.log.getLast? =
      some ⟨.critical, "QMessageBox::critical",
        [.str "Koord", .str "no sound card", .str "Quit"]⟩ ∧
    (main stdBuild stdGlobals failingEnv ["koord", "--server"]).exitCode = some 0 ∧
    (main stdBuild stdGlobals failingEnv ["koord", "--server"]).st.log.getLast? =
      some ⟨.critical, "QMessageBox::critical",
        [.str "Koord", .str "no socket", .str "Quit"]⟩ ∧
    (main stdBuild stdGlobals failingEnv ["koord", "--nogui"]).exitCode = some 1 ∧
    (main headlessBuild stdGlobals failingEnv ["koord", "--server"]).exitCode = some 1 := by
  decide

/-! ## Help and version -/

/-- At a help or version token the loop body writes the text and ends the
process with exit code 0. -/
theorem loopBody_help (b : Build) (g : Globals) (env : Env) (argc : Nat) (argv : List String)
    (i : Nat) (st : Locals)
    (h : isHelpToken (tokenAt argv i) = true ∨ isVersionToken (tokenAt argv i) = true) :
    loopBody b g env argc argv i st = .exit 0
      (st.cout (helpOrVersionText env argv (tokenAt argv i)).1
        (helpOrVersionText env argv (tokenAt argv i)).2) := by
  unfold loopBody optionBlocks firstMatch helpAndVersion helpOrVersionText
  by_cases hh : isHelpToken (tokenAt argv i) = true
  · have hh' : tokenAt argv i = "--help" ∨ tokenAt argv i = "-h" ∨ tokenAt argv i = "-?" := by
      simpa [isHelpToken, or_assoc, and_assoc] using hh
    simp [hh, hh']
  · have hv : isVersionToken (tokenAt argv i) = true := h.resolve_left hh
    have hh' : ¬ (tokenAt argv i = "--help" ∨ tokenAt argv i = "-h" ∨ tokenAt argv i = "-?") := by
      simpa [isHelpToken, or_assoc, and_assoc] using hh
    have hv' : tokenAt argv i = "--version" ∨ tokenAt argv i = "-v" := by
      simpa [isVersionToken] using hv
    simp [hh, hh', hv']

/-- A help or version token at an option position: the loop ends the process
there with exit code 0, on every vector of the same length that agrees up to
that position. -/
theorem parseOptions_help (b : Build) (g : Globals) (env : Env) {argv argv' : List String}
    {p : Nat} (hlen : argv'.length = argv.length)
    (hagree : ∀ k, k ≤ p → tokenAt argv' k = tokenAt argv k)
    (hpos : p ∈ parsePositions b g env argv)
    (h : isHelpToken (tokenAt argv p) = true ∨ isVersionToken (tokenAt argv p) = true) :
    ∃ st' : Locals, parseOptions b g env argv = .exit 0
        (st'.cout (helpOrVersionText env argv (tokenAt argv p)).1
          (helpOrVersionText env argv (tokenAt argv p)).2) ∧
      parseOptions b g env argv' = .exit 0
        (st'.cout (helpOrVersionText env argv (tokenAt argv p)).1
          (helpOrVersionText env argv (tokenAt argv p)).2) := by
  obtain ⟨hp1, hlt⟩ := parsePositions_bounds b g env argv hpos
  obtain ⟨fuel', st', -, -, h₁, h₂⟩ := optionLoop_before b g env hlen
    (fun k hk => hagree k (le_of_lt hk)) argv.length 1 (initialLocals b g) (le_refl 1) hpos
  have htext : helpOrVersionText env argv' (tokenAt argv' p) =
      helpOrVersionText env argv (tokenAt argv p) := by
    unfold helpOrVersionText UsageArguments
    rw [hagree p (le_refl p), hagree 0 (Nat.zero_le p)]
  refine ⟨st', ?_, ?_⟩
  · unfold parseOptions
    rw [h₁, optionLoop_step b g env argv _ _ _ hlt, loopBody_help b g env _ argv p st' h]
  · unfold parseOptions
    rw [hlen, h₂, optionLoop_step b g env argv' _ _ _ (by omega),
      loopBody_help b g env _ argv' p st' (by rw [hagree p (le_refl p)]; exact h), htext]

/-- C29. Let `p` be an option position of an argument vector (the tokens
before it have been read as options and their values, without an end of the
process) and let the token there be one of `-h`, `-?`, `--help`, `-v`,
`--version`.  Then the option loop ends the process there: `main` ends with
exit code 0 and with the local variables of the loop, the help text or the
version as the last thing written, and nothing after the loop has run, so no
JSON-RPC server is started and no actor constructed.  The tokens after `p` and
the options seen before it do not matter: every vector of the same length with
the same tokens up to `p` gives the same outcome. -/
theorem C29_help_and_version_exit_zero (b : Build) (g : Globals) (env : Env)
    (argv : List String) (p : Nat)
    (hpos : p ∈ parsePositions b g env argv)
    (h : isHelpToken (tokenAt argv p) = true ∨ isVersionToken (tokenAt argv p) = true) :
    (∃ st' : Locals, parseOptions b g env argv = .exit 0 st' ∧
      main b g env argv = ⟨some 0, st', none, none⟩) ∧
    (main b g env argv).exitCode = some 0 ∧
    (main b g env argv).st.log.getLast? = some
      ⟨.stdout, (helpOrVersionText env argv (tokenAt argv p)).1,
        (helpOrVersionText env argv (tokenAt argv p)).2⟩ ∧
    (main b g env argv).pRpcServer = none ∧
    (main b g env argv).actor = none ∧
    (∀ argv' : List String, argv'.length = argv.length →
      (∀ k, k ≤ p → tokenAt argv' k = tokenAt argv k) →
      main b g env argv' = main b g env argv) := by
  obtain ⟨st', hp, -⟩ := @parseOptions_help b g env argv argv p rfl (fun _ _ => rfl) hpos h
  refine ⟨⟨_, hp, by simp only [main, hp]⟩, ?_, ?_, ?_, ?_, ?_⟩
  · simp only [main, hp]
  · simp [main, hp, Locals.cout]
  · simp only [main, hp]
  · simp only [main, hp]
  · intro argv' hlen hagree
    obtain ⟨st'', h₁, h₂⟩ := parseOptions_help b g env hlen hagree hpos h
    simp only [main, h₁, h₂]

/-- C29, an instance: `--help` after a server only option in the client, and
before an unknown token. -/
theorem C29_help_and_version_exit_zero_witness :
    (main stdBuild stdGlobals stdEnv ["koord", "-d", "--help", "--frobnicate"]).exitCode =
      some 0 ∧
    (main stdBuild stdGlobals stdEnv ["koord", "-d", "--help", "--frobnicate"]).actor = none ∧
    main stdBuild stdGlobals stdEnv ["koord", "-d", "--help", "--port"] =
      main stdBuild stdGlobals stdEnv ["koord", "-d", "--help", "--frobnicate"] := by
  obtain ⟨-, h₁, -, -, h₂, h₃⟩ := C29_help_and_version_exit_zero stdBuild stdGlobals stdEnv
    ["koord", "-d", "--help", "--frobnicate"] 2 (by decide) (by decide)
  exact ⟨h₁, h₂, h₃ ["koord", "-d", "--help", "--port"] (by decide)
    (by intro k hk; interval_cases k <;> rfl)⟩

/-! ## A `koord://` token among several arguments -/

/-- With more than one argument a token that begins with `koord://` is
unknown. -/
theorem isUnknownToken_of_scheme (argc : Nat) (argv : List String) (i : Nat)
    (hargc : argc ≠ 2) (hscheme : (afterScheme (tokenAt argv i)).isSome = true) :
    isUnknownToken argc argv i = true := by
  rw [isUnknownToken_iff]
  refine ⟨?_, fun h => (hargc h).elim⟩
  have hall : ∀ n ∈ knownTokens, afterScheme n = none := by decide
  intro n hn heq
  rw [← heq, hall n hn] at hscheme
  exact Bool.false_ne_true hscheme

/-- C23. Let an argument vector have two or more arguments after the name of
the program, and let the token at an option position `p` begin with `koord://`
(whatever follows, the accepted shapes included).  The token is unknown to the
loop body: whatever the local variables are, the iteration comes to the end of
the body, where the connect address is left as it was; in a build other than
that for macOS `main` ends with exit code 1 and the message about the unknown
option, with no actor constructed, and in the build for macOS the loop goes on
at the next token with the local variables unchanged but for the message. -/
theorem C23_uri_among_several_is_unknown (b : Build) (g : Globals) (env : Env)
    (argv : List String) (p : Nat)
    (hargs : 3 ≤ argv.length)
    (hpos : p ∈ parsePositions b g env argv)
    (hscheme : (afterScheme (tokenAt argv p)).isSome = true) :
    isUnknownToken argv.length argv p = true ∧
    (∀ st : Locals, loopBody b g env argv.length argv p st = unknownOption b argv p st) ∧
    (∀ st : Locals,
      match loopBody b g env argv.length argv p st with
      | .exit code st' => code = 1 ∧ b.Q_OS_MACX = false ∧
          st'.strConnOnStartupAddress = st.strConnOnStartupAddress
      | .next i' st' => i' = p ∧ b.Q_OS_MACX = true ∧
          st' = { st with log := st.log ++
            [⟨.critical, "%1: Unknown option '%2' -- use '--help' for help",
              [.str (tokenAt argv 0), .str (tokenAt argv p)]⟩] }) ∧
    (b.Q_OS_MACX = false →
      (main b g env argv).exitCode = some 1 ∧
      (main b g env argv).st.log.getLast? = some
        ⟨.critical, "%1: Unknown option '%2' -- use '--help' for help",
          [.str (tokenAt argv 0), .str (tokenAt argv p)]⟩ ∧
      (main b g env argv).actor = none) := by
  have hunk := isUnknownToken_of_scheme argv.length argv p (by omega) hscheme
  refine ⟨hunk, fun st => loopBody_unknown b g env _ argv p st hunk, ?_, ?_⟩
  · intro st
    rw [loopBody_unknown b g env _ argv p st hunk]
    unfold unknownOption
    cases hm : b.Q_OS_MACX <;> simp [Locals.qCritical]
  · intro hmac
    obtain ⟨st', h, -⟩ := @parseOptions_unknown b g env argv argv p hmac rfl
      (fun _ _ => rfl) hpos hunk
    refine ⟨?_, ?_, ?_⟩
    · simp only [main, h]
    · simp [main, h, Locals.qCritical]
    · simp only [main, h]

/-- C23, an instance: `koord://1.2.3.4` after `--nogui` in the standard
build. -/
theorem C23_uri_among_several_is_unknown_witness :
    (main stdBuild stdGlobals stdEnv ["koord", "--nogui", "koord://1.2.3.4"]).exitCode =
      some 1 ∧
    (main stdBuild stdGlobals stdEnv ["koord", "--nogui", "koord://1.2.3.4"]).st.log.getLast? =
      some ⟨.critical, "%1: Unknown option '%2' -- use '--help' for help",
        [.str "koord", .str "koord://1.2.3.4"]⟩ ∧
    (main stdBuild stdGlobals stdEnv
      ["koord", "--nogui", "koord://1.2.3.4"]).st.strConnOnStartupAddress = "" := by
  obtain ⟨-, -, -, h⟩ := C23_uri_among_several_is_unknown stdBuild stdGlobals stdEnv
    ["koord", "--nogui", "koord://1.2.3.4"] 2 (by decide) (by decide) (by decide)
  obtain ⟨h₁, h₂, -⟩ := h (by decide)
  exact ⟨h₁, h₂, by decide⟩

/-! ## The matcher of an option with a string value -/

/-- The token after the name of an option that takes a value is not an option
position. -/
theorem optionPositions_value_skipped (b : Build) (g : Globals) (env : Env)
    (argv : List String) :
    ∀ (fuel i : Nat) (st : Locals), 1 ≤ i →
      ∀ p ∈ optionPositions b g env argv fuel i st, takesValue (tokenAt argv p) = true →
        p + 1 ∉ optionPositions b g env argv fuel i st := by
  intro fuel
  induction fuel with
  | zero => intro i st _ p hp; simp [optionPositions] at hp
  | succ fuel ih =>
    intro i st hi p hp hv hmem
    unfold optionPositions at hp hmem
    split_ifs at hp hmem with hlt
    · cases hb : loopBody b g env argv.length argv i st with
      | exit code st₁ =>
        rw [hb] at hp hmem
        simp only [List.mem_singleton] at hp hmem
        omega
      | next i' st₁ =>
        rw [hb] at hp hmem
        have hidx := loopBody_index_le b g env argv.length argv i st (by omega) hb
        have hge := optionPositions_ge b g env argv fuel (i' + 1) st₁ (by omega)
        rcases List.mem_cons.1 hp with rfl | hp
        · rw [hv, if_pos rfl] at hidx
          rcases List.mem_cons.1 hmem with h | h
          · omega
          · have := hge _ h
            omega
        · have hpge := hge p hp
          rcases List.mem_cons.1 hmem with h | h
          · have : i ≤ i' := by rw [hidx]; split_ifs <;> omega
            omega
          · exact ih (i' + 1) st₁ (by omega) p hp hv h
    · simp at hp

/-- C24. `GetStringArgument` at the index `i`.  When the token there is the
short or the long name: the call ends the process (message `needs a string
argument` with `argv[0]` and the name, exit code 1 in every block of `main`
that uses the matcher) if and only if no token follows, that is `argc ≤ i + 1`;
otherwise it returns true with the index advanced by one and the following
token, as it stands, as the value.  When the token is neither name it returns
false, with no new index and no value.  In the loop of `main` the token after
the name of an option that takes a value is not an option position: it is not
read as an option, whatever it is. -/
theorem C24_GetStringArgument (b : Build) (g : Globals) (env : Env) (argc : Nat)
    (argv : List String) (i : Nat) (strShortOpt strLongOpt : String)
    (block : String → Locals → Locals) (st : Locals) :
    ((strShortOpt = tokenAt argv i ∨ strLongOpt = tokenAt argv i) →
      (GetStringArgument argc argv i strShortOpt strLongOpt =
          .fatal ⟨.critical, "%1: '%2' needs a string argument.",
            [.str (tokenAt argv 0), .str (tokenAt argv i)]⟩ ↔ argc ≤ i + 1) ∧
      (GetStringArgument argc argv i strShortOpt strLongOpt =
          .matched (i + 1) (tokenAt argv (i + 1)) ↔ i + 1 < argc) ∧
      (argc ≤ i + 1 → onString argc argv i strShortOpt strLongOpt block st =
        some (.exit 1 (st.qCritical "%1: '%2' needs a string argument."
          [.str (tokenAt argv 0), .str (tokenAt argv i)]))) ∧
      (i + 1 < argc → onString argc argv i strShortOpt strLongOpt block st =
        some (.next (i + 1) (block (tokenAt argv (i + 1)) st)))) ∧
    (¬ (strShortOpt = tokenAt argv i ∨ strLongOpt = tokenAt argv i) →
      GetStringArgument argc argv i strShortOpt strLongOpt = .noMatch ∧
      onString argc argv i strShortOpt strLongOpt block st = none) ∧
    (∀ p ∈ parsePositions b g env argv, takesValue (tokenAt argv p) = true →
      p + 1 ∉ parsePositions b g env argv) := by
  refine ⟨?_, ?_, ?_⟩
  · intro hc
    unfold onString GetStringArgument
    by_cases ha : argc ≤ i + 1
    · have ha' : ¬ i + 1 < argc := by omega
      simp [hc, ha, ha', Locals.qCritical]
    · have ha' : i + 1 < argc := by omega
      simp [hc, ha, ha']
  · intro hc
    unfold onString GetStringArgument
    simp [hc]
  · exact optionPositions_value_skipped b g env argv argv.length 1 (initialLocals b g)
      (le_refl 1)

/-- C24, an instance: `--help` after `-w` is the welcome message of the server
and is not read as the help option; `-w` as the last token ends the process. -/
theorem C24_GetStringArgument_witness :
    GetStringArgument 4 ["koord", "-s", "-w", "--help"] 2 "-w" "--welcomemessage" =
      .matched 3 "--help" ∧
    parsePositions stdBuild stdGlobals stdEnv ["koord", "-s", "-w", "--help"] = [1, 2] ∧
    (main stdBuild stdGlobals stdEnv ["koord", "-s", "-w", "--help"]).ranServer = true ∧
    (main stdBuild stdGlobals stdEnv ["koord", "-s", "-w", "--help"]).st.strWelcomeMessage =
      "--help" ∧
    (main stdBuild stdGlobals stdEnv ["koord", "-s", "-w"]).exitCode = some 1 := by
  obtain ⟨h, -, -⟩ := C24_GetStringArgument stdBuild stdGlobals stdEnv 4
    ["koord", "-s", "-w", "--help"] 2 "-w" "--welcomemessage" (fun _ st => st)
    (initialLocals stdBuild stdGlobals)
  exact ⟨(h (Or.inl (by decide))).2.1.2 (by decide), by decide, by decide, by decide, by decide⟩

/-! ## The lists of options seen -/

theorem helpAndVersion_some {env : Env} {argv : List String} {i : Nat} {st : Locals} {r : Step}
    (h : helpAndVersion env argv i st = some r) :
    ∃ text args, r = .exit 0 (st.cout text args) := by
  unfold helpAndVersion at h
  split_ifs at h
  · exact ⟨_, _, (Option.some.inj h).symm⟩
  · exact ⟨_, _, (Option.some.inj h).symm⟩

/-- A token that begins with `koord://` is the name of no option. -/
theorem recordedIn_optionTable_of_scheme {tok : String} {cs : List Char}
    (h : afterScheme tok = some cs) : recordedIn optionTable tok = none := by
  have key : ∀ e ∈ optionTable, ¬ (e.1 = tok ∨ e.2.1 = tok) := by
    have hall : ∀ e ∈ optionTable, afterScheme e.1 = none ∧ afterScheme e.2.1 = none := by
      decide
    intro e he hc
    rcases hc with hc | hc
    · rw [← hc, (hall e he).1] at h; exact Option.noConfusion h
    · rw [← hc, (hall e he).2] at h; exact Option.noConfusion h
  unfold recordedIn
  rw [Option.map_eq_none', List.find?_eq_none]
  intro e he
  simpa using key e he

set_option maxHeartbeats 4000000 in
theorem optionBlocks_seen (g : Globals) (env : Env) (argc : Nat) (argv : List String) (i : Nat)
    (hi : argc = 2 → i = 1) :
    ∀ blk ∈ optionBlocks g env argc argv i, ∀ st r, blk st = some r →
      SeenEffect argc argv i st r := by
  simp only [optionBlocks, commonOptions, serverOptions, clientOptions, undocumentedOptions,
    List.forall_mem_cons, List.forall_mem_append, List.not_mem_nil, false_implies, implies_true,
    and_true]
  repeat' apply And.intro
  all_goals
    intro st r h
    first
    | (obtain ⟨hc, rfl⟩ := onFlag_eq_some.1 h
       rcases hc with hc | hc <;>
         simp [SeenEffect, recordedOption, ← hc, recordedIn, optionTable, commonTable,
           serverOnlyTable, clientOnlyTable, Locals.qInfo, Locals.pushOption,
           Locals.pushServerOnly, Locals.pushClientOnly])
    | (obtain ⟨hc, (⟨_, _, rfl⟩ | ⟨_, rfl⟩)⟩ := onString_some h
       · exact ⟨rfl, rfl, rfl⟩
       · rcases hc with hc | hc <;>
           simp [SeenEffect, recordedOption, ← hc, recordedIn, optionTable, commonTable,
             serverOnlyTable, clientOnlyTable, Locals.qInfo, Locals.pushOption,
             Locals.pushServerOnly, Locals.pushClientOnly])
    | (obtain ⟨hc, (⟨_, rfl⟩ | ⟨_, _, rfl⟩)⟩ := onNumeric_some h
       · exact ⟨rfl, rfl, rfl⟩
       · rcases hc with hc | hc <;>
           simp [SeenEffect, recordedOption, ← hc, recordedIn, optionTable, commonTable,
             serverOnlyTable, clientOnlyTable, Locals.qInfo, Locals.pushOption,
             Locals.pushServerOnly, Locals.pushClientOnly])
    | (obtain ⟨_, _, rfl⟩ := helpAndVersion_some h
       exact ⟨rfl, rfl, rfl⟩)
    | (obtain ⟨hargc, captured, cs, hcs, hrx, rfl⟩ := singleArgumentUri_some h
       have hcs' := hcs
       rw [← hi hargc] at hcs'
       have hnone := recordedIn_optionTable_of_scheme hcs'
       have hsome : (rx_gen2 (tokenAt argv 1)).isSome = true ∨
           (rx_gen1 (tokenAt argv 1)).isSome = true := by
         rcases hrx with h2 | ⟨_, h1⟩
         · left; rw [h2]; rfl
         · right; rw [h1]; rfl
       simp [SeenEffect, recordedOption, hnone, hargc, hsome, Locals.qInfo, Locals.pushOption])

theorem recordedIn_mem {table : List (String × String × String)} {token name : String}
    (h : recordedIn table token = some name) :
    ∃ e ∈ table, (e.1 = token ∨ e.2.1 = token) ∧ e.2.2 = name := by
  unfold recordedIn at h
  rw [Option.map_eq_some'] at h
  obtain ⟨e, he, rfl⟩ := h
  exact ⟨e, List.mem_of_find?_eq_some he, by simpa using List.find?_some he, rfl⟩

theorem recordedIn_eq_none {table : List (String × String × String)} {token : String}
    (h : ∀ e ∈ table, ¬ e.1 = token ∧ ¬ e.2.1 = token) : recordedIn table token = none := by
  unfold recordedIn
  rw [Option.map_eq_none', List.find?_eq_none]
  intro e he
  simpa using h e he

/-- An unknown token adds no name to `CommandLineOptions`. -/
theorem recordedOption_of_unknown (argc : Nat) (argv : List String) (i : Nat)
    (hunk : isUnknownToken argc argv i = true) : recordedOption argc argv i = none := by
  rw [isUnknownToken_iff] at hunk
  obtain ⟨hnames, huri⟩ := hunk
  have hall : ∀ e ∈ optionTable, e.1 ∈ knownTokens ∧ e.2.1 ∈ knownTokens := by decide
  have hnone : recordedIn optionTable (tokenAt argv i) = none :=
    recordedIn_eq_none fun e he => ⟨hnames _ (hall e he).1, hnames _ (hall e he).2⟩
  unfold recordedOption
  rw [hnone]
  by_cases h2 : argc = 2
  · simp [h2, (huri h2).1, (huri h2).2]
  · simp [h2]

/-- What one iteration of the loop does to the lists of options seen. -/
theorem loopBody_seen (b : Build) (g : Globals) (env : Env) (argc : Nat) (argv : List String)
    (i : Nat) (st : Locals) (hi : argc = 2 → i = 1) :
    match loopBody b g env argc argv i st with
    | .exit _ st' =>
      st'.CommandLineOptions = st.CommandLineOptions ∧
      st'.ServerOnlyOptions = st.ServerOnlyOptions ∧
      st'.ClientOnlyOptions = st.ClientOnlyOptions
    | .next _ st' =>
      st'.CommandLineOptions = st.CommandLineOptions ++ (recordedOption argc argv i).toList ∧
      ((recordedOption argc argv i).isSome = true ∨
        (b.Q_OS_MACX = true ∧ isUnknownToken argc argv i = true)) := by
  unfold loopBody
  cases hf : firstMatch (optionBlocks g env argc argv i) st with
  | some r =>
    obtain ⟨blk, hmem, hblk⟩ := firstMatch_some_mem hf
    have := optionBlocks_seen g env argc argv i hi blk hmem st r hblk
    cases r with
    | exit code st' => exact this
    | next i' st' =>
      obtain ⟨name, hname, hclo⟩ := this
      simp only [hname, hclo, Option.toList_some, Option.isSome_some, true_or, and_self]
  | none =>
    have hunk := (firstMatch_none_iff g env argc argv i st).1 hf
    have hnone := recordedOption_of_unknown argc argv i hunk
    simp only [unknownOption]
    cases hm : b.Q_OS_MACX
    · simp [Locals.qCritical]
    · simp [Locals.qCritical, hnone, hunk]

/-- The list `CommandLineOptions` at the end of the loop, in terms of the
tokens at the option positions. -/
theorem optionLoop_seen (b : Build) (g : Globals) (env : Env) (argv : List String) :
    ∀ (fuel i : Nat) (st st' : Locals), 1 ≤ i →
      optionLoop b g env argv fuel i st = .done st' →
      st'.CommandLineOptions = st.CommandLineOptions ++
        (optionPositions b g env argv fuel i st).filterMap (recordedOption argv.length argv) ∧
      (∀ j ∈ optionPositions b g env argv fuel i st,
        (recordedOption argv.length argv j).isSome = true ∨
          (b.Q_OS_MACX = true ∧ isUnknownToken argv.length argv j = true)) := by
  intro fuel
  induction fuel with
  | zero =>
    intro i st st' _ h
    unfold optionLoop at h
    split_ifs at h
    cases h
    simp [optionPositions]
  | succ fuel ih =>
    intro i st st' hi h
    unfold optionLoop at h
    unfold optionPositions
    split_ifs at h with hlt
    · have heff := loopBody_seen b g env argv.length argv i st (by omega)
      have hidx := loopBody_effect b g env argv.length argv i st (by omega)
      cases hb : loopBody b g env argv.length argv i st with
      | exit code st₁ => rw [hb] at h; simp at h
      | next i' st₁ =>
        rw [hb] at h heff hidx
        obtain ⟨e₁, e₂⟩ := heff
        have hii : i ≤ i' := by rw [hidx.1]; split_ifs <;> omega
        obtain ⟨h₁, h₂⟩ := ih (i' + 1) st₁ st' (by omega) h
        simp only [hlt, if_true, List.mem_cons]
        refine ⟨?_, ?_⟩
        · rw [h₁, e₁, List.append_assoc]
          congr 1
          cases hr : recordedOption argv.length argv i <;> simp [List.filterMap_cons, hr]
        · rintro j (rfl | hj)
          · exact e₂
          · exact h₂ j hj
    · cases h
      simp [hlt]

/-- C25. Let the option loop run to its end.  `CommandLineOptions` is the list
of the names recorded for the tokens at the option positions, in the order of
the positions, one entry for each position whose token is taken by a block, a
repeated option giving a repeated entry.  A position gives no entry exactly
when its token is unknown, which the loop survives only in the build for
macOS; so in every other build the list is as long as the list of option
positions.  The name recorded is the long name of the option, `--centralserver`
being recorded as `--directoryserver` and the single argument that matches one
of the two patterns as `--autoconnect`.  The token after the name of an option
that takes a value is no option position and gives no entry. -/
theorem C25_options_seen_in_order (b : Build) (g : Globals) (env : Env)
    (argv : List String) (st : Locals)
    (hparse : parseOptions b g env argv = .done st) :
    st.CommandLineOptions =
      (parsePositions b g env argv).filterMap (recordedOption argv.length argv) ∧
    (∀ j ∈ parsePositions b g env argv,
      (recordedOption argv.length argv j = none ↔
        (b.Q_OS_MACX = true ∧ isUnknownToken argv.length argv j = true))) ∧
    (b.Q_OS_MACX = false →
      st.CommandLineOptions.length = (parsePositions b g env argv).length) ∧
    (∀ j name, recordedOption argv.length argv j = some name →
      name ∈ optionTable.map fun e => e.2.1) ∧
    (∀ e ∈ optionTable, e.2.2 = e.2.1 ∨
      (e.2.1 = "--centralserver" ∧ e.2.2 = "--directoryserver")) ∧
    (∀ j, tokenAt argv j = "--centralserver" →
      recordedOption argv.length argv j = some "--directoryserver") ∧
    (argv.length = 2 →
      (rx_gen2 (tokenAt argv 1)).isSome = true ∨ (rx_gen1 (tokenAt argv 1)).isSome = true →
      recordedOption argv.length argv 1 = some "--autoconnect") ∧
    (∀ p ∈ parsePositions b g env argv, takesValue (tokenAt argv p) = true →
      p + 1 ∉ parsePositions b g env argv) := by
  obtain ⟨h₁, h₂⟩ := optionLoop_seen b g env argv argv.length 1 (initialLocals b g) st
    (le_refl 1) hparse
  have hclo : st.CommandLineOptions =
      (parsePositions b g env argv).filterMap (recordedOption argv.length argv) := by
    rw [h₁]; rfl
  have hpos : ∀ j ∈ parsePositions b g env argv,
      (recordedOption argv.length argv j).isSome = true ∨
        (b.Q_OS_MACX = true ∧ isUnknownToken argv.length argv j = true) := h₂
  refine ⟨hclo, ?_, ?_, ?_, by decide, ?_, ?_, ?_⟩
  · intro j hj
    constructor
    · intro hnone
      rcases hpos j hj with h | h
      · rw [hnone] at h; exact absurd h (by simp)
      · exact h
    · rintro ⟨-, hunk⟩
      exact recordedOption_of_unknown _ _ _ hunk
  · intro hmac
    rw [hclo]
    have hall : ∀ j ∈ parsePositions b g env argv,
        (recordedOption argv.length argv j).isSome = true := by
      intro j hj
      rcases hpos j hj with h | ⟨h, -⟩
      · exact h
      · rw [hmac] at h; exact absurd h (by simp)
    generalize parsePositions b g env argv = l at hall
    induction l with
    | nil => rfl
    | cons j rest ih =>
      have hj := hall j (List.mem_cons_self _ _)
      obtain ⟨name, hname⟩ := Option.isSome_iff_exists.1 hj
      rw [List.filterMap_cons, hname]
      simp only [List.length_cons]
      rw [ih fun k hk => hall k (List.mem_cons_of_mem _ hk)]
  · intro j name h
    unfold recordedOption at h
    cases hr : recordedIn optionTable (tokenAt argv j) with
    | some n =>
      rw [hr] at h
      obtain ⟨e, he, -, hn⟩ := recordedIn_mem hr
      have hlong : ∀ e ∈ optionTable, e.2.2 ∈ optionTable.map fun e => e.2.1 := by decide
      cases h
      rw [← hn]
      exact hlong e he
    | none =>
      rw [hr] at h
      simp only at h
      split_ifs at h
      cases h
      decide
  · intro j hj
    simp [recordedOption, hj, recordedIn, optionTable, commonTable, serverOnlyTable]
  · intro hlen hrx
    have hscheme : ∃ cs, afterScheme (tokenAt argv 1) = some cs := by
      rcases hrx with h | h
      · unfold rx_gen2 at h
        cases ha : afterScheme (tokenAt argv 1) with
        | none => rw [ha] at h; simp at h
        | some cs => exact ⟨cs, rfl⟩
      · unfold rx_gen1 at h
        cases ha : afterScheme (tokenAt argv 1) with
        | none => rw [ha] at h; simp at h
        | some cs => exact ⟨cs, rfl⟩
    obtain ⟨cs, hcs⟩ := hscheme
    have hnone := recordedIn_optionTable_of_scheme hcs
    unfold recordedOption
    rw [hnone]
    simp [hlen, hrx]
  · exact optionPositions_value_skipped b g env argv argv.length 1 (initialLocals b g)
      (le_refl 1)

/-- C25, an instance: `-s --centralserver example.org -d -d`. -/
theorem C25_options_seen_in_order_witness :
    (∀ st, parseOptions stdBuild stdGlobals stdEnv
        ["koord", "-s", "--centralserver", "example.org", "-d", "-d"] = .done st →
      st.CommandLineOptions =
        ["--server", "--directoryserver", "--discononquit", "--discononquit"]) ∧
    parsePositions stdBuild stdGlobals stdEnv
      ["koord", "-s", "--centralserver", "example.org", "-d", "-d"] = [1, 2, 4, 5] :=
  ⟨fun st h => by
      rw [(C25_options_seen_in_order stdBuild stdGlobals stdEnv
        ["koord", "-s", "--centralserver", "example.org", "-d", "-d"] st h).1]
      decide,
    by decide⟩

/-! ## The invariant of the role lists -/

/-- Of a token, decided by the token alone: it is recorded as server only or
as client only or as neither, never as both, and the name recorded in a role
list is the name recorded in `CommandLineOptions`. -/
theorem recorded_roles (tok : String) :
    (recordedServerOnly tok = none ∨ recordedServerOnly tok = recordedIn optionTable tok) ∧
    (recordedClientOnly tok = none ∨ recordedClientOnly tok = recordedIn optionTable tok) ∧
    (recordedServerOnly tok = none ∨ recordedClientOnly tok = none) := by
  by_cases hmem : tok ∈ optionTable.flatMap (fun e => [e.1, e.2.1])
  · have hall : ∀ t ∈ optionTable.flatMap (fun e => [e.1, e.2.1]),
        (recordedServerOnly t = none ∨ recordedServerOnly t = recordedIn optionTable t) ∧
        (recordedClientOnly t = none ∨ recordedClientOnly t = recordedIn optionTable t) ∧
        (recordedServerOnly t = none ∨ recordedClientOnly t = none) := by decide
    exact hall tok hmem
  · have hnot : ∀ e ∈ optionTable, ¬ e.1 = tok ∧ ¬ e.2.1 = tok := by
      intro e he
      constructor
      · intro h
        exact hmem (List.mem_flatMap.2 ⟨e, he, by simp [h]⟩)
      · intro h
        exact hmem (List.mem_flatMap.2 ⟨e, he, by simp [h]⟩)
    have hsub₁ : ∀ e ∈ serverOnlyTable, e ∈ optionTable := by decide
    have hsub₂ : ∀ e ∈ clientOnlyTable, e ∈ optionTable := by decide
    have hflag : isServerFlag tok = false := by
      have := hnot ("-s", "--server", "--server") (by decide)
      simp [isServerFlag, this.1, this.2]
    have hs : recordedServerOnly tok = none := by
      unfold recordedServerOnly
      rw [hflag]
      exact recordedIn_eq_none fun e he => hnot e (hsub₁ e he)
    have hc : recordedClientOnly tok = none :=
      recordedIn_eq_none fun e he => hnot e (hsub₂ e he)
    exact ⟨Or.inl hs, Or.inl hc, Or.inl hs⟩

theorem recordedServerOnly_mem {tok name : String} (h : recordedServerOnly tok = some name) :
    name ∈ serverOnlyNames := by
  unfold recordedServerOnly at h
  unfold serverOnlyNames
  split_ifs at h
  · cases h
    exact List.mem_cons_self _ _
  · obtain ⟨e, he, -, hn⟩ := recordedIn_mem h
    exact List.mem_cons_of_mem _ (List.mem_map.2 ⟨e, he, hn⟩)

theorem recordedClientOnly_mem {tok name : String} (h : recordedClientOnly tok = some name) :
    name ∈ clientOnlyNames := by
  obtain ⟨e, he, -, hn⟩ := recordedIn_mem h
  exact List.mem_map.2 ⟨e, he, hn⟩

/-- A step of the loop that goes on keeps the invariant of the role lists. -/
theorem roleListsInvariant_step {st st' : Locals} {tok : String} {o : Option String}
    (hinv : roleListsInvariant st)
    (hclo : st'.CommandLineOptions = st.CommandLineOptions ++ o.toList)
    (hsoo : st'.ServerOnlyOptions = st.ServerOnlyOptions ++ (recordedServerOnly tok).toList)
    (hcoo : st'.ClientOnlyOptions = st.ClientOnlyOptions ++ (recordedClientOnly tok).toList)
    (hs : ∀ n, recordedServerOnly tok = some n → o = some n)
    (hc : ∀ n, recordedClientOnly tok = some n → o = some n) :
    roleListsInvariant st' := by
  obtain ⟨i₁, i₂, i₃, i₄⟩ := hinv
  unfold roleListsInvariant
  rw [hclo, hsoo, hcoo]
  refine ⟨?_, ?_, ?_, ?_⟩
  · cases hr : recordedServerOnly tok with
    | none =>
      simp only [Option.toList_none, List.append_nil]
      exact i₁.trans (List.sublist_append_left _ _)
    | some n =>
      rw [hs n hr]
      exact List.Sublist.append i₁ (List.Sublist.refl _)
  · cases hr : recordedClientOnly tok with
    | none =>
      simp only [Option.toList_none, List.append_nil]
      exact i₂.trans (List.sublist_append_left _ _)
    | some n =>
      rw [hc n hr]
      exact List.Sublist.append i₂ (List.Sublist.refl _)
  · intro name hn
    rcases List.mem_append.1 hn with h | h
    · exact i₃ name h
    · cases hr : recordedServerOnly tok with
      | none => rw [hr] at h; simp at h
      | some n =>
        rw [hr] at h
        simp only [Option.toList_some, List.mem_singleton] at h
        rw [h]
        exact recordedServerOnly_mem hr
  · intro name hn
    rcases List.mem_append.1 hn with h | h
    · exact i₄ name h
    · cases hr : recordedClientOnly tok with
      | none => rw [hr] at h; simp at h
      | some n =>
        rw [hr] at h
        simp only [Option.toList_some, List.mem_singleton] at h
        rw [h]
        exact recordedClientOnly_mem hr

/-- One iteration of the loop keeps the invariant of the role lists, whether
it goes on or ends the process. -/
theorem loopBody_invariant (b : Build) (g : Globals) (env : Env) (argv : List String)
    (i : Nat) (st : Locals) (hi : 1 ≤ i) (hlt : i < argv.length)
    (hinv : roleListsInvariant st) :
    match loopBody b g env argv.length argv i st with
    | .exit _ st' => roleListsInvariant st'
    | .next _ st' => roleListsInvariant st' := by
  have hseen := loopBody_seen b g env argv.length argv i st (by omega)
  have heff := loopBody_effect b g env argv.length argv i st (by omega)
  cases hb : loopBody b g env argv.length argv i st with
  | exit code st' =>
    rw [hb] at hseen
    obtain ⟨h₁, h₂, h₃⟩ := hseen
    simp only
    unfold roleListsInvariant
    rw [h₁, h₂, h₃]
    exact hinv
  | next i' st' =>
    rw [hb] at hseen heff
    obtain ⟨hclo, hor⟩ := hseen
    obtain ⟨-, hsoo, hcoo, -⟩ := heff
    obtain ⟨r₁, r₂, -⟩ := recorded_roles (tokenAt argv i)
    have hrec : ∀ n, recordedIn optionTable (tokenAt argv i) = some n →
        recordedOption argv.length argv i = some n := by
      intro n hn
      unfold recordedOption
      rw [hn]
    simp only
    refine roleListsInvariant_step hinv hclo hsoo hcoo ?_ ?_
    · intro n hn
      rcases r₁ with h | h
      · rw [h] at hn; exact Option.noConfusion hn
      · rw [h] at hn; exact hrec n hn
    · intro n hn
      rcases r₂ with h | h
      · rw [h] at hn; exact Option.noConfusion hn
      · rw [h] at hn; exact hrec n hn

/-- The loop started with the invariant of the role lists ends with it. -/
theorem optionLoop_invariant (b : Build) (g : Globals) (env : Env) (argv : List String) :
    ∀ (fuel i : Nat) (st st' : Locals), 1 ≤ i → roleListsInvariant st →
      optionLoop b g env argv fuel i st = .done st' → roleListsInvariant st' := by
  intro fuel
  induction fuel with
  | zero =>
    intro i st st' _ hinv h
    unfold optionLoop at h
    split_ifs at h
    cases h
    exact hinv
  | succ fuel ih =>
    intro i st st' hi hinv h
    unfold optionLoop at h
    split_ifs at h with hlt
    · have hstep := loopBody_invariant b g env argv i st hi hlt hinv
      have hidx := loopBody_effect b g env argv.length argv i st (by omega)
      cases hb : loopBody b g env argv.length argv i st with
      | exit code st₁ => rw [hb] at h; simp at h
      | next i' st₁ =>
        rw [hb] at h hstep hidx
        have hii : i ≤ i' := by rw [hidx.1]; split_ifs <;> omega
        exact ih (i' + 1) st₁ st' (by omega) hstep h
    · cases h
      exact hinv

/-- C26. The invariant of the three lists of options seen: `ServerOnlyOptions`
and `ClientOnlyOptions` are subsequences of `CommandLineOptions`, the first
holds only names of server only options and the second only names of client
only options.  It holds before the loop; every iteration of the loop, at any
index inside the vector and from any local variables that satisfy it, leaves
it true, whether the iteration goes on or ends the process; so it holds when
the loop has run to its end.  An iteration that goes on appends to each role
list the name recorded for the token in that role, if any, and a token is
recorded in at most one role, which the token alone decides.  No name belongs
to both roles and the names of the common options belong to neither; so under
the invariant no name stands in both role lists and no common option stands in
either. -/
theorem C26_role_lists_invariant (b : Build) (g : Globals) (env : Env)
    (argv : List String) (i : Nat) (st stEnd : Locals) (tok : String) :
    roleListsInvariant (initialLocals b g) ∧
    (1 ≤ i → i < argv.length → roleListsInvariant st →
      match loopBody b g env argv.length argv i st with
      | .exit _ st' => roleListsInvariant st'
      | .next _ st' => roleListsInvariant st' ∧
          st'.ServerOnlyOptions = st.ServerOnlyOptions ++
            (recordedServerOnly (tokenAt argv i)).toList ∧
          st'.ClientOnlyOptions = st.ClientOnlyOptions ++
            (recordedClientOnly (tokenAt argv i)).toList) ∧
    (parseOptions b g env argv = .done stEnd → roleListsInvariant stEnd) ∧
    (recordedServerOnly tok = none ∨ recordedClientOnly tok = none) ∧
    (∀ name ∈ serverOnlyNames, name ∉ clientOnlyNames) ∧
    (∀ name ∈ commonNames, name ∉ serverOnlyNames ∧ name ∉ clientOnlyNames) ∧
    (roleListsInvariant st →
      (∀ name ∈ st.ServerOnlyOptions, name ∉ st.ClientOnlyOptions) ∧
      (∀ name ∈ commonNames, name ∉ st.ServerOnlyOptions ∧ name ∉ st.ClientOnlyOptions)) := by
  have hinit : roleListsInvariant (initialLocals b g) := by
    unfold roleListsInvariant initialLocals
    simp
  have hdisj : ∀ name ∈ serverOnlyNames, name ∉ clientOnlyNames := by decide
  have hcommon : ∀ name ∈ commonNames, name ∉ serverOnlyNames ∧ name ∉ clientOnlyNames := by
    decide
  refine ⟨hinit, ?_, ?_, (recorded_roles tok).2.2, hdisj, hcommon, ?_⟩
  · intro hi hlt hinv
    have hstep := loopBody_invariant b g env argv i st hi hlt hinv
    have heff := loopBody_effect b g env argv.length argv i st (by omega)
    cases hb : loopBody b g env argv.length argv i st with
    | exit code st' => rw [hb] at hstep; exact hstep
    | next i' st' =>
      rw [hb] at hstep heff
      exact ⟨hstep, heff.2.1, heff.2.2.1⟩
  · intro hparse
    exact optionLoop_invariant b g env argv argv.length 1 (initialLocals b g) stEnd (le_refl 1)
      hinit hparse
  · rintro ⟨-, -, i₃, i₄⟩
    refine ⟨?_, ?_⟩
    · intro name hs hc
      exact hdisj name (i₃ name hs) (i₄ name hc)
    · intro name hn
      exact ⟨fun h => (hcommon name hn).1 (i₃ name h), fun h => (hcommon name hn).2 (i₄ name h)⟩

/-- C26, an instance: after `-s -d --port 5000` the role list of the server is
`--server, --discononquit`, a subsequence of the three options seen, and the
role list of the client is empty. -/
theorem C26_role_lists_invariant_witness :
    (∀ st, parseOptions stdBuild stdGlobals stdEnv ["koord", "-s", "-d", "--port", "5000"] =
        .done st →
      st.ServerOnlyOptions.Sublist st.CommandLineOptions ∧
      (∀ name ∈ st.ServerOnlyOptions, name ∉ st.ClientOnlyOptions)) ∧
    (∃ st, parseOptions stdBuild stdGlobals stdEnv ["koord", "-s", "-d", "--port", "5000"] =
        .done st ∧
      st.CommandLineOptions = ["--server", "--discononquit", "--port"] ∧
      st.ServerOnlyOptions = ["--server", "--discononquit"] ∧
      st.ClientOnlyOptions = []) :=
  ⟨fun st h =>
      have hall := C26_role_lists_invariant stdBuild stdGlobals stdEnv
        ["koord", "-s", "-d", "--port", "5000"] 1 st st ""
      have hinv := hall.2.2.1 h
      ⟨hinv.1, (hall.2.2.2.2.2.2 hinv).1⟩,
    ⟨_, rfl, by decide, by decide, by decide⟩⟩

/-! ## The single argument taken as a `koord://` address -/

theorem takeDigits_append :
    ∀ (n : Nat) (ds rest : List Char), ds.all Char.isDigit = true → ds.length ≤ n →
      (ds.length = n ∨ rest = [] ∨ ∃ c r, rest = c :: r ∧ c.isDigit = false) →
      takeDigits n (ds ++ rest) = (ds, rest) := by
  intro n
  induction n with
  | zero =>
    intro ds rest _ hlen _
    have : ds = [] := List.length_eq_zero.1 (Nat.le_zero.1 hlen)
    subst this
    rfl
  | succ n ih =>
    intro ds rest hall hlen hrest
    cases ds with
    | nil =>
      rcases hrest with h | h | ⟨c, r, h, hc⟩
      · simp at h
      · subst h; rfl
      · subst h
        simp [takeDigits, hc]
    | cons x xs =>
      simp only [List.all_cons, Bool.and_eq_true] at hall
      simp only [List.length_cons, Nat.add_le_add_iff_right] at hlen
      have hrest' : xs.length = n ∨ rest = [] ∨ ∃ c r, rest = c :: r ∧ c.isDigit = false := by
        rcases hrest with h | h | h
        · left; simpa using h
        · exact Or.inr (Or.inl h)
        · exact Or.inr (Or.inr h)
      simp [takeDigits, hall.1, ih xs rest hall.2 hlen hrest']

theorem isDigits_spec {lo hi : Nat} {cs : List Char} (h : isDigits lo hi cs = true) :
    lo ≤ cs.length ∧ cs.length ≤ hi ∧ cs.all Char.isDigit = true := by
  simpa [isDigits, and_assoc] using h

theorem matchOctetDot_append {a : List Char} (r : List Char) (ha : isDigits 1 3 a = true) :
    matchOctetDot (a ++ '.' :: r) = some (a ++ ['.'], r) := by
  obtain ⟨h₁, h₂, h₃⟩ := isDigits_spec ha
  unfold matchOctetDot
  rw [takeDigits_append 3 a ('.' :: r) h₃ h₂ (Or.inr (Or.inr ⟨'.', r, rfl, by decide⟩))]
  cases a with
  | nil => simp at h₁
  | cons x xs => rfl

theorem matchThreeOctets_append {a b c : List Char} (r : List Char)
    (ha : isDigits 1 3 a = true) (hb : isDigits 1 3 b = true) (hc : isDigits 1 3 c = true) :
    matchThreeOctets (a ++ '.' :: (b ++ '.' :: (c ++ '.' :: r))) =
      some (a ++ ['.'] ++ (b ++ ['.']) ++ (c ++ ['.']), r) := by
  unfold matchThreeOctets
  rw [matchOctetDot_append _ ha]
  simp only
  rw [matchOctetDot_append _ hb]
  simp only
  rw [matchOctetDot_append _ hc]

theorem afterScheme_koordUri (rest : List Char) : afterScheme (koordUri rest) = some rest := by
  unfold afterScheme koordUri
  have h : "koord://".data = ['k', 'o', 'o', 'r', 'd', ':', '/', '/'] := by decide
  simp [h, List.isPrefixOf]

/-- The pattern `rx_gen1` matches `koord://a.b.c.d`, alone or followed by a
text that does not begin with a digit, and captures `a.b.c.d`. -/
theorem rx_gen1_dotted {a b c d : List Char} (tail : List Char)
    (ha : isDigits 1 3 a = true) (hb : isDigits 1 3 b = true) (hc : isDigits 1 3 c = true)
    (hd : isDigits 1 3 d = true)
    (htail : tail = [] ∨ ∃ x r, tail = x :: r ∧ x.isDigit = false) :
    rx_gen1 (koordUri (dottedHost a b c d ++ tail)) = some (String.mk (dottedHost a b c d)) := by
  obtain ⟨h₁, h₂, h₃⟩ := isDigits_spec hd
  have hshape : dottedHost a b c d ++ tail = a ++ '.' :: (b ++ '.' :: (c ++ '.' :: (d ++ tail))) := by
    simp [dottedHost]
  unfold rx_gen1
  rw [afterScheme_koordUri, hshape]
  simp only
  rw [matchThreeOctets_append _ ha hb hc]
  simp only
  rw [takeDigits_append 3 d tail h₃ h₂ (Or.inr htail)]
  cases d with
  | nil => simp at h₁
  | cons x xs => simp [dottedHost]

/-- The pattern `rx_gen2` does not match `koord://a.b.c.d` alone. -/
theorem rx_gen2_dotted {a b c d : List Char}
    (ha : isDigits 1 3 a = true) (hb : isDigits 1 3 b = true) (hc : isDigits 1 3 c = true)
    (hd : isDigits 1 3 d = true) :
    rx_gen2 (koordUri (dottedHost a b c d)) = none := by
  obtain ⟨h₁, h₂, h₃⟩ := isDigits_spec hd
  have hshape : dottedHost a b c d = a ++ '.' :: (b ++ '.' :: (c ++ '.' :: (d ++ []))) := by
    simp [dottedHost]
  unfold rx_gen2
  rw [afterScheme_koordUri, hshape]
  simp only
  rw [matchThreeOctets_append _ ha hb hc]
  simp only
  rw [takeDigits_append 3 d [] h₃ h₂ (Or.inr (Or.inl rfl))]
  cases d with
  | nil => simp at h₁
  | cons x xs => rfl

/-- The pattern `rx_gen2` matches `koord://a.b.c.d:port` and captures
`a.b.c.d:port`, the port included. -/
theorem rx_gen2_dotted_port {a b c d port : List Char}
    (ha : isDigits 1 3 a = true) (hb : isDigits 1 3 b = true) (hc : isDigits 1 3 c = true)
    (hd : isDigits 1 3 d = true) (hport : isDigits 3 5 port = true) :
    rx_gen2 (koordUri (dottedHost a b c d ++ ':' :: port)) =
      some (String.mk (dottedHost a b c d ++ ':' :: port)) := by
  obtain ⟨h₁, h₂, h₃⟩ := isDigits_spec hd
  obtain ⟨p₁, p₂, p₃⟩ := isDigits_spec hport
  have hshape : dottedHost a b c d ++ ':' :: port =
      a ++ '.' :: (b ++ '.' :: (c ++ '.' :: (d ++ ':' :: port))) := by
    simp [dottedHost]
  have hport' : takeDigits 5 port = (port, []) := by
    have := takeDigits_append 5 port [] p₃ p₂ (Or.inr (Or.inl rfl))
    rwa [List.append_nil] at this
  unfold rx_gen2
  rw [afterScheme_koordUri, hshape]
  simp only
  rw [matchThreeOctets_append _ ha hb hc]
  simp only
  rw [takeDigits_append 3 d (':' :: port) h₃ h₂ (Or.inr (Or.inr ⟨':', port, rfl, by decide⟩))]
  cases d with
  | nil => simp at h₁
  | cons x xs =>
    simp only [hport']
    simp [p₁]

theorem afterScheme_of_rx {tok : String}
    (h : (rx_gen2 tok).isSome = true ∨ (rx_gen1 tok).isSome = true) :
    ∃ cs, afterScheme tok = some cs := by
  cases ha : afterScheme tok with
  | some cs => exact ⟨cs, rfl⟩
  | none =>
    rcases h with h | h
    · unfold rx_gen2 at h; rw [ha] at h; simp at h
    · unfold rx_gen1 at h; rw [ha] at h; simp at h

/-- With a single argument that matches one of the two patterns, the loop body
sets the connect address to the text captured, by `rx_gen2` if it matches and
by `rx_gen1` otherwise, and appends `--autoconnect` to `CommandLineOptions`. -/
theorem loopBody_uri (b : Build) (g : Globals) (env : Env) (argv : List String) (st : Locals)
    (captured : String)
    (hcap : rx_gen2 (tokenAt argv 1) = some captured ∨
      (rx_gen2 (tokenAt argv 1) = none ∧ rx_gen1 (tokenAt argv 1) = some captured)) :
    loopBody b g env 2 argv 1 st = .next 1
      ({ st with strConnOnStartupAddress := captured }
        |>.qInfo "- autoconnect on startup to address: %1" [.str captured]
        |>.pushOption "--autoconnect") := by
  obtain ⟨cs, hcs⟩ : ∃ cs, afterScheme (tokenAt argv 1) = some cs := by
    apply afterScheme_of_rx
    rcases hcap with h | ⟨-, h⟩
    · left; rw [h]; rfl
    · right; rw [h]; rfl
  have hall : ∀ n ∈ knownTokens, afterScheme n = none := by decide
  have hnames : ∀ n ∈ knownTokens, ¬ n = tokenAt argv 1 := by
    intro n hn heq
    rw [← heq, hall n hn] at hcs
    exact Option.noConfusion hcs
  simp only [knownTokens, List.forall_mem_cons, List.not_mem_nil, false_implies,
    implies_true, and_true] at hnames
  have hh : helpAndVersion env argv 1 st = none := by
    rw [helpAndVersion_eq_none]
    simp only [hnames, not_false_eq_true, and_self]
  have hu : singleArgumentUri 2 argv 1 st = some (.next 1
      ({ st with strConnOnStartupAddress := captured }
        |>.qInfo "- autoconnect on startup to address: %1" [.str captured]
        |>.pushOption "--autoconnect")) := by
    unfold singleArgumentUri
    rcases hcap with h | ⟨h₂, h₁⟩
    · simp [h]
    · simp [h₂, h₁]
  simp [loopBody, optionBlocks, commonOptions, serverOptions, clientOptions,
    firstMatch, onString, onFlag, onNumeric, GetFlagArgument,
    GetStringArgument, GetNumericArgument, hu, hh, hnames]

/-- The option loop on a single argument that matches one of the two
patterns. -/
theorem parseOptions_single_uri (b : Build) (g : Globals) (env : Env) (prog tok : String)
    (captured : String)
    (hcap : rx_gen2 tok = some captured ∨ (rx_gen2 tok = none ∧ rx_gen1 tok = some captured)) :
    parseOptions b g env [prog, tok] = .done (afterUriShortcut b g captured) := by
  have hbody := loopBody_uri b g env [prog, tok] (initialLocals b g) captured hcap
  unfold parseOptions
  rw [show ([prog, tok] : List String).length = 1 + 1 from rfl,
    optionLoop_step b g env [prog, tok] 1 1 _ (by simp)]
  rw [show ([prog, tok] : List String).length = 2 from rfl, hbody]
  simp [optionLoop, afterUriShortcut]

/-- C21, as stated, does not hold for the shape with a port.  On the single
argument `koord://1.2.3.4:5000` the pattern `rx_gen2` is tried first, and its
group 1 spans the host and the port: the connect address is `1.2.3.4:5000`,
and the client is constructed with it. -/
theorem C21_port_is_captured :
    rx_gen2 "koord://1.2.3.4:5000" = some "1.2.3.4:5000" ∧
    (main stdBuild stdGlobals stdEnv
      ["koord", "koord://1.2.3.4:5000"]).st.strConnOnStartupAddress = "1.2.3.4:5000" ∧
    (main stdBuild stdGlobals stdEnv
      ["koord", "koord://1.2.3.4:5000"]).st.strConnOnStartupAddress ≠ "1.2.3.4" ∧
    (main stdBuild stdGlobals stdEnv ["koord", "koord://1.2.3.4:5000"]).actor =
      some (.client (clientArgs (main stdBuild stdGlobals stdEnv
        ["koord", "koord://1.2.3.4:5000"]).st)) ∧
    (clientArgs (main stdBuild stdGlobals stdEnv
      ["koord", "koord://1.2.3.4:5000"]).st).strConnOnStartupAddress = "1.2.3.4:5000" := by
  decide

/-- C21, amended.  Let `a`, `b`, `c`, `d` be texts of one to three decimal
digits and `port` a text of three to five decimal digits.  On the single
argument `koord://a.b.c.d` the option loop runs to its end, `--autoconnect` is
what `CommandLineOptions` holds, and the connect address is `a.b.c.d`.  On the
single argument `koord://a.b.c.d:port` the option loop runs to its end,
`--autoconnect` is what `CommandLineOptions` holds, and the connect address is
`a.b.c.d:port`, the port included. -/
theorem C21_uri_shortcut (bld : Build) (g : Globals) (env : Env) (prog : String)
    (a b c d port : List Char)
    (ha : isDigits 1 3 a = true) (hb : isDigits 1 3 b = true) (hc : isDigits 1 3 c = true)
    (hd : isDigits 1 3 d = true) (hport : isDigits 3 5 port = true) :
    (∃ st : Locals,
      parseOptions bld g env [prog, koordUri (dottedHost a b c d)] = .done st ∧
      st.CommandLineOptions = (initialLocals bld g).CommandLineOptions ++ ["--autoconnect"] ∧
      st.CommandLineOptions = ["--autoconnect"] ∧
      st.strConnOnStartupAddress = String.mk (dottedHost a b c d)) ∧
    (∃ st : Locals,
      parseOptions bld g env [prog, koordUri (dottedHost a b c d ++ ':' :: port)] = .done st ∧
      st.CommandLineOptions = (initialLocals bld g).CommandLineOptions ++ ["--autoconnect"] ∧
      st.CommandLineOptions = ["--autoconnect"] ∧
      st.strConnOnStartupAddress = String.mk (dottedHost a b c d ++ ':' :: port)) := by
  refine ⟨⟨afterUriShortcut bld g (String.mk (dottedHost a b c d)), ?_, rfl, rfl, rfl⟩,
    ⟨afterUriShortcut bld g (String.mk (dottedHost a b c d ++ ':' :: port)), ?_, rfl, rfl, rfl⟩⟩
  · apply parseOptions_single_uri
    right
    refine ⟨rx_gen2_dotted ha hb hc hd, ?_⟩
    have := rx_gen1_dotted [] ha hb hc hd (Or.inl rfl)
    rwa [List.append_nil] at this
  · apply parseOptions_single_uri
    left
    exact rx_gen2_dotted_port ha hb hc hd hport

/-- C21, amended, an instance: `koord://10.0.0.5` gives the connect address
`10.0.0.5`, and `koord://10.0.0.5:22124` gives `10.0.0.5:22124`. -/
theorem C21_uri_shortcut_witness :
    koordUri (dottedHost ['1', '0'] ['0'] ['0'] ['5']) = "koord://10.0.0.5" ∧
    (∃ st : Locals,
      parseOptions stdBuild stdGlobals stdEnv ["koord", "koord://10.0.0.5"] = .done st ∧
      st.CommandLineOptions = ["--autoconnect"] ∧
      st.strConnOnStartupAddress = "10.0.0.5") ∧
    (∃ st : Locals,
      parseOptions stdBuild stdGlobals stdEnv ["koord", "koord://10.0.0.5:22124"] = .done st ∧
      st.CommandLineOptions = ["--autoconnect"] ∧
      st.strConnOnStartupAddress = "10.0.0.5:22124") := by
  obtain ⟨⟨st₁, p₁, -, o₁, a₁⟩, ⟨st₂, p₂, -, o₂, a₂⟩⟩ :=
    C21_uri_shortcut stdBuild stdGlobals stdEnv "koord"
      ['1', '0'] ['0'] ['0'] ['5'] ['2', '2', '1', '2', '4']
      (by decide) (by decide) (by decide) (by decide) (by decide)
  exact ⟨by decide, ⟨st₁, p₁, o₁, a₁⟩, ⟨st₂, p₂, o₂, a₂⟩⟩

/-- In the client the `try` block constructs the client. -/
theorem runActor_client (b : Build) (g : Globals) (env : Env) (st : Locals)
    (p : Option RpcServer) (hso : b.SERVER_ONLY = false) (hc : st.bIsClient = true) :
    (runActor b g env st p).actor = some (.client (clientArgs st)) := by
  unfold runActor catchGenErr
  simp only [hso, hc, Bool.not_false, and_self, if_true]
  split <;> split_ifs <;> rfl

/-- C22, as stated, does not hold in the builds whose default mode is Server.
In the build of the server alone and in the build of the server bundle for
macOS the single argument `koord://1.2.3.4` does not make the mode Client:
`bIsClient` keeps the default of the build, no client is constructed, and the
actor of the run is the server, which takes no connect address. -/
theorem C22_server_build_runs_server :
    (main serverOnlyBuild stdGlobals stdEnv ["koord", "koord://1.2.3.4:5000"]).ranServer = true ∧
    (main serverOnlyBuild stdGlobals stdEnv ["koord", "koord://1.2.3.4:5000"]).ranClient = false ∧
    (main serverBundleBuild stdGlobals stdEnv ["koord", "koord://1.2.3.4"]).ranServer = true ∧
    (main serverBundleBuild stdGlobals stdEnv ["koord", "koord://1.2.3.4"]).ranClient = false ∧
    (main serverBundleBuild stdGlobals stdEnv ["koord", "koord://1.2.3.4"]).st.bIsClient =
      false := by
  decide

/-- C22, amended.  In a build whose default mode is Client, let the single
argument match one of the two patterns and let `main` come to the `try` block
(the permission of Android is not denied).  Then the mode is Client, the
checks of the values go through, no JSON-RPC server is started, and the actor
constructed is the client, with the captured text as its connect address. -/
theorem C22_uri_runs_client (b : Build) (g : Globals) (env : Env) (prog tok : String)
    (captured : String)
    (hdefault : b.serverByDefault = false)
    (handroid : androidReturns b env = false)
    (hcap : rx_gen2 tok = some captured ∨ (rx_gen2 tok = none ∧ rx_gen1 tok = some captured)) :
    parseOptions b g env [prog, tok] = .done (afterUriShortcut b g captured) ∧
    (afterUriShortcut b g captured).bIsClient = true ∧
    (∃ args, (main b g env [prog, tok]).actor = some (.client args) ∧
      args.strConnOnStartupAddress = captured) ∧
    (main b g env [prog, tok]).pRpcServer = none := by
  have hparse := parseOptions_single_uri b g env prog tok captured hcap
  have hclient : (afterUriShortcut b g captured).bIsClient = true := by
    simp [afterUriShortcut, initialLocals, Locals.qInfo, Locals.pushOption, hdefault]
  have hso : b.SERVER_ONLY = false := by
    cases h : b.SERVER_ONLY
    · rfl
    · simp [Build.serverByDefault, h] at hdefault
  obtain ⟨gui, l₀, h₀⟩ := headlessDependency_eq b (afterUriShortcut b g captured)
  have hok : modeAndValidation env [prog, tok] (headlessDependency b (afterUriShortcut b g captured))
      = .ok (clientChecks (headlessDependency b (afterUriShortcut b g captured))) := by
    unfold modeAndValidation
    rw [h₀]
    simp [hdefault, afterUriShortcut, initialLocals, Locals.qInfo, Locals.pushOption]
  have hmain := main_of_validation b g env [prog, tok] _ _ hparse hok
  obtain ⟨r₁, -, -, -⟩ := rpc_inputs b env [prog, tok] _ _ hok
  obtain ⟨mute, port, l, hcc⟩ := clientChecks_eq
    (headlessDependency b (afterUriShortcut b g captured))
  obtain ⟨gui', client', ha⟩ := applicationSetup_eq b
    (clientChecks (headlessDependency b (afterUriShortcut b g captured)))
  have hskip : rpcBootstrap g env
      (applicationSetup b (clientChecks (headlessDependency b (afterUriShortcut b g captured)))) =
      .ok (applicationSetup b
        (clientChecks (headlessDependency b (afterUriShortcut b g captured)))) none := by
    unfold rpcBootstrap
    rw [r₁]
    simp [afterUriShortcut, initialLocals, Locals.qInfo, Locals.pushOption]
  have hcl : (applicationSetup b
      (clientChecks (headlessDependency b (afterUriShortcut b g captured)))).bIsClient = true := by
    unfold applicationSetup
    split_ifs
    · rfl
    · rw [hcc]; simp only []; rw [h₀]; exact hclient
  have haddr : (applicationSetup b (clientChecks (headlessDependency b
      (afterUriShortcut b g captured)))).strConnOnStartupAddress = captured := by
    rw [ha]; simp only []; rw [hcc]; simp only []; rw [h₀]; rfl
  have hm : main b g env [prog, tok] = runActor b g env (applicationSetup b
      (clientChecks (headlessDependency b (afterUriShortcut b g captured)))) none := by
    rw [hmain]
    unfold afterValidation
    simp [handroid, hskip]
  refine ⟨hparse, hclient, ⟨clientArgs (applicationSetup b
      (clientChecks (headlessDependency b (afterUriShortcut b g captured)))), ?_, ?_⟩, ?_⟩
  · rw [hm]
    exact runActor_client b g env _ none hso hcl
  · simp only [clientArgs]
    exact haddr
  · rw [hm]
    exact (runActor_pRpcServer b g env _ _).1

/-- C22, amended, an instance: `koord://1.2.3.4` in the standard build. -/
theorem C22_uri_runs_client_witness :
    ∃ args, (main stdBuild stdGlobals stdEnv ["koord", "koord://1.2.3.4"]).actor =
      some (.client args) ∧ args.strConnOnStartupAddress = "1.2.3.4" :=
  (C22_uri_runs_client stdBuild stdGlobals stdEnv "koord" "koord://1.2.3.4" "1.2.3.4"
    (by decide) (by decide) (by decide)).2.2.1

/-- The option loop on `--server --port 5000`. -/
theorem parseOptions_server_port (b : Build) (g : Globals) (env : Env) (prog : String)
    (hstrtod : env.strtod "5000" = (Double.ofInt 5000, "")) :
    parseOptions b g env [prog, "--server", "--port", "5000"] = .done (afterServerPort b g) := by
  have h₁ : loopBody b g env [prog, "--server", "--port", "5000"].length
      [prog, "--server", "--port", "5000"] 1 (initialLocals b g) =
      .next 1 (serverFlagBlock (initialLocals b g)) :=
    loopBody_serverFlag b g env _ (by simp [isServerFlag, tokenAt])
  have h₂ : loopBody b g env [prog, "--server", "--port", "5000"].length
      [prog, "--server", "--port", "5000"] 2
      (serverFlagBlock (initialLocals b g)) = .next 3 (afterServerPort b g) := by
    have hv : Double.toUInt16 (Double.ofInt 5000) = 5000 := by decide
    have hlo : Double.lt (Double.ofInt 5000) (Double.ofInt 0) = false := by decide
    have hhi : Double.gt (Double.ofInt 5000) (Double.ofInt 65535) = false := by decide
    simp [loopBody, optionBlocks, commonOptions, firstMatch, helpAndVersion,
      onString, onFlag, onNumeric, GetFlagArgument, GetStringArgument, GetNumericArgument,
      tokenAt, hstrtod, hv, hlo, hhi, serverFlagBlock, afterServerPort, Locals.qInfo,
      Locals.pushOption, Locals.pushServerOnly, initialLocals]
  have hfuel : [prog, "--server", "--port", "5000"].length = 3 + 1 := rfl
  unfold parseOptions
  rw [hfuel, optionLoop_step b g env _ 3 1 _ (by simp), h₁]
  simp only [Nat.reduceAdd]
  rw [optionLoop_step b g env _ 2 2 _ (by simp), h₂]
  simp [optionLoop]

/-- The checks of the values in the server leave local variables alone whose
file names and addresses are all empty. -/
theorem serverChecks_of_empty (env : Env) (st : Locals)
    (h₁ : st.strIniFileName = "") (h₂ : st.strDirectoryServer = "")
    (h₃ : st.strServerListFileName = "") (h₄ : st.strServerListFilter = "")
    (h₅ : st.strServerPublicIP = "") (h₆ : st.strServerBindIP = "") :
    checkServerBindIP env (if st.bUseGUI then guiServerNotes st else headlessServerChecks env st)
      = st := by
  have hl : equalsLocalhostIgnoringCase "" = false := by decide
  cases st
  simp only at h₁ h₂ h₃ h₄ h₅ h₆
  subst h₁ h₂ h₃ h₄ h₅ h₆
  split_ifs <;>
    simp [checkServerBindIP, guiServerNotes, headlessServerChecks, checkIniFileName,
      notDirectoryServer, checkServerPublicIP, hl]

/-- In the server the `try` block constructs the server. -/
theorem runActor_server (b : Build) (g : Globals) (env : Env) (st : Locals)
    (p : Option RpcServer) (hc : st.bIsClient = false) :
    (runActor b g env st p).actor = some (.server (serverArgs st)) := by
  unfold runActor catchGenErr
  simp only [hc, Bool.false_eq_true, and_false, if_false]
  split <;> split_ifs <;> rfl

/-- C27. Let `strtod` read the token `5000` as the number 5000, all of it.
Then on the arguments `--server --port 5000`, in every build: the option loop
runs to its end with the mode Server and the port 5000, the dependencies and
the checks of the values go through and change nothing but, in a build without
GUI, the GUI switch; the JSON-RPC block starts no server (the port is still
`INVALID_PORT`, the name of the secret file is empty).  When `main` comes to
the `try` block (the permission of Android is not denied) in a build other than
the one for iOS with a GUI, the server is constructed with the port 5000,
`DEFAULT_USED_NUM_CHANNELS` channels, and an empty directory server address,
persistence file, list filter, public IP and bind IP; no JSON-RPC server
exists and no operation on the file system was done. -/
theorem C27_server_port_5000 (b : Build) (g : Globals) (env : Env) (prog : String)
    (hstrtod : env.strtod "5000" = (Double.ofInt 5000, "")) :
    parseOptions b g env [prog, "--server", "--port", "5000"] = .done (afterServerPort b g) ∧
    serverOnlyDependency b (headlessDependency b (afterServerPort b g)) =
      .ok (headlessDependency b (afterServerPort b g)) ∧
    modeAndValidation env [prog, "--server", "--port", "5000"]
        (headlessDependency b (afterServerPort b g)) =
      .ok (headlessDependency b (afterServerPort b g)) ∧
    (∃ l, headlessDependency b (afterServerPort b g) =
      { afterServerPort b g with bUseGUI := !b.HEADLESS, log := l }) ∧
    rpcBootstrap g env (headlessDependency b (afterServerPort b g)) =
      .ok (headlessDependency b (afterServerPort b g)) none ∧
    (afterServerPort b g).iJsonRpcPortNumber = g.INVALID_PORT ∧
    (afterServerPort b g).strJsonRpcSecretFileName = "" ∧
    (androidReturns b env = false → (b.HEADLESS = true ∨ b.Q_OS_IOS = false) →
      (main b g env [prog, "--server", "--port", "5000"]).actor =
        some (.server (serverArgs (afterServerPort b g))) ∧
      (main b g env [prog, "--server", "--port", "5000"]).pRpcServer = none ∧
      (main b g env [prog, "--server", "--port", "5000"]).st.bIsClient = false ∧
      (main b g env [prog, "--server", "--port", "5000"]).st.fsOps = []) ∧
    serverArgs (afterServerPort b g) =
      { iNumServerChannels := g.DEFAULT_USED_NUM_CHANNELS
        strLoggingFileName := ""
        strServerBindIP := ""
        iPortNumber := 5000
        iQosNumber := g.DEFAULT_QOS_NUMBER % 65536
        strHTMLStatusFileName := ""
        strDirectoryServer := ""
        strServerListFileName := ""
        strServerInfo := ""
        strServerPublicIP := ""
        strServerListFilter := ""
        strWelcomeMessage := ""
        strRecordingDirName := ""
        bDisconnectAllClientsOnQuit := false
        bUseDoubleSystemFrameSize := true
        bUseMultithreading := false
        bDisableRecording := false
        bDelayPan := false
        bEnableIPv6 := false
        eLicenceType := .LT_NO_LICENCE } := by
  have hparse := parseOptions_server_port b g env prog hstrtod
  obtain ⟨gui, l₀, h₀⟩ := headlessDependency_eq b (afterServerPort b g)
  have hgui : (headlessDependency b (afterServerPort b g)).bUseGUI = !b.HEADLESS := by
    unfold headlessDependency
    cases b.HEADLESS <;> simp [afterServerPort, initialLocals, Locals.qWarning]
  have hcl : (headlessDependency b (afterServerPort b g)).bIsClient = false := by
    rw [h₀]; rfl
  have hdep : serverOnlyDependency b (headlessDependency b (afterServerPort b g)) =
      .ok (headlessDependency b (afterServerPort b g)) := by
    unfold serverOnlyDependency
    simp [hcl]
  have hok : modeAndValidation env [prog, "--server", "--port", "5000"]
      (headlessDependency b (afterServerPort b g)) =
      .ok (headlessDependency b (afterServerPort b g)) := by
    have hcoo : (headlessDependency b (afterServerPort b g)).ClientOnlyOptions = [] := by
      rw [h₀]; rfl
    unfold modeAndValidation
    simp only [hcl, hcoo, Bool.false_eq_true, if_false, List.length_nil, ne_eq,
      not_true_eq_false]
    rw [serverChecks_of_empty env _ (by rw [h₀]; rfl) (by rw [h₀]; rfl) (by rw [h₀]; rfl)
      (by rw [h₀]; rfl) (by rw [h₀]; rfl) (by rw [h₀]; rfl)]
  have hrpc : rpcBootstrap g env (headlessDependency b (afterServerPort b g)) =
      .ok (headlessDependency b (afterServerPort b g)) none := by
    have hj : (headlessDependency b (afterServerPort b g)).iJsonRpcPortNumber = g.INVALID_PORT := by
      rw [h₀]; rfl
    unfold rpcBootstrap
    simp [hj]
  refine ⟨hparse, hdep, hok, ⟨l₀, ?_⟩, hrpc, rfl, rfl, ?_, rfl⟩
  · have hg : gui = !b.HEADLESS := by
      rw [← hgui, h₀]
    rw [h₀, hg]
  · intro handroid hios
    have hsetup : applicationSetup b (headlessDependency b (afterServerPort b g)) =
        headlessDependency b (afterServerPort b g) := by
      unfold applicationSetup
      rcases hios with h | h <;> simp [h]
    have hm : main b g env [prog, "--server", "--port", "5000"] =
        runActor b g env (headlessDependency b (afterServerPort b g)) none := by
      rw [main_of_validation b g env _ _ _ hparse hok]
      unfold afterValidation
      simp [handroid, hsetup, hrpc]
    have hargs : serverArgs (headlessDependency b (afterServerPort b g)) =
        serverArgs (afterServerPort b g) := by
      rw [h₀]; rfl
    obtain ⟨flog, hf⟩ := runActor_eq b g env (headlessDependency b (afterServerPort b g)) none
    refine ⟨?_, ?_, ?_, ?_⟩
    · rw [hm, runActor_server b g env _ none hcl, hargs]
    · rw [hm]
      exact (runActor_pRpcServer b g env _ _).1
    · rw [hm, hf]
      exact hcl
    · rw [hm, hf]
      simp only []
      rw [h₀]
      rfl

/-- C27, an instance: the standard build and environment. -/
theorem C27_server_port_5000_witness :
    (main stdBuild stdGlobals stdEnv ["koord", "--server", "--port", "5000"]).actor =
      some (.server (serverArgs (afterServerPort stdBuild stdGlobals))) ∧
    (serverArgs (afterServerPort stdBuild stdGlobals)).iPortNumber = 5000 ∧
    (main stdBuild stdGlobals stdEnv ["koord", "--server", "--port", "5000"]).pRpcServer = none ∧
    (main stdBuild stdGlobals stdEnv ["koord", "--server", "--port", "5000"]).exitCode =
      some 0 := by
  obtain ⟨-, -, -, -, -, -, -, h, -⟩ :=
    C27_server_port_5000 stdBuild stdGlobals stdEnv "koord" (by decide)
  obtain ⟨h₁, h₂, -, -⟩ := h (by decide) (by decide)
  exact ⟨h₁, by decide, h₂, by decide⟩

/-- The option loop on `--connect 10.0.0.5`. -/
theorem parseOptions_connect (b : Build) (g : Globals) (env : Env) (prog : String)
    (hfix : env.FixAddress "10.0.0.5" = "10.0.0.5") :
    parseOptions b g env [prog, "--connect", "10.0.0.5"] = .done (afterConnect b g) := by
  have h₁ : loopBody b g env [prog, "--connect", "10.0.0.5"].length
      [prog, "--connect", "10.0.0.5"] 1 (initialLocals b g) = .next 2 (afterConnect b g) := by
    simp [loopBody, optionBlocks, commonOptions, serverOptions, clientOptions, firstMatch,
      helpAndVersion, onString, onFlag, onNumeric, GetFlagArgument, GetStringArgument,
      GetNumericArgument, tokenAt, hfix, afterConnect, Locals.qInfo, Locals.pushOption,
      Locals.pushClientOnly, initialLocals]
  have hfuel : [prog, "--connect", "10.0.0.5"].length = 2 + 1 := rfl
  unfold parseOptions
  rw [hfuel, optionLoop_step b g env _ 2 1 _ (by simp), h₁]
  simp [optionLoop]

/-- C28. In a build whose default mode is Client, let `FixAddress` leave the
text `10.0.0.5` as it is and let `DEFAULT_PORT_NUMBER + 10` be a port number.
Then on the arguments `--connect 10.0.0.5`: the option loop runs to its end
with the mode Client and the connect address `10.0.0.5`, and has changed
nothing else but the lists of the options seen and the messages; the
dependencies and the checks of the values go through and set the port to
`DEFAULT_PORT_NUMBER + 10` (and, in a build without GUI, turn the GUI switch
off); when `main` comes to the `try` block (the permission of Android is not
denied), no JSON-RPC server exists and the client is constructed with that
port, that address, and the initial value of every other argument. -/
theorem C28_connect_address (b : Build) (g : Globals) (env : Env) (prog : String)
    (hdefault : b.serverByDefault = false)
    (hfix : env.FixAddress "10.0.0.5" = "10.0.0.5")
    (hport : g.DEFAULT_PORT_NUMBER + 10 < 65536) :
    parseOptions b g env [prog, "--connect", "10.0.0.5"] = .done (afterConnect b g) ∧
    (afterConnect b g).bIsClient = true ∧
    serverOnlyDependency b (headlessDependency b (afterConnect b g)) =
      .ok (headlessDependency b (afterConnect b g)) ∧
    (∃ l, modeAndValidation env [prog, "--connect", "10.0.0.5"]
        (headlessDependency b (afterConnect b g)) =
      .ok { afterConnect b g with
        iPortNumber := g.DEFAULT_PORT_NUMBER + 10, bUseGUI := !b.HEADLESS, log := l }) ∧
    (androidReturns b env = false →
      (main b g env [prog, "--connect", "10.0.0.5"]).actor =
        some (.client
          { iPortNumber := g.DEFAULT_PORT_NUMBER + 10
            iQosNumber := g.DEFAULT_QOS_NUMBER % 65536
            strConnOnStartupAddress := "10.0.0.5"
            strMIDISetup := ""
            bNoAutoJackConnect := false
            strClientName := ""
            bEnableIPv6 := false
            bMuteMeInPersonalMix := false }) ∧
      (main b g env [prog, "--connect", "10.0.0.5"]).pRpcServer = none ∧
      (main b g env [prog, "--connect", "10.0.0.5"]).st.bIsClient = true ∧
      (main b g env [prog, "--connect", "10.0.0.5"]).st.fsOps = []) := by
  have hparse := parseOptions_connect b g env prog hfix
  have hso : b.SERVER_ONLY = false := by
    cases h : b.SERVER_ONLY
    · rfl
    · simp [Build.serverByDefault, h] at hdefault
  have hclient : (afterConnect b g).bIsClient = true := by
    simp [afterConnect, initialLocals, hdefault]
  have hp : (g.DEFAULT_PORT_NUMBER % 65536 + 10) % 65536 = g.DEFAULT_PORT_NUMBER + 10 := by
    omega
  have hdep : serverOnlyDependency b (headlessDependency b (afterConnect b g)) =
      .ok (headlessDependency b (afterConnect b g)) := by
    unfold serverOnlyDependency
    simp [hso]
  have hok : modeAndValidation env [prog, "--connect", "10.0.0.5"]
      (headlessDependency b (afterConnect b g)) =
      .ok { afterConnect b g with
        iPortNumber := g.DEFAULT_PORT_NUMBER + 10, bUseGUI := !b.HEADLESS,
        log := (clientChecks (headlessDependency b (afterConnect b g))).log } := by
    unfold modeAndValidation
    cases hh : b.HEADLESS <;>
      simp [headlessDependency, clientChecks, afterConnect, initialLocals, hdefault, hh, hp,
        Locals.qWarning, Locals.qInfo]
  refine ⟨hparse, hclient, hdep, ⟨_, hok⟩, ?_⟩
  intro handroid
  have hsetup : ∀ l, applicationSetup b { afterConnect b g with
      iPortNumber := g.DEFAULT_PORT_NUMBER + 10, bUseGUI := !b.HEADLESS, log := l } =
      { afterConnect b g with
        iPortNumber := g.DEFAULT_PORT_NUMBER + 10, bUseGUI := !b.HEADLESS, log := l } := by
    intro l
    unfold applicationSetup
    cases hh : b.HEADLESS <;> cases hi : b.Q_OS_IOS <;>
      simp [afterConnect, initialLocals, hdefault]
  have hrpc : ∀ l, rpcBootstrap g env { afterConnect b g with
      iPortNumber := g.DEFAULT_PORT_NUMBER + 10, bUseGUI := !b.HEADLESS, log := l } =
      .ok { afterConnect b g with
        iPortNumber := g.DEFAULT_PORT_NUMBER + 10, bUseGUI := !b.HEADLESS, log := l } none := by
    intro l
    unfold rpcBootstrap
    simp [afterConnect, initialLocals]
  have hm : main b g env [prog, "--connect", "10.0.0.5"] =
      runActor b g env { afterConnect b g with
        iPortNumber := g.DEFAULT_PORT_NUMBER + 10, bUseGUI := !b.HEADLESS,
        log := (clientChecks (headlessDependency b (afterConnect b g))).log } none := by
    rw [main_of_validation b g env _ _ _ hparse hok]
    unfold afterValidation
    simp only [handroid, Bool.false_eq_true, if_false, hsetup, hrpc]
  obtain ⟨flog, hf⟩ := runActor_eq b g env { afterConnect b g with
    iPortNumber := g.DEFAULT_PORT_NUMBER + 10, bUseGUI := !b.HEADLESS,
    log := (clientChecks (headlessDependency b (afterConnect b g))).log } none
  refine ⟨?_, ?_, ?_, ?_⟩
  · rw [hm]
    refine (runActor_client b g env _ none hso ?_).trans ?_
    · exact hclient
    · rfl
  · rw [hm]
    exact (runActor_pRpcServer b g env _ _).1
  · rw [hm, hf]
    exact hclient
  · rw [hm, hf]
    rfl

/-- C28, an instance: the standard build and environment, where
`DEFAULT_PORT_NUMBER` is 22124. -/
theorem C28_connect_address_witness :
    (main stdBuild stdGlobals stdEnv ["koord", "--connect", "10.0.0.5"]).actor =
      some (.client
        { iPortNumber := 22134
          iQosNumber := stdGlobals.DEFAULT_QOS_NUMBER % 65536
          strConnOnStartupAddress := "10.0.0.5"
          strMIDISetup := ""
          bNoAutoJackConnect := false
          strClientName := ""
          bEnableIPv6 := false
          bMuteMeInPersonalMix := false }) ∧
    (main stdBuild stdGlobals stdEnv ["koord", "--connect", "10.0.0.5"]).exitCode = some 0 :=
  ⟨((C28_connect_address stdBuild stdGlobals stdEnv "koord" (by decide) (by decide)
    (by decide)).2.2.2.2 (by decide)).1, by decide⟩

/-! ## The mode after the checks -/

/-- The actor the stages after the checks construct, when they construct one:
the client exactly when the build has one and `bIsClient` holds after the set-up
of the application. -/
theorem afterValidation_actor (b : Build) (g : Globals) (env : Env) (st : Locals)
    (actor : Actor) (h : (afterValidation b g env st).actor = some actor) :
    actor.isClient = (!b.SERVER_ONLY && (applicationSetup b st).bIsClient) := by
  unfold afterValidation at h
  split_ifs at h with ha
  have hr := rpcBootstrap_frame g env (applicationSetup b st)
  cases hrpc : rpcBootstrap g env (applicationSetup b st) with
  | exit code st₁ => rw [hrpc] at h; simp at h
  | ok st₁ p =>
    rw [hrpc] at h hr
    obtain ⟨-, -, -, hc, -⟩ := hr
    simp only at h
    by_cases hcl : (!b.SERVER_ONLY && st₁.bIsClient) = true
    · have hcl' := hcl
      simp only [Bool.and_eq_true, Bool.not_eq_true'] at hcl'
      have := runActor_client b g env st₁ p hcl'.1 hcl'.2
      rw [h] at this
      cases Option.some.inj this
      rw [← hc, hcl]
      rfl
    · have hcl' : ¬ (!b.SERVER_ONLY ∧ st₁.bIsClient) := by
        simpa [Bool.and_eq_true] using hcl
      have : (runActor b g env st₁ p).actor = some (.server (serverArgs st₁)) := by
        unfold runActor catchGenErr
        simp only [hcl', if_false]
        split <;> split_ifs <;> rfl
      rw [h] at this
      cases Option.some.inj this
      rw [← hc, (Bool.not_eq_true _).mp hcl]
      rfl

/-- C31, as stated, does not hold in the build for iOS.  On `--server` the
option loop leaves the mode Server, the check of the mode and the checks of
the values run for the server (they pass, and `--server` is in the list of
server only options), and then the statement under `Q_OS_IOS` sets `bIsClient`
to true: the actor constructed is the client. -/
theorem C31_ios_overrides_mode :
    (∃ st, parseOptions iosBuild stdGlobals stdEnv ["koord", "--server"] = .done st ∧
      st.bIsClient = false ∧
      ∃ st₂, modeAndValidation stdEnv ["koord", "--server"] (headlessDependency iosBuild st) =
        .ok st₂ ∧ st₂.bIsClient = false ∧ st₂.ServerOnlyOptions = ["--server"]) ∧
    (main iosBuild stdGlobals stdEnv ["koord", "--server"]).st.bIsClient = true ∧
    (main iosBuild stdGlobals stdEnv ["koord", "--server"]).ranClient = true ∧
    (main iosBuild stdGlobals stdEnv ["koord", "--server"]).ranServer = false :=
  ⟨⟨_, rfl, by decide, _, rfl, by decide, by decide⟩, by decide, by decide, by decide⟩

/-- C31, amended.  Let the option loop run to its end and the checks of the
values go through.  The mode the loop has left is the mode the checks have run
for and have left.  In every build but the one for iOS with the GUI it is also
the mode at the end of `main`, and an actor that is constructed is the client
exactly when that mode is Client.  In the build for iOS with the GUI the mode
at the end of `main` is Client whatever the loop has left, and an actor that is
constructed is the client unless the build is one of the server alone. -/
theorem C31_mode_kept_outside_ios (b : Build) (g : Globals) (env : Env)
    (argv : List String) (st st₂ : Locals)
    (hparse : parseOptions b g env argv = .done st)
    (hok : modeAndValidation env argv (headlessDependency b st) = .ok st₂) :
    (headlessDependency b st).bIsClient = st.bIsClient ∧
    st₂.bIsClient = st.bIsClient ∧
    ((b.HEADLESS = true ∨ b.Q_OS_IOS = false) →
      (main b g env argv).st.bIsClient = st.bIsClient ∧
      ∀ actor, (main b g env argv).actor = some actor → actor.isClient = st.bIsClient) ∧
    ((b.HEADLESS = false ∧ b.Q_OS_IOS = true) →
      (main b g env argv).st.bIsClient = true ∧
      ∀ actor, (main b g env argv).actor = some actor → actor.isClient = !b.SERVER_ONLY) := by
  obtain ⟨d₁, -⟩ := headlessDependency_frame b st
  obtain ⟨mute, port, ini, file, ip, bind, l, ops, hst₂⟩ := modeAndValidation_eq env argv _ _ hok
  have h₂ : st₂.bIsClient = st.bIsClient := by
    rw [hst₂]; exact d₁
  have hmain := main_of_validation b g env argv st st₂ hparse hok
  have hso : b.SERVER_ONLY = true → st.bIsClient = false := by
    intro hso
    obtain ⟨-, -, hm, -⟩ := optionLoop_effect b g env argv argv.length 1 (initialLocals b g) st
      (le_refl 1) hparse
    rw [hm]
    simp [initialLocals, Build.serverByDefault, hso]
  have hfinal : (main b g env argv).st.bIsClient = (applicationSetup b st₂).bIsClient := by
    rw [hmain]
    unfold afterValidation
    split_ifs
    · rfl
    · have hr := rpcBootstrap_frame g env (applicationSetup b st₂)
      cases hrpc : rpcBootstrap g env (applicationSetup b st₂) with
      | exit code st₁ =>
        rw [hrpc] at hr
        exact hr.2.2.2.1
      | ok st₁ p =>
        rw [hrpc] at hr
        obtain ⟨flog, hf⟩ := runActor_eq b g env st₁ p
        simp only
        rw [hf]
        exact hr.2.2.2.1
  refine ⟨d₁, h₂, ?_, ?_⟩
  · intro hios
    have hsetup : applicationSetup b st₂ = st₂ := by
      unfold applicationSetup
      rcases hios with h | h <;> simp [h]
    refine ⟨by rw [hfinal, hsetup, h₂], ?_⟩
    intro actor hactor
    rw [hmain] at hactor
    rw [afterValidation_actor b g env st₂ actor hactor, hsetup, h₂]
    cases hs : b.SERVER_ONLY
    · rfl
    · simp [hso hs]
  · intro hios
    have hsetup : (applicationSetup b st₂).bIsClient = true := by
      unfold applicationSetup
      simp [hios.1, hios.2]
    refine ⟨by rw [hfinal, hsetup], ?_⟩
    intro actor hactor
    rw [hmain] at hactor
    rw [afterValidation_actor b g env st₂ actor hactor, hsetup, Bool.and_true]

/-- C31, amended, an instance: `--server --nogui` in the standard build. -/
theorem C31_mode_kept_outside_ios_witness :
    (main stdBuild stdGlobals stdEnv ["koord", "--server", "--nogui"]).st.bIsClient = false ∧
    (main stdBuild stdGlobals stdEnv ["koord", "--server", "--nogui"]).ranServer = true ∧
    (∀ actor, (main stdBuild stdGlobals stdEnv ["koord", "--server", "--nogui"]).actor =
      some actor → actor.isClient = false) :=
  have h := (C31_mode_kept_outside_ios stdBuild stdGlobals stdEnv
    ["koord", "--server", "--nogui"] _ _ rfl rfl).2.2.1 (Or.inr rfl)
  ⟨h.1, by decide, h.2⟩

/-! ## The server with the GUI -/

/-- The checks of the values in the server with the GUI: two notes, and the
check of the IP address to bind to. -/
theorem guiServerChecks_spec (env : Env) (st : Locals) :
    checkServerBindIP env (guiServerNotes st) =
      { st with
        strServerBindIP :=
          if st.strServerBindIP ≠ "" ∧ env.setAddress st.strServerBindIP = false then ""
          else st.strServerBindIP
        log := st.log ++
          (if st.strServerListFileName ≠ "" then
            [⟨.info, "Note:", [.str
              "Server list persistence file will only take effect when running as a directory server."]⟩]
          else []) ++
          (if st.strServerListFilter ≠ "" then
            [⟨.info, "Note:", [.str
              "Server list filter will only take effect when running as a directory server."]⟩]
          else []) ++
          (if st.strServerBindIP ≠ "" ∧ env.setAddress st.strServerBindIP = false then
            [⟨.warning, "Server Bind IP is invalid. Only plain IP addresses are supported.", []⟩]
          else []) } := by
  cases st
  unfold checkServerBindIP guiServerNotes
  dsimp only
  split_ifs <;> simp_all [Locals.qInfo, Locals.qWarning]

/-- C34. Let the option loop run to its end and leave the mode Server with the
GUI in use, in a build with a GUI, and let the check of the mode pass.  The
checks of the values then write at most two notes and, for an IP address to
bind to that `QHostAddress::setAddress` refuses, a warning, and they clear that
address; every other local variable is as the loop left it: the directory
server address, the persistence file name, the list filter, the public IP
address and the initialization file name are the strings supplied, whatever
they are, and no operation on the file system is done.  A server that is
constructed gets these strings. -/
theorem C34_gui_server_keeps_values (b : Build) (g : Globals) (env : Env)
    (argv : List String) (st st₂ : Locals)
    (hparse : parseOptions b g env argv = .done st)
    (hheadless : b.HEADLESS = false)
    (hserver : st.bIsClient = false)
    (hgui : st.bUseGUI = true)
    (hok : modeAndValidation env argv (headlessDependency b st) = .ok st₂) :
    st₂ = { st with
        strServerBindIP :=
          if st.strServerBindIP ≠ "" ∧ env.setAddress st.strServerBindIP = false then ""
          else st.strServerBindIP
        log := st.log ++
          (if st.strServerListFileName ≠ "" then
            [⟨.info, "Note:", [.str
              "Server list persistence file will only take effect when running as a directory server."]⟩]
          else []) ++
          (if st.strServerListFilter ≠ "" then
            [⟨.info, "Note:", [.str
              "Server list filter will only take effect when running as a directory server."]⟩]
          else []) ++
          (if st.strServerBindIP ≠ "" ∧ env.setAddress st.strServerBindIP = false then
            [⟨.warning, "Server Bind IP is invalid. Only plain IP addresses are supported.", []⟩]
          else []) } ∧
    st₂.strDirectoryServer = st.strDirectoryServer ∧
    st₂.strServerListFileName = st.strServerListFileName ∧
    st₂.strServerListFilter = st.strServerListFilter ∧
    st₂.strServerPublicIP = st.strServerPublicIP ∧
    st₂.strIniFileName = st.strIniFileName ∧
    st₂.fsOps = [] ∧
    main b g env argv = afterValidation b g env st₂ ∧
    (∀ args, (main b g env argv).actor = some (.server args) →
      args.strDirectoryServer = st.strDirectoryServer ∧
      args.strServerListFileName = st.strServerListFileName ∧
      args.strServerListFilter = st.strServerListFilter ∧
      args.strServerPublicIP = st.strServerPublicIP ∧
      args.strServerBindIP =
        (if st.strServerBindIP ≠ "" ∧ env.setAddress st.strServerBindIP = false then ""
          else st.strServerBindIP)) := by
  have hd : headlessDependency b st = st := by
    unfold headlessDependency
    simp [hheadless]
  obtain ⟨-, -, -, hfs⟩ := optionLoop_effect b g env argv argv.length 1 (initialLocals b g) st
    (le_refl 1) hparse
  have hmain := main_of_validation b g env argv st st₂ hparse hok
  rw [hd] at hok
  unfold modeAndValidation at hok
  simp only [hserver, hgui, Bool.false_eq_true, if_false, if_true] at hok
  split_ifs at hok
  cases hok
  have hspec := guiServerChecks_spec env st
  refine ⟨hspec, ?_, ?_, ?_, ?_, ?_, ?_, hmain, ?_⟩
  · rw [hspec]
  · rw [hspec]
  · rw [hspec]
  · rw [hspec]
  · rw [hspec]
  · rw [hspec]; exact hfs
  · intro args hargs
    rw [hmain] at hargs
    obtain ⟨-, -, -, f₄, -⟩ := afterValidation_frame b g env
      (checkServerBindIP env (guiServerNotes st))
    rw [f₄ args hargs, hspec]
    exact ⟨rfl, rfl, rfl, rfl, rfl⟩

/-- C34, an instance: in the standard build the server with the GUI keeps a
directory server on this host, a persistence file, a filter with a malformed
entry and a malformed public IP address as they were supplied; the malformed
IP address to bind to alone is cleared. -/
theorem C34_gui_server_keeps_values_witness :
    (∀ args, (main stdBuild stdGlobals stdEnv
        ["koord", "-s", "-e", "localhost", "--directoryfile", "servers.dat", "-f", "nonsense",
          "--serverpublicip", "x", "--serverbindip", "y"]).actor = some (.server args) →
      args.strDirectoryServer = "localhost" ∧
      args.strServerListFileName = "servers.dat" ∧
      args.strServerListFilter = "nonsense" ∧
      args.strServerPublicIP = "x" ∧
      args.strServerBindIP = "") ∧
    (main stdBuild stdGlobals stdEnv
      ["koord", "-s", "-e", "localhost", "--directoryfile", "servers.dat", "-f", "nonsense",
        "--serverpublicip", "x", "--serverbindip", "y"]).ranServer = true ∧
    (main stdBuild stdGlobals stdEnv
      ["koord", "-s", "-e", "localhost", "--directoryfile", "servers.dat", "-f", "nonsense",
        "--serverpublicip", "x", "--serverbindip", "y"]).st.fsOps = [] :=
  ⟨(C34_gui_server_keeps_values stdBuild stdGlobals stdEnv
      ["koord", "-s", "-e", "localhost", "--directoryfile", "servers.dat", "-f", "nonsense",
        "--serverpublicip", "x", "--serverbindip", "y"] _ _ rfl (by decide) (by decide)
      (by decide) rfl).2.2.2.2.2.2.2.2,
    by decide, by decide⟩

/-! ## The directory server on this host -/

theorem toNat_ofNat_small (m : Nat) (h : m < 55296) : (Char.ofNat m).toNat = m := by
  have hv : m.isValidChar := Or.inl h
  simp only [Char.ofNat, hv, dite_true, Char.toNat, Char.ofNatAux]
  simp [UInt32.toNat]

theorem char_eq_ofNat (c : Char) (m : Nat) (h : c.toNat = m) : c = Char.ofNat m := by
  rw [← h, Char.ofNat_toNat]

/-- The characters folded to a lower case letter of the Latin alphabet. -/
theorem foldCase_eq_iff (c : Char) (n : Nat) (hn : 97 ≤ n) (hn' : n ≤ 122) :
    foldCase c = Char.ofNat n ↔
      c = Char.ofNat n ∨ c = Char.ofNat (n - 32) ∨ (n = 115 ∧ c = Char.ofNat 383) := by
  unfold foldCase
  split_ifs with h383
  · subst h383
    constructor
    · intro h
      have := congrArg Char.toNat h
      rw [toNat_ofNat_small n (by omega)] at this
      right; right
      exact ⟨by rw [← this]; decide, rfl⟩
    · rintro (h | h | ⟨h, -⟩)
      · have := congrArg Char.toNat h
        rw [toNat_ofNat_small n (by omega), toNat_ofNat_small 383 (by omega)] at this
        omega
      · have := congrArg Char.toNat h
        rw [toNat_ofNat_small (n - 32) (by omega), toNat_ofNat_small 383 (by omega)] at this
        omega
      · subst h; decide
  · unfold Char.toLower
    dsimp only
    split_ifs with hup
    · constructor
      · intro h
        have := congrArg Char.toNat h
        rw [toNat_ofNat_small n (by omega), toNat_ofNat_small _ (by omega)] at this
        right; left
        exact char_eq_ofNat c _ (by omega)
      · rintro (h | h | ⟨-, h⟩)
        · have := congrArg Char.toNat h
          rw [toNat_ofNat_small n (by omega)] at this
          omega
        · have := congrArg Char.toNat h
          rw [toNat_ofNat_small (n - 32) (by omega)] at this
          rw [this]
          congr 1
          omega
        · exact (h383 h).elim
    · constructor
      · intro h; exact Or.inl h
      · rintro (h | h | ⟨-, h⟩)
        · exact h
        · have := congrArg Char.toNat h
          rw [toNat_ofNat_small (n - 32) (by omega)] at this
          exfalso
          apply hup
          omega
        · exact (h383 h).elim

theorem foldCase_eq_letter (c letter : Char) (h : 97 ≤ letter.toNat ∧ letter.toNat ≤ 122) :
    foldCase c = letter ↔ sameLetter c letter = true := by
  have hl : letter = Char.ofNat letter.toNat := (Char.ofNat_toNat letter).symm
  have hu : letter.toUpper = Char.ofNat (letter.toNat - 32) := by
    unfold Char.toUpper
    simp [h.1, h.2]
  have hs : letter = 's' ↔ letter.toNat = 115 := by
    constructor
    · intro e; rw [e]; rfl
    · intro e; rw [hl, e]
  have key := foldCase_eq_iff c letter.toNat h.1 h.2
  rw [← hl] at key
  rw [key]
  unfold sameLetter
  simp only [Bool.or_eq_true, Bool.and_eq_true, decide_eq_true_eq, hu, hs, or_assoc]

theorem map_foldCase_eq_iff :
    ∀ (cs letters : List Char), (∀ x ∈ letters, 97 ≤ x.toNat ∧ x.toNat ≤ 122) →
      (cs.map foldCase = letters ↔
        List.Forall₂ (fun c letter => sameLetter c letter = true) cs letters) := by
  intro cs
  induction cs with
  | nil =>
    intro letters _
    cases letters <;> simp
  | cons c cs ih =>
    intro letters h
    cases letters with
    | nil => simp
    | cons x xs =>
      rw [List.map_cons, List.cons.injEq, List.forall₂_cons,
        foldCase_eq_letter c x (h x (List.mem_cons_self _ _)),
        ih xs (fun y hy => h y (List.mem_cons_of_mem _ hy))]

/-- The addresses that compare equal to `localhost` when case is ignored:
the nine letters, each in either case, the `s` also as a long s. -/
theorem equalsLocalhostIgnoringCase_iff (s : String) :
    equalsLocalhostIgnoringCase s = true ↔
      List.Forall₂ (fun c letter => sameLetter c letter = true) s.data "localhost".data := by
  unfold equalsLocalhostIgnoringCase
  rw [beq_iff_eq]
  exact map_foldCase_eq_iff s.data "localhost".data (by decide)

/-- C36. Let the option loop run to its end and leave the mode Server, no GUI
in use (by `--nogui` or by the build) and no client only option recorded.  The
checks of the values go through, and they take the branch of the directory
server on this host exactly when the directory server address compares equal to
`localhost` with the case ignored or is `127.0.0.1`; the comparison that
ignores the case accepts the nine letters of `localhost`, each in either case
(with the case folding of Qt the `s` also as a long s), and nothing else.  With
a persistence file name given, the first branch probes the file and keeps or
clears the name by what it finds, and the second does no operation on the file
system, clears the name and writes the warning.  `LOCALHOST` and `LocalHost`
are this host; `::1`, `127.0.0.2`, `localhost` followed by a blank, the empty
address, and `127.0.0.1` preceded by a blank are not. -/
theorem C36_loopback_directory (b : Build) (g : Globals) (env : Env)
    (argv : List String) (st : Locals)
    (hparse : parseOptions b g env argv = .done st)
    (hserver : st.bIsClient = false)
    (hheadless : b.HEADLESS = true ∨ st.bUseGUI = false)
    (hcoo : st.ClientOnlyOptions = []) :
    (∃ st₂, modeAndValidation env argv (headlessDependency b st) = .ok st₂ ∧
      main b g env argv = afterValidation b g env st₂ ∧
      st₂ = checkServerBindIP env (checkServerPublicIP env
        (if equalsLocalhostIgnoringCase st.strDirectoryServer = true ∨
            st.strDirectoryServer = "127.0.0.1" then
          checkServerListFilter env
            (checkServerListFile env (checkIniFileName (headlessDependency b st)))
        else notDirectoryServer (checkIniFileName (headlessDependency b st)))) ∧
      (st.strServerListFileName ≠ "" →
        (equalsLocalhostIgnoringCase st.strDirectoryServer = true ∨
            st.strDirectoryServer = "127.0.0.1") →
        st₂.fsOps =
          (if env.fileExists st.strServerListFileName then [.probe st.strServerListFileName]
            else [.probe st.strServerListFileName, .openReadWrite st.strServerListFileName]) ∧
        st₂.strServerListFileName =
          (if specKeepsServerListFile env st.strServerListFileName then st.strServerListFileName
            else "")) ∧
      (st.strServerListFileName ≠ "" →
        ¬ (equalsLocalhostIgnoringCase st.strDirectoryServer = true ∨
            st.strDirectoryServer = "127.0.0.1") →
        st₂.fsOps = [] ∧ st₂.strServerListFileName = "" ∧
        (⟨.warning,
          "Server list persistence file will only take effect when running as a directory server.",
          []⟩ : Msg) ∈ st₂.log)) ∧
    (∀ s : String, equalsLocalhostIgnoringCase s = true ↔
      List.Forall₂ (fun c letter => sameLetter c letter = true) s.data "localhost".data) ∧
    (∀ s : String, equalsLocalhostIgnoringCase s = true → s.length = 9) ∧
    equalsLocalhostIgnoringCase "localhost" = true ∧
    equalsLocalhostIgnoringCase "LOCALHOST" = true ∧
    equalsLocalhostIgnoringCase "LocalHost" = true ∧
    (∀ s ∈ ["::1", "127.0.0.2", "localhost ", " localhost", "", " 127.0.0.1", "127.0.0.1 ",
        "127.000.000.001", "localhost.", "local host"],
      equalsLocalhostIgnoringCase s = false ∧ s ≠ "127.0.0.1") := by
  refine ⟨?_, equalsLocalhostIgnoringCase_iff, ?_, by decide, by decide, by decide, by decide⟩
  · obtain ⟨d₁, d₂, -, d₄, d₅, -⟩ := headlessDependency_frame b st
    obtain ⟨gui, l₀, h₀⟩ := headlessDependency_eq b st
    obtain ⟨-, -, -, hfs⟩ := optionLoop_effect b g env argv argv.length 1 (initialLocals b g) st
      (le_refl 1) hparse
    have hfs₀ : (headlessDependency b st).fsOps = [] := by rw [d₅]; exact hfs
    have hgui : (headlessDependency b st).bUseGUI = false := by
      rw [d₂]; rcases hheadless with h | h <;> simp [h]
    have hsrv : (headlessDependency b st).bIsClient = false := by rw [d₁]; exact hserver
    have hcoo' : (headlessDependency b st).ClientOnlyOptions = [] := by rw [d₄]; exact hcoo
    have hdir : (headlessDependency b st).strDirectoryServer = st.strDirectoryServer := by
      rw [h₀]
    have hname : (headlessDependency b st).strServerListFileName = st.strServerListFileName := by
      rw [h₀]
    have hok : modeAndValidation env argv (headlessDependency b st) =
        .ok (checkServerBindIP env (headlessServerChecks env (headlessDependency b st))) := by
      simp [modeAndValidation, hsrv, hcoo', hgui]
    have hini : (checkIniFileName (headlessDependency b st)).strDirectoryServer =
        st.strDirectoryServer := by
      obtain ⟨ini, l, h⟩ := checkIniFileName_eq (headlessDependency b st)
      rw [h]; exact hdir
    refine ⟨_, hok, main_of_validation b g env argv st _ hparse hok, ?_, ?_, ?_⟩
    · unfold headlessServerChecks
      simp only [hini]
    · intro hfile hloop
      have hfs₂ := modeAndValidation_fsOps env argv _ _ hok
      obtain ⟨st₂, hok₂, hkeep, -⟩ := modeAndValidation_server_list_file env argv
        (headlessDependency b st) hsrv hgui hcoo' (by rw [hdir]; exact hloop)
        (by rw [hname]; exact hfile)
      rw [hok] at hok₂
      cases hok₂
      rw [hname] at hkeep
      refine ⟨?_, hkeep⟩
      rw [hfs₂, hfs₀, hdir, hname]
      simp [hsrv, hgui, hloop, hfile]
    · intro hfile hnot
      have hnot₁ : equalsLocalhostIgnoringCase (headlessDependency b st).strDirectoryServer =
          false := by
        rw [hdir]
        cases h : equalsLocalhostIgnoringCase st.strDirectoryServer
        · rfl
        · exact (hnot (Or.inl h)).elim
      have hnot₂ : (headlessDependency b st).strDirectoryServer ≠ "127.0.0.1" := by
        rw [hdir]
        exact fun h => hnot (Or.inr h)
      obtain ⟨st₂, hok₂, -, hfs₂, hclear⟩ := modeAndValidation_off_directory env argv
        (headlessDependency b st) hsrv hgui hcoo' hnot₁ hnot₂
      rw [hok] at hok₂
      cases hok₂
      obtain ⟨h₁, h₂⟩ := hclear (by rw [hname]; exact hfile)
      exact ⟨by rw [hfs₂, hfs₀], h₁, h₂⟩
  · intro s hs
    have h := (equalsLocalhostIgnoringCase_iff s).1 hs
    have hlen := h.length_eq
    rw [show "localhost".data.length = 9 from rfl] at hlen
    exact hlen

/-- C36, an instance: in the build without GUI, `--directoryserver LocalHost`
with a persistence file that does not exist probes the path and opens it. -/
theorem C36_loopback_directory_witness :
    ∃ st st₂, parseOptions headlessBuild stdGlobals stdEnv
        ["koord", "-s", "-e", "LocalHost", "--directoryfile", "servers.dat"] = .done st ∧
      modeAndValidation stdEnv
        ["koord", "-s", "-e", "LocalHost", "--directoryfile", "servers.dat"]
        (headlessDependency headlessBuild st) = .ok st₂ ∧
      st₂.fsOps = [.probe "servers.dat", .openReadWrite "servers.dat"] := by
  obtain ⟨⟨st₂, hok, -, -, hloop, -⟩, -⟩ := C36_loopback_directory headlessBuild stdGlobals
    stdEnv ["koord", "-s", "-e", "LocalHost", "--directoryfile", "servers.dat"] _ rfl
    (by decide) (by decide) (by decide)
  exact ⟨_, st₂, rfl, hok, (hloop (by decide) (by decide)).1⟩

/-! ## The indices the loop reads -/

theorem onString_within {argc : Nat} {argv argv' : List String} {i : Nat} (s l : String)
    (blk : String → Locals → Locals)
    (h0 : tokenAt argv' 0 = tokenAt argv 0) (hi : tokenAt argv' i = tokenAt argv i)
    (hn : i + 1 < argc → tokenAt argv' (i + 1) = tokenAt argv (i + 1)) :
    onString argc argv' i s l blk = onString argc argv i s l blk := by
  funext st
  by_cases ha : i + 1 ≥ argc
  · simp only [onString, GetStringArgument, Nat.add_sub_cancel, hi, h0, ha, if_true]
  · simp only [onString, GetStringArgument, Nat.add_sub_cancel, hi, h0, ha, if_false, hn (by omega)]

theorem onNumeric_within {env : Env} {argc : Nat} {argv argv' : List String} {i : Nat}
    (s l : String) (lo hi' : Double) (blk : Double → Locals → Locals)
    (h0 : tokenAt argv' 0 = tokenAt argv 0) (hi : tokenAt argv' i = tokenAt argv i)
    (hn : i + 1 < argc → tokenAt argv' (i + 1) = tokenAt argv (i + 1)) :
    onNumeric env argc argv' i s l lo hi' blk = onNumeric env argc argv i s l lo hi' blk := by
  funext st
  by_cases ha : i + 1 ≥ argc
  · simp only [onNumeric, GetNumericArgument, Nat.add_sub_cancel, hi, h0, ha, if_true]
  · simp only [onNumeric, GetNumericArgument, Nat.add_sub_cancel, hi, h0, ha, if_false, hn (by omega)]

/-- An iteration of the loop gives the same result on two vectors that agree
at the indices 0 and `i`, at the index `i + 1` when it is below `argc`, and at
the index 1 when `argc` is 2. -/
theorem loopBody_within (b : Build) (g : Globals) (env : Env) {argc : Nat}
    {argv argv' : List String} {i : Nat} (st : Locals)
    (h0 : tokenAt argv' 0 = tokenAt argv 0) (hi : tokenAt argv' i = tokenAt argv i)
    (hn : i + 1 < argc → tokenAt argv' (i + 1) = tokenAt argv (i + 1))
    (h1 : argc = 2 → tokenAt argv' 1 = tokenAt argv 1) :
    loopBody b g env argc argv' i st = loopBody b g env argc argv i st := by
  have e₁ : optionBlocks g env argc argv' i = optionBlocks g env argc argv i := by
    simp only [optionBlocks, commonOptions, serverOptions, clientOptions, undocumentedOptions,
      helpAndVersion_congr h0 hi, singleArgumentUri_congr h1, onFlag_congr _ _ _ hi,
      onString_within _ _ _ h0 hi hn, onNumeric_within _ _ _ _ _ h0 hi hn]
  simp only [loopBody, e₁, unknownOption, h0, hi]

/-- The index a block of the loop body goes on with: the index of the
iteration, or the next one, which then is below `argc`. -/
theorem optionBlocks_index (g : Globals) (env : Env) (argc : Nat) (argv : List String) (i : Nat) :
    ∀ blk ∈ optionBlocks g env argc argv i, ∀ st i' st', blk st = some (.next i' st') →
      i' = i ∨ (i' = i + 1 ∧ i + 1 < argc) := by
  simp only [optionBlocks, commonOptions, serverOptions, clientOptions, undocumentedOptions,
    List.forall_mem_cons, List.forall_mem_append, List.not_mem_nil, false_implies, implies_true,
    and_true]
  repeat' apply And.intro
  all_goals
    intro st i' st' h
    first
    | (obtain ⟨-, hr⟩ := onFlag_eq_some.1 h
       cases hr
       exact Or.inl rfl)
    | (obtain ⟨-, (⟨-, _, hr⟩ | ⟨hlt, hr⟩)⟩ := onString_some h
       · cases hr
       · cases hr
         exact Or.inr ⟨rfl, hlt⟩)
    | (obtain ⟨-, (⟨_, hr⟩ | ⟨hlt, -, hr⟩)⟩ := onNumeric_some h
       · cases hr
       · cases hr
         exact Or.inr ⟨rfl, hlt⟩)
    | (obtain ⟨_, hr⟩ := helpAndVersion_exit h
       cases hr)
    | (obtain ⟨-, captured, cs, -, -, hr⟩ := singleArgumentUri_some h
       cases hr
       exact Or.inl rfl)

theorem loopBody_index_lt (b : Build) (g : Globals) (env : Env) (argc : Nat)
    (argv : List String) (i : Nat) (st : Locals) (hlt : i < argc) {i' : Nat}
    {st' : Locals} (h : loopBody b g env argc argv i st = .next i' st') :
    i' < argc := by
  unfold loopBody at h
  cases hf : firstMatch (optionBlocks g env argc argv i) st with
  | some r =>
    rw [hf] at h
    simp only at h
    subst h
    obtain ⟨blk, hmem, hblk⟩ := firstMatch_some_mem hf
    rcases optionBlocks_index g env argc argv i blk hmem st i' st' hblk with h | ⟨h, h'⟩
    · omega
    · omega
  | none =>
    rw [hf] at h
    simp only [unknownOption] at h
    split_ifs at h
    cases h
    exact hlt

/-- C39. For every argument vector the option loop comes to an end: with as
many iterations as there are tokens it is never cut short.  The body runs at
indices from 1 to `argc - 1` only.  An iteration at such an index goes on with
the same index (a flag, the single `koord://` argument, an unknown token on
macOS) or with the next one (an option with a value), which is below `argc`
too, and the loop then adds one.  The matchers return a value only when
`i + 1 < argc`, and the value is the token at `i + 1`; the block of the single
argument does nothing unless `argc` is 2.  No token at or beyond `argc` is
read: the iteration gives the same result whatever is appended to the
vector beyond `argc`. -/
theorem C39_loop_ends_within_bounds (b : Build) (g : Globals) (env : Env)
    (argv : List String) (fuel i : Nat) (st : Locals) (beyond : List String) :
    (∀ st', parseOptions b g env argv ≠ .unfinished st') ∧
    (∀ p ∈ parsePositions b g env argv, 1 ≤ p ∧ p < argv.length) ∧
    (i < argv.length →
      optionLoop b g env argv (fuel + 1) i st =
        match loopBody b g env argv.length argv i st with
        | .exit code st' => .exit code st'
        | .next i' st' => optionLoop b g env argv fuel (i' + 1) st') ∧
    (argv.length ≤ i → optionLoop b g env argv fuel i st = .done st) ∧
    (1 ≤ i → i < argv.length → ∀ i' st',
      loopBody b g env argv.length argv i st = .next i' st' →
        i' = (if takesValue (tokenAt argv i) then i + 1 else i) ∧ i' < argv.length) ∧
    (1 ≤ i → i < argv.length →
      loopBody b g env argv.length (argv ++ beyond) i st =
        loopBody b g env argv.length argv i st) ∧
    (∀ (argc : Nat) (s l : String) (i' : Nat) (v : String),
      GetStringArgument argc argv i s l = .matched i' v →
        i + 1 < argc ∧ i' = i + 1 ∧ v = tokenAt argv (i + 1)) ∧
    (∀ (argc : Nat) (s l : String) (lo hi : Double) (i' : Nat) (v : Double),
      GetNumericArgument env.strtod argc argv i s l lo hi = .matched i' v →
        i + 1 < argc ∧ i' = i + 1 ∧ v = (env.strtod (tokenAt argv (i + 1))).1) ∧
    (∀ argc : Nat, argc ≠ 2 → singleArgumentUri argc argv i st = none) := by
  refine ⟨?_, ?_, ?_, ?_, ?_, ?_, ?_, ?_, ?_⟩
  · exact optionLoop_finished b g env argv argv.length 1 (initialLocals b g) (le_refl 1)
      (by omega)
  · intro p hp
    exact parsePositions_bounds b g env argv hp
  · intro hlt
    exact optionLoop_step b g env argv fuel i st hlt
  · intro hge
    have : ¬ i < argv.length := by omega
    cases fuel <;> simp [optionLoop, this]
  · intro hi hlt i' st' h
    exact ⟨loopBody_index_le b g env argv.length argv i st (by omega) h,
      loopBody_index_lt b g env argv.length argv i st hlt h⟩
  · intro hi hlt
    apply loopBody_within
    · exact tokenAt_append_left argv beyond (by omega)
    · exact tokenAt_append_left argv beyond hlt
    · intro h
      exact tokenAt_append_left argv beyond h
    · intro h
      exact tokenAt_append_left argv beyond (by omega)
  · intro argc s l i' v h
    unfold GetStringArgument at h
    split_ifs at h with hc ha
    cases h
    exact ⟨by omega, rfl, rfl⟩
  · intro argc s l lo hi i' v h
    unfold GetNumericArgument at h
    dsimp only at h
    split_ifs at h with hc ha hv
    cases h
    exact ⟨by omega, rfl, rfl⟩
  · intro argc h
    unfold singleArgumentUri
    rw [if_neg h]

/-- C39, an instance: on `-s --port 5000` the body runs at the indices 1 and 2,
and the iteration at the index 2 does not depend on what lies after the three
arguments. -/
theorem C39_loop_ends_within_bounds_witness :
    parsePositions stdBuild stdGlobals stdEnv ["koord", "-s", "--port", "5000"] = [1, 2] ∧
    loopBody stdBuild stdGlobals stdEnv 4 (["koord", "-s", "--port", "5000"] ++ ["--help"]) 2
        (initialLocals stdBuild stdGlobals) =
      loopBody stdBuild stdGlobals stdEnv 4 ["koord", "-s", "--port", "5000"] 2
        (initialLocals stdBuild stdGlobals) :=
  ⟨by decide,
    (C39_loop_ends_within_bounds stdBuild stdGlobals stdEnv ["koord", "-s", "--port", "5000"]
      0 2 (initialLocals stdBuild stdGlobals) ["--help"]).2.2.2.2.2.1 (by decide) (by decide)⟩

/-! ## The deprecated name of the directory server option -/

/-- The iterations at `--centralserver` and at `--directoryserver` end alike,
and the same when a value follows. -/
theorem loopBody_central_directory (b : Build) (g : Globals) (env : Env)
    {argv argv' : List String} {p : Nat} (st : Locals)
    (hpair : (tokenAt argv p = "--centralserver" ∧ tokenAt argv' p = "--directoryserver") ∨
      (tokenAt argv p = "--directoryserver" ∧ tokenAt argv' p = "--centralserver"))
    (hp : 1 ≤ p) (hlt : p < argv.length)
    (h0 : tokenAt argv' 0 = tokenAt argv 0)
    (hn : tokenAt argv' (p + 1) = tokenAt argv (p + 1)) :
    stepsAgree (loopBody b g env argv.length argv p st)
      (loopBody b g env argv.length argv' p st) ∧
    (p + 1 < argv.length →
      loopBody b g env argv.length argv' p st = loopBody b g env argv.length argv p st) := by
  have hrx : ∀ n ∈ ["--centralserver", "--directoryserver"],
      rx_gen2 n = none ∧ rx_gen1 n = none := by decide
  have hboth : (rx_gen2 (tokenAt argv p) = none ∧ rx_gen1 (tokenAt argv p) = none) ∧
      (rx_gen2 (tokenAt argv' p) = none ∧ rx_gen1 (tokenAt argv' p) = none) := by
    rcases hpair with ⟨h, h'⟩ | ⟨h, h'⟩ <;> rw [h, h'] <;> exact ⟨by decide, by decide⟩
  have hu : ∀ st, singleArgumentUri argv.length argv p st = none := by
    intro st
    apply singleArgumentUri_none
    intro h2
    have : p = 1 := by omega
    subst this
    exact hboth.1
  have hu' : ∀ st, singleArgumentUri argv.length argv' p st = none := by
    intro st
    apply singleArgumentUri_none
    intro h2
    have : p = 1 := by omega
    subst this
    exact hboth.2
  rcases hpair with ⟨h, h'⟩ | ⟨h, h'⟩
  all_goals
    by_cases ha : argv.length ≤ p + 1
  all_goals
    simp [loopBody, optionBlocks, commonOptions, serverOptions, clientOptions,
      undocumentedOptions, firstMatch, helpAndVersion, hu, hu',
      onString, onFlag, onNumeric, GetFlagArgument, GetStringArgument, GetNumericArgument,
      h0, hn, stepsAgree, Locals.withoutLog, h, h', ha]
    try omega

/-- Two vectors that differ in one token at an option position, at which the
iterations are the same: `main` is the same. -/
theorem main_eq_of_step (b : Build) (g : Globals) (env : Env) (argv : List String) (p : Nat)
    (other : String) (hpos : p ∈ parsePositions b g env argv)
    (heq : ∀ st, loopBody b g env argv.length (argv.set p other) p st =
      loopBody b g env argv.length argv p st) :
    main b g env (argv.set p other) = main b g env argv := by
  obtain ⟨hp, hlt⟩ := parsePositions_bounds b g env argv hpos
  have hlen : (argv.set p other).length = argv.length := List.length_set _ _ _
  have hne : ∀ k, k ≠ p → tokenAt (argv.set p other) k = tokenAt argv k := by
    intro k hk
    rw [tokenAt_set]
    simp [Ne.symm hk]
  obtain ⟨fuel', st', hf, -, h₁, h₂⟩ := optionLoop_before b g env hlen
    (fun k hk => hne k (by omega)) argv.length 1 (initialLocals b g) (le_refl 1) hpos
  have hp₁ : parseOptions b g env argv = optionLoop b g env argv (fuel' + 1) p st' := h₁
  have hp₂ : parseOptions b g env (argv.set p other) =
      optionLoop b g env (argv.set p other) (fuel' + 1) p st' := by
    unfold parseOptions
    rw [hlen]
    exact h₂
  unfold optionLoop at hp₁ hp₂
  rw [hlen, heq st'] at hp₂
  simp only [hlt, if_true] at hp₁ hp₂
  have hparse : parseOptions b g env (argv.set p other) = parseOptions b g env argv := by
    rw [hp₁, hp₂]
    cases hb : loopBody b g env argv.length argv p st' with
    | exit code st₁ => rfl
    | next i' st₁ =>
      have hidx := loopBody_index_le b g env argv.length argv p st' (by omega) hb
      have hii : p ≤ i' := by rw [hidx]; split_ifs <;> omega
      have hsuf := optionLoop_suffix b g env (q := p + 1) (by omega) hlen (hne 0 (by omega))
        (fun k hk => hne k (by omega)) fuel' (i' + 1) st₁ (by omega)
      simp only [hsuf]
  exact main_congr b g env hparse (hne 0 (by omega))

/-- Two vectors that differ in one token at an option position, at which the
iterations end alike: `main` ends alike. -/
theorem main_sameButLog_of_step (b : Build) (g : Globals) (env : Env) (argv : List String)
    (p : Nat) (other : String) (hpos : p ∈ parsePositions b g env argv)
    (hagree : ∀ st, stepsAgree (loopBody b g env argv.length argv p st)
      (loopBody b g env argv.length (argv.set p other) p st)) :
    (main b g env argv).sameButLog (main b g env (argv.set p other)) := by
  obtain ⟨hp, hlt⟩ := parsePositions_bounds b g env argv hpos
  have hlen : (argv.set p other).length = argv.length := List.length_set _ _ _
  have hne : ∀ k, k ≠ p → tokenAt (argv.set p other) k = tokenAt argv k := by
    intro k hk
    rw [tokenAt_set]
    simp [Ne.symm hk]
  obtain ⟨fuel', st', hf, -, h₁, h₂⟩ := optionLoop_before b g env hlen
    (fun k hk => hne k (by omega)) argv.length 1 (initialLocals b g) (le_refl 1) hpos
  have hagree' := hagree st'
  have hp₁ : parseOptions b g env argv = optionLoop b g env argv (fuel' + 1) p st' := h₁
  have hp₂ : parseOptions b g env (argv.set p other) =
      optionLoop b g env (argv.set p other) (fuel' + 1) p st' := by
    unfold parseOptions
    rw [hlen]
    exact h₂
  unfold optionLoop at hp₁ hp₂
  rw [hlen] at hp₂
  simp only [hlt, if_true] at hp₁ hp₂
  cases hb : loopBody b g env argv.length argv p st' with
  | exit code st₁ =>
    cases hb' : loopBody b g env argv.length (argv.set p other) p st' with
    | exit code' st₁' =>
      rw [hb, hb'] at hagree'
      rw [hb] at hp₁
      rw [hb'] at hp₂
      obtain ⟨hc, hs⟩ := hagree'
      simp only [main, hp₁, hp₂, Outcome.sameButLog, hc, hs, and_self]
    | next i' st₁' => rw [hb, hb'] at hagree'; exact hagree'.elim
  | next i' st₁ =>
    cases hb' : loopBody b g env argv.length (argv.set p other) p st' with
    | exit code' st₁' => rw [hb, hb'] at hagree'; exact hagree'.elim
    | next i'' st₁' =>
      rw [hb, hb'] at hagree'
      obtain ⟨rfl, rfl⟩ := hagree'
      rw [hb] at hp₁
      rw [hb'] at hp₂
      have hidx := loopBody_index_le b g env argv.length argv p st' (by omega) hb
      have hii : p ≤ i' := by rw [hidx]; split_ifs <;> omega
      have hsuf := optionLoop_suffix b g env (q := p + 1) (by omega) hlen (hne 0 (by omega))
        (fun k hk => hne k (by omega)) fuel' (i' + 1) st₁ (by omega)
      have hparse : parseOptions b g env (argv.set p other) = parseOptions b g env argv := by
        rw [hp₁, hp₂]
        simp only [hsuf]
      rw [main_congr b g env hparse (hne 0 (by omega))]
      exact ⟨rfl, rfl, rfl, rfl⟩

/-- C38. Let `p` be an option position of an argument vector and let the token
there be `--centralserver`; put `--directoryserver` in its place (or the
reverse).  Then `main` ends alike on the two vectors: the same exit code, the
same JSON-RPC server, the same actor with the same arguments and the same local
variables, the three lists of options seen included.  When a token follows the
option the two runs are the same altogether, messages included; when none
follows both end with exit code 1 and the message about the missing argument,
which quotes the name as it was typed.  Both names are recorded as
`--directoryserver`, in `CommandLineOptions` and in `ServerOnlyOptions`. -/
theorem C38_centralserver_is_directoryserver (b : Build) (g : Globals) (env : Env)
    (argv : List String) (p : Nat) (other : String)
    (hpos : p ∈ parsePositions b g env argv)
    (hpair : (tokenAt argv p = "--centralserver" ∧ other = "--directoryserver") ∨
      (tokenAt argv p = "--directoryserver" ∧ other = "--centralserver")) :
    (main b g env argv).sameButLog (main b g env (argv.set p other)) ∧
    (p + 1 < argv.length → main b g env (argv.set p other) = main b g env argv) ∧
    (argv.length ≤ p + 1 →
      (main b g env argv).exitCode = some 1 ∧
      (main b g env (argv.set p other)).exitCode = some 1 ∧
      (main b g env argv).st.log.getLast? = some
        ⟨.critical, "%1: '%2' needs a string argument.",
          [.str (tokenAt argv 0), .str (tokenAt argv p)]⟩ ∧
      (main b g env (argv.set p other)).st.log.getLast? = some
        ⟨.critical, "%1: '%2' needs a string argument.",
          [.str (tokenAt argv 0), .str other]⟩) ∧
    recordedIn optionTable "--centralserver" = some "--directoryserver" ∧
    recordedIn optionTable "--directoryserver" = some "--directoryserver" ∧
    recordedServerOnly "--centralserver" = some "--directoryserver" ∧
    recordedServerOnly "--directoryserver" = some "--directoryserver" := by
  obtain ⟨hp, hlt⟩ := parsePositions_bounds b g env argv hpos
  have hlen : (argv.set p other).length = argv.length := List.length_set _ _ _
  have hne : ∀ k, k ≠ p → tokenAt (argv.set p other) k = tokenAt argv k := by
    intro k hk
    rw [tokenAt_set]
    simp [Ne.symm hk]
  have hat : tokenAt (argv.set p other) p = other := by
    rw [tokenAt_set]; simp [hlt]
  have hpair' : (tokenAt argv p = "--centralserver" ∧
        tokenAt (argv.set p other) p = "--directoryserver") ∨
      (tokenAt argv p = "--directoryserver" ∧
        tokenAt (argv.set p other) p = "--centralserver") := by
    rw [hat]; exact hpair
  have key := fun st => @loopBody_central_directory b g env argv (argv.set p other) p st
    hpair' hp hlt (hne 0 (by omega)) (hne (p + 1) (by omega))
  refine ⟨main_sameButLog_of_step b g env argv p other hpos (fun st => (key st).1), ?_, ?_,
    by decide, by decide, by decide, by decide⟩
  · intro hnext
    exact main_eq_of_step b g env argv p other hpos (fun st => (key st).2 hnext)
  · intro hlast
    obtain ⟨fuel', st', hf, -, h₁, h₂⟩ := optionLoop_before b g env hlen
      (fun k hk => hne k (by omega)) argv.length 1 (initialLocals b g) (le_refl 1) hpos
    have hp₁ : parseOptions b g env argv = optionLoop b g env argv (fuel' + 1) p st' := h₁
    have hp₂ : parseOptions b g env (argv.set p other) =
        optionLoop b g env (argv.set p other) (fuel' + 1) p st' := by
      unfold parseOptions
      rw [hlen]
      exact h₂
    have hb : ∀ (v : List String), v.length = argv.length → tokenAt v 0 = tokenAt argv 0 →
        (tokenAt v p = "--centralserver" ∨ tokenAt v p = "--directoryserver") →
        loopBody b g env v.length v p st' = .exit 1
          (st'.qCritical "%1: '%2' needs a string argument."
            [.str (tokenAt argv 0), .str (tokenAt v p)]) := by
      intro v hv h0 hname
      have hge : v.length ≤ p + 1 := by omega
      rcases hname with h | h <;>
        simp [loopBody, optionBlocks, commonOptions, serverOptions, firstMatch, helpAndVersion,
          onString, onFlag, onNumeric, GetFlagArgument, GetStringArgument, GetNumericArgument,
          Locals.qCritical, h, h0, hge]
    have hb₁ := hb argv rfl rfl (by rcases hpair with ⟨h, -⟩ | ⟨h, -⟩ <;> simp [h])
    have hb₂ := hb (argv.set p other) hlen (hne 0 (by omega))
      (by rw [hat]; rcases hpair with ⟨-, h⟩ | ⟨-, h⟩ <;> simp [h])
    rw [optionLoop_step b g env argv fuel' p st' hlt, hb₁] at hp₁
    rw [optionLoop_step b g env _ fuel' p st' (by rw [hlen]; exact hlt), hb₂, hat] at hp₂
    simp [main, hp₁, hp₂, Locals.qCritical]

/-- C38, an instance: `-s --centralserver example.org` against
`-s --directoryserver example.org`. -/
theorem C38_centralserver_is_directoryserver_witness :
    main stdBuild stdGlobals stdEnv ["koord", "-s", "--directoryserver", "example.org"] =
      main stdBuild stdGlobals stdEnv ["koord", "-s", "--centralserver", "example.org"] ∧
    (main stdBuild stdGlobals stdEnv
      ["koord", "-s", "--centralserver", "example.org"]).st.ServerOnlyOptions =
      ["--server", "--directoryserver"] :=
  ⟨(C38_centralserver_is_directoryserver stdBuild stdGlobals stdEnv
      ["koord", "-s", "--centralserver", "example.org"] 2 "--directoryserver" (by decide)
      (Or.inl ⟨by decide, rfl⟩)).2.1 (by decide),
    by decide⟩

/-! ## The other values the loop leaves -/

set_option maxHeartbeats 8000000 in
theorem optionBlocks_config (g : Globals) (env : Env) (argc : Nat) (argv : List String) (i : Nat)
    (hi : argc = 2 → i = 1) :
    ∀ blk ∈ optionBlocks g env argc argv i, ∀ st r, blk st = some r →
      ConfigEffect env argc argv i st r := by
  have hk : ∀ n ∈ knownTokens, uriCapture n = none := by decide
  simp only [knownTokens, List.forall_mem_cons, List.not_mem_nil, false_implies, implies_true,
    and_true] at hk
  simp only [optionBlocks, commonOptions, serverOptions, clientOptions, undocumentedOptions,
    List.forall_mem_cons, List.forall_mem_append, List.not_mem_nil, false_implies, implies_true,
    and_true]
  repeat' apply And.intro
  all_goals
    intro st r h
    first
    | (obtain ⟨hc, rfl⟩ := onFlag_eq_some.1 h
       rcases hc with hc | hc <;>
         simp [ConfigEffect, ← hc, isNamed, valueStep, connectStep, flagStep, clearStep, qosStep,
           numChannelsStep, licenceStep, hk, Locals.qInfo, Locals.pushOption,
           Locals.pushServerOnly, Locals.pushClientOnly])
    | (obtain ⟨hc, (⟨_, _, rfl⟩ | ⟨_, rfl⟩)⟩ := onString_some h
       · trivial
       · rcases hc with hc | hc <;>
           simp [ConfigEffect, ← hc, isNamed, valueStep, connectStep, flagStep, clearStep,
             qosStep, numChannelsStep, licenceStep, hk, Locals.qInfo, Locals.pushOption,
             Locals.pushServerOnly, Locals.pushClientOnly])
    | (obtain ⟨hc, (⟨_, rfl⟩ | ⟨_, _, rfl⟩)⟩ := onNumeric_some h
       · trivial
       · rcases hc with hc | hc <;>
           simp [ConfigEffect, ← hc, isNamed, valueStep, connectStep, flagStep, clearStep,
             qosStep, numChannelsStep, licenceStep, hk, Locals.qInfo, Locals.pushOption,
             Locals.pushServerOnly, Locals.pushClientOnly])
    | (obtain ⟨_, rfl⟩ := helpAndVersion_exit h
       trivial)
    | (obtain ⟨hargc, captured, cs, hcs, hcap, rfl⟩ := singleArgumentUri_some h
       have h1 := hi hargc
       subst h1
       have key : ∀ n : String, afterScheme n = none → ¬ n = tokenAt argv 1 := by
         intro n hn hnt
         rw [hnt, hcs] at hn
         exact Option.noConfusion hn
       have hall : ∀ n ∈ knownTokens, afterScheme n = none := by decide
       have hnames : ∀ n ∈ knownTokens, ¬ n = tokenAt argv 1 := fun n hn => key n (hall n hn)
       simp only [knownTokens, List.forall_mem_cons, List.not_mem_nil, false_implies,
         implies_true, and_true] at hnames
       have hu : uriCapture (tokenAt argv 1) = some captured := by
         unfold uriCapture
         rcases hcap with h | ⟨h₂, h₁⟩
         · rw [h]
         · rw [h₂, h₁]
       simp [ConfigEffect, isNamed, valueStep, connectStep, flagStep, clearStep, qosStep,
         numChannelsStep, licenceStep, hnames, hu, hargc, Locals.qInfo, Locals.pushOption])

/-- What one iteration of the loop does to the other values. -/
theorem loopBody_config (b : Build) (g : Globals) (env : Env) (argc : Nat) (argv : List String)
    (i : Nat) (st : Locals) (hi : argc = 2 → i = 1) :
    ConfigEffect env argc argv i st (loopBody b g env argc argv i st) := by
  unfold loopBody
  cases hf : firstMatch (optionBlocks g env argc argv i) st with
  | some r =>
    obtain ⟨blk, hmem, hblk⟩ := firstMatch_some_mem hf
    exact optionBlocks_config g env argc argv i hi blk hmem st r hblk
  | none =>
    have hunk := (firstMatch_none_iff g env argc argv i st).1 hf
    rw [isUnknownToken_iff] at hunk
    obtain ⟨hnames, huri⟩ := hunk
    simp only [knownTokens, List.forall_mem_cons, List.not_mem_nil, false_implies,
      implies_true, and_true] at hnames
    simp only [unknownOption]
    split
    · trivial
    · have hu : argc = 2 → uriCapture (tokenAt argv i) = none := by
        intro h2
        have h1 := hi h2
        subst h1
        obtain ⟨h₂, h₁⟩ := huri h2
        unfold uriCapture
        rw [h₂, h₁]
      by_cases h2 : argc = 2
      · simp [ConfigEffect, isNamed, valueStep, connectStep, flagStep, clearStep, qosStep,
          numChannelsStep, licenceStep, Locals.qCritical, hnames, hu h2, h2]
      · simp [ConfigEffect, isNamed, valueStep, connectStep, flagStep, clearStep, qosStep,
          numChannelsStep, licenceStep, Locals.qCritical, hnames, h2]

/-- A property of the local variables that every iteration of the loop keeps
holds at the end of the loop when it holds at the start. -/
theorem optionLoop_preserves (b : Build) (g : Globals) (env : Env) (argv : List String)
    (P : Locals → Prop)
    (hstep : ∀ (i : Nat) (st : Locals) (i' : Nat) (st' : Locals), 1 ≤ i → i < argv.length →
      P st → loopBody b g env argv.length argv i st = .next i' st' → P st') :
    ∀ (fuel i : Nat) (st st' : Locals), 1 ≤ i → P st →
      optionLoop b g env argv fuel i st = .done st' → P st' := by
  intro fuel
  induction fuel with
  | zero =>
    intro i st st' _ hP h
    unfold optionLoop at h
    split_ifs at h
    cases h
    exact hP
  | succ fuel ih =>
    intro i st st' hi hP h
    unfold optionLoop at h
    split_ifs at h with hlt
    · cases hb : loopBody b g env argv.length argv i st with
      | exit code st₁ => rw [hb] at h; simp at h
      | next i' st₁ =>
        rw [hb] at h
        have hidx := loopBody_index_le b g env argv.length argv i st (by omega) hb
        have hii : i ≤ i' := by rw [hidx]; split_ifs <;> omega
        exact ih (i' + 1) st₁ st' (by omega) (hstep i st i' st₁ hi hlt hP hb) h
    · cases h
      exact hP

/-- A variable that every iteration of the loop changes by a step that depends
on the position alone is, at the end of the loop, the fold of that step over
the option positions. -/
theorem optionLoop_fold (b : Build) (g : Globals) (env : Env) (argv : List String)
    {α : Type} (f : Locals → α) (step : α → Nat → α)
    (hstep : ∀ (i : Nat) (st : Locals) (i' : Nat) (st' : Locals), 1 ≤ i → i < argv.length →
      loopBody b g env argv.length argv i st = .next i' st' → f st' = step (f st) i) :
    ∀ (fuel i : Nat) (st st' : Locals), 1 ≤ i →
      optionLoop b g env argv fuel i st = .done st' →
      f st' = (optionPositions b g env argv fuel i st).foldl step (f st) := by
  intro fuel
  induction fuel with
  | zero =>
    intro i st st' _ h
    unfold optionLoop at h
    split_ifs at h
    cases h
    simp [optionPositions]
  | succ fuel ih =>
    intro i st st' hi h
    unfold optionLoop at h
    unfold optionPositions
    split_ifs at h with hlt
    · cases hb : loopBody b g env argv.length argv i st with
      | exit code st₁ => rw [hb] at h; simp at h
      | next i' st₁ =>
        rw [hb] at h
        have hidx := loopBody_index_le b g env argv.length argv i st (by omega) hb
        have hii : i ≤ i' := by rw [hidx]; split_ifs <;> omega
        simp only [hlt, if_true, List.foldl_cons]
        rw [ih (i' + 1) st₁ st' (by omega) h, hstep i st i' st₁ hi hlt hb]
    · cases h
      simp [hlt]

/-- The fold of a step that replaces the value at the selected positions and
keeps it elsewhere: the value of the last selected position. -/
theorem foldl_last {α : Type} (step : α → Nat → α) (sel : Nat → Bool) (val : Nat → α)
    (hsel : ∀ a j, sel j = true → step a j = val j)
    (hnot : ∀ a j, sel j = false → step a j = a) :
    (∀ (l : List Nat) (a : α), (∀ k ∈ l, sel k = false) → l.foldl step a = a) ∧
    (∀ (before after : List Nat) (j : Nat) (a : α), sel j = true →
      (∀ k ∈ after, sel k = false) → (before ++ j :: after).foldl step a = val j) := by
  have hnone : ∀ (l : List Nat) (a : α), (∀ k ∈ l, sel k = false) → l.foldl step a = a := by
    intro l
    induction l with
    | nil => intro a _; rfl
    | cons k l ih =>
      intro a h
      rw [List.foldl_cons, hnot a k (h k (List.mem_cons_self _ _))]
      exact ih a (fun k' hk' => h k' (List.mem_cons_of_mem _ hk'))
  refine ⟨hnone, ?_⟩
  intro before after j a hj hafter
  rw [List.foldl_append, List.foldl_cons, hsel _ j hj]
  exact hnone after _ hafter

theorem foldl_flagStep (names : List String) (argv : List String) :
    ∀ (l : List Nat) (a : Bool),
      l.foldl (flagStep names argv) a = (a || optionGiven names argv l) := by
  intro l
  induction l with
  | nil => intro a; simp [optionGiven]
  | cons k l ih =>
    intro a
    rw [List.foldl_cons, ih]
    simp [flagStep, optionGiven, Bool.or_assoc]

theorem foldl_clearStep (names : List String) (argv : List String) :
    ∀ (l : List Nat) (a : Bool),
      l.foldl (clearStep names argv) a = (a && !optionGiven names argv l) := by
  intro l
  induction l with
  | nil => intro a; simp [optionGiven]
  | cons k l ih =>
    intro a
    rw [List.foldl_cons, ih]
    simp [clearStep, optionGiven, Bool.and_assoc]

/-! ## The two undocumented options -/

/-- C37. Let the option loop run to its end.  The options `--showallservers`
and `--showanalyzerconsole` are recorded, under their own names, in
`ClientOnlyOptions`, which is the list of the client only names at the option
positions, and each sets its flag: the flag is set at the end of the loop
exactly when the option stands at an option position.  If the mode is Server
and one of the two stands at an option position, `main` ends with exit code 1
and the message about client only options, which lists the names recorded, no
value checked, no JSON-RPC server started and no actor constructed.  If the mode
is Client and no server only option was recorded, the checks of the values go
through and leave the two flags as the loop set them. -/
theorem C37_debug_options_are_client_only (b : Build) (g : Globals) (env : Env)
    (argv : List String) (st : Locals)
    (hparse : parseOptions b g env argv = .done st) :
    recordedClientOnly "--showallservers" = some "--showallservers" ∧
    recordedClientOnly "--showanalyzerconsole" = some "--showanalyzerconsole" ∧
    st.ClientOnlyOptions = (parsePositions b g env argv).filterMap
      (fun j => recordedClientOnly (tokenAt argv j)) ∧
    st.bShowComplRegConnList =
      optionGiven ["--showallservers"] argv (parsePositions b g env argv) ∧
    st.bShowAnalyzerConsole =
      optionGiven ["--showanalyzerconsole"] argv (parsePositions b g env argv) ∧
    (st.bIsClient = false →
      (∃ j ∈ parsePositions b g env argv,
        isNamed ["--showallservers", "--showanalyzerconsole"] (tokenAt argv j) = true) →
      main b g env argv =
        { exitCode := some 1
          st := (headlessDependency b st).qCritical
            "%1: Client only option(s) '%2' used.  See '--help' for help"
            [.str (tokenAt argv 0), .str (", ".intercalate st.ClientOnlyOptions)]
          pRpcServer := none
          actor := none } ∧
      (∀ j ∈ parsePositions b g env argv,
        isNamed ["--showallservers", "--showanalyzerconsole"] (tokenAt argv j) = true →
        tokenAt argv j ∈ st.ClientOnlyOptions)) ∧
    (st.bIsClient = true → st.ServerOnlyOptions = [] →
      ∃ st₂, modeAndValidation env argv (headlessDependency b st) = .ok st₂ ∧
        main b g env argv = afterValidation b g env st₂ ∧
        st₂.bShowComplRegConnList = st.bShowComplRegConnList ∧
        st₂.bShowAnalyzerConsole = st.bShowAnalyzerConsole ∧
        (main b g env argv).st.bShowComplRegConnList = st.bShowComplRegConnList ∧
        (main b g env argv).st.bShowAnalyzerConsole = st.bShowAnalyzerConsole) := by
  obtain ⟨-, hc, -, -⟩ := optionLoop_effect b g env argv argv.length 1 (initialLocals b g) st
    (le_refl 1) hparse
  have hpos : optionPositions b g env argv argv.length 1 (initialLocals b g) =
      parsePositions b g env argv := rfl
  have hcoo : st.ClientOnlyOptions = (parsePositions b g env argv).filterMap
      (fun j => recordedClientOnly (tokenAt argv j)) := by
    rw [hc, hpos]; simp [initialLocals]
  have hall := optionLoop_fold b g env argv (fun s => s.bShowComplRegConnList)
    (flagStep ["--showallservers"] argv)
    (fun i s i' s' hi hlt hb => by
      have h := loopBody_config b g env argv.length argv i s (by omega)
      rw [hb] at h
      exact h.2.2.2.2.2.2.2.2.2.2.2.2.2.2.2.2.2.2.1)
    argv.length 1 (initialLocals b g) st (le_refl 1) hparse
  have hana := optionLoop_fold b g env argv (fun s => s.bShowAnalyzerConsole)
    (flagStep ["--showanalyzerconsole"] argv)
    (fun i s i' s' hi hlt hb => by
      have h := loopBody_config b g env argv.length argv i s (by omega)
      rw [hb] at h
      exact h.2.2.2.2.2.2.2.2.2.2.2.2.2.2.2.2.2.2.2.1)
    argv.length 1 (initialLocals b g) st (le_refl 1) hparse
  simp only [foldl_flagStep, hpos] at hall hana
  obtain ⟨d₁, -, d₃, d₄, -⟩ := headlessDependency_frame b st
  obtain ⟨gui, l₀, h₀⟩ := headlessDependency_eq b st
  refine ⟨by decide, by decide, hcoo, by simpa [initialLocals] using hall,
    by simpa [initialLocals] using hana, ?_, ?_⟩
  · intro hserver hopt
    have hmem : ∀ j ∈ parsePositions b g env argv,
        isNamed ["--showallservers", "--showanalyzerconsole"] (tokenAt argv j) = true →
        tokenAt argv j ∈ st.ClientOnlyOptions := by
      intro j hj hname
      rw [hcoo, List.mem_filterMap]
      refine ⟨j, hj, ?_⟩
      simp only [isNamed, List.any_cons, List.any_nil, Bool.or_false, Bool.or_eq_true,
        decide_eq_true_eq] at hname
      rcases hname with h | h <;> rw [← h] <;> decide
    have hne : ¬ st.ClientOnlyOptions.length = 0 := by
      obtain ⟨j, hj, hname⟩ := hopt
      have := hmem j hj hname
      intro h0
      rw [List.length_eq_zero] at h0
      rw [h0] at this
      exact List.not_mem_nil _ this
    refine ⟨?_, hmem⟩
    have hsrv : (headlessDependency b st).bIsClient = false := by rw [d₁]; exact hserver
    simp only [main, hparse, serverOnlyDependency_ok b g env argv st hparse,
      modeAndValidation, hsrv, Bool.false_eq_true, if_false, ne_eq, d₄, hne, not_false_eq_true,
      if_true]
  · intro hclient hsoo
    have hcl : (headlessDependency b st).bIsClient = true := by rw [d₁]; exact hclient
    have hok : modeAndValidation env argv (headlessDependency b st) =
        .ok (clientChecks (headlessDependency b st)) := by
      simp [modeAndValidation, hcl, d₃, hsoo]
    have hmain := main_of_validation b g env argv st _ hparse hok
    obtain ⟨mute, port, l, hcc⟩ := clientChecks_eq (headlessDependency b st)
    obtain ⟨gui', client, l', ops, hav⟩ := afterValidation_eq b g env
      (clientChecks (headlessDependency b st))
    refine ⟨_, hok, hmain, ?_, ?_, ?_, ?_⟩
    · rw [hcc]; simp only []; rw [h₀]
    · rw [hcc]; simp only []; rw [h₀]
    · rw [hmain, hav]; simp only []; rw [hcc]; simp only []; rw [h₀]
    · rw [hmain, hav]; simp only []; rw [hcc]; simp only []; rw [h₀]

/-- C37, an instance: `--server --showallservers` ends with exit code 1, and
`--showanalyzerconsole` alone sets its flag in the client. -/
theorem C37_debug_options_are_client_only_witness :
    (main stdBuild stdGlobals stdEnv ["koord", "--server", "--showallservers"]).exitCode =
      some 1 ∧
    (main stdBuild stdGlobals stdEnv ["koord", "--server", "--showallservers"]).actor = none ∧
    (main stdBuild stdGlobals stdEnv ["koord", "--showanalyzerconsole"]).st.bShowAnalyzerConsole
      = true ∧
    (main stdBuild stdGlobals stdEnv ["koord", "--showanalyzerconsole"]).ranClient = true := by
  have h₁ := ((C37_debug_options_are_client_only stdBuild stdGlobals stdEnv
    ["koord", "--server", "--showallservers"] _ rfl).2.2.2.2.2.1 (by decide)
    ⟨2, by decide, by decide⟩).1
  obtain ⟨_, -, -, -, -, -, h₂⟩ := (C37_debug_options_are_client_only stdBuild stdGlobals stdEnv
    ["koord", "--showanalyzerconsole"] _ rfl).2.2.2.2.2.2 (by decide) (by decide)
  refine ⟨by rw [h₁], by rw [h₁], ?_, by decide⟩
  rw [h₂]
  decide

/-! ## The values of the server in the client -/

/-- An iteration that adds nothing to `ServerOnlyOptions` leaves the values of
the server as they were. -/
theorem loopBody_serverOnlyValues (b : Build) (g : Globals) (env : Env) (argv : List String)
    (i : Nat) (st : Locals) (i' : Nat) (st' : Locals) (hi : 1 ≤ i) (hlt : i < argv.length)
    (hb : loopBody b g env argv.length argv i st = .next i' st')
    (hsoo : st'.ServerOnlyOptions = st.ServerOnlyOptions) :
    serverOnlyValues st' = serverOnlyValues st := by
  have heff := loopBody_effect b g env argv.length argv i st (by omega)
  have hval := loopBody_values b g env argv.length argv i st (by omega)
  have hcfg := loopBody_config b g env argv.length argv i st (by omega)
  rw [hb] at heff hval hcfg
  obtain ⟨-, hs, -⟩ := heff
  have hnone : recordedServerOnly (tokenAt argv i) = none := by
    rw [hsoo] at hs
    have := @List.append_cancel_left _ st.ServerOnlyOptions []
      (recordedServerOnly (tokenAt argv i)).toList (by simpa using hs)
    cases h : recordedServerOnly (tokenAt argv i) with
    | none => rfl
    | some x => rw [h] at this; simp at this
  have hall : ∀ n ∈ serverOnlyTokens, recordedServerOnly n ≠ none := by decide
  have hnames : ∀ n ∈ serverOnlyTokens, ¬ n = tokenAt argv i := by
    intro n hn heq
    apply hall n hn
    rw [heq]
    exact hnone
  simp only [serverOnlyTokens, serverOnlyTable, List.flatMap_cons, List.flatMap_nil,
    List.cons_append, List.nil_append, List.append_nil, List.forall_mem_cons, List.not_mem_nil,
    false_implies, implies_true, and_true] at hnames
  obtain ⟨-, -, -, -, -, v₁, v₂, v₃, v₄, v₅⟩ := hval
  obtain ⟨c₁, c₂, c₃, c₄, c₅, -, -, -, -, c₁₀, c₁₁, c₁₂, c₁₃, c₁₄, c₁₅, c₁₆, -, -, -, -, -,
    c₂₂, -⟩ := hcfg
  simp only [serverOnlyValues, v₁, v₂, v₃, v₄, v₅, c₁, c₂, c₃, c₄, c₅, c₁₀, c₁₁, c₁₂, c₁₃, c₁₄,
    c₁₅, c₁₆, c₂₂]
  simp [isNamed, valueStep, flagStep, clearStep, numChannelsStep, licenceStep, hnames]

/-- With no entry in `ServerOnlyOptions` at the end of the loop, the values of
the server are the initial ones. -/
theorem optionLoop_serverOnlyValues (b : Build) (g : Globals) (env : Env) (argv : List String)
    (st : Locals) (hparse : parseOptions b g env argv = .done st)
    (hsoo : st.ServerOnlyOptions = []) :
    serverOnlyValues st = serverOnlyValues (initialLocals b g) := by
  have key := optionLoop_preserves b g env argv
    (fun s => s.ServerOnlyOptions = [] →
      serverOnlyValues s = serverOnlyValues (initialLocals b g))
    (fun i s i' s' hi hlt hP hb hs' => by
      have heff := loopBody_effect b g env argv.length argv i s (by omega)
      rw [hb] at heff
      obtain ⟨-, hs, -⟩ := heff
      rw [hs'] at hs
      have hs₀ : s.ServerOnlyOptions = [] := (List.append_eq_nil.1 hs.symm).1
      rw [loopBody_serverOnlyValues b g env argv i s i' s' hi hlt hb (by rw [hs', hs₀])]
      exact hP hs₀)
    argv.length 1 (initialLocals b g) st (le_refl 1) (fun _ => rfl) hparse
  exact key hsoo

/-- When `main` constructs an actor, the option loop has run to its end and
the checks of the values have gone through. -/
theorem main_actor (b : Build) (g : Globals) (env : Env) (argv : List String) (actor : Actor)
    (h : (main b g env argv).actor = some actor) :
    ∃ st st₂, parseOptions b g env argv = .done st ∧
      modeAndValidation env argv (headlessDependency b st) = .ok st₂ ∧
      main b g env argv = afterValidation b g env st₂ := by
  cases hparse : parseOptions b g env argv with
  | unfinished st => simp [main, hparse] at h
  | exit code st => simp [main, hparse] at h
  | done st =>
    cases hok : modeAndValidation env argv (headlessDependency b st) with
    | exit code st₂ =>
      simp [main, hparse, serverOnlyDependency_ok b g env argv st hparse, hok] at h
    | ok st₂ =>
      exact ⟨st, st₂, rfl, hok, main_of_validation b g env argv st st₂ hparse hok⟩

/-- C33. In a build other than the one for iOS with the GUI, let `main`
construct the client.  Then at the end of `main` every value that only the
server uses is the initial one: the ten strings are empty, the number of
channels is `DEFAULT_USED_NUM_CHANNELS`, no licence is required, the flags for
disconnect on quit, multithreading, delay panning, disabled recording and start
minimized are false and the flag for the double frame size is true.  The reason
is in the loop: an iteration that adds nothing to `ServerOnlyOptions` leaves
all these values as they were, and the client is constructed only when that
list is empty after the loop. -/
theorem C33_client_has_server_defaults (b : Build) (g : Globals) (env : Env)
    (argv : List String) (args : ClientArgs)
    (hios : b.HEADLESS = true ∨ b.Q_OS_IOS = false)
    (hactor : (main b g env argv).actor = some (.client args)) :
    serverOnlyValues (main b g env argv).st =
      (["", "", "", "", "", "", "", "", "", ""], g.DEFAULT_USED_NUM_CHANNELS, .LT_NO_LICENCE,
        [false, false, false, false, false, true]) ∧
    (∃ st, parseOptions b g env argv = .done st ∧ st.ServerOnlyOptions = [] ∧
      st.bIsClient = true) ∧
    (∀ (i : Nat) (st : Locals) (i' : Nat) (st' : Locals), 1 ≤ i → i < argv.length →
      loopBody b g env argv.length argv i st = .next i' st' →
      st'.ServerOnlyOptions = st.ServerOnlyOptions →
      serverOnlyValues st' = serverOnlyValues st) := by
  obtain ⟨st, st₂, hparse, hok, hmain⟩ := main_actor b g env argv _ hactor
  obtain ⟨d₁, -, d₃, -⟩ := headlessDependency_frame b st
  obtain ⟨gui, l₀, h₀⟩ := headlessDependency_eq b st
  have hsetup : applicationSetup b st₂ = st₂ := by
    unfold applicationSetup
    rcases hios with h | h <;> simp [h]
  have hcl₂ : st₂.bIsClient = true := by
    rw [hmain] at hactor
    have := afterValidation_actor b g env st₂ _ hactor
    rw [hsetup] at this
    simp only [Actor.isClient] at this
    have h := this.symm
    simp only [Bool.and_eq_true] at h
    exact h.2
  obtain ⟨mute, port, ini, file, ip, bind, l, ops, hst₂⟩ := modeAndValidation_eq env argv _ _ hok
  have hcl : st.bIsClient = true := by
    rw [← d₁]
    rw [hst₂] at hcl₂
    exact hcl₂
  have hcl' : (headlessDependency b st).bIsClient = true := by rw [d₁]; exact hcl
  have hsoo : st.ServerOnlyOptions = [] := by
    unfold modeAndValidation at hok
    simp only [hcl', if_true] at hok
    split_ifs at hok with hne
    rw [d₃] at hne
    simp only [ne_eq, Decidable.not_not] at hne
    exact List.length_eq_zero.1 hne
  have hst₂' : st₂ = clientChecks (headlessDependency b st) := by
    unfold modeAndValidation at hok
    simp only [hcl', if_true] at hok
    split_ifs at hok
    cases hok
    rfl
  obtain ⟨mute', port', l', hcc⟩ := clientChecks_eq (headlessDependency b st)
  obtain ⟨gui', client, l'', ops', hav⟩ := afterValidation_eq b g env st₂
  have hvalues : serverOnlyValues (main b g env argv).st = serverOnlyValues st := by
    rw [hmain, hav, hst₂', hcc, h₀]
    rfl
  refine ⟨?_, ⟨st, hparse, hsoo, hcl⟩, ?_⟩
  · rw [hvalues, optionLoop_serverOnlyValues b g env argv st hparse hsoo]
    rfl
  · intro i s i' s' hi hlt hb hs
    exact loopBody_serverOnlyValues b g env argv i s i' s' hi hlt hb hs

/-- C33, an instance: `--connect 10.0.0.5 --nogui --port 5000` in the standard
build. -/
theorem C33_client_has_server_defaults_witness :
    serverOnlyValues (main stdBuild stdGlobals stdEnv
        ["koord", "--connect", "10.0.0.5", "--nogui", "--port", "5000"]).st =
      (["", "", "", "", "", "", "", "", "", ""], stdGlobals.DEFAULT_USED_NUM_CHANNELS,
        .LT_NO_LICENCE, [false, false, false, false, false, true]) :=
  (C33_client_has_server_defaults stdBuild stdGlobals stdEnv
    ["koord", "--connect", "10.0.0.5", "--nogui", "--port", "5000"]
    (clientArgs (main stdBuild stdGlobals stdEnv
      ["koord", "--connect", "10.0.0.5", "--nogui", "--port", "5000"]).st)
    (Or.inr rfl) (by decide)).1

/-! ## An option given more than once -/

/-- A variable that every iteration changes by a step that replaces the value
at the selected positions and keeps it elsewhere holds, at the end of the loop,
the value of the last selected option position. -/
theorem optionLoop_last (b : Build) (g : Globals) (env : Env) (argv : List String)
    (st : Locals) (hparse : parseOptions b g env argv = .done st)
    {α : Type} (f : Locals → α) (step : α → Nat → α) (sel : Nat → Bool) (val : Nat → α)
    (hstep : ∀ (i : Nat) (s : Locals) (i' : Nat) (s' : Locals), 1 ≤ i → i < argv.length →
      loopBody b g env argv.length argv i s = .next i' s' → f s' = step (f s) i)
    (hsel : ∀ a k, sel k = true → step a k = val k)
    (hnot : ∀ a k, sel k = false → step a k = a)
    (before after : List Nat) (j : Nat)
    (hsplit : parsePositions b g env argv = before ++ j :: after)
    (hj : sel j = true) (hafter : ∀ k ∈ after, sel k = false) :
    f st = val j := by
  have h := optionLoop_fold b g env argv f step hstep argv.length 1 (initialLocals b g) st
    (le_refl 1) hparse
  have hpos : optionPositions b g env argv argv.length 1 (initialLocals b g) =
      parsePositions b g env argv := rfl
  rw [hpos, hsplit] at h
  rw [h]
  exact (foldl_last step sel val hsel hnot).2 before after j _ hj hafter

/-- When the loop runs to its end, a token follows every option that takes a
value. -/
theorem value_follows (b : Build) (g : Globals) (env : Env) (argv : List String)
    (st : Locals) (hparse : parseOptions b g env argv = .done st) (p : Nat)
    (hpos : p ∈ parsePositions b g env argv) (hv : takesValue (tokenAt argv p) = true) :
    p + 1 < argv.length := by
  obtain ⟨hp, hlt⟩ := parsePositions_bounds b g env argv hpos
  obtain ⟨fuel', st', -, -, h₁, -⟩ := @optionLoop_before b g env argv argv p rfl
    (fun _ _ => rfl) argv.length 1 (initialLocals b g) (le_refl 1) hpos
  have hp₁ : parseOptions b g env argv = optionLoop b g env argv (fuel' + 1) p st' := h₁
  rw [hparse, optionLoop_step b g env argv fuel' p st' hlt] at hp₁
  cases hb : loopBody b g env argv.length argv p st' with
  | exit code st₁ => rw [hb] at hp₁; simp at hp₁
  | next i' st₁ =>
    have hidx := loopBody_index_le b g env argv.length argv p st' (by omega) hb
    have hlt' := loopBody_index_lt b g env argv.length argv p st' hlt hb
    rw [hv] at hidx
    simp only [if_true] at hidx
    omega

/-- C35. Let the option loop run to its end, and let `j` be an option position
after which the same option does not stand at an option position again.  Then
the value the loop leaves is the one of the option at `j`: for each of the
options with a string value, the token after the name as it stands; for
`--port`, `--jsonrpcport`, `--qos` and `--numchannels`, the number `strtod`
reads from that token; and for `--connect` and `--autoconnect`, which write the
same variable, the address made from that token, so that the last of the two
wins.  The single `koord://` argument writes that variable too, but then no
other option is there.  Every occurrence adds its entry: the three lists of
options seen hold one name for each option position whose token they record, in
order, and an option that takes a value is always recorded. -/
theorem C35_last_occurrence_wins (b : Build) (g : Globals) (env : Env)
    (argv : List String) (st : Locals) (before after : List Nat) (j : Nat)
    (hparse : parseOptions b g env argv = .done st)
    (hsplit : parsePositions b g env argv = before ++ j :: after) :
    (∀ e ∈ stringOptions, isNamed e.1 (tokenAt argv j) = true →
      (∀ k ∈ after, isNamed e.1 (tokenAt argv k) = false) →
      e.2 st = tokenAt argv (j + 1)) ∧
    (isPortOption (tokenAt argv j) = true →
      (∀ k ∈ after, isPortOption (tokenAt argv k) = false) →
      st.iPortNumber = portValueAt env argv j ∧ st.bCustomPortNumberGiven = true) ∧
    (isNamed ["--jsonrpcport"] (tokenAt argv j) = true →
      (∀ k ∈ after, isNamed ["--jsonrpcport"] (tokenAt argv k) = false) →
      st.iJsonRpcPortNumber = ((env.strtod (tokenAt argv (j + 1))).1.toUInt16 : Nat)) ∧
    (isNamed ["-Q", "--qos"] (tokenAt argv j) = true →
      (∀ k ∈ after, isNamed ["-Q", "--qos"] (tokenAt argv k) = false) →
      st.iQosNumber = (env.strtod (tokenAt argv (j + 1))).1.toUInt16) ∧
    (isNamed ["-u", "--numchannels"] (tokenAt argv j) = true →
      (∀ k ∈ after, isNamed ["-u", "--numchannels"] (tokenAt argv k) = false) →
      st.iNumServerChannels = (env.strtod (tokenAt argv (j + 1))).1.toInt32) ∧
    (isNamed ["-c", "--connect", "-x", "--autoconnect"] (tokenAt argv j) = true →
      (∀ k ∈ after,
        isNamed ["-c", "--connect", "-x", "--autoconnect"] (tokenAt argv k) = false) →
      st.strConnOnStartupAddress =
        (if isNamed ["-c", "--connect"] (tokenAt argv j) then
          env.FixAddress (tokenAt argv (j + 1))
        else env.FixJamAddress (tokenAt argv (j + 1)))) ∧
    (∀ prog tok captured, argv = [prog, tok] → uriCapture tok = some captured →
      st.strConnOnStartupAddress = captured ∧ st.CommandLineOptions = ["--autoconnect"]) ∧
    st.CommandLineOptions =
      (parsePositions b g env argv).filterMap (recordedOption argv.length argv) ∧
    st.ServerOnlyOptions =
      (parsePositions b g env argv).filterMap (fun k => recordedServerOnly (tokenAt argv k)) ∧
    st.ClientOnlyOptions =
      (parsePositions b g env argv).filterMap (fun k => recordedClientOnly (tokenAt argv k)) ∧
    (∀ k ∈ parsePositions b g env argv, takesValue (tokenAt argv k) = true →
      (recordedOption argv.length argv k).isSome = true ∧ k + 1 < argv.length) := by
  have hpos : optionPositions b g env argv argv.length 1 (initialLocals b g) =
      parsePositions b g env argv := rfl
  have hjpos : j ∈ parsePositions b g env argv := by
    rw [hsplit]; simp
  have hV : ∀ (i : Nat) (s : Locals) (i' : Nat) (s' : Locals), 1 ≤ i → i < argv.length →
      loopBody b g env argv.length argv i s = .next i' s' →
      ValueEffect env argv i s (.next i' s') := by
    intro i s i' s' hi hlt hb
    rw [← hb]
    exact loopBody_values b g env argv.length argv i s (by omega)
  have hC : ∀ (i : Nat) (s : Locals) (i' : Nat) (s' : Locals), 1 ≤ i → i < argv.length →
      loopBody b g env argv.length argv i s = .next i' s' →
      ConfigEffect env argv.length argv i s (.next i' s') := by
    intro i s i' s' hi hlt hb
    rw [← hb]
    exact loopBody_config b g env argv.length argv i s (by omega)
  have hP : ∀ (i : Nat) (s : Locals) (i' : Nat) (s' : Locals), 1 ≤ i → i < argv.length →
      loopBody b g env argv.length argv i s = .next i' s' →
      PortEffect env argv i s (.next i' s') := by
    intro i s i' s' hi hlt hb
    rw [← hb]
    exact loopBody_port b g env argv.length argv i s (by omega)
  have hvs : ∀ (names : List String) (a : String) (k : Nat),
      isNamed names (tokenAt argv k) = true → valueStep names argv a k = tokenAt argv (k + 1) := by
    intro names a k h
    simp [valueStep, h]
  have hvn : ∀ (names : List String) (a : String) (k : Nat),
      isNamed names (tokenAt argv k) = false → valueStep names argv a k = a := by
    intro names a k h
    simp [valueStep, h]
  obtain ⟨hsoo, hcoo, -, -⟩ := optionLoop_effect b g env argv argv.length 1 (initialLocals b g)
    st (le_refl 1) hparse
  obtain ⟨hclo, -⟩ := optionLoop_seen b g env argv argv.length 1 (initialLocals b g) st
    (le_refl 1) hparse
  obtain ⟨hgiven, -, -⟩ := optionLoop_port b g env argv argv.length 1 (initialLocals b g) st
    (le_refl 1) hparse
  rw [hpos] at hsoo hcoo hclo hgiven
  refine ⟨?_, ?_, ?_, ?_, ?_, ?_, ?_, ?_, ?_, ?_, ?_⟩
  · simp only [stringOptions, List.forall_mem_cons, List.not_mem_nil, false_implies,
      implies_true, and_true]
    refine ⟨?_, ?_, ?_, ?_, ?_, ?_, ?_, ?_, ?_, ?_, ?_, ?_, ?_, ?_⟩
    · intro hj hafter
      exact optionLoop_last b g env argv st hparse (fun s => s.strIniFileName)
        (valueStep ["-i", "--inifile"] argv) (fun k => isNamed ["-i", "--inifile"] (tokenAt argv k))
        (fun k => tokenAt argv (k + 1))
        (fun i s i' s' hi hlt hb => (hV i s i' s' hi hlt hb).2.2.2.2.1)
        (hvs _) (hvn _) before after j hsplit hj hafter
    · intro hj hafter
      exact optionLoop_last b g env argv st hparse (fun s => s.strJsonRpcSecretFileName)
        (valueStep ["--jsonrpcsecretfile"] argv)
        (fun k => isNamed ["--jsonrpcsecretfile"] (tokenAt argv k))
        (fun k => tokenAt argv (k + 1))
        (fun i s i' s' hi hlt hb => (hV i s i' s' hi hlt hb).2.2.2.1)
        (hvs _) (hvn _) before after j hsplit hj hafter
    · intro hj hafter
      exact optionLoop_last b g env argv st hparse (fun s => s.strDirectoryServer)
        (valueStep ["-e", "--directoryserver", "--centralserver"] argv)
        (fun k => isNamed ["-e", "--directoryserver", "--centralserver"] (tokenAt argv k))
        (fun k => tokenAt argv (k + 1))
        (fun i s i' s' hi hlt hb => (hV i s i' s' hi hlt hb).2.2.2.2.2.1)
        (hvs _) (hvn _) before after j hsplit hj hafter
    · intro hj hafter
      exact optionLoop_last b g env argv st hparse (fun s => s.strServerListFileName)
        (valueStep ["--directoryfile"] argv) (fun k => isNamed ["--directoryfile"] (tokenAt argv k))
        (fun k => tokenAt argv (k + 1))
        (fun i s i' s' hi hlt hb => (hV i s i' s' hi hlt hb).2.2.2.2.2.2.1)
        (hvs _) (hvn _) before after j hsplit hj hafter
    · intro hj hafter
      exact optionLoop_last b g env argv st hparse (fun s => s.strServerListFilter)
        (valueStep ["-f", "--listfilter"] argv)
        (fun k => isNamed ["-f", "--listfilter"] (tokenAt argv k))
        (fun k => tokenAt argv (k + 1))
        (fun i s i' s' hi hlt hb => (hV i s i' s' hi hlt hb).2.2.2.2.2.2.2.1)
        (hvs _) (hvn _) before after j hsplit hj hafter
    · intro hj hafter
      exact optionLoop_last b g env argv st hparse (fun s => s.strLoggingFileName)
        (valueStep ["-l", "--log"] argv) (fun k => isNamed ["-l", "--log"] (tokenAt argv k))
        (fun k => tokenAt argv (k + 1))
        (fun i s i' s' hi hlt hb => (hC i s i' s' hi hlt hb).1)
        (hvs _) (hvn _) before after j hsplit hj hafter
    · intro hj hafter
      exact optionLoop_last b g env argv st hparse (fun s => s.strHTMLStatusFileName)
        (valueStep ["-m", "--htmlstatus"] argv)
        (fun k => isNamed ["-m", "--htmlstatus"] (tokenAt argv k))
        (fun k => tokenAt argv (k + 1))
        (fun i s i' s' hi hlt hb => (hC i s i' s' hi hlt hb).2.1)
        (hvs _) (hvn _) before after j hsplit hj hafter
    · intro hj hafter
      exact optionLoop_last b g env argv st hparse (fun s => s.strServerInfo)
        (valueStep ["-o", "--serverinfo"] argv)
        (fun k => isNamed ["-o", "--serverinfo"] (tokenAt argv k))
        (fun k => tokenAt argv (k + 1))
        (fun i s i' s' hi hlt hb => (hC i s i' s' hi hlt hb).2.2.1)
        (hvs _) (hvn _) before after j hsplit hj hafter
    · intro hj hafter
      exact optionLoop_last b g env argv st hparse (fun s => s.strServerPublicIP)
        (valueStep ["--serverpublicip"] argv)
        (fun k => isNamed ["--serverpublicip"] (tokenAt argv k))
        (fun k => tokenAt argv (k + 1))
        (fun i s i' s' hi hlt hb => (hV i s i' s' hi hlt hb).2.2.2.2.2.2.2.2.1)
        (hvs _) (hvn _) before after j hsplit hj hafter
    · intro hj hafter
      exact optionLoop_last b g env argv st hparse (fun s => s.strRecordingDirName)
        (valueStep ["-R", "--recording"] argv)
        (fun k => isNamed ["-R", "--recording"] (tokenAt argv k))
        (fun k => tokenAt argv (k + 1))
        (fun i s i' s' hi hlt hb => (hC i s i' s' hi hlt hb).2.2.2.1)
        (hvs _) (hvn _) before after j hsplit hj hafter
    · intro hj hafter
      exact optionLoop_last b g env argv st hparse (fun s => s.strServerBindIP)
        (valueStep ["--serverbindip"] argv) (fun k => isNamed ["--serverbindip"] (tokenAt argv k))
        (fun k => tokenAt argv (k + 1))
        (fun i s i' s' hi hlt hb => (hV i s i' s' hi hlt hb).2.2.2.2.2.2.2.2.2)
        (hvs _) (hvn _) before after j hsplit hj hafter
    · intro hj hafter
      exact optionLoop_last b g env argv st hparse (fun s => s.strWelcomeMessage)
        (valueStep ["-w", "--welcomemessage"] argv)
        (fun k => isNamed ["-w", "--welcomemessage"] (tokenAt argv k))
        (fun k => tokenAt argv (k + 1))
        (fun i s i' s' hi hlt hb => (hC i s i' s' hi hlt hb).2.2.2.2.1)
        (hvs _) (hvn _) before after j hsplit hj hafter
    · intro hj hafter
      exact optionLoop_last b g env argv st hparse (fun s => s.strClientName)
        (valueStep ["--clientname"] argv) (fun k => isNamed ["--clientname"] (tokenAt argv k))
        (fun k => tokenAt argv (k + 1))
        (fun i s i' s' hi hlt hb => (hC i s i' s' hi hlt hb).2.2.2.2.2.1)
        (hvs _) (hvn _) before after j hsplit hj hafter
    · intro hj hafter
      exact optionLoop_last b g env argv st hparse (fun s => s.strMIDISetup)
        (valueStep ["--ctrlmidich"] argv) (fun k => isNamed ["--ctrlmidich"] (tokenAt argv k))
        (fun k => tokenAt argv (k + 1))
        (fun i s i' s' hi hlt hb => (hC i s i' s' hi hlt hb).2.2.2.2.2.2.1)
        (hvs _) (hvn _) before after j hsplit hj hafter
  · intro hj hafter
    refine ⟨?_, ?_⟩
    · exact optionLoop_last b g env argv st hparse (fun s => s.iPortNumber)
        (fun a k => if isPortOption (tokenAt argv k) then portValueAt env argv k else a)
        (fun k => isPortOption (tokenAt argv k)) (fun k => portValueAt env argv k)
        (fun i s i' s' hi hlt hb => (hP i s i' s' hi hlt hb).2.1)
        (fun a k h => by simp [h]) (fun a k h => by simp [h]) before after j hsplit hj hafter
    · rw [hgiven]
      simp only [Bool.or_eq_true, List.any_eq_true]
      exact Or.inr ⟨j, hjpos, hj⟩
  · intro hj hafter
    exact optionLoop_last b g env argv st hparse (fun s => s.iJsonRpcPortNumber)
      (jsonRpcPortStep env argv) (fun k => isNamed ["--jsonrpcport"] (tokenAt argv k))
      (fun k => (((env.strtod (tokenAt argv (k + 1))).1.toUInt16 : Nat) : Int))
      (fun i s i' s' hi hlt hb => (hV i s i' s' hi hlt hb).2.2.1)
      (fun a k h => by simp [jsonRpcPortStep, h]) (fun a k h => by simp [jsonRpcPortStep, h])
      before after j hsplit hj hafter
  · intro hj hafter
    exact optionLoop_last b g env argv st hparse (fun s => s.iQosNumber)
      (qosStep env argv) (fun k => isNamed ["-Q", "--qos"] (tokenAt argv k))
      (fun k => (env.strtod (tokenAt argv (k + 1))).1.toUInt16)
      (fun i s i' s' hi hlt hb => (hC i s i' s' hi hlt hb).2.2.2.2.2.2.2.2.1)
      (fun a k h => by simp [qosStep, h]) (fun a k h => by simp [qosStep, h])
      before after j hsplit hj hafter
  · intro hj hafter
    exact optionLoop_last b g env argv st hparse (fun s => s.iNumServerChannels)
      (numChannelsStep env argv) (fun k => isNamed ["-u", "--numchannels"] (tokenAt argv k))
      (fun k => (env.strtod (tokenAt argv (k + 1))).1.toInt32)
      (fun i s i' s' hi hlt hb => (hC i s i' s' hi hlt hb).2.2.2.2.2.2.2.2.2.1)
      (fun a k h => by simp [numChannelsStep, h]) (fun a k h => by simp [numChannelsStep, h])
      before after j hsplit hj hafter
  · intro hj hafter
    have htv : takesValue (tokenAt argv j) = true := by
      simp only [isNamed, List.any_cons, List.any_nil, Bool.or_false, Bool.or_eq_true,
        decide_eq_true_eq] at hj
      rcases hj with h | h | h | h <;> rw [← h] <;> decide
    have hlen : argv.length ≠ 2 := by
      have h₁ := value_follows b g env argv st hparse j hjpos htv
      have h₂ := (parsePositions_bounds b g env argv hjpos).1
      omega
    exact optionLoop_last b g env argv st hparse (fun s => s.strConnOnStartupAddress)
      (connectStep env argv.length argv)
      (fun k => isNamed ["-c", "--connect", "-x", "--autoconnect"] (tokenAt argv k))
      (fun k => if isNamed ["-c", "--connect"] (tokenAt argv k) then
          env.FixAddress (tokenAt argv (k + 1))
        else env.FixJamAddress (tokenAt argv (k + 1)))
      (fun i s i' s' hi hlt hb => (hC i s i' s' hi hlt hb).2.2.2.2.2.2.2.1)
      (fun a k h => by
        simp only [isNamed, List.any_cons, List.any_nil, Bool.or_false, Bool.or_eq_true,
          decide_eq_true_eq] at h
        rcases h with h | h | h | h <;> simp [connectStep, isNamed, ← h])
      (fun a k h => by
        simp only [isNamed, List.any_cons, List.any_nil, Bool.or_false, Bool.or_eq_false_iff,
          decide_eq_false_iff_not] at h
        simp [connectStep, isNamed, h, hlen])
      before after j hsplit hj hafter
  · intro prog tok captured hargv hcap
    subst hargv
    have hcap' : rx_gen2 tok = some captured ∨
        (rx_gen2 tok = none ∧ rx_gen1 tok = some captured) := by
      unfold uriCapture at hcap
      cases h2 : rx_gen2 tok with
      | some c => rw [h2] at hcap; exact Or.inl hcap
      | none => rw [h2] at hcap; exact Or.inr ⟨rfl, hcap⟩
    have := parseOptions_single_uri b g env prog tok captured hcap'
    rw [hparse] at this
    cases this
    exact ⟨rfl, rfl⟩
  · rw [hclo]; simp [initialLocals]
  · rw [hsoo]; simp [initialLocals]
  · rw [hcoo]; simp [initialLocals]
  · intro k hk hv
    refine ⟨?_, value_follows b g env argv st hparse k hk hv⟩
    have hall : ∀ n ∈ valueOptionNames, (recordedIn optionTable n).isSome = true := by decide
    have hmem : tokenAt argv k ∈ valueOptionNames := by
      simp only [takesValue, List.any_eq_true, decide_eq_true_eq] at hv
      obtain ⟨n, hn, rfl⟩ := hv
      exact hn
    have hsome := hall _ hmem
    unfold recordedOption
    cases h : recordedIn optionTable (tokenAt argv k) with
    | none => rw [h] at hsome; simp at hsome
    | some name => rfl

/-- C35, an instance: `--port 1 --port 2` leaves the port 2 and records
`--port` twice; `--connect a --autoconnect b` leaves the address `b`. -/
theorem C35_last_occurrence_wins_witness :
    (main stdBuild stdGlobals stdEnv ["koord", "--port", "1", "--port", "2"]).st.iPortNumber
      = 2 ∧
    (main stdBuild stdGlobals stdEnv
      ["koord", "--port", "1", "--port", "2"]).st.CommandLineOptions = ["--port", "--port"] ∧
    (∀ st, parseOptions stdBuild stdGlobals stdEnv
        ["koord", "--connect", "a", "--autoconnect", "b"] = .done st →
      st.strConnOnStartupAddress = "b") := by
  refine ⟨by decide, by decide, ?_⟩
  intro st hparse
  have h := (C35_last_occurrence_wins stdBuild stdGlobals stdEnv
    ["koord", "--connect", "a", "--autoconnect", "b"] st [1] [] 3 hparse
    (by decide)).2.2.2.2.2.1 (by decide) (by simp)
  rw [h]
  decide

/-! ## The warnings about the entries of the server list filter -/

/-- A block of the loop body that goes on has written one message, with
`qInfo`. -/
theorem optionBlocks_log (g : Globals) (env : Env) (argc : Nat) (argv : List String) (i : Nat) :
    ∀ blk ∈ optionBlocks g env argc argv i, ∀ st i' st', blk st = some (.next i' st') →
      ∃ m : Msg, st'.log = st.log ++ [m] ∧ m.level = .info := by
  simp only [optionBlocks, commonOptions, serverOptions, clientOptions, undocumentedOptions,
    List.forall_mem_cons, List.forall_mem_append, List.not_mem_nil, false_implies, implies_true,
    and_true]
  repeat' apply And.intro
  all_goals
    intro st i' st' h
    first
    | (obtain ⟨-, hr⟩ := onFlag_eq_some.1 h
       cases hr
       exact ⟨_, rfl, rfl⟩)
    | (obtain ⟨-, (⟨-, _, hr⟩ | ⟨-, hr⟩)⟩ := onString_some h
       · cases hr
       · cases hr
         exact ⟨_, rfl, rfl⟩)
    | (obtain ⟨-, (⟨_, hr⟩ | ⟨-, -, hr⟩)⟩ := onNumeric_some h
       · cases hr
       · cases hr
         exact ⟨_, rfl, rfl⟩)
    | (obtain ⟨_, hr⟩ := helpAndVersion_exit h
       cases hr)
    | (obtain ⟨-, captured, cs, -, -, hr⟩ := singleArgumentUri_some h
       cases hr
       exact ⟨_, rfl, rfl⟩)

/-- An iteration of the loop that goes on has written one message, and no
warning. -/
theorem loopBody_log (b : Build) (g : Globals) (env : Env) (argc : Nat) (argv : List String)
    (i : Nat) (st : Locals) {i' : Nat} {st' : Locals}
    (h : loopBody b g env argc argv i st = .next i' st') :
    ∃ m : Msg, st'.log = st.log ++ [m] ∧ m.level ≠ .warning := by
  unfold loopBody at h
  cases hf : firstMatch (optionBlocks g env argc argv i) st with
  | some r =>
    rw [hf] at h
    simp only at h
    subst h
    obtain ⟨blk, hmem, hblk⟩ := firstMatch_some_mem hf
    obtain ⟨m, hm, hl⟩ := optionBlocks_log g env argc argv i blk hmem st i' st' hblk
    exact ⟨m, hm, by rw [hl]; decide⟩
  | none =>
    rw [hf] at h
    simp only [unknownOption] at h
    split_ifs at h
    cases h
    exact ⟨_, rfl, fun hw => Level.noConfusion hw⟩

/-- The option loop writes no warning. -/
theorem optionLoop_no_warning (b : Build) (g : Globals) (env : Env) (argv : List String)
    (st : Locals) (hparse : parseOptions b g env argv = .done st) :
    ∀ m ∈ st.log, m.level ≠ .warning := by
  refine optionLoop_preserves b g env argv (fun s => ∀ m ∈ s.log, m.level ≠ .warning)
    ?_ argv.length 1 (initialLocals b g) st (le_refl 1) ?_ hparse
  · intro i s i' s' hi hlt hP hb m hm
    obtain ⟨m', hlog, hl⟩ := loopBody_log b g env argv.length argv i s hb
    rw [hlog, List.mem_append, List.mem_singleton] at hm
    rcases hm with hm | rfl
    · exact hP m hm
    · exact hl
  · intro m hm
    simp only [initialLocals] at hm
    split_ifs at hm
    · rw [List.mem_singleton] at hm
      rw [hm]
      decide
    · simp at hm

theorem checkFilterEntry_spec (env : Env) (entry : String) (st : Locals) :
    checkFilterEntry env entry st =
      { st with log := st.log ++ (filterWarning env entry).toList } := by
  cases st
  unfold checkFilterEntry filterWarning
  split_ifs <;> simp [Locals.qWarning]

theorem foldl_checkFilterEntry_spec (env : Env) (entries : List String) :
    ∀ st : Locals, entries.foldl (fun acc entry => checkFilterEntry env entry acc) st =
      { st with log := st.log ++ entries.filterMap (filterWarning env) } := by
  induction entries with
  | nil => intro st; simp
  | cons e es ih =>
    intro st
    rw [List.foldl_cons, ih, checkFilterEntry_spec]
    cases h : filterWarning env e <;> simp [List.filterMap_cons, h]

/-- The check of a server list filter that is not empty writes, for each entry
in order, the warning of that entry, if any. -/
theorem checkServerListFilter_spec (env : Env) (st : Locals)
    (h : st.strServerListFilter ≠ "") :
    checkServerListFilter env st =
      { st with log := st.log ++
          (splitSemicolon st.strServerListFilter).filterMap (filterWarning env) } := by
  unfold checkServerListFilter
  rw [if_pos h]
  exact foldl_checkFilterEntry_spec env _ st

theorem filterWarning_isFilterWarning (env : Env) (entry : String) (m : Msg)
    (h : filterWarning env entry = some m) : isFilterWarning m = true := by
  unfold filterWarning at h
  split_ifs at h <;> cases h <;> rfl

theorem filter_filterMap_filterWarning (env : Env) (entries : List String) :
    (entries.filterMap (filterWarning env)).filter isFilterWarning =
      entries.filterMap (filterWarning env) := by
  rw [List.filter_eq_self]
  intro m hm
  obtain ⟨e, -, he⟩ := List.mem_filterMap.1 hm
  exact filterWarning_isFilterWarning env e m he

theorem length_filterMap_eq {α β : Type} (f : α → Option β) (l : List α) :
    (l.filterMap f).length = (l.filter fun a => (f a).isSome).length := by
  induction l with
  | nil => rfl
  | cons a l ih =>
    cases h : f a <;> simp [List.filterMap_cons, List.filter_cons, h, ih]

/-- The entries that bring a warning: those that are not of the form `[x]` and
that are empty or refused by `QHostAddress::setAddress`. -/
theorem filterWarning_isSome (env : Env) (entry : String) :
    (filterWarning env entry).isSome =
      (!isBracketedEntry entry && (decide (entry = "") || !env.setAddress entry)) := by
  unfold filterWarning isBracketedEntry
  by_cases hb : qLength entry > 2 ∧ entry.data.head? = some '[' ∧ entry.data.getLast? = some ']'
  · simp [hb]
  · rw [if_neg hb]
    have hb' : (decide (qLength entry > 2) && decide (entry.data.head? = some '[') &&
        decide (entry.data.getLast? = some ']')) = false := by
      simpa [Bool.and_assoc] using hb
    rw [hb']
    by_cases he : entry = ""
    · simp [he]
    · cases hs : env.setAddress entry <;> simp [he, hs]

theorem qLength_ge (cs : List Char) :
    cs.length ≤ (cs.map fun c => if c.val ≥ 65536 then 2 else 1).sum := by
  induction cs with
  | nil => simp
  | cons c cs ih =>
    simp only [List.map_cons, List.sum_cons, List.length_cons]
    split_ifs <;> omega

/-- The test for the special case accepts the entries `[x]` with a text `x`
that is not empty, and no other. -/
theorem isBracketedEntry_iff (entry : String) :
    isBracketedEntry entry = true ↔
      ∃ x : List Char, x ≠ [] ∧ entry.data = '[' :: (x ++ [']']) := by
  unfold isBracketedEntry qLength
  simp only [Bool.and_eq_true, decide_eq_true_eq, and_assoc]
  constructor
  · rintro ⟨hlen, hhead, hlast⟩
    cases hd : entry.data with
    | nil => rw [hd] at hhead; simp at hhead
    | cons c rest =>
      rw [hd] at hhead hlast hlen
      simp only [List.head?_cons, Option.some.injEq] at hhead
      subst hhead
      rcases List.eq_nil_or_concat rest with hr | ⟨x, z, hr⟩
      · subst hr
        simp at hlast
      · rw [List.concat_eq_append] at hr
        subst hr
        have hz : z = ']' := by
          have : ('[' :: (x ++ [z])).getLast? = some z := by
            rw [← List.cons_append, List.getLast?_append]
            simp
          rw [this] at hlast
          exact Option.some.inj hlast
        subst hz
        refine ⟨x, ?_, rfl⟩
        rintro rfl
        revert hlen
        decide
  · rintro ⟨x, hx, hd⟩
    rw [hd]
    refine ⟨?_, rfl, ?_⟩
    · have h := qLength_ge ('[' :: (x ++ [']']))
      have hx' : 0 < x.length := List.length_pos.2 hx
      simp only [List.length_cons, List.length_append, List.length_nil] at h
      omega
    · rw [← List.cons_append, List.getLast?_append]
      simp

theorem headlessDependency_no_filter_warning (b : Build) (st : Locals) :
    ∃ l, (headlessDependency b st).log = st.log ++ l ∧ l.filter isFilterWarning = [] := by
  unfold headlessDependency
  split_ifs
  · exact ⟨[_], rfl, rfl⟩
  · exact ⟨[], (List.append_nil _).symm, rfl⟩
  · exact ⟨[], (List.append_nil _).symm, rfl⟩

theorem checkIniFileName_no_filter_warning (st : Locals) :
    ∃ l, (checkIniFileName st).log = st.log ++ l ∧ l.filter isFilterWarning = [] := by
  unfold checkIniFileName
  split_ifs
  · exact ⟨[_], rfl, rfl⟩
  · exact ⟨[], (List.append_nil _).symm, rfl⟩

theorem checkServerListFile_no_filter_warning (env : Env) (st : Locals) :
    ∃ l, (checkServerListFile env st).log = st.log ++ l ∧ l.filter isFilterWarning = [] := by
  unfold checkServerListFile
  dsimp only
  split_ifs <;>
    first
    | exact ⟨[_], rfl, rfl⟩
    | exact ⟨[], (List.append_nil _).symm, rfl⟩

theorem checkServerPublicIP_no_filter_warning (env : Env) (st : Locals) :
    ∃ l, (checkServerPublicIP env st).log = st.log ++ l ∧ l.filter isFilterWarning = [] := by
  unfold checkServerPublicIP
  split_ifs <;>
    first
    | exact ⟨[_], rfl, rfl⟩
    | exact ⟨[], (List.append_nil _).symm, rfl⟩

theorem checkServerBindIP_no_filter_warning (env : Env) (st : Locals) :
    ∃ l, (checkServerBindIP env st).log = st.log ++ l ∧ l.filter isFilterWarning = [] := by
  unfold checkServerBindIP
  split_ifs <;>
    first
    | exact ⟨[_], rfl, rfl⟩
    | exact ⟨[], (List.append_nil _).symm, rfl⟩

/-- C32. Let the option loop run to its end and leave the mode Server, no GUI
in use, no client only option recorded, a directory server address that is this
host and a server list filter that is not empty; let `QHostAddress::setAddress`
refuse the empty text.  Then the checks of the values go through and keep the
filter as it was supplied, and the warnings about entries of the filter among
the messages are, in the order of the entries, one for each entry of the filter
split at `;` that is neither of the form `[x]` with a text `x` that is not empty
nor accepted by `setAddress`, and none for any other entry: their number is the
number of those entries.  An empty entry brings its warning, and `[]` brings one
when `setAddress` refuses it. -/
theorem C32_filter_warnings (b : Build) (g : Globals) (env : Env)
    (argv : List String) (st : Locals)
    (hparse : parseOptions b g env argv = .done st)
    (hserver : st.bIsClient = false)
    (hheadless : b.HEADLESS = true ∨ st.bUseGUI = false)
    (hcoo : st.ClientOnlyOptions = [])
    (hloop : equalsLocalhostIgnoringCase st.strDirectoryServer = true ∨
      st.strDirectoryServer = "127.0.0.1")
    (hfilter : st.strServerListFilter ≠ "")
    (hempty : env.setAddress "" = false) :
    (∃ st₂, modeAndValidation env argv (headlessDependency b st) = .ok st₂ ∧
      main b g env argv = afterValidation b g env st₂ ∧
      st₂.strServerListFilter = st.strServerListFilter ∧
      st₂.log.filter isFilterWarning =
        (splitSemicolon st.strServerListFilter).filterMap (filterWarning env) ∧
      (st₂.log.filter isFilterWarning).length =
        ((splitSemicolon st.strServerListFilter).filter
          fun entry => !isBracketedEntry entry && !env.setAddress entry).length) ∧
    (∀ entry, (filterWarning env entry).isSome =
      (!isBracketedEntry entry && !env.setAddress entry)) ∧
    (∀ entry, isBracketedEntry entry = true ↔
      ∃ x : List Char, x ≠ [] ∧ entry.data = '[' :: (x ++ [']'])) ∧
    (filterWarning env "").isSome = true ∧
    isBracketedEntry "[]" = false ∧
    (filterWarning env "[]").isSome = !env.setAddress "[]" := by
  have hsome : ∀ entry, (filterWarning env entry).isSome =
      (!isBracketedEntry entry && !env.setAddress entry) := by
    intro entry
    rw [filterWarning_isSome]
    by_cases he : entry = ""
    · subst he
      simp [hempty]
    · simp [he]
  refine ⟨?_, hsome, isBracketedEntry_iff, ?_, by decide, ?_⟩
  · obtain ⟨d₁, d₂, -, d₄, -⟩ := headlessDependency_frame b st
    obtain ⟨gui, l₀, h₀⟩ := headlessDependency_eq b st
    have hgui : (headlessDependency b st).bUseGUI = false := by
      rw [d₂]; rcases hheadless with h | h <;> simp [h]
    have hsrv : (headlessDependency b st).bIsClient = false := by rw [d₁]; exact hserver
    have hcoo' : (headlessDependency b st).ClientOnlyOptions = [] := by rw [d₄]; exact hcoo
    have hdir : (headlessDependency b st).strDirectoryServer = st.strDirectoryServer := by
      rw [h₀]
    have hok : modeAndValidation env argv (headlessDependency b st) =
        .ok (checkServerBindIP env (headlessServerChecks env (headlessDependency b st))) := by
      simp [modeAndValidation, hsrv, hcoo', hgui]
    rw [headlessServerChecks_on_directory env _ (by rw [hdir]; exact hloop)] at hok
    obtain ⟨ini, l₁, h₁⟩ := checkIniFileName_eq (headlessDependency b st)
    have hf₂ : (checkServerListFile env (checkIniFileName (headlessDependency b st))
        ).strServerListFilter = st.strServerListFilter := by
      rw [(checkServerListFile_frame env _).1, h₁]
      simp only []
      rw [h₀]
    have hspec := checkServerListFilter_spec env
      (checkServerListFile env (checkIniFileName (headlessDependency b st)))
      (by rw [hf₂]; exact hfilter)
    rw [hf₂] at hspec
    obtain ⟨k₀, e₀, n₀⟩ := headlessDependency_no_filter_warning b st
    obtain ⟨k₁, e₁, n₁⟩ := checkIniFileName_no_filter_warning (headlessDependency b st)
    obtain ⟨k₂, e₂, n₂⟩ := checkServerListFile_no_filter_warning env
      (checkIniFileName (headlessDependency b st))
    obtain ⟨k₄, e₄, n₄⟩ := checkServerPublicIP_no_filter_warning env
      (checkServerListFilter env
        (checkServerListFile env (checkIniFileName (headlessDependency b st))))
    obtain ⟨k₅, e₅, n₅⟩ := checkServerBindIP_no_filter_warning env
      (checkServerPublicIP env (checkServerListFilter env
        (checkServerListFile env (checkIniFileName (headlessDependency b st)))))
    have e₃ : (checkServerListFilter env
        (checkServerListFile env (checkIniFileName (headlessDependency b st)))).log =
        (checkServerListFile env (checkIniFileName (headlessDependency b st))).log ++
          (splitSemicolon st.strServerListFilter).filterMap (filterWarning env) := by
      rw [hspec]
    have hnone : st.log.filter isFilterWarning = [] := by
      rw [List.filter_eq_nil_iff]
      intro m hm hw
      have hl := optionLoop_no_warning b g env argv st hparse m hm
      apply hl
      simp only [isFilterWarning, Bool.and_eq_true, decide_eq_true_eq] at hw
      exact hw.1
    have hlog : (checkServerBindIP env (checkServerPublicIP env (checkServerListFilter env
        (checkServerListFile env (checkIniFileName (headlessDependency b st)))))).log.filter
          isFilterWarning =
        (splitSemicolon st.strServerListFilter).filterMap (filterWarning env) := by
      rw [e₅, e₄, e₃, e₂, e₁, e₀]
      simp only [List.filter_append, hnone, n₀, n₁, n₂, n₄, n₅, List.nil_append,
        List.append_nil, filter_filterMap_filterWarning]
    have hkeep : (checkServerBindIP env (checkServerPublicIP env (checkServerListFilter env
        (checkServerListFile env (checkIniFileName (headlessDependency b st)))))
          ).strServerListFilter = st.strServerListFilter := by
      rw [(checkServerBindIP_frame env _).1, (checkServerPublicIP_frame env _).1, hspec]
    refine ⟨_, hok, main_of_validation b g env argv st _ hparse hok, hkeep, hlog, ?_⟩
    rw [hlog, length_filterMap_eq]
    congr 1
    apply List.filter_congr
    intro entry _
    exact hsome entry
  · have h : isBracketedEntry "" = false := by decide
    rw [hsome, h, hempty]
    rfl
  · have h : isBracketedEntry "[]" = false := by decide
    rw [hsome, h]
    rfl

/-- C32, an instance: in the build without GUI, with the directory server
`localhost`, the filter `1.2.3.4;nonsense;;[3.9.0];[]` brings three warnings:
for `nonsense`, for the empty entry and for `[]`. -/
theorem C32_filter_warnings_witness :
    ∃ st st₂, parseOptions headlessBuild stdGlobals stdEnv
        ["koord", "-s", "-e", "localhost", "-f", "1.2.3.4;nonsense;;[3.9.0];[]"] = .done st ∧
      modeAndValidation stdEnv
        ["koord", "-s", "-e", "localhost", "-f", "1.2.3.4;nonsense;;[3.9.0];[]"]
        (headlessDependency headlessBuild st) = .ok st₂ ∧
      (st₂.log.filter isFilterWarning).length = 3 ∧
      st₂.log.filter isFilterWarning =
        [⟨.warning,
            "%1 is not a valid server list filter entry. Only plain IP addresses are supported",
            [.str "nonsense"]⟩,
          ⟨.warning, "There is empty entry in the server list filter that will be ignored", []⟩,
          ⟨.warning,
            "%1 is not a valid server list filter entry. Only plain IP addresses are supported",
            [.str "[]"]⟩] := by
  obtain ⟨⟨st₂, hok, -, -, hlog, hlen⟩, -⟩ := C32_filter_warnings headlessBuild stdGlobals stdEnv
    ["koord", "-s", "-e", "localhost", "-f", "1.2.3.4;nonsense;;[3.9.0];[]"] _ rfl
    (by decide) (by decide) (by decide) (by decide) (by decide) (by decide)
  exact ⟨_, st₂, rfl, hok, hlen.trans (by decide), hlog.trans (by decide)⟩

end Koord
